import Mathlib

/-!
# GSDDumpWriter: a shallow embedding and its properties

The development follows `hoomd/GSDDumpWriter.cc`.  The writer object, the file
on disk and the record of calls made into the gsd library form one explicit
state; every member function of the writer is a state transformer that either
returns or raises a `runtime_error`.

Conventions of the embedding

* machine integers are `Nat` / `Int`, reduced modulo `2^w` where the source
  converts between widths;
* a `float` is its IEEE-754 binary32 bit pattern (`F32`), and `!=` on floats is
  the IEEE comparison on bit patterns (`F32.ne`);
* a `std::string` holding a type name is the list of its bytes (`Label`);
* a per-particle array of the snapshot is a total map from tag to value: the
  source indexes it with tags of the group only, which are in range;
* a particle group is the ordered list of its member tags;
* the gsd library is not part of the sources at hand: its calls are modelled
  after the specification, and the result code of every call is an input, so
  that every failure the library can report is covered.

The file first gives the definitions: the data, the state, the library, the
member functions of the writer as they stand in the source, then the chunk
lists and the vocabulary used to state properties, and concrete inputs.  The
properties follow.
-/

set_option autoImplicit false

/-! ## Scalars -/

/-- An IEEE-754 binary32 value, kept as its 32-bit pattern. -/
structure F32 where
  bits : Nat
deriving DecidableEq, Repr

/-- The pattern without the sign bit. -/
def F32.magnitude (a : F32) : Nat := a.bits % 2 ^ 31

/-- A NaN has all exponent bits set and a non-zero mantissa. -/
def F32.isNaN (a : F32) : Bool := decide (2139095040 < a.magnitude)

/-- Both `+0.0` and `-0.0`. -/
def F32.isZero (a : F32) : Bool := decide (a.magnitude = 0)

/-- The C++ operator `a != b` on two floats: true when either side is a NaN,
false for two zeros of any sign, otherwise a comparison of the patterns. -/
def F32.ne (a b : F32) : Bool :=
  a.isNaN || b.isNaN ||
    !((a.isZero && b.isZero) || decide (a.bits % 2 ^ 32 = b.bits % 2 ^ 32))

/-- The literal `float(0.0)`. -/
def F32.zero : F32 := ⟨0⟩

/-- The literal `float(1.0)`, pattern `0x3F800000`. -/
def F32.one : F32 := ⟨1065353216⟩

/-- Conversion `float(z)` of an integer, as the integer value of the resulting
float: exact below `2^24` in magnitude, otherwise rounded to 24 significant
bits, ties to even. -/
def int_to_float (z : Int) : Int :=
  let a := z.natAbs
  if a < 2 ^ 24 then z
  else
    let ulp := 2 ^ (Nat.log2 a - 23)
    let q := a / ulp
    let r := a % ulp
    let up := decide (ulp < 2 * r) || (decide (2 * r = ulp) && decide (q % 2 = 1))
    let m := (if up then q + 1 else q) * ulp
    if z < 0 then - (m : Int) else (m : Int)

/-- Conversion of an integer-valued float to `int32_t`.  A value outside the
range of `int32_t` has no defined result in C++; the model takes the value the
x86 conversion instruction delivers, `-2^31`. -/
def float_to_int32 (v : Int) : Int :=
  if -2147483648 ≤ v ∧ v < 2147483648 then v else -2147483648

/-- Conversion `int32_t(u)` of an `unsigned int`. -/
def uint_to_int32 (u : Nat) : Int :=
  let v : Nat := u % 2 ^ 32
  if v < 2 ^ 31 then (v : Int) else (v : Int) - 2 ^ 32

/-- Modelled from the spec: the "no body" sentinel `NO_BODY`, declared outside
the files at hand; the all-ones `unsigned int`. -/
def NO_BODY : Nat := 4294967295

/-- The bytes of a `std::string`. -/
abbrev Label := List Nat

/-- A vector of three floats. -/
structure Scalar3 where
  x : F32
  y : F32
  z : F32
deriving DecidableEq, Repr

/-- A vector of three `int`s. -/
structure Int3 where
  x : Int
  y : Int
  z : Int
deriving DecidableEq, Repr

/-- A quaternion: scalar part and vector part. -/
structure Quat where
  s : F32
  v : Scalar3
deriving DecidableEq, Repr

/-! ## Chunks and the gsd file -/

/-- The element type tag handed to `gsd_write_chunk`. -/
inductive GsdType where
  | GSD_TYPE_UINT8
  | GSD_TYPE_UINT32
  | GSD_TYPE_UINT64
  | GSD_TYPE_INT32
  | GSD_TYPE_FLOAT
deriving DecidableEq, Repr

/-- The buffer handed to `gsd_write_chunk`, with the element type of the C++
object it points into. -/
inductive Payload where
  | u8 (xs : List Nat)
  | u32 (xs : List Nat)
  | u64 (xs : List Nat)
  | i32 (xs : List Int)
  | f32 (xs : List F32)
deriving DecidableEq, Repr

/-- Number of elements in a buffer. -/
def Payload.length : Payload → Nat
  | .u8 xs => xs.length
  | .u32 xs => xs.length
  | .u64 xs => xs.length
  | .i32 xs => xs.length
  | .f32 xs => xs.length

/-- The arguments of one `gsd_write_chunk` call: name, type, rows `N`,
columns `M` and data. -/
structure Chunk where
  name : String
  type : GsdType
  N : Nat
  M : Nat
  data : Payload
deriving DecidableEq, Repr

/-- The header of a gsd file. -/
structure gsd_header where
  application : String
  schema : String
  schema_version : Nat
deriving DecidableEq, Repr

/-- A gsd file on disk: its header and its committed frames. -/
structure GsdFile where
  header : gsd_header
  frames : List (List Chunk)
deriving DecidableEq, Repr

/-- The handle of an open file: the header and the committed frames of the
file as seen through the handle, and the chunks of the frame in progress. -/
structure gsd_handle where
  header : gsd_header
  frames : List (List Chunk)
  pending : List Chunk
deriving DecidableEq, Repr

/-- Modelled from the spec: `gsd_make_version` of the gsd library, which is not
among the files at hand; it packs the pair (major, minor) into one 32-bit
number with the major version in the upper half. -/
def gsd_make_version (major minor : Nat) : Nat :=
  (major * 2 ^ 16 % 2 ^ 32) ||| minor

/-- One call into the gsd library, with the result code it returned. -/
inductive GsdCall where
  | gsd_create (fname application schema : String) (schema_version : Nat) (ret : Int)
  | gsd_open (fname : String) (ret : Int)
  | gsd_truncate (ret : Int)
  | gsd_get_nframes (n : Nat)
  | gsd_write_chunk (c : Chunk) (ret : Int)
  | gsd_end_frame (ret : Int)
deriving DecidableEq, Repr

/-! ## The simulation data read by the writer -/

/-- The particle snapshot `SnapshotParticleData<float>`; every array is a map
from particle tag to value. -/
structure SnapshotParticleData where
  pos : Nat → Scalar3
  vel : Nat → Scalar3
  type : Nat → Nat
  mass : Nat → F32
  charge : Nat → F32
  diameter : Nat → F32
  body : Nat → Nat
  image : Nat → Int3
  orientation : Nat → Quat
  angmom : Nat → Quat
  inertia : Nat → Scalar3
  type_mapping : List Label

/-- A particle group: the ordered tags of its members over all ranks. -/
structure ParticleGroup where
  tags : List Nat
deriving DecidableEq, Repr

/-- `ParticleGroup::getNumMembersGlobal`. -/
def ParticleGroup.getNumMembersGlobal (g : ParticleGroup) : Nat := g.tags.length

/-- `ParticleGroup::getMemberTag`; the source calls it with indices below the
number of members only. -/
def ParticleGroup.getMemberTag (g : ParticleGroup) (group_idx : Nat) : Nat :=
  g.tags.getD group_idx 0

/-- The snapshots `BondData::Snapshot`, `AngleData::Snapshot`,
`DihedralData::Snapshot` and `ImproperData::Snapshot`: `groups i j` is member
`j` of entry `i`. -/
structure BondedSnapshot where
  size : Nat
  type_mapping : List Label
  type_id : Nat → Nat
  groups : Nat → Nat → Nat

/-- The snapshot `ConstraintData::Snapshot`. -/
structure ConstraintSnapshot where
  size : Nat
  val : Nat → F32
  groups : Nat → Nat → Nat

/-- The global simulation box. -/
structure BoxDim where
  L : Scalar3
  xy : F32
  xz : F32
  yz : F32
deriving DecidableEq, Repr

/-- What `analyze` reads from the system definition, the particle data and
the execution configuration at the time of the call.  `bcast_nframes` is the
frame count a rank other than the root receives from the broadcast. -/
structure SystemDefinition where
  snapshot : SnapshotParticleData
  NGlobal : Nat
  NDimensions : Nat
  globalBox : BoxDim
  bond : BondedSnapshot
  angle : BondedSnapshot
  dihedral : BondedSnapshot
  improper : BondedSnapshot
  constraint : ConstraintSnapshot
  isRoot : Bool
  bcast_nframes : Nat

/-! ## The writer and the machine state -/

/-- The data members of `GSDDumpWriter`. -/
structure GSDDumpWriter where
  m_fname : String
  m_overwrite : Bool
  m_truncate : Bool
  m_is_initialized : Bool
  m_write_attribute : Bool
  m_write_property : Bool
  m_write_momentum : Bool
  m_write_topology : Bool
  m_handle : gsd_handle
  m_group : ParticleGroup
deriving DecidableEq, Repr

/-- The exception thrown by the writer. -/
structure runtime_error where
  what : String
deriving DecidableEq, Repr

/-- The writer together with its surroundings: the file at `m_fname` (absent
when `disk` is `none`), the result code `ret k` that the `k`-th call into the
gsd library is going to return (calls are counted from 0, `gsd_get_nframes`
included), the calls made so far, the lines sent to the error stream, the text
of `strerror(errno)`, and the build constant `HOOMD_VERSION_LONG`. -/
structure Machine where
  writer : GSDDumpWriter
  disk : Option GsdFile
  ret : Nat → Int
  trace : List GsdCall
  errlog : List String
  strerror_errno : String
  HOOMD_VERSION_LONG : String

/-- A member function of the writer: it changes the state and either returns a
value or throws.  The state reached when it throws is kept. -/
def GsdM (α : Type) : Type := Machine → Except runtime_error α × Machine

/-- Returning a value without touching the state. -/
def GsdM.pure {α : Type} (a : α) : GsdM α := fun s => (Except.ok a, s)

/-- Sequencing: the second part runs when the first returns; an exception of
the first part ends the run. -/
def GsdM.bind {α β : Type} (m : GsdM α) (f : α → GsdM β) : GsdM β := fun s =>
  match m s with
  | (Except.ok a, s1) => f a s1
  | (Except.error e, s1) => (Except.error e, s1)

instance : Monad GsdM where
  pure := GsdM.pure
  bind := GsdM.bind

/-- The statement `throw runtime_error(what)`. -/
def throw_runtime_error {α : Type} (what : String) : GsdM α :=
  fun s => (Except.error ⟨what⟩, s)

/-- A line written to `m_exec_conf->msg->error()`. -/
def msg_error (line : String) : GsdM Unit :=
  fun s => (Except.ok (), { s with errlog := s.errlog ++ [line] })

/-- Reading the data members of the writer. -/
def getWriter : GsdM GSDDumpWriter := fun s => (Except.ok s.writer, s)

/-- The text `strerror(errno)`. -/
def getStrerror : GsdM String := fun s => (Except.ok s.strerror_errno, s)

/-- The text `HOOMD_VERSION_LONG`. -/
def getVersionLong : GsdM String := fun s => (Except.ok s.HOOMD_VERSION_LONG, s)

/-- The call `filesystem::exists(m_fname)`. -/
def filesystem_exists : GsdM Bool := fun s => (Except.ok s.disk.isSome, s)

/-- The assignment `m_is_initialized = b`. -/
def set_m_is_initialized (b : Bool) : GsdM Unit :=
  fun s => (Except.ok (), { s with writer := { s.writer with m_is_initialized := b } })

/-! ## The gsd library

Modelled from the spec (FrameStore): the library itself is not among the files
at hand.  A call that returns a code other than 0 changes nothing. -/

/-- Modelled from the spec: `gsd_create` makes a new empty file with the given
header. -/
def gsd_create (fname application schema : String) (schema_version : Nat) : GsdM Int :=
  fun s =>
    let r := s.ret s.trace.length
    let s1 := { s with trace := s.trace ++ [GsdCall.gsd_create fname application schema schema_version r] }
    if r = 0 then
      (Except.ok r, { s1 with disk := some ⟨⟨application, schema, schema_version⟩, []⟩ })
    else (Except.ok r, s1)

/-- Modelled from the spec: `gsd_open` in append mode makes the handle refer
to the file: its header and its committed frames, and no frame in progress.
Without a file the result is -1. -/
def gsd_open (fname : String) : GsdM Int :=
  fun s =>
    match s.disk with
    | none =>
      (Except.ok (-1), { s with trace := s.trace ++ [GsdCall.gsd_open fname (-1)] })
    | some f =>
      let r := s.ret s.trace.length
      let s1 := { s with trace := s.trace ++ [GsdCall.gsd_open fname r] }
      if r = 0 then
        (Except.ok r, { s1 with writer := { s1.writer with m_handle := ⟨f.header, f.frames, []⟩ } })
      else (Except.ok r, s1)

/-- Modelled from the spec: `gsd_truncate` discards all frames. -/
def gsd_truncate : GsdM Int :=
  fun s =>
    let r := s.ret s.trace.length
    let s1 := { s with trace := s.trace ++ [GsdCall.gsd_truncate r] }
    if r = 0 then
      (Except.ok r,
        { s1 with
            disk := s1.disk.map (fun f => { f with frames := [] })
            writer := { s1.writer with
              m_handle := { s1.writer.m_handle with frames := [], pending := [] } } })
    else (Except.ok r, s1)

/-- Modelled from the spec: `gsd_get_nframes` is the number of committed
frames. -/
def gsd_get_nframes : GsdM Nat :=
  fun s =>
    let n := s.writer.m_handle.frames.length
    (Except.ok n, { s with trace := s.trace ++ [GsdCall.gsd_get_nframes n] })

/-- Modelled from the spec: `gsd_write_chunk` adds a chunk to the frame in
progress. -/
def gsd_write_chunk (c : Chunk) : GsdM Int :=
  fun s =>
    let r := s.ret s.trace.length
    let s1 := { s with trace := s.trace ++ [GsdCall.gsd_write_chunk c r] }
    if r = 0 then
      (Except.ok r,
        { s1 with writer := { s1.writer with
            m_handle := { s1.writer.m_handle with
              pending := s1.writer.m_handle.pending ++ [c] } } })
    else (Except.ok r, s1)

/-- Modelled from the spec: `gsd_end_frame` commits the frame in progress, in
the handle and on disk. -/
def gsd_end_frame : GsdM Int :=
  fun s =>
    let r := s.ret s.trace.length
    let s1 := { s with trace := s.trace ++ [GsdCall.gsd_end_frame r] }
    if r = 0 then
      (Except.ok r,
        { s1 with
            disk := s1.disk.map
              (fun f => { f with frames := f.frames ++ [s1.writer.m_handle.pending] })
            writer := { s1.writer with
              m_handle := { s1.writer.m_handle with
                frames := s1.writer.m_handle.frames ++ [s1.writer.m_handle.pending],
                pending := [] } } })
    else (Except.ok r, s1)

/-! ## The member functions of `GSDDumpWriter` -/

/-- `GSDDumpWriter::checkError`. -/
def checkError (retval : Int) : GsdM Unit := do
  if retval = -1 then
    let w ← getWriter
    let e ← getStrerror
    msg_error ("dump.gsd: " ++ e ++ " - " ++ w.m_fname)
    throw_runtime_error "Error writing GSD file"
  else if retval ≠ 0 then
    let w ← getWriter
    msg_error ("dump.gsd: " ++ "Unknown error writing: " ++ w.m_fname)
    throw_runtime_error "Error writing GSD file"

/-- `GSDDumpWriter::initFileIO`. -/
def initFileIO : GsdM Unit := do
  let w ← getWriter
  let e ← getStrerror
  -- create the file if it does not exist
  let file_exists ← filesystem_exists
  (if w.m_overwrite || !file_exists then do
    let v ← getVersionLong
    let retval ← gsd_create w.m_fname ("HOOMD-blue " ++ v) "hoomd" (gsd_make_version 1 0)
    (if retval ≠ 0 then do
      msg_error ("dump.gsd: " ++ e ++ " - " ++ w.m_fname)
      throw_runtime_error "Error creating GSD file"
    else pure ())
  else pure ())
  -- open the file in append mode
  let retval ← gsd_open w.m_fname
  (if retval = -1 then do
    msg_error ("dump.gsd: " ++ e ++ " - " ++ w.m_fname)
    throw_runtime_error "Error opening GSD file"
  else if retval = -2 then do
    msg_error ("dump.gsd: " ++ w.m_fname ++ " is not a valid GSD file")
    throw_runtime_error "Error opening GSD file"
  else if retval = -3 then do
    msg_error ("dump.gsd: " ++ "Invalid GSD file version in " ++ w.m_fname)
    throw_runtime_error "Error opening GSD file"
  else if retval = -4 then do
    msg_error ("dump.gsd: " ++ "Corrupt GSD file: " ++ w.m_fname)
    throw_runtime_error "Error opening GSD file"
  else if retval = -5 then do
    msg_error ("dump.gsd: " ++ "Out of memory opening: " ++ w.m_fname)
    throw_runtime_error "Error opening GSD file"
  else if retval ≠ 0 then do
    msg_error ("dump.gsd: " ++ "Unknown error opening: " ++ w.m_fname)
    throw_runtime_error "Error opening GSD file"
  else pure ())
  -- validate schema
  let w1 ← getWriter
  (if w1.m_handle.header.schema ≠ "hoomd" then do
    msg_error ("dump.gsd: " ++ "Invalid schema in " ++ w.m_fname)
    throw_runtime_error "Error opening GSD file"
  else pure ())
  (if w1.m_handle.header.schema_version ≥ gsd_make_version 2 0 then do
    msg_error ("dump.gsd: " ++ "Invalid schema version in " ++ w.m_fname)
    throw_runtime_error "Error opening GSD file"
  else pure ())
  set_m_is_initialized true

/-- The call `strncpy(&dest[pos], src.c_str(), n)`: the bytes of `src` up to
its first zero byte, at most `n` of them, then zero bytes up to `n` bytes in
all, stored from position `pos` on. -/
def strncpy (dest : List Nat) (pos : Nat) (src : Label) (n : Nat) : List Nat :=
  let s := (src.takeWhile (fun b => b != 0)).take n
  dest.take pos ++ (s ++ List.replicate (n - s.length) 0) ++ dest.drop (pos + n)

/-- The value of `int max_len` in `writeTypeMapping` after the first loop and
the increment.  Each size is converted with `(int)`, which keeps its low 32
bits as a signed number.  The increment of the greatest `int` has no defined
behaviour in C++; the model wraps it. -/
def type_mapping_max_len (type_mapping : List Label) : Int :=
  let max_len : Int := (List.range type_mapping.length).foldl
    (fun max_len i => max max_len (uint_to_int32 (type_mapping.getD i []).length)) 0
  uint_to_int32 ((max_len + 1) % 2 ^ 32).toNat

/-- The buffer `types` in `writeTypeMapping` after the second loop.  Its size
`max_len * type_mapping.size()` is a product in `size_t`, 64 bits wide, the
offset `max_len*i` a product in `unsigned int`, and the count handed to
`strncpy` is `max_len` converted to `size_t`. -/
def type_mapping_types (type_mapping : List Label) : List Nat :=
  let max_len := type_mapping_max_len type_mapping
  (List.range type_mapping.length).foldl
    (fun types i => strncpy types ((max_len * i) % 2 ^ 32).toNat (type_mapping.getD i [])
      (max_len % 2 ^ 64).toNat)
    (List.replicate ((max_len * type_mapping.length) % 2 ^ 64).toNat 0)

/-- `GSDDumpWriter::writeTypeMapping`; the number of columns is `max_len`
converted to the unsigned 32-bit parameter of `gsd_write_chunk`. -/
def writeTypeMapping (chunk : String) (type_mapping : List Label) : GsdM Unit := do
  let max_len := type_mapping_max_len type_mapping
  let types := type_mapping_types type_mapping
  let retval ← gsd_write_chunk
    ⟨chunk, GsdType.GSD_TYPE_UINT8, type_mapping.length, (max_len % 2 ^ 32).toNat,
      Payload.u8 types⟩
  checkError retval

/-- `GSDDumpWriter::writeFrameHeader`. -/
def writeFrameHeader (timestep : Nat) (sys : SystemDefinition) : GsdM Unit := do
  let w ← getWriter
  let step := timestep
  let retval ← gsd_write_chunk
    ⟨"configuration/step", GsdType.GSD_TYPE_UINT64, 1, 1, Payload.u64 [step]⟩
  checkError retval
  let n ← gsd_get_nframes
  (if n = 0 then do
    let dimensions := sys.NDimensions % 2 ^ 8
    let retval ← gsd_write_chunk
      ⟨"configuration/dimensions", GsdType.GSD_TYPE_UINT8, 1, 1, Payload.u8 [dimensions]⟩
    checkError retval
  else pure ())
  let box := sys.globalBox
  let box_a := [box.L.x, box.L.y, box.L.z, box.xy, box.xz, box.yz]
  let retval ← gsd_write_chunk
    ⟨"configuration/box", GsdType.GSD_TYPE_FLOAT, 6, 1, Payload.f32 box_a⟩
  checkError retval
  let N := w.m_group.getNumMembersGlobal
  let retval ← gsd_write_chunk
    ⟨"particles/N", GsdType.GSD_TYPE_UINT32, 1, 1, Payload.u32 [N]⟩
  checkError retval

/-- The buffer `std::vector<T> data(N*M)` after the loop that stores the `M`
values of the member `group_idx` at the positions `group_idx*M+k`.  The size
`N*M` and the positions are computed in `unsigned int`, that is modulo 2^32;
the vector starts with every element zero.  A store at a position beyond the
size of the vector has no defined behaviour in C++; the model drops it. -/
def fill_buffer {α : Type} (zero : α) (N M : Nat) (values : Nat → List α) : List α :=
  (List.range N).foldl
    (fun data group_idx =>
      (List.range M).foldl
        (fun data k => data.set ((group_idx * M + k) % 2 ^ 32) ((values group_idx).getD k zero))
        data)
    (List.replicate ((N * M) % 2 ^ 32) zero)

/-- `GSDDumpWriter::writeAttributes`. -/
def writeAttributes (snapshot : SnapshotParticleData) : GsdM Unit := do
  let w ← getWriter
  let N := w.m_group.getNumMembersGlobal
  let tag := fun group_idx => w.m_group.getMemberTag group_idx
  writeTypeMapping "particles/types" snapshot.type_mapping
  -- typeid
  let type := (List.range N).map (fun group_idx => snapshot.type (tag group_idx))
  let all_default := (List.range N).all (fun group_idx => !(snapshot.type (tag group_idx) != 0))
  (if !all_default then do
    let retval ← gsd_write_chunk
      ⟨"particles/typeid", GsdType.GSD_TYPE_UINT32, N, 1, Payload.u32 type⟩
    checkError retval
  else pure ())
  -- mass
  let data := (List.range N).map (fun group_idx => snapshot.mass (tag group_idx))
  let all_default :=
    (List.range N).all (fun group_idx => !((snapshot.mass (tag group_idx)).ne F32.one))
  (if !all_default then do
    let retval ← gsd_write_chunk
      ⟨"particles/mass", GsdType.GSD_TYPE_FLOAT, N, 1, Payload.f32 data⟩
    checkError retval
  else pure ())
  -- charge
  let data := (List.range N).map (fun group_idx => snapshot.charge (tag group_idx))
  let all_default :=
    (List.range N).all (fun group_idx => !((snapshot.charge (tag group_idx)).ne F32.zero))
  (if !all_default then do
    let retval ← gsd_write_chunk
      ⟨"particles/charge", GsdType.GSD_TYPE_FLOAT, N, 1, Payload.f32 data⟩
    checkError retval
  else pure ())
  -- diameter
  let data := (List.range N).map (fun group_idx => snapshot.diameter (tag group_idx))
  let all_default :=
    (List.range N).all (fun group_idx => !((snapshot.diameter (tag group_idx)).ne F32.one))
  (if !all_default then do
    let retval ← gsd_write_chunk
      ⟨"particles/diameter", GsdType.GSD_TYPE_FLOAT, N, 1, Payload.f32 data⟩
    checkError retval
  else pure ())
  -- body
  let body := (List.range N).map (fun group_idx => uint_to_int32 (snapshot.body (tag group_idx)))
  let all_default :=
    (List.range N).all (fun group_idx => !(snapshot.body (tag group_idx) != NO_BODY))
  (if !all_default then do
    let retval ← gsd_write_chunk
      ⟨"particles/body", GsdType.GSD_TYPE_INT32, N, 1, Payload.i32 body⟩
    checkError retval
  else pure ())
  -- moment of inertia
  let data := fill_buffer F32.zero N 3 (fun group_idx =>
    [(snapshot.inertia (tag group_idx)).x, (snapshot.inertia (tag group_idx)).y,
     (snapshot.inertia (tag group_idx)).z])
  let all_default := (List.range N).all (fun group_idx =>
    !((snapshot.inertia (tag group_idx)).x.ne F32.zero ||
      (snapshot.inertia (tag group_idx)).y.ne F32.zero ||
      (snapshot.inertia (tag group_idx)).z.ne F32.zero))
  (if !all_default then do
    let retval ← gsd_write_chunk
      ⟨"particles/moment_inertia", GsdType.GSD_TYPE_FLOAT, N, 3, Payload.f32 data⟩
    checkError retval
  else pure ())

/-- `GSDDumpWriter::writeProperties`. -/
def writeProperties (snapshot : SnapshotParticleData) : GsdM Unit := do
  let w ← getWriter
  let N := w.m_group.getNumMembersGlobal
  let tag := fun group_idx => w.m_group.getMemberTag group_idx
  -- position
  let data := fill_buffer F32.zero N 3 (fun group_idx =>
    [(snapshot.pos (tag group_idx)).x, (snapshot.pos (tag group_idx)).y,
     (snapshot.pos (tag group_idx)).z])
  let retval ← gsd_write_chunk
    ⟨"particles/position", GsdType.GSD_TYPE_FLOAT, N, 3, Payload.f32 data⟩
  checkError retval
  -- orientation
  let data := fill_buffer F32.zero N 4 (fun group_idx =>
    [(snapshot.orientation (tag group_idx)).s, (snapshot.orientation (tag group_idx)).v.x,
     (snapshot.orientation (tag group_idx)).v.y, (snapshot.orientation (tag group_idx)).v.z])
  let all_default := (List.range N).all (fun group_idx =>
    !((snapshot.orientation (tag group_idx)).s.ne F32.one ||
      (snapshot.orientation (tag group_idx)).v.x.ne F32.zero ||
      (snapshot.orientation (tag group_idx)).v.y.ne F32.zero ||
      (snapshot.orientation (tag group_idx)).v.z.ne F32.zero))
  (if !all_default then do
    let retval ← gsd_write_chunk
      ⟨"particles/orientation", GsdType.GSD_TYPE_FLOAT, N, 4, Payload.f32 data⟩
    checkError retval
  else pure ())

/-- `GSDDumpWriter::writeMomenta`. -/
def writeMomenta (snapshot : SnapshotParticleData) : GsdM Unit := do
  let w ← getWriter
  let N := w.m_group.getNumMembersGlobal
  let tag := fun group_idx => w.m_group.getMemberTag group_idx
  -- velocity
  let data := fill_buffer F32.zero N 3 (fun group_idx =>
    [(snapshot.vel (tag group_idx)).x, (snapshot.vel (tag group_idx)).y,
     (snapshot.vel (tag group_idx)).z])
  let all_default := (List.range N).all (fun group_idx =>
    !((snapshot.vel (tag group_idx)).x.ne F32.zero ||
      (snapshot.vel (tag group_idx)).y.ne F32.zero ||
      (snapshot.vel (tag group_idx)).z.ne F32.zero))
  (if !all_default then do
    let retval ← gsd_write_chunk
      ⟨"particles/velocity", GsdType.GSD_TYPE_FLOAT, N, 3, Payload.f32 data⟩
    checkError retval
  else pure ())
  -- angular momentum
  let data := fill_buffer F32.zero N 4 (fun group_idx =>
    [(snapshot.angmom (tag group_idx)).s, (snapshot.angmom (tag group_idx)).v.x,
     (snapshot.angmom (tag group_idx)).v.y, (snapshot.angmom (tag group_idx)).v.z])
  let all_default := (List.range N).all (fun group_idx =>
    !((snapshot.angmom (tag group_idx)).s.ne F32.zero ||
      (snapshot.angmom (tag group_idx)).v.x.ne F32.zero ||
      (snapshot.angmom (tag group_idx)).v.y.ne F32.zero ||
      (snapshot.angmom (tag group_idx)).v.z.ne F32.zero))
  (if !all_default then do
    let retval ← gsd_write_chunk
      ⟨"particles/angmom", GsdType.GSD_TYPE_FLOAT, N, 4, Payload.f32 data⟩
    checkError retval
  else pure ())
  -- image
  let data := fill_buffer (0 : Int) N 3 (fun group_idx =>
    [float_to_int32 (int_to_float (snapshot.image (tag group_idx)).x),
     float_to_int32 (int_to_float (snapshot.image (tag group_idx)).y),
     float_to_int32 (int_to_float (snapshot.image (tag group_idx)).z)])
  let all_default := (List.range N).all (fun group_idx =>
    !((snapshot.image (tag group_idx)).x != 0 ||
      (snapshot.image (tag group_idx)).y != 0 ||
      (snapshot.image (tag group_idx)).z != 0))
  (if !all_default then do
    let retval ← gsd_write_chunk
      ⟨"particles/image", GsdType.GSD_TYPE_INT32, N, 3, Payload.i32 data⟩
    checkError retval
  else pure ())

/-- The buffer `&snap.groups[0]` read as `N` rows of `M` members. -/
def groups_buffer (groups : Nat → Nat → Nat) (N M : Nat) : List Nat :=
  ((List.range N).map (fun i => (List.range M).map (fun j => groups i j))).flatten

/-- `GSDDumpWriter::writeTopology`. -/
def writeTopology (bond angle dihedral improper : BondedSnapshot)
    (constraint : ConstraintSnapshot) : GsdM Unit := do
  (if bond.size > 0 then do
    let N := bond.size
    let retval ← gsd_write_chunk
      ⟨"bonds/N", GsdType.GSD_TYPE_UINT32, 1, 1, Payload.u32 [N]⟩
    checkError retval
    writeTypeMapping "bonds/types" bond.type_mapping
    let retval ← gsd_write_chunk
      ⟨"bonds/typeid", GsdType.GSD_TYPE_UINT32, N, 1,
        Payload.u32 ((List.range N).map bond.type_id)⟩
    checkError retval
    let retval ← gsd_write_chunk
      ⟨"bonds/group", GsdType.GSD_TYPE_UINT32, N, 2,
        Payload.u32 (groups_buffer bond.groups N 2)⟩
    checkError retval
  else pure ())
  (if angle.size > 0 then do
    let N := angle.size
    let retval ← gsd_write_chunk
      ⟨"angles/N", GsdType.GSD_TYPE_UINT32, 1, 1, Payload.u32 [N]⟩
    checkError retval
    writeTypeMapping "angles/types" angle.type_mapping
    let retval ← gsd_write_chunk
      ⟨"angles/typeid", GsdType.GSD_TYPE_UINT32, N, 1,
        Payload.u32 ((List.range N).map angle.type_id)⟩
    checkError retval
    let retval ← gsd_write_chunk
      ⟨"angles/group", GsdType.GSD_TYPE_UINT32, N, 3,
        Payload.u32 (groups_buffer angle.groups N 3)⟩
    checkError retval
  else pure ())
  (if dihedral.size > 0 then do
    let N := dihedral.size
    let retval ← gsd_write_chunk
      ⟨"dihedrals/N", GsdType.GSD_TYPE_UINT32, 1, 1, Payload.u32 [N]⟩
    checkError retval
    writeTypeMapping "dihedrals/types" dihedral.type_mapping
    let retval ← gsd_write_chunk
      ⟨"dihedrals/typeid", GsdType.GSD_TYPE_UINT32, N, 1,
        Payload.u32 ((List.range N).map dihedral.type_id)⟩
    checkError retval
    let retval ← gsd_write_chunk
      ⟨"dihedrals/group", GsdType.GSD_TYPE_UINT32, N, 4,
        Payload.u32 (groups_buffer dihedral.groups N 4)⟩
    checkError retval
  else pure ())
  (if improper.size > 0 then do
    let N := improper.size
    let retval ← gsd_write_chunk
      ⟨"impropers/N", GsdType.GSD_TYPE_UINT32, 1, 1, Payload.u32 [N]⟩
    checkError retval
    writeTypeMapping "impropers/types" improper.type_mapping
    let retval ← gsd_write_chunk
      ⟨"impropers/typeid", GsdType.GSD_TYPE_UINT32, N, 1,
        Payload.u32 ((List.range N).map improper.type_id)⟩
    checkError retval
    let retval ← gsd_write_chunk
      ⟨"impropers/group", GsdType.GSD_TYPE_UINT32, N, 4,
        Payload.u32 (groups_buffer improper.groups N 4)⟩
    checkError retval
  else pure ())
  (if constraint.size > 0 then do
    let N := constraint.size
    let retval ← gsd_write_chunk
      ⟨"constraints/N", GsdType.GSD_TYPE_UINT32, 1, 1, Payload.u32 [N]⟩
    checkError retval
    let data := (List.range N).map (fun i => constraint.val i)
    let retval ← gsd_write_chunk
      ⟨"constraints/value", GsdType.GSD_TYPE_FLOAT, N, 1, Payload.f32 data⟩
    checkError retval
    let retval ← gsd_write_chunk
      ⟨"constraints/group", GsdType.GSD_TYPE_UINT32, N, 2,
        Payload.u32 (groups_buffer constraint.groups N 2)⟩
    checkError retval
  else pure ())

/-- `GSDDumpWriter::analyze`. -/
def analyze (timestep : Nat) (sys : SystemDefinition) : GsdM Unit := do
  -- take particle data snapshot
  let snapshot := sys.snapshot
  -- if we are not the root processor, do not perform file I/O
  let root := sys.isRoot
  let w ← getWriter
  let e ← getStrerror
  -- open the file if it is not yet opened
  (if !w.m_is_initialized && root then do
    initFileIO
  else pure ())
  -- truncate the file if requested
  (if w.m_truncate && root then do
    let retval ← gsd_truncate
    (if retval = -1 then do
      msg_error ("dump.gsd: " ++ e ++ " - " ++ w.m_fname)
      throw_runtime_error "Error opening GSD file"
    else if retval = -2 then do
      msg_error ("dump.gsd: " ++ w.m_fname ++ " is not a valid GSD file")
      throw_runtime_error "Error opening GSD file"
    else if retval = -3 then do
      msg_error ("dump.gsd: " ++ "Invalid GSD file version in " ++ w.m_fname)
      throw_runtime_error "Error opening GSD file"
    else if retval = -4 then do
      msg_error ("dump.gsd: " ++ "Corrupt GSD file: " ++ w.m_fname)
      throw_runtime_error "Error opening GSD file"
    else if retval = -5 then do
      msg_error ("dump.gsd: " ++ "Out of memory opening: " ++ w.m_fname)
      throw_runtime_error "Error opening GSD file"
    else if retval ≠ 0 then do
      msg_error ("dump.gsd: " ++ "Unknown error opening: " ++ w.m_fname)
      throw_runtime_error "Error opening GSD file"
    else pure ())
  else pure ())
  let nframes ← if root then gsd_get_nframes else (pure sys.bcast_nframes : GsdM Nat)
  (if root then do
    -- write out the frame header on all frames
    writeFrameHeader timestep sys
    -- only write out data chunk categories if requested, or if on frame 0
    (if w.m_write_attribute || nframes = 0 then do
      writeAttributes snapshot
    else pure ())
    (if w.m_write_property || nframes = 0 then do
      writeProperties snapshot
    else pure ())
    (if w.m_write_momentum || nframes = 0 then do
      writeMomenta snapshot
    else pure ())
  else pure ())
  -- topology is only meaningful if this is the all group
  (if w.m_group.getNumMembersGlobal = sys.NGlobal && (w.m_write_topology || nframes = 0) then do
    (if root then do
      writeTopology sys.bond sys.angle sys.dihedral sys.improper sys.constraint
    else pure ())
  else pure ())
  (if root then do
    let retval ← gsd_end_frame
    checkError retval
  else pure ())

/-! ## Chunk lists

The chunks a member function hands to `gsd_write_chunk`, in order, when no call
fails.  `writeChunks` writes such a list with the error check of the source
after every chunk; the member functions are shown below to be `writeChunks` of
these lists. -/

/-- One chunk, or none. -/
def optChunk (present : Bool) (c : Chunk) : List Chunk := if present then [c] else []

/-- The pair of statements `retval = gsd_write_chunk(...); checkError(retval);`
for each chunk of a list in turn. -/
def writeChunks : List Chunk → GsdM Unit
  | [] => pure ()
  | c :: cs => do
    let retval ← gsd_write_chunk c
    checkError retval
    writeChunks cs

/-- The chunk written by `writeTypeMapping`. -/
def typeMappingChunk (chunk : String) (type_mapping : List Label) : Chunk :=
  ⟨chunk, GsdType.GSD_TYPE_UINT8, type_mapping.length,
    (type_mapping_max_len type_mapping % 2 ^ 32).toNat,
    Payload.u8 (type_mapping_types type_mapping)⟩

/-- The values of the group members, in group order. -/
def gather {α : Type} (g : ParticleGroup) (f : Nat → α) : List α :=
  (List.range g.getNumMembersGlobal).map (fun group_idx => f (g.getMemberTag group_idx))

/-- The buffer of a chunk of `M` columns, filled from the values of the group
members in group order. -/
def gather_buffer {α : Type} (zero : α) (g : ParticleGroup) (M : Nat) (f : Nat → List α) :
    List α :=
  fill_buffer zero g.getNumMembersGlobal M (fun group_idx => f (g.getMemberTag group_idx))

/-- The negation of the flag `all_default` after a loop over the group: some
group index has a member tag at which `nondefault` holds. -/
def anyMember (g : ParticleGroup) (nondefault : Nat → Bool) : Bool :=
  !(List.range g.getNumMembersGlobal).all (fun group_idx => !nondefault (g.getMemberTag group_idx))

/-- The test `snapshot.type[t] != 0`. -/
def typeid_nondefault (snapshot : SnapshotParticleData) (t : Nat) : Bool :=
  snapshot.type t != 0

/-- The test `snapshot.mass[t] != float(1.0)`. -/
def mass_nondefault (snapshot : SnapshotParticleData) (t : Nat) : Bool :=
  (snapshot.mass t).ne F32.one

/-- The test `snapshot.charge[t] != float(0.0)`. -/
def charge_nondefault (snapshot : SnapshotParticleData) (t : Nat) : Bool :=
  (snapshot.charge t).ne F32.zero

/-- The test `snapshot.diameter[t] != float(1.0)`. -/
def diameter_nondefault (snapshot : SnapshotParticleData) (t : Nat) : Bool :=
  (snapshot.diameter t).ne F32.one

/-- The test `snapshot.body[t] != NO_BODY`. -/
def body_nondefault (snapshot : SnapshotParticleData) (t : Nat) : Bool :=
  snapshot.body t != NO_BODY

/-- The test that a component of `snapshot.inertia[t]` is not `float(0.0)`. -/
def inertia_nondefault (snapshot : SnapshotParticleData) (t : Nat) : Bool :=
  (snapshot.inertia t).x.ne F32.zero || (snapshot.inertia t).y.ne F32.zero ||
    (snapshot.inertia t).z.ne F32.zero

/-- The test that `snapshot.orientation[t]` is not (1, 0, 0, 0). -/
def orientation_nondefault (snapshot : SnapshotParticleData) (t : Nat) : Bool :=
  (snapshot.orientation t).s.ne F32.one || (snapshot.orientation t).v.x.ne F32.zero ||
    (snapshot.orientation t).v.y.ne F32.zero || (snapshot.orientation t).v.z.ne F32.zero

/-- The test that a component of `snapshot.vel[t]` is not `float(0.0)`. -/
def velocity_nondefault (snapshot : SnapshotParticleData) (t : Nat) : Bool :=
  (snapshot.vel t).x.ne F32.zero || (snapshot.vel t).y.ne F32.zero ||
    (snapshot.vel t).z.ne F32.zero

/-- The test that a component of `snapshot.angmom[t]` is not `float(0.0)`. -/
def angmom_nondefault (snapshot : SnapshotParticleData) (t : Nat) : Bool :=
  (snapshot.angmom t).s.ne F32.zero || (snapshot.angmom t).v.x.ne F32.zero ||
    (snapshot.angmom t).v.y.ne F32.zero || (snapshot.angmom t).v.z.ne F32.zero

/-- The test that a component of `snapshot.image[t]` is not 0. -/
def image_nondefault (snapshot : SnapshotParticleData) (t : Nat) : Bool :=
  (snapshot.image t).x != 0 || (snapshot.image t).y != 0 || (snapshot.image t).z != 0

/-- The chunks of `writeAttributes`. -/
def attributeChunks (g : ParticleGroup) (snapshot : SnapshotParticleData) : List Chunk :=
  [typeMappingChunk "particles/types" snapshot.type_mapping]
  ++ optChunk (anyMember g (typeid_nondefault snapshot))
      ⟨"particles/typeid", GsdType.GSD_TYPE_UINT32, g.getNumMembersGlobal, 1,
        Payload.u32 (gather g snapshot.type)⟩
  ++ optChunk (anyMember g (mass_nondefault snapshot))
      ⟨"particles/mass", GsdType.GSD_TYPE_FLOAT, g.getNumMembersGlobal, 1,
        Payload.f32 (gather g snapshot.mass)⟩
  ++ optChunk (anyMember g (charge_nondefault snapshot))
      ⟨"particles/charge", GsdType.GSD_TYPE_FLOAT, g.getNumMembersGlobal, 1,
        Payload.f32 (gather g snapshot.charge)⟩
  ++ optChunk (anyMember g (diameter_nondefault snapshot))
      ⟨"particles/diameter", GsdType.GSD_TYPE_FLOAT, g.getNumMembersGlobal, 1,
        Payload.f32 (gather g snapshot.diameter)⟩
  ++ optChunk (anyMember g (body_nondefault snapshot))
      ⟨"particles/body", GsdType.GSD_TYPE_INT32, g.getNumMembersGlobal, 1,
        Payload.i32 (gather g (fun t => uint_to_int32 (snapshot.body t)))⟩
  ++ optChunk (anyMember g (inertia_nondefault snapshot))
      ⟨"particles/moment_inertia", GsdType.GSD_TYPE_FLOAT, g.getNumMembersGlobal, 3,
        Payload.f32 (gather_buffer F32.zero g 3 (fun t =>
          [(snapshot.inertia t).x, (snapshot.inertia t).y, (snapshot.inertia t).z]))⟩

/-- The chunks of `writeProperties`. -/
def propertyChunks (g : ParticleGroup) (snapshot : SnapshotParticleData) : List Chunk :=
  [⟨"particles/position", GsdType.GSD_TYPE_FLOAT, g.getNumMembersGlobal, 3,
      Payload.f32 (gather_buffer F32.zero g 3 (fun t =>
        [(snapshot.pos t).x, (snapshot.pos t).y, (snapshot.pos t).z]))⟩]
  ++ optChunk (anyMember g (orientation_nondefault snapshot))
      ⟨"particles/orientation", GsdType.GSD_TYPE_FLOAT, g.getNumMembersGlobal, 4,
        Payload.f32 (gather_buffer F32.zero g 4 (fun t =>
          [(snapshot.orientation t).s, (snapshot.orientation t).v.x,
           (snapshot.orientation t).v.y, (snapshot.orientation t).v.z]))⟩

/-- The chunks of `writeMomenta`. -/
def momentumChunks (g : ParticleGroup) (snapshot : SnapshotParticleData) : List Chunk :=
  optChunk (anyMember g (velocity_nondefault snapshot))
      ⟨"particles/velocity", GsdType.GSD_TYPE_FLOAT, g.getNumMembersGlobal, 3,
        Payload.f32 (gather_buffer F32.zero g 3 (fun t =>
          [(snapshot.vel t).x, (snapshot.vel t).y, (snapshot.vel t).z]))⟩
  ++ optChunk (anyMember g (angmom_nondefault snapshot))
      ⟨"particles/angmom", GsdType.GSD_TYPE_FLOAT, g.getNumMembersGlobal, 4,
        Payload.f32 (gather_buffer F32.zero g 4 (fun t =>
          [(snapshot.angmom t).s, (snapshot.angmom t).v.x,
           (snapshot.angmom t).v.y, (snapshot.angmom t).v.z]))⟩
  ++ optChunk (anyMember g (image_nondefault snapshot))
      ⟨"particles/image", GsdType.GSD_TYPE_INT32, g.getNumMembersGlobal, 3,
        Payload.i32 (gather_buffer (0 : Int) g 3 (fun t =>
          [float_to_int32 (int_to_float (snapshot.image t).x),
           float_to_int32 (int_to_float (snapshot.image t).y),
           float_to_int32 (int_to_float (snapshot.image t).z)]))⟩

/-- The chunks of `writeFrameHeader` when the file holds `n` frames. -/
def headerChunks (g : ParticleGroup) (n timestep : Nat) (sys : SystemDefinition) : List Chunk :=
  [⟨"configuration/step", GsdType.GSD_TYPE_UINT64, 1, 1, Payload.u64 [timestep]⟩]
  ++ optChunk (decide (n = 0))
      ⟨"configuration/dimensions", GsdType.GSD_TYPE_UINT8, 1, 1,
        Payload.u8 [sys.NDimensions % 2 ^ 8]⟩
  ++ [⟨"configuration/box", GsdType.GSD_TYPE_FLOAT, 6, 1,
        Payload.f32 [sys.globalBox.L.x, sys.globalBox.L.y, sys.globalBox.L.z,
          sys.globalBox.xy, sys.globalBox.xz, sys.globalBox.yz]⟩,
      ⟨"particles/N", GsdType.GSD_TYPE_UINT32, 1, 1, Payload.u32 [g.getNumMembersGlobal]⟩]

/-- The chunks of one block of `writeTopology`: nothing for an empty snapshot,
otherwise the count, the type table, the type ids and the groups of `M`
members. -/
def bondedChunks (nameN nameTypes nameTypeid nameGroup : String) (M : Nat)
    (snap : BondedSnapshot) : List Chunk :=
  if snap.size > 0 then
    [⟨nameN, GsdType.GSD_TYPE_UINT32, 1, 1, Payload.u32 [snap.size]⟩,
     typeMappingChunk nameTypes snap.type_mapping,
     ⟨nameTypeid, GsdType.GSD_TYPE_UINT32, snap.size, 1,
       Payload.u32 ((List.range snap.size).map snap.type_id)⟩,
     ⟨nameGroup, GsdType.GSD_TYPE_UINT32, snap.size, M,
       Payload.u32 (groups_buffer snap.groups snap.size M)⟩]
  else []

/-- The chunks of the constraint block of `writeTopology`. -/
def constraintChunks (constraint : ConstraintSnapshot) : List Chunk :=
  if constraint.size > 0 then
    [⟨"constraints/N", GsdType.GSD_TYPE_UINT32, 1, 1, Payload.u32 [constraint.size]⟩,
     ⟨"constraints/value", GsdType.GSD_TYPE_FLOAT, constraint.size, 1,
       Payload.f32 ((List.range constraint.size).map (fun i => constraint.val i))⟩,
     ⟨"constraints/group", GsdType.GSD_TYPE_UINT32, constraint.size, 2,
       Payload.u32 (groups_buffer constraint.groups constraint.size 2)⟩]
  else []

/-- The chunks of `writeTopology`. -/
def topologyChunks (bond angle dihedral improper : BondedSnapshot)
    (constraint : ConstraintSnapshot) : List Chunk :=
  bondedChunks "bonds/N" "bonds/types" "bonds/typeid" "bonds/group" 2 bond
  ++ bondedChunks "angles/N" "angles/types" "angles/typeid" "angles/group" 3 angle
  ++ bondedChunks "dihedrals/N" "dihedrals/types" "dihedrals/typeid" "dihedrals/group" 4 dihedral
  ++ bondedChunks "impropers/N" "impropers/types" "impropers/typeid" "impropers/group" 4 improper
  ++ constraintChunks constraint

/-- The chunks that `analyze` writes after the frame header on the root rank
when the file holds `nframes` frames. -/
def bodyChunks (w : GSDDumpWriter) (nframes : Nat) (sys : SystemDefinition) : List Chunk :=
  (if w.m_write_attribute || nframes = 0 then attributeChunks w.m_group sys.snapshot else [])
  ++ (if w.m_write_property || nframes = 0 then propertyChunks w.m_group sys.snapshot else [])
  ++ (if w.m_write_momentum || nframes = 0 then momentumChunks w.m_group sys.snapshot else [])
  ++ (if w.m_group.getNumMembersGlobal = sys.NGlobal && (w.m_write_topology || nframes = 0) then
        topologyChunks sys.bond sys.angle sys.dihedral sys.improper sys.constraint
      else [])

/-- All chunks of the frame that `analyze` writes on the root rank when the
file holds `nframes` frames. -/
def frameChunks (w : GSDDumpWriter) (nframes timestep : Nat) (sys : SystemDefinition) :
    List Chunk :=
  headerChunks w.m_group nframes timestep sys ++ bodyChunks w nframes sys

/-- The names of the chunks of a frame. -/
def chunkNames (frame : List Chunk) : List String := frame.map Chunk.name

/-- The state after the chunks `cs` were handed to `gsd_write_chunk` one after
the other and every call returned 0. -/
def Machine.written (s : Machine) (cs : List Chunk) : Machine :=
  { s with
      trace := s.trace ++ cs.map (fun c => GsdCall.gsd_write_chunk c 0)
      writer := { s.writer with
        m_handle := { s.writer.m_handle with pending := s.writer.m_handle.pending ++ cs } } }

/-- Whenever `m` returns from state `s`, the value and the state reached
satisfy `Q`. -/
def okPost {α : Type} (m : GsdM α) (s : Machine) (Q : α → Machine → Prop) : Prop :=
  ∀ a s1, m s = (Except.ok a, s1) → Q a s1

/-- The settings of a writer that no member function changes. -/
def GSDDumpWriter.settings (w : GSDDumpWriter) :
    String × Bool × Bool × Bool × Bool × Bool × Bool × ParticleGroup :=
  (w.m_fname, w.m_overwrite, w.m_truncate, w.m_write_attribute, w.m_write_property,
    w.m_write_momentum, w.m_write_topology, w.m_group)

/-! ## Type tables -/

/-- The width of a row of the type table of the specification: one more than
the greatest length of a label. -/
def table_width (labels : List Label) : Nat :=
  (List.range labels.length).foldl (fun w i => max w (labels.getD i []).length) 0 + 1

/-- What `strncpy` stores for one label in a row of width `n`. -/
def type_table_row (n : Nat) (src : Label) : List Nat :=
  (src.takeWhile (fun b => b != 0)).take n ++
    List.replicate (n - ((src.takeWhile (fun b => b != 0)).take n).length) 0

/-- Reading a type table back: row `i` is the `cols` bytes from offset
`i * cols` on, and the label is the row up to its first zero byte. -/
def decodeTypeTable (rows cols : Nat) (bytes : List Nat) : List Label :=
  (List.range rows).map (fun i => ((bytes.drop (i * cols)).take cols).takeWhile (fun b => b != 0))

/-- Reading back the type table held by a chunk. -/
def decodeTypeChunk (c : Chunk) : List Label :=
  match c.data with
  | Payload.u8 bytes => decodeTypeTable c.N c.M bytes
  | _ => []

/-! ## The vocabulary of the claims -/

/-- The three categories of particle data. -/
inductive Category where
  | attribute
  | property
  | momentum
deriving DecidableEq, Repr

/-- The per-particle quantities that the writer leaves out when every value of
the group is at its default. -/
inductive Quantity where
  | typeid
  | mass
  | charge
  | diameter
  | body
  | moment_inertia
  | orientation
  | velocity
  | angmom
  | image
deriving DecidableEq, Repr

/-- The name of the chunk that holds a quantity. -/
def Quantity.chunkName : Quantity → String
  | .typeid => "particles/typeid"
  | .mass => "particles/mass"
  | .charge => "particles/charge"
  | .diameter => "particles/diameter"
  | .body => "particles/body"
  | .moment_inertia => "particles/moment_inertia"
  | .orientation => "particles/orientation"
  | .velocity => "particles/velocity"
  | .angmom => "particles/angmom"
  | .image => "particles/image"

/-- The member function that writes a quantity: `writeAttributes`,
`writeProperties` or `writeMomenta`. -/
def Quantity.category : Quantity → Category
  | .typeid => Category.attribute
  | .mass => Category.attribute
  | .charge => Category.attribute
  | .diameter => Category.attribute
  | .body => Category.attribute
  | .moment_inertia => Category.attribute
  | .orientation => Category.property
  | .velocity => Category.momentum
  | .angmom => Category.momentum
  | .image => Category.momentum

/-- The test of the source for a value of a quantity that differs from its
default, at the particle with tag `t`. -/
def Quantity.nondefault (snapshot : SnapshotParticleData) : Quantity → Nat → Bool
  | .typeid => typeid_nondefault snapshot
  | .mass => mass_nondefault snapshot
  | .charge => charge_nondefault snapshot
  | .diameter => diameter_nondefault snapshot
  | .body => body_nondefault snapshot
  | .moment_inertia => inertia_nondefault snapshot
  | .orientation => orientation_nondefault snapshot
  | .velocity => velocity_nondefault snapshot
  | .angmom => angmom_nondefault snapshot
  | .image => image_nondefault snapshot

/-- The flag of the writer that switches a category on. -/
def GSDDumpWriter.enabled (w : GSDDumpWriter) : Category → Bool
  | .attribute => w.m_write_attribute
  | .property => w.m_write_property
  | .momentum => w.m_write_momentum

/-- The chunk names of a category. -/
def Category.chunkNames : Category → List String
  | .attribute => ["particles/types", "particles/typeid", "particles/mass", "particles/charge",
      "particles/diameter", "particles/body", "particles/moment_inertia"]
  | .property => ["particles/position", "particles/orientation"]
  | .momentum => ["particles/velocity", "particles/angmom", "particles/image"]

/-- The chunks that the member function of a category writes. -/
def Category.chunks (g : ParticleGroup) (snapshot : SnapshotParticleData) :
    Category → List Chunk
  | .attribute => attributeChunks g snapshot
  | .property => propertyChunks g snapshot
  | .momentum => momentumChunks g snapshot

/-- The names of the topology chunks. -/
def topologyNames : List String :=
  ["bonds/N", "bonds/types", "bonds/typeid", "bonds/group",
   "angles/N", "angles/types", "angles/typeid", "angles/group",
   "dihedrals/N", "dihedrals/types", "dihedrals/typeid", "dihedrals/group",
   "impropers/N", "impropers/types", "impropers/typeid", "impropers/group",
   "constraints/N", "constraints/value", "constraints/group"]

/-- The member function of a category. -/
def Category.memberFunction : Category → SnapshotParticleData → GsdM Unit
  | .attribute => writeAttributes
  | .property => writeProperties
  | .momentum => writeMomenta

/-! ## Concrete inputs -/

/-- Three-component zero. -/
def Scalar3.zero : Scalar3 := ⟨F32.zero, F32.zero, F32.zero⟩

/-- A snapshot with type names "A" and "B", type ids 0, 1, 0 for the tags 0, 1,
2, and every other quantity at its default. -/
def exampleSnapshot : SnapshotParticleData :=
  { pos := fun _ => Scalar3.zero
    vel := fun _ => Scalar3.zero
    type := fun t => if t = 1 then 1 else 0
    mass := fun _ => F32.one
    charge := fun _ => F32.zero
    diameter := fun _ => F32.one
    body := fun _ => NO_BODY
    image := fun _ => ⟨0, 0, 0⟩
    orientation := fun _ => ⟨F32.one, Scalar3.zero⟩
    angmom := fun _ => ⟨F32.zero, Scalar3.zero⟩
    inertia := fun _ => Scalar3.zero
    type_mapping := [[65], [66]] }

/-- A snapshot in which every quantity of every particle is at its default. -/
def defaultSnapshot : SnapshotParticleData :=
  { exampleSnapshot with type := fun _ => 0 }

/-- No bonds, angles, dihedrals or impropers. -/
def emptyBonded : BondedSnapshot := ⟨0, [], fun _ => 0, fun _ _ => 0⟩

/-- One bond of type "AB" between the tags 0 and 1. -/
def oneBond : BondedSnapshot := ⟨1, [[65, 66]], fun _ => 0, fun _ j => j⟩

/-- No constraints. -/
def emptyConstraint : ConstraintSnapshot := ⟨0, fun _ => F32.zero, fun _ _ => 0⟩

/-- A system of three particles without topology, seen from the root rank. -/
def exampleSystem : SystemDefinition :=
  { snapshot := exampleSnapshot
    NGlobal := 3
    NDimensions := 3
    globalBox := ⟨⟨F32.one, F32.one, F32.one⟩, F32.zero, F32.zero, F32.zero⟩
    bond := emptyBonded
    angle := emptyBonded
    dihedral := emptyBonded
    improper := emptyBonded
    constraint := emptyConstraint
    isRoot := true
    bcast_nframes := 0 }

/-- The same system with every quantity at its default. -/
def defaultSystem : SystemDefinition := { exampleSystem with snapshot := defaultSnapshot }

/-- The same system with one bond. -/
def bondedSystem : SystemDefinition := { exampleSystem with bond := oneBond }

/-- A writer for the group of all three particles, as constructed, with the
attribute and property categories switched on. -/
def exampleWriter : GSDDumpWriter :=
  { m_fname := "trajectory.gsd"
    m_overwrite := false
    m_truncate := false
    m_is_initialized := false
    m_write_attribute := true
    m_write_property := true
    m_write_momentum := false
    m_write_topology := false
    m_handle := ⟨⟨"", "", 0⟩, [], []⟩
    m_group := ⟨[0, 1, 2]⟩ }

/-- The writer before its first call, no file on disk, and a gsd library in
which every call succeeds. -/
def exampleMachine : Machine :=
  { writer := exampleWriter
    disk := none
    ret := fun _ => 0
    trace := []
    errlog := []
    strerror_errno := "No space left on device"
    HOOMD_VERSION_LONG := "2.1.0" }

/-- The writer before its first call, with a file on disk that holds one frame
and carries the schema "hoomd" in version 1.0. -/
def existingMachine : Machine :=
  { exampleMachine with
      disk := some ⟨⟨"HOOMD-blue 2.0.0", "hoomd", gsd_make_version 1 0⟩,
        [[⟨"configuration/step", GsdType.GSD_TYPE_UINT64, 1, 1, Payload.u64 [0]⟩]]⟩ }

/-- The state after the first call of `analyze` in the example. -/
def frameZeroState : Machine := (analyze 0 exampleSystem exampleMachine).2

/-- The state after the second call of `analyze` in the example, with the same
data. -/
def frameOneState : Machine := (analyze 1 exampleSystem frameZeroState).2

/-- The state after the first call of `analyze` on the system with one bond. -/
def bondedZeroState : Machine := (analyze 0 bondedSystem exampleMachine).2

/-- The state after the second call of `analyze` on the system with one
bond. -/
def bondedOneState : Machine := (analyze 1 bondedSystem bondedZeroState).2

/-- The result and the state reached by `m` from `s` satisfy `Q`, whether `m`
returns or throws. -/
def post {α : Type} (m : GsdM α) (s : Machine)
    (Q : Except runtime_error α → Machine → Prop) : Prop :=
  Q (m s).1 (m s).2

/-- The condition `Q` carried over a continuation `f`: after a return the
continuation runs, an exception passes through. -/
def contPost {α β : Type} (f : α → GsdM β) (Q : Except runtime_error β → Machine → Prop) :
    Except runtime_error α → Machine → Prop
  | Except.ok a, s1 => post (f a) s1 Q
  | Except.error e, s1 => Q (Except.error e) s1

/-- The text of `initFileIO` from the call of `gsd_open` on, where `w` is the
writer and `e` the text of `strerror(errno)` read at the start. -/
def initFileIO_tail (w : GSDDumpWriter) (e : String) : GsdM Unit := do
  let retval ← gsd_open w.m_fname
  (if retval = -1 then do
    msg_error ("dump.gsd: " ++ e ++ " - " ++ w.m_fname)
    throw_runtime_error "Error opening GSD file"
  else if retval = -2 then do
    msg_error ("dump.gsd: " ++ w.m_fname ++ " is not a valid GSD file")
    throw_runtime_error "Error opening GSD file"
  else if retval = -3 then do
    msg_error ("dump.gsd: " ++ "Invalid GSD file version in " ++ w.m_fname)
    throw_runtime_error "Error opening GSD file"
  else if retval = -4 then do
    msg_error ("dump.gsd: " ++ "Corrupt GSD file: " ++ w.m_fname)
    throw_runtime_error "Error opening GSD file"
  else if retval = -5 then do
    msg_error ("dump.gsd: " ++ "Out of memory opening: " ++ w.m_fname)
    throw_runtime_error "Error opening GSD file"
  else if retval ≠ 0 then do
    msg_error ("dump.gsd: " ++ "Unknown error opening: " ++ w.m_fname)
    throw_runtime_error "Error opening GSD file"
  else pure ())
  let w1 ← getWriter
  (if w1.m_handle.header.schema ≠ "hoomd" then do
    msg_error ("dump.gsd: " ++ "Invalid schema in " ++ w.m_fname)
    throw_runtime_error "Error opening GSD file"
  else pure ())
  (if w1.m_handle.header.schema_version ≥ gsd_make_version 2 0 then do
    msg_error ("dump.gsd: " ++ "Invalid schema version in " ++ w.m_fname)
    throw_runtime_error "Error opening GSD file"
  else pure ())
  set_m_is_initialized true

/-! ## The topology chunks as the specification lists them -/

/-- The chunks that the specification lists for a kind `K` of bonded entries
(bonds, angles, dihedrals, impropers) whose groups have `cols` members: none
when the kind has no entry, otherwise `K/N` (uint32, the count), `K/types`
(the type table), `K/typeid` (uint32, one row per entry, one column) and
`K/group` (uint32, one row per entry, `cols` columns). -/
def kindChunks (K : String) (cols : Nat) (snap : BondedSnapshot) : List Chunk :=
  if snap.size = 0 then []
  else
    [⟨K ++ "/N", GsdType.GSD_TYPE_UINT32, 1, 1, Payload.u32 [snap.size]⟩,
     typeMappingChunk (K ++ "/types") snap.type_mapping,
     ⟨K ++ "/typeid", GsdType.GSD_TYPE_UINT32, snap.size, 1,
       Payload.u32 ((List.range snap.size).map snap.type_id)⟩,
     ⟨K ++ "/group", GsdType.GSD_TYPE_UINT32, snap.size, cols,
       Payload.u32 (groups_buffer snap.groups snap.size cols)⟩]

/-- The chunks that the specification lists for the constraints: none without
a constraint, otherwise `constraints/N`, `constraints/value` (float32, one
column) and `constraints/group` (uint32, two columns), and neither a type
table nor type ids. -/
def constraintKindChunks (constraint : ConstraintSnapshot) : List Chunk :=
  if constraint.size = 0 then []
  else
    [⟨"constraints/N", GsdType.GSD_TYPE_UINT32, 1, 1, Payload.u32 [constraint.size]⟩,
     ⟨"constraints/value", GsdType.GSD_TYPE_FLOAT, constraint.size, 1,
       Payload.f32 ((List.range constraint.size).map constraint.val)⟩,
     ⟨"constraints/group", GsdType.GSD_TYPE_UINT32, constraint.size, 2,
       Payload.u32 (groups_buffer constraint.groups constraint.size 2)⟩]

/-- The topology chunks in the order of the specification. -/
def topologySpecChunks (bond angle dihedral improper : BondedSnapshot)
    (constraint : ConstraintSnapshot) : List Chunk :=
  kindChunks "bonds" 2 bond ++ kindChunks "angles" 3 angle ++
    kindChunks "dihedrals" 4 dihedral ++ kindChunks "impropers" 4 improper ++
    constraintKindChunks constraint

/-- The run of `m` from `s` returns, with a value and a state that satisfy
`Q`. -/
def returnsWith {α : Type} (m : GsdM α) (s : Machine) (Q : α → Machine → Prop) : Prop :=
  ∃ a s1, m s = (Except.ok a, s1) ∧ Q a s1

/-! ## Calls into the library, as the trace records them -/

/-- The result code a call into the library returned; reading the frame count
has no result code and counts as 0. -/
def GsdCall.code : GsdCall → Int
  | GsdCall.gsd_create _ _ _ _ r => r
  | GsdCall.gsd_open _ r => r
  | GsdCall.gsd_truncate r => r
  | GsdCall.gsd_get_nframes _ => 0
  | GsdCall.gsd_write_chunk _ r => r
  | GsdCall.gsd_end_frame r => r

/-- The call is `gsd_create`. -/
def GsdCall.isCreate : GsdCall → Bool
  | GsdCall.gsd_create _ _ _ _ _ => true
  | _ => false

/-- The call is `gsd_open`. -/
def GsdCall.isOpen : GsdCall → Bool
  | GsdCall.gsd_open _ _ => true
  | _ => false

/-- The call is `gsd_truncate`. -/
def GsdCall.isTruncate : GsdCall → Bool
  | GsdCall.gsd_truncate _ => true
  | _ => false

/-- The call is `gsd_get_nframes`. -/
def GsdCall.isGetNframes : GsdCall → Bool
  | GsdCall.gsd_get_nframes _ => true
  | _ => false

/-- The call is `gsd_write_chunk`. -/
def GsdCall.isWriteChunk : GsdCall → Bool
  | GsdCall.gsd_write_chunk _ _ => true
  | _ => false

/-- The call is `gsd_end_frame`. -/
def GsdCall.isEndFrame : GsdCall → Bool
  | GsdCall.gsd_end_frame _ => true
  | _ => false

/-- The text of the exception the writer throws when the call returns a code
other than 0: "Error creating GSD file" after `gsd_create`, "Error opening GSD
file" after `gsd_open` and `gsd_truncate`, "Error writing GSD file" after
`gsd_write_chunk` and `gsd_end_frame` (through `checkError`). -/
def GsdCall.what : GsdCall → String
  | GsdCall.gsd_create _ _ _ _ _ => "Error creating GSD file"
  | GsdCall.gsd_open _ _ => "Error opening GSD file"
  | GsdCall.gsd_truncate _ => "Error opening GSD file"
  | GsdCall.gsd_get_nframes _ => ""
  | GsdCall.gsd_write_chunk _ _ => "Error writing GSD file"
  | GsdCall.gsd_end_frame _ => "Error writing GSD file"

/-- The exception a run ended with, if any. -/
def thrown {α : Type} : Except runtime_error α → Option runtime_error
  | Except.ok _ => none
  | Except.error e => some e

/-- The line that the ladder after `gsd_open` in `initFileIO`, and after
`gsd_truncate` in `analyze`, writes to the error stream for the result code
`retval`, with `e` the text `strerror(errno)`. -/
def openErrorLine (retval : Int) (e fname : String) : String :=
  if retval = -1 then "dump.gsd: " ++ e ++ " - " ++ fname
  else if retval = -2 then "dump.gsd: " ++ fname ++ " is not a valid GSD file"
  else if retval = -3 then "dump.gsd: " ++ "Invalid GSD file version in " ++ fname
  else if retval = -4 then "dump.gsd: " ++ "Corrupt GSD file: " ++ fname
  else if retval = -5 then "dump.gsd: " ++ "Out of memory opening: " ++ fname
  else "dump.gsd: " ++ "Unknown error opening: " ++ fname

/-- The line that `checkError` writes to the error stream for the result code
`retval`. -/
def writeErrorLine (retval : Int) (e fname : String) : String :=
  if retval = -1 then "dump.gsd: " ++ e ++ " - " ++ fname
  else "dump.gsd: " ++ "Unknown error writing: " ++ fname

/-- The condition under which `initFileIO` creates the file:
`m_overwrite || !exists(m_fname)`. -/
def Machine.creating (s : Machine) : Bool := s.writer.m_overwrite || !s.disk.isSome

/-- The call of `gsd_create` that `initFileIO` makes in the state `s`, with
result code `r`. -/
def Machine.createCall (s : Machine) (r : Int) : GsdCall :=
  GsdCall.gsd_create s.writer.m_fname ("HOOMD-blue " ++ s.HOOMD_VERSION_LONG) "hoomd"
    (gsd_make_version 1 0) r

/-- The file that a successful `gsd_create` of `initFileIO` leaves on disk. -/
def Machine.newFile (s : Machine) : GsdFile :=
  ⟨⟨"HOOMD-blue " ++ s.HOOMD_VERSION_LONG, "hoomd", gsd_make_version 1 0⟩, []⟩

/-- The state in which `initFileIO` opens the file: after a successful
`gsd_create` when the file is created, the state itself when it is kept. -/
def Machine.afterCreate (s : Machine) : Machine :=
  if s.creating then
    { s with trace := s.trace ++ [s.createCall 0], disk := some s.newFile }
  else s

/-- The constructor `GSDDumpWriter::GSDDumpWriter`: the file name, the two
modes and the group are stored and `m_is_initialized` is false; the other data
members keep what the memory held. -/
def GSDDumpWriter_constructor (fname : String) (group : ParticleGroup)
    (overwrite truncate : Bool) : GsdM Unit :=
  fun s => (Except.ok (),
    { s with writer := { s.writer with
        m_fname := fname, m_overwrite := overwrite, m_truncate := truncate,
        m_is_initialized := false, m_group := group } })

/-- A sequence of calls of `analyze` on one writer, each with its time step and
the system at that time; the sequence ends at the first call that throws. -/
def analyzeCalls : List (Nat × SystemDefinition) → GsdM Unit
  | [] => pure ()
  | c :: cs => do
    analyze c.1 c.2
    analyzeCalls cs

/-- The example system as a rank other than the root sees it. -/
def nonRootSystem : SystemDefinition := { exampleSystem with isRoot := false }

/-- The writer before its first call, a file on disk, and a gsd library whose
first call returns `r` and every later call 0. -/
def failingOpenMachine (r : Int) : Machine :=
  { existingMachine with ret := fun k => if k = 0 then r else 0 }

/-- The state after a first call of `analyze` in which `gsd_open` returned
-2. -/
def failedOpenState : Machine := (analyze 0 exampleSystem (failingOpenMachine (-2))).2

/-- The writer before its first call, with a file on disk whose schema is not
"hoomd". -/
def foreignMachine : Machine :=
  { exampleMachine with disk := some ⟨⟨"other", "frames", gsd_make_version 1 0⟩, []⟩ }

/-! ## States of a run of `analyze` -/

/-- The state after a call into the library that returned a code other than
0, recorded as `ev`, and the line the writer then sends to the error
stream. -/
def Machine.failedCall (s : Machine) (ev : GsdCall) (line : String) : Machine :=
  { s with trace := s.trace ++ [ev], errlog := s.errlog ++ [line] }

/-- The state after `gsd_truncate` has returned 0. -/
def Machine.truncated (s : Machine) : Machine :=
  { s with
      trace := s.trace ++ [GsdCall.gsd_truncate 0]
      disk := s.disk.map (fun f => { f with frames := [] })
      writer := { s.writer with
        m_handle := { s.writer.m_handle with frames := [], pending := [] } } }

/-- The state after `gsd_get_nframes`. -/
def Machine.counted (s : Machine) : Machine :=
  { s with trace := s.trace ++ [GsdCall.gsd_get_nframes s.writer.m_handle.frames.length] }

/-- The state after `gsd_end_frame` has returned 0. -/
def Machine.ended (s : Machine) : Machine :=
  { s with
      trace := s.trace ++ [GsdCall.gsd_end_frame 0]
      disk := s.disk.map (fun f => { f with frames := f.frames ++ [s.writer.m_handle.pending] })
      writer := { s.writer with
        m_handle := { s.writer.m_handle with
          frames := s.writer.m_handle.frames ++ [s.writer.m_handle.pending],
          pending := [] } } }

/-- What the part of `analyze` between the truncation and `gsd_end_frame` does
to the state, whether it returns (`o = none`) or throws (`o = some e`): the
calls `d` it adds to the trace are chunk writes and reads of the unchanged
frame count; every call before the last has returned 0; a run that throws,
throws "Error writing GSD file" and its last call is a chunk write that
returned a code other than 0; in a run that returns every call has returned
0; the committed frames, the disk, the library, `m_is_initialized` and the
settings are as before. -/
def FrameRun (s : Machine) (o : Option runtime_error) (s1 : Machine) : Prop :=
  ∃ d : List GsdCall,
    s1.trace = s.trace ++ d ∧
    s1.writer.m_handle.frames = s.writer.m_handle.frames ∧
    s1.disk = s.disk ∧ s1.ret = s.ret ∧ s1.strerror_errno = s.strerror_errno ∧
    s1.writer.m_is_initialized = s.writer.m_is_initialized ∧
    s1.writer.settings = s.writer.settings ∧
    (∀ ev ∈ d, ev.isWriteChunk = true ∨
      ev = GsdCall.gsd_get_nframes s.writer.m_handle.frames.length) ∧
    (∀ ev ∈ d.dropLast, ev.code = 0) ∧
    (∀ e, o = some e → e = ⟨"Error writing GSD file"⟩ ∧
      ∃ ev, d.getLast? = some ev ∧ ev.code ≠ 0 ∧ ev.isWriteChunk = true) ∧
    (o = none → (∀ ev ∈ d, ev.code = 0) ∧ s1.errlog = s.errlog ∧
      ∃ cs, s1.writer.m_handle.pending = s.writer.m_handle.pending ++ cs ∧
        d.filter GsdCall.isWriteChunk = cs.map (fun c => GsdCall.gsd_write_chunk c 0))

/-- A member function satisfies `FrameRun` from the state `s`. -/
def frameHolds {α : Type} (m : GsdM α) (s : Machine) : Prop :=
  FrameRun s (thrown (m s).1) (m s).2

/-- The state `s2` in which `analyze`, called on the root rank in the state
`s`, reads the frame count: `initFileIO` has returned if the writer was not
initialised, and `gsd_truncate` has returned 0 if the truncate mode is on. -/
def SetupDone (s s2 : Machine) : Prop :=
  ∃ s1, ((s.writer.m_is_initialized = true ∧ s1 = s) ∨
      (s.writer.m_is_initialized = false ∧ initFileIO s = (Except.ok (), s1))) ∧
    ((s.writer.m_truncate = false ∧ s2 = s1) ∨
      (s.writer.m_truncate = true ∧ s1.ret s1.trace.length = 0 ∧ s2 = s1.truncated))

/-- The text of `analyze` that truncates the file: `gsd_truncate` and the
ladder on its result, with `w` the data members and `e` the text
`strerror(errno)` read at the start of `analyze`. -/
def analyze_truncate (w : GSDDumpWriter) (e : String) : GsdM Unit := do
  let retval ← gsd_truncate
  (if retval = -1 then do
    msg_error ("dump.gsd: " ++ e ++ " - " ++ w.m_fname)
    throw_runtime_error "Error opening GSD file"
  else if retval = -2 then do
    msg_error ("dump.gsd: " ++ w.m_fname ++ " is not a valid GSD file")
    throw_runtime_error "Error opening GSD file"
  else if retval = -3 then do
    msg_error ("dump.gsd: " ++ "Invalid GSD file version in " ++ w.m_fname)
    throw_runtime_error "Error opening GSD file"
  else if retval = -4 then do
    msg_error ("dump.gsd: " ++ "Corrupt GSD file: " ++ w.m_fname)
    throw_runtime_error "Error opening GSD file"
  else if retval = -5 then do
    msg_error ("dump.gsd: " ++ "Out of memory opening: " ++ w.m_fname)
    throw_runtime_error "Error opening GSD file"
  else if retval ≠ 0 then do
    msg_error ("dump.gsd: " ++ "Unknown error opening: " ++ w.m_fname)
    throw_runtime_error "Error opening GSD file"
  else pure ())

/-- The text of `analyze` on the root rank from the reading of the frame count
up to, and without, `gsd_end_frame`, with `w` the data members read at the
start of `analyze`. -/
def analyze_write (w : GSDDumpWriter) (nframes timestep : Nat) (sys : SystemDefinition) :
    GsdM Unit := do
  (if sys.isRoot then do
    writeFrameHeader timestep sys
    (if w.m_write_attribute || nframes = 0 then do
      writeAttributes sys.snapshot
    else pure ())
    (if w.m_write_property || nframes = 0 then do
      writeProperties sys.snapshot
    else pure ())
    (if w.m_write_momentum || nframes = 0 then do
      writeMomenta sys.snapshot
    else pure ())
  else pure ())
  (if w.m_group.getNumMembersGlobal = sys.NGlobal && (w.m_write_topology || nframes = 0) then do
    (if sys.isRoot then do
      writeTopology sys.bond sys.angle sys.dihedral sys.improper sys.constraint
    else pure ())
  else pure ())

/-- The state after `gsd_open` has returned 0 on the file `f` and
`initFileIO` has accepted its header. -/
def Machine.opened (s : Machine) (f : GsdFile) : Machine :=
  { s with
      trace := s.trace ++ [GsdCall.gsd_open s.writer.m_fname 0]
      writer := { s.writer with
        m_handle := ⟨f.header, f.frames, []⟩, m_is_initialized := true } }

/-- The header of a file fails the validation of `initFileIO`. -/
def GsdFile.rejected (f : GsdFile) : Prop :=
  f.header.schema ≠ "hoomd" ∨ gsd_make_version 2 0 ≤ f.header.schema_version

/-- The calls into the library that `analyze` makes before it reads the frame
count, when each of them returns 0: `gsd_create` and `gsd_open` if the writer
is not initialised, `gsd_truncate` in truncate mode. -/
def Machine.setupCalls (s : Machine) : List GsdCall :=
  (if s.writer.m_is_initialized then []
   else (if s.creating then [s.createCall 0] else []) ++
     [GsdCall.gsd_open s.writer.m_fname 0])
  ++ (if s.writer.m_truncate then [GsdCall.gsd_truncate 0] else [])

/-- The committed frames of the file when `analyze` reads the frame count:
none in truncate mode and none in a file just created, the frames of the
handle when the writer is initialised, the frames of the file on disk
otherwise. -/
def Machine.startFrames (s : Machine) : List (List Chunk) :=
  if s.writer.m_truncate then []
  else if s.writer.m_is_initialized then s.writer.m_handle.frames
  else if s.creating then []
  else match s.disk with
    | some f => f.frames
    | none => []

/-- What every call of `analyze` on the root rank does, whether it returns or
throws: `d` are the calls into the library it has made, `r` is its result and
`s1` the state after it. -/
structure RunFacts (s : Machine) (r : Except runtime_error Unit) (s1 : Machine)
    (d : List GsdCall) : Prop where
  /-- Every call before the last has returned 0 and is no `gsd_end_frame`. -/
  before_last : ∀ ev ∈ d.dropLast, ev.code = 0 ∧ ev.isEndFrame = false
  /-- A last call that returned another code makes the run throw. -/
  last_fails : ∀ ev, d.getLast? = some ev → ev.code ≠ 0 → r = Except.error ⟨ev.what⟩
  /-- A run throws only after such a call, or when `initFileIO` rejects the
  header of the file. -/
  thrown_cause : ∀ e, r = Except.error e →
    (∃ ev, d.getLast? = some ev ∧ ev.code ≠ 0) ∨
    (e = ⟨"Error opening GSD file"⟩ ∧ s.writer.m_is_initialized = false ∧
      s1.writer.m_is_initialized = false ∧ ∃ f, s.afterCreate.disk = some f ∧ f.rejected)
  /-- A writer that is not initialised starts with `gsd_create` or
  `gsd_open`. -/
  first_call : s.writer.m_is_initialized = false →
    ∃ ev rest, d = ev :: rest ∧ (ev.isCreate = true ∨ ev.isOpen = true)
  /-- Every frame count read is that of the file as set up. -/
  counts : ∀ ev ∈ d, ev.isGetNframes = true →
    ev = GsdCall.gsd_get_nframes s.startFrames.length
  /-- When a chunk has been written, the frame count has been read, and the
  committed frames are those of the file as set up unless the frame has been
  ended. -/
  writes : (∃ ev ∈ d, ev.isWriteChunk = true) →
    GsdCall.gsd_get_nframes s.startFrames.length ∈ d ∧
    (d.getLast? ≠ some (GsdCall.gsd_end_frame 0) →
      s1.writer.m_handle.frames = s.startFrames)
  /-- A run that returns has ended the frame with its last call. -/
  returned : r = Except.ok () →
    d.getLast? = some (GsdCall.gsd_end_frame 0) ∧
    (d.filter GsdCall.isOpen).length = (if s.writer.m_is_initialized then 0 else 1) ∧
    (d.filter GsdCall.isCreate).length =
      (if s.writer.m_is_initialized then 0 else if s.creating then 1 else 0) ∧
    s1.writer.m_is_initialized = true ∧
    s1.writer.m_handle.frames.length = s.startFrames.length + 1 ∧
    s1.writer.m_handle.pending = [] ∧
    GsdCall.gsd_get_nframes s.startFrames.length ∈ d
  /-- The settings of the writer and the library are as before. -/
  settings : s1.writer.settings = s.writer.settings ∧ s1.ret = s.ret

/-- The writer before its first call, no file on disk, and a gsd library whose
sixth call, the write of `configuration/dimensions`, returns -1. -/
def failingWriteMachine : Machine :=
  { exampleMachine with ret := fun k => if k = 5 then -1 else 0 }

/-- A writer in truncate mode before its first call, no file on disk. -/
def truncateMachine : Machine :=
  { exampleMachine with writer := { exampleWriter with m_truncate := true } }

/-! ## Shapes and rows of chunks -/

/-- Modelled from the spec: `sizeOf(elementKind)`, the size in bytes of one
element of a chunk, which the gsd library computes from the type code. -/
def gsd_sizeof_type : GsdType → Nat
  | GsdType.GSD_TYPE_UINT8 => 1
  | GsdType.GSD_TYPE_UINT32 => 4
  | GsdType.GSD_TYPE_UINT64 => 8
  | GsdType.GSD_TYPE_INT32 => 4
  | GsdType.GSD_TYPE_FLOAT => 4

/-- The element type of a buffer. -/
def Payload.gsdType : Payload → GsdType
  | .u8 _ => GsdType.GSD_TYPE_UINT8
  | .u32 _ => GsdType.GSD_TYPE_UINT32
  | .u64 _ => GsdType.GSD_TYPE_UINT64
  | .i32 _ => GsdType.GSD_TYPE_INT32
  | .f32 _ => GsdType.GSD_TYPE_FLOAT

/-- The size of a buffer in bytes. -/
def Payload.byteLength (p : Payload) : Nat := p.length * gsd_sizeof_type p.gsdType

/-- The `n` elements of a buffer from position `start` on. -/
def Payload.slice (p : Payload) (start n : Nat) : Payload :=
  match p with
  | .u8 xs => .u8 ((xs.drop start).take n)
  | .u32 xs => .u32 ((xs.drop start).take n)
  | .u64 xs => .u64 ((xs.drop start).take n)
  | .i32 xs => .i32 ((xs.drop start).take n)
  | .f32 xs => .f32 ((xs.drop start).take n)

/-- Row `i` of the data of a chunk: the `M` elements from position `i * M`
on. -/
def Chunk.row (c : Chunk) (i : Nat) : Payload := c.data.slice (i * c.M) c.M

/-- The per-particle chunks with the number of columns that the
specification gives for each. -/
def perParticleColumns : List (String × Nat) :=
  [("particles/typeid", 1), ("particles/mass", 1), ("particles/charge", 1),
   ("particles/diameter", 1), ("particles/body", 1), ("particles/moment_inertia", 3),
   ("particles/position", 3), ("particles/velocity", 3), ("particles/image", 3),
   ("particles/orientation", 4), ("particles/angmom", 4)]

/-- The row of a per-particle chunk that belongs to the particle with tag `t`:
the values of the snapshot at `t`, the body index as an `int32_t`. -/
def rowOfTag (snapshot : SnapshotParticleData) (t : Nat) : String → Option Payload
  | "particles/typeid" => some (.u32 [snapshot.type t])
  | "particles/mass" => some (.f32 [snapshot.mass t])
  | "particles/charge" => some (.f32 [snapshot.charge t])
  | "particles/diameter" => some (.f32 [snapshot.diameter t])
  | "particles/body" => some (.i32 [uint_to_int32 (snapshot.body t)])
  | "particles/moment_inertia" =>
    some (.f32 [(snapshot.inertia t).x, (snapshot.inertia t).y, (snapshot.inertia t).z])
  | "particles/position" =>
    some (.f32 [(snapshot.pos t).x, (snapshot.pos t).y, (snapshot.pos t).z])
  | "particles/orientation" =>
    some (.f32 [(snapshot.orientation t).s, (snapshot.orientation t).v.x,
      (snapshot.orientation t).v.y, (snapshot.orientation t).v.z])
  | "particles/velocity" =>
    some (.f32 [(snapshot.vel t).x, (snapshot.vel t).y, (snapshot.vel t).z])
  | "particles/angmom" =>
    some (.f32 [(snapshot.angmom t).s, (snapshot.angmom t).v.x,
      (snapshot.angmom t).v.y, (snapshot.angmom t).v.z])
  | "particles/image" =>
    some (.i32 [(snapshot.image t).x, (snapshot.image t).y, (snapshot.image t).z])
  | _ => none

/-- Two snapshots hold the same values for the particle with tag `t`. -/
def sameParticle (a b : SnapshotParticleData) (t : Nat) : Prop :=
  a.pos t = b.pos t ∧ a.vel t = b.vel t ∧ a.type t = b.type t ∧ a.mass t = b.mass t ∧
  a.charge t = b.charge t ∧ a.diameter t = b.diameter t ∧ a.body t = b.body t ∧
  a.image t = b.image t ∧ a.orientation t = b.orientation t ∧ a.angmom t = b.angmom t ∧
  a.inertia t = b.inertia t

/-- A snapshot in which the particle with tag 0 has crossed the box 16777217
times in the x direction, and every other quantity is at its default. -/
def imageSnapshot : SnapshotParticleData :=
  { defaultSnapshot with image := fun t => if t = 0 then ⟨16777217, 0, 0⟩ else ⟨0, 0, 0⟩ }

/-- A snapshot in which the particle with tag 0 belongs to the body 0 and the
others to no body, every other quantity at its default. -/
def bodySnapshot : SnapshotParticleData :=
  { defaultSnapshot with body := fun t => if t = 0 then 0 else NO_BODY }

/-- The example writer with the group of the tags 1 and 0, in this order. -/
def reorderedMachine : Machine :=
  { exampleMachine with writer := { exampleWriter with m_group := ⟨[1, 0]⟩ } }

/-! ## MOL2DumpWriter -/

/-- Modelled from the spec: `Bond` of `BondData.h`, a file outside the ones at
hand; `a` and `b` are the indices of the two particles, `unsigned int`
values. -/
structure Bond where
  a : Nat
  b : Nat
deriving DecidableEq, Repr

/-- Modelled from the spec: `BondData` of `BondData.h`, the list of the bonds
of the system. -/
structure BondData where
  m_bonds : List Bond
deriving DecidableEq, Repr

/-- `BondData::getNumBonds`, an `unsigned int`. -/
def BondData.getNumBonds (d : BondData) : Nat := d.m_bonds.length

/-- `BondData::getBond`; the source calls it with indices below the number
of bonds only. -/
def BondData.getBond (d : BondData) (i : Nat) : Bond := d.m_bonds.getD i ⟨0, 0⟩

/-- The arrays of `ParticleDataArraysConst` that `MOL2DumpWriter::analyze`
reads. -/
structure ParticleDataArraysConst where
  nparticles : Nat
  x : Nat → F32
  y : Nat → F32
  z : Nat → F32
  type : Nat → Nat
  rtag : Nat → Nat

/-- Modelled from the spec: the part of `ParticleData` that
`MOL2DumpWriter::analyze` uses; `bond_data` is `none` for a null pointer. -/
structure ParticleData where
  arrays : ParticleDataArraysConst
  N : Nat
  bond_data : Option BondData
  getNameByType : Nat → String

/-- `ParticleData::getN`. -/
def ParticleData.getN (p : ParticleData) : Nat := p.N

/-- An output file stream: the lines written so far, the state `good()`, and
the number of line outputs attempted. -/
structure ofstream where
  lines : List String
  is_good : Bool
  attempts : Nat
deriving DecidableEq, Repr

/-- `ofstream::good`. -/
def ofstream.good (f : ofstream) : Bool := f.is_good

/-- One statement `f << ... << endl`: the line is added when the stream is
good and the output succeeds (`write_ok`, given by the surroundings);
otherwise the stream is no longer good and nothing is added from then on. -/
def ofstream.put (write_ok : Nat → Bool) (f : ofstream) (line : String) : ofstream :=
  if f.is_good && write_ok f.attempts then
    ⟨f.lines ++ [line], true, f.attempts + 1⟩
  else
    ⟨f.lines, false, f.attempts + 1⟩

/-- Several line outputs in a row. -/
def ofstream.putAll (write_ok : Nat → Bool) (f : ofstream) (lines : List String) : ofstream :=
  lines.foldl (fun f1 line => f1.put write_ok line) f

/-- The class `MOL2DumpWriter` with its surroundings: the file at `m_fname`
(`none` while it does not exist), whether it can be opened for writing,
whether the output number `k` to the stream succeeds, the text that the
stream prints for a `Scalar`, and the lines printed on `cout` and `cerr`. -/
structure MOL2DumpWriter where
  m_pdata : ParticleData
  m_fname : String
  m_written : Bool
  disk : Option (List String)
  can_open : Bool
  write_ok : Nat → Bool
  formatScalar : F32 → String
  cout : List String
  cerr : List String

/-- The line of the atom `j` in the section `@<TRIPOS>ATOM`. -/
def MOL2DumpWriter.atomLine (w : MOL2DumpWriter) (j : Nat) : String :=
  let i := w.m_pdata.arrays.rtag j
  let type_name := w.m_pdata.getNameByType (w.m_pdata.arrays.type i)
  toString (j + 1) ++ " " ++ type_name ++ " " ++ w.formatScalar (w.m_pdata.arrays.x i) ++ " " ++
    w.formatScalar (w.m_pdata.arrays.y i) ++ " " ++ w.formatScalar (w.m_pdata.arrays.z i) ++
    " " ++ type_name

/-- The loop over the particles in `MOL2DumpWriter::analyze`: `some line` is
the line printed on `cerr` before the exception is thrown. -/
def MOL2DumpWriter.writeAtoms (w : MOL2DumpWriter) :
    List Nat → ofstream → Option String × ofstream
  | [], f => (none, f)
  | j :: js, f =>
    let i := w.m_pdata.arrays.rtag j
    let type_name := w.m_pdata.getNameByType (w.m_pdata.arrays.type i)
    if type_name.utf8ByteSize > 15 then
      (some ("Error! Type name <" ++ type_name ++ "> too long: please limit to 15 characters"),
        f)
    else
      let f1 := f.put w.write_ok (w.atomLine j)
      if !f1.good then
        (some "***Error! Unexpected error writing MOL2 dump file", f1)
      else
        w.writeAtoms js f1

/-- The value of `int num_bonds` printed in the header. -/
def MOL2DumpWriter.num_bonds (w : MOL2DumpWriter) : Int :=
  match w.m_pdata.bond_data with
  | some bond_data =>
    if bond_data.getNumBonds > 0 then uint_to_int32 bond_data.getNumBonds else 1
  | none => 1

/-- The line of the bond `i`: `i+1`, `b.a+1` and `b.b+1` in `unsigned int`
arithmetic. -/
def BondData.bondLine (bond_data : BondData) (i : Nat) : String :=
  let b := bond_data.getBond i
  toString ((i + 1) % 2 ^ 32) ++ " " ++ toString ((b.a + 1) % 2 ^ 32) ++ " " ++
    toString ((b.b + 1) % 2 ^ 32) ++ " 1"

/-- The lines that `MOL2DumpWriter::analyze` puts after `@<TRIPOS>BOND`. -/
def MOL2DumpWriter.bondSection (w : MOL2DumpWriter) : List String :=
  match w.m_pdata.bond_data with
  | some bond_data =>
    if bond_data.getNumBonds > 0 then
      (List.range bond_data.getNumBonds).map bond_data.bondLine
    else ["1 1 2 1"]
  | none => ["1 1 2 1"]

/-- The lines before the atoms. -/
def MOL2DumpWriter.headerLines (w : MOL2DumpWriter) : List String :=
  ["@<TRIPOS>MOLECULE", "Generated by HOOMD",
    toString w.m_pdata.getN ++ " " ++ toString w.num_bonds, "NO_CHARGES", "@<TRIPOS>ATOM"]

/-- `MOL2DumpWriter::analyze`. -/
def MOL2DumpWriter.analyze (w : MOL2DumpWriter) (timestep : Nat) :
    Except runtime_error Unit × MOL2DumpWriter :=
  if w.m_written then
    (Except.ok (), { w with cout := w.cout ++
      ["***Warning! MOL2 file " ++ w.m_fname ++ " already written, not overwriting."] })
  else
    -- open the file for writing
    if !w.can_open then
      (Except.error ⟨"Error writting mol2 dump file"⟩, { w with cerr := w.cerr ++
        ["***Error! Unable to open dump file for writing: " ++ w.m_fname] })
    else
      let f : ofstream := ⟨[], true, 0⟩
      -- write the header
      let f := f.putAll w.write_ok w.headerLines
      match w.writeAtoms (List.range w.m_pdata.arrays.nparticles) f with
      | (some line, f) =>
        (Except.error ⟨"Error writting mol2 dump file"⟩,
          { w with disk := some f.lines, cerr := w.cerr ++ [line] })
      | (none, f) =>
        let f := f.putAll w.write_ok ("@<TRIPOS>BOND" :: w.bondSection)
        if !f.good then
          (Except.error ⟨"Error writting mol2 dump file"⟩,
            { w with disk := some f.lines, cerr := w.cerr ++
              ["***Error! Unexpected error writing HOOMD dump file"] })
        else
          (Except.ok (), { w with disk := some f.lines, m_written := true })

/-- Three particles of the types "A", "B", "A" and the bonds 0-1 and 1-2; the
file can be opened and every output succeeds. -/
def mol2Writer : MOL2DumpWriter :=
  { m_pdata :=
      { arrays := ⟨3, fun _ => F32.zero, fun _ => F32.zero, fun _ => F32.zero,
          fun i => if i = 1 then 1 else 0, fun j => j⟩
        N := 3
        bond_data := some ⟨[⟨0, 1⟩, ⟨1, 2⟩]⟩
        getNameByType := fun t => if t = 1 then "B" else "A" }
    m_fname := "dump.mol2"
    m_written := false
    disk := none
    can_open := true
    write_ok := fun _ => true
    formatScalar := fun _ => "0"
    cout := []
    cerr := [] }

/-- The same system without bonds. -/
def mol2WriterNoBonds : MOL2DumpWriter :=
  { mol2Writer with m_pdata := { mol2Writer.m_pdata with bond_data := some ⟨[]⟩ } }

/-! ## ManagedArray -/

/-- The memory as seen by `load_shared`: the byte at each address. -/
abbrev Memory := Nat → Nat

/-- The class `ManagedArray<T>`: the address in the pointer `data`, the number
of elements `N` and the flag `managed`, both `unsigned int`. -/
structure ManagedArray where
  data : Nat
  N : Nat
  managed : Nat
deriving DecidableEq, Repr

/-- One assignment `((int *)ptr)[i] = ((int *)data)[i]`: the four bytes at
`src` are read and stored at `dst`. -/
def copy_int (mem : Memory) (dst src : Nat) : Memory :=
  fun a => if dst ≤ a ∧ a < dst + 4 then mem (src + (a - dst)) else mem a

/-- The value of `unsigned int size_int = (sizeof(T)*N)/sizeof(int)`: the
product and the quotient are taken in `size_t`, 64 bits wide, `sizeof(int)` is
4, and the result is converted to `unsigned int`. -/
def ManagedArray.size_int (sizeof_T : Nat) (a : ManagedArray) : Nat :=
  ((sizeof_T * a.N) % 2 ^ 64 / 4) % 2 ^ 32

/-- The loop of `load_shared` run for `i = 0, ..., n - 1`. -/
def ManagedArray.copy_loop (mem : Memory) (ptr data : Nat) (n : Nat) : Memory :=
  (List.range n).foldl (fun m i => copy_int m (ptr + 4 * i) (data + 4 * i)) mem

/-- `ManagedArray<T>::load_shared(char *& ptr, bool load)` for a type `T` of
`sizeof_T` bytes: the array with its data pointer, the memory and `ptr` after
the call. -/
def ManagedArray.load_shared (sizeof_T : Nat) (a : ManagedArray) (mem : Memory) (ptr : Nat)
    (load : Bool) : ManagedArray × Memory × Nat :=
  let r : ManagedArray × Memory :=
    if load then
      let size_int := a.size_int sizeof_T
      -- copy int-wise for better performance
      let mem1 := ManagedArray.copy_loop mem ptr a.data size_int
      -- redirect data ptr
      ({ a with data := ptr }, mem1)
    else (a, mem)
  -- increment pointer
  (r.1, r.2, ptr + (a.N * sizeof_T) % 2 ^ 64)

/-- A memory that holds the byte `a % 251` at the address `a`. -/
def exampleMemory : Memory := fun a => a % 251

/-- An array of three elements at the address 1000. -/
def exampleArray : ManagedArray := ⟨1000, 3, 0⟩

/-- The tags 0, 1, 2, and so on of 1431655766 particles. -/
@[irreducible] def largeTags : List Nat := List.range 1431655766

/-- The example writer with the group of these 1431655766 particles. -/
def largeGroupMachine : Machine :=
  { exampleMachine with writer := { exampleWriter with m_group := ⟨largeTags⟩ } }

/-- `GSDDumpWriter::setWriteAttribute`. -/
def setWriteAttribute (b : Bool) : GsdM Unit :=
  fun s => (Except.ok (), { s with writer := { s.writer with m_write_attribute := b } })

/-- `GSDDumpWriter::setWriteProperty`. -/
def setWriteProperty (b : Bool) : GsdM Unit :=
  fun s => (Except.ok (), { s with writer := { s.writer with m_write_property := b } })

/-- `GSDDumpWriter::setWriteMomentum`. -/
def setWriteMomentum (b : Bool) : GsdM Unit :=
  fun s => (Except.ok (), { s with writer := { s.writer with m_write_momentum := b } })

/-- `GSDDumpWriter::setWriteTopology`. -/
def setWriteTopology (b : Bool) : GsdM Unit :=
  fun s => (Except.ok (), { s with writer := { s.writer with m_write_topology := b } })

/-- The chunks that an earlier call of `analyze` has written without ending
the frame, as far as the next call finds them in the frame in progress when it
starts to write: those of the handle for a writer that is initialised and not
in truncate mode; none otherwise, since `initFileIO` opens the file afresh and
`gsd_truncate` discards the frame in progress. -/
def Machine.leftover (s : Machine) : List Chunk :=
  if s.writer.m_is_initialized && !s.writer.m_truncate then s.writer.m_handle.pending else []

/-- What a part of `analyze` that writes the chunks `cs` does to the state,
whether it returns (`o = none`) or throws: the group and the committed frames
are as before; every chunk write among the calls `d` it adds to the trace is
the write of a chunk of `cs`; when it returns, the chunks of `cs` have been
written in their order, each with result 0, and added to the frame in
progress; when it throws, the first `k` chunks of `cs` have been written with
result 0 and the write of the next one has returned another code. -/
def Emits (cs : List Chunk) (s : Machine) (o : Option runtime_error) (s1 : Machine) : Prop :=
  s1.writer.m_group = s.writer.m_group ∧
  s1.writer.m_handle.frames = s.writer.m_handle.frames ∧
  ∃ d, s1.trace = s.trace ++ d ∧
    (∀ ev ∈ d, ev.isWriteChunk = true → ∃ c ∈ cs, ∃ r, ev = GsdCall.gsd_write_chunk c r) ∧
    (o = none → s1.writer.m_handle.pending = s.writer.m_handle.pending ++ cs ∧
      d.filter GsdCall.isWriteChunk = cs.map (fun c => GsdCall.gsd_write_chunk c 0)) ∧
    (∀ e, o = some e → ∃ k c r, cs[k]? = some c ∧ r ≠ 0 ∧
      d.filter GsdCall.isWriteChunk =
        (cs.take k).map (fun c => GsdCall.gsd_write_chunk c 0) ++
          [GsdCall.gsd_write_chunk c r])

/-- A member function satisfies `Emits` for the chunks `cs` from the state
`s`. -/
def emits {α : Type} (cs : List Chunk) (m : GsdM α) (s : Machine) : Prop :=
  Emits cs s (thrown (m s).1) (m s).2

/-- The chunk of a call of `gsd_write_chunk`. -/
def GsdCall.chunk? : GsdCall → Option Chunk
  | GsdCall.gsd_write_chunk c _ => some c
  | _ => none

/-- A file with one frame on disk, a writer before its first call, and a gsd
library whose ninth call, the write of `particles/position`, returns -1. -/
def failingPositionMachine : Machine :=
  { existingMachine with ret := fun k => if k = 8 then -1 else 0 }

/-- A file with one frame on disk and a writer in overwrite mode before its
first call. -/
def overwriteMachine : Machine :=
  { existingMachine with writer := { exampleWriter with m_overwrite := true } }

/-- The state after the first call of `analyze` on `failingWriteMachine` has
thrown in the write of `configuration/dimensions`: the chunk
`configuration/step` of timestep 0 is left in the handle. -/
def staleStepState : Machine := (analyze 0 exampleSystem failingWriteMachine).2

/-- The state after a call of `analyze` on `failingPositionMachine` has thrown
in the write of `particles/position`, the chunks of the header and of the
attribute category being left in the handle, and `setWriteAttribute(false)`
has then been called. -/
def staleAttributeState : Machine :=
  (setWriteAttribute false (analyze 0 exampleSystem failingPositionMachine).2).2

/-- The names of the chunks handed to `gsd_write_chunk` among the calls `d`. -/
def writtenNames (d : List GsdCall) : List String :=
  d.filterMap (fun ev => ev.chunk?.map Chunk.name)

/-- A list of 2^31 bonds, each between the particles 0 and 1. -/
@[irreducible] def manyBonds : List Bond := List.replicate 2147483648 ⟨0, 1⟩

/-- The system of `mol2Writer` with the 2^31 bonds of `manyBonds`. -/
def mol2WriterManyBonds : MOL2DumpWriter :=
  { mol2Writer with m_pdata := { mol2Writer.m_pdata with bond_data := some ⟨manyBonds⟩ } }

/-- The writer before its first call, no file on disk, and a gsd library whose
eleventh call, the write of `particles/position`, returns -1. -/
def failingFirstPositionMachine : Machine :=
  { exampleMachine with ret := fun k => if k = 10 then -1 else 0 }

/-- The state after the first call of `analyze` on
`failingFirstPositionMachine` has thrown: the header and the attribute chunks
of the example, `particles/typeid` among them, are left in the handle. -/
def staleTypeidState : Machine := (analyze 0 exampleSystem failingFirstPositionMachine).2

/-- A file with one frame on disk, a writer with the topology flag set, and a
gsd library whose eleventh call, the write of `bonds/types`, returns -1. -/
def failingBondsMachine : Machine :=
  { existingMachine with
      writer := { exampleWriter with m_write_topology := true }
      ret := fun k => if k = 10 then -1 else 0 }

/-- The state after a call of `analyze` on `failingBondsMachine` has thrown,
`bonds/N` being left in the handle, and `setWriteTopology(false)` has then
been called. -/
def staleTopologyState : Machine :=
  (setWriteTopology false (analyze 0 bondedSystem failingBondsMachine).2).2

/-! ## Laws of the state transformers -/

instance : LawfulMonad GsdM := LawfulMonad.mk' GsdM
  (by
    intro α x
    funext s
    show GsdM.bind x (fun a => GsdM.pure (id a)) s = x s
    unfold GsdM.bind
    rcases h : x s with ⟨r, s1⟩
    cases r <;> rfl)
  (by intros; rfl)
  (by
    intro α β γ x f g
    funext s
    show GsdM.bind (GsdM.bind x f) g s = GsdM.bind x (fun a => GsdM.bind (f a) g) s
    unfold GsdM.bind
    rcases h : x s with ⟨r, s1⟩
    cases r <;> rfl)

/-! # Properties -/

theorem GsdM.bind_apply {α β : Type} (m : GsdM α) (f : α → GsdM β) (s : Machine) :
    (m >>= f) s = match m s with
      | (Except.ok a, s1) => f a s1
      | (Except.error e, s1) => (Except.error e, s1) := rfl

theorem GsdM.pure_apply {α : Type} (a : α) (s : Machine) :
    (pure a : GsdM α) s = (Except.ok a, s) := rfl

theorem writeChunks_append (a b : List Chunk) :
    writeChunks (a ++ b) = (do writeChunks a; writeChunks b) := by
  induction a with
  | nil => simp [writeChunks]
  | cons c cs ih => simp [writeChunks, ih]

theorem writeChunks_nil : writeChunks [] = pure () := rfl

theorem writeChunks_optChunk (p : Bool) (c : Chunk) :
    writeChunks (optChunk p c) =
      (if p then (do let retval ← gsd_write_chunk c; checkError retval) else pure ()) := by
  cases p <;> simp [optChunk, writeChunks]

theorem writeChunks_singleton (c : Chunk) :
    writeChunks [c] = (do let retval ← gsd_write_chunk c; checkError retval) := by
  simp [writeChunks]

theorem writeChunks_cons (c : Chunk) (cs : List Chunk) :
    writeChunks (c :: cs) =
      (do let retval ← gsd_write_chunk c; checkError retval; writeChunks cs) := rfl

theorem getWriter_bind {α : Type} (f : GSDDumpWriter → GsdM α) (s : Machine) :
    (getWriter >>= f) s = f s.writer s := rfl

theorem writeTypeMapping_eq (chunk : String) (type_mapping : List Label) :
    writeTypeMapping chunk type_mapping = writeChunks [typeMappingChunk chunk type_mapping] := by
  simp [writeTypeMapping, writeChunks, typeMappingChunk]

theorem writeProperties_eq (snapshot : SnapshotParticleData) (s : Machine) :
    writeProperties snapshot s = writeChunks (propertyChunks s.writer.m_group snapshot) s := by
  unfold writeProperties
  rw [getWriter_bind]
  simp only [propertyChunks, writeChunks_append, writeChunks_optChunk, writeChunks_singleton,
    gather, gather_buffer, anyMember, orientation_nondefault, bind_assoc, Bool.not_not]

theorem writeAttributes_eq (snapshot : SnapshotParticleData) (s : Machine) :
    writeAttributes snapshot s = writeChunks (attributeChunks s.writer.m_group snapshot) s := by
  unfold writeAttributes
  rw [getWriter_bind]
  simp only [attributeChunks, writeChunks_append, writeChunks_optChunk, writeChunks_singleton,
    writeTypeMapping_eq, gather, gather_buffer, anyMember, typeid_nondefault, mass_nondefault,
    charge_nondefault, diameter_nondefault, body_nondefault, inertia_nondefault,
    bind_assoc, Bool.not_not]

theorem writeMomenta_eq (snapshot : SnapshotParticleData) (s : Machine) :
    writeMomenta snapshot s = writeChunks (momentumChunks s.writer.m_group snapshot) s := by
  unfold writeMomenta
  rw [getWriter_bind]
  simp only [momentumChunks, writeChunks_append, writeChunks_optChunk, writeChunks_singleton,
    gather, gather_buffer, anyMember, velocity_nondefault, angmom_nondefault, image_nondefault,
    bind_assoc, Bool.not_not]

theorem writeChunks_ite (p : Prop) [Decidable p] (l : List Chunk) :
    writeChunks (if p then l else []) = (if p then writeChunks l else pure ()) := by
  split <;> rfl

theorem writeTopology_eq (bond angle dihedral improper : BondedSnapshot)
    (constraint : ConstraintSnapshot) :
    writeTopology bond angle dihedral improper constraint =
      writeChunks (topologyChunks bond angle dihedral improper constraint) := by
  unfold writeTopology topologyChunks bondedChunks constraintChunks
  simp only [writeChunks_append, writeTypeMapping_eq, writeChunks_ite, writeChunks_cons,
    writeChunks_nil, bind_assoc, bind_pure_comp, id_map', Functor.map_map]

/-! ## Reasoning about returning runs -/

theorem okPost_mono {α : Type} {m : GsdM α} {s : Machine} {Q Q1 : α → Machine → Prop}
    (h : okPost m s Q) (hq : ∀ a s1, Q a s1 → Q1 a s1) : okPost m s Q1 :=
  fun a s1 e => hq a s1 (h a s1 e)

theorem okPost_bind {α β : Type} (m : GsdM α) (f : α → GsdM β) (s : Machine)
    (Q : β → Machine → Prop) :
    okPost (m >>= f) s Q ↔ okPost m s (fun a s1 => okPost (f a) s1 Q) := by
  unfold okPost
  constructor
  · intro h a s1 e b s2 e2
    apply h
    rw [GsdM.bind_apply, e]
    exact e2
  · intro h b s2 e
    rw [GsdM.bind_apply] at e
    rcases hm : m s with ⟨r, s1⟩
    rw [hm] at e
    cases r with
    | error err => simp at e
    | ok a => exact h a s1 hm b s2 e

theorem okPost_pure {α : Type} (a : α) (s : Machine) (Q : α → Machine → Prop) :
    okPost (pure a) s Q ↔ Q a s := by
  unfold okPost
  constructor
  · intro h
    exact h a s rfl
  · intro h b s1 e
    have e2 : (Except.ok a, s) = (Except.ok b, s1) := e
    cases e2
    exact h

theorem okPost_ite {α : Type} (c : Prop) [Decidable c] (m n : GsdM α) (s : Machine)
    (Q : α → Machine → Prop) :
    okPost (if c then m else n) s Q ↔ (c → okPost m s Q) ∧ (¬ c → okPost n s Q) := by
  by_cases h : c <;> simp [h]

theorem okPost_throw {α : Type} (what : String) (s : Machine) (Q : α → Machine → Prop) :
    okPost (throw_runtime_error what) s Q ↔ True := by
  simp [okPost, throw_runtime_error]

theorem okPost_msg_error (line : String) (s : Machine) (Q : Unit → Machine → Prop) :
    okPost (msg_error line) s Q ↔ Q () { s with errlog := s.errlog ++ [line] } := by
  simp only [okPost, msg_error, Prod.mk.injEq, Except.ok.injEq]
  constructor
  · intro h
    exact h () _ ⟨trivial, rfl⟩
  · rintro h a s1 ⟨-, rfl⟩
    exact h

theorem okPost_getWriter (s : Machine) (Q : GSDDumpWriter → Machine → Prop) :
    okPost getWriter s Q ↔ Q s.writer s := by
  simp [okPost, getWriter]

theorem okPost_getStrerror (s : Machine) (Q : String → Machine → Prop) :
    okPost getStrerror s Q ↔ Q s.strerror_errno s := by
  simp [okPost, getStrerror]

theorem okPost_getVersionLong (s : Machine) (Q : String → Machine → Prop) :
    okPost getVersionLong s Q ↔ Q s.HOOMD_VERSION_LONG s := by
  simp [okPost, getVersionLong]

theorem okPost_filesystem_exists (s : Machine) (Q : Bool → Machine → Prop) :
    okPost filesystem_exists s Q ↔ Q s.disk.isSome s := by
  simp [okPost, filesystem_exists]

theorem okPost_set_m_is_initialized (b : Bool) (s : Machine) (Q : Unit → Machine → Prop) :
    okPost (set_m_is_initialized b) s Q ↔
      Q () { s with writer := { s.writer with m_is_initialized := b } } := by
  simp only [okPost, set_m_is_initialized, Prod.mk.injEq, Except.ok.injEq]
  constructor
  · intro h
    exact h () _ ⟨trivial, rfl⟩
  · rintro h a s1 ⟨-, rfl⟩
    exact h

theorem okPost_gsd_get_nframes (s : Machine) (Q : Nat → Machine → Prop) :
    okPost gsd_get_nframes s Q ↔
      Q s.writer.m_handle.frames.length
        { s with trace := s.trace ++ [GsdCall.gsd_get_nframes s.writer.m_handle.frames.length] } := by
  simp [okPost, gsd_get_nframes]

theorem okPost_checkError (retval : Int) (s : Machine) (Q : Unit → Machine → Prop) :
    okPost (checkError retval) s Q ↔ (retval = 0 → Q () s) := by
  unfold checkError
  by_cases h1 : retval = -1
  · simp [h1, okPost_bind, okPost_getWriter, okPost_getStrerror, okPost_msg_error, okPost_throw]
  · by_cases h0 : retval = 0
    · simp [h0, okPost_pure]
    · simp [h1, h0, okPost_bind, okPost_getWriter, okPost_msg_error, okPost_throw]

theorem Machine.written_nil (s : Machine) : s.written [] = s := by
  simp [Machine.written]

theorem Machine.written_written (s : Machine) (a b : List Chunk) :
    (s.written a).written b = s.written (a ++ b) := by
  simp [Machine.written, List.append_assoc]

theorem okPost_gsd_write_chunk (c : Chunk) (s : Machine) (Q : Int → Machine → Prop) :
    okPost (gsd_write_chunk c) s Q ↔
      Q (s.ret s.trace.length)
        (if s.ret s.trace.length = 0 then s.written [c]
         else { s with trace := s.trace ++ [GsdCall.gsd_write_chunk c (s.ret s.trace.length)] }) := by
  unfold okPost gsd_write_chunk
  by_cases h : s.ret s.trace.length = 0
  · simp [h, Machine.written]
  · simp [h]

theorem okPost_write_check (c : Chunk) (s : Machine) (Q : Unit → Machine → Prop) :
    okPost (do let retval ← gsd_write_chunk c; checkError retval) s Q ↔
      (s.ret s.trace.length = 0 → Q () (s.written [c])) := by
  rw [okPost_bind, okPost_gsd_write_chunk, okPost_checkError]
  constructor
  · intro h h0
    simpa [h0] using h h0
  · intro h h0
    simpa [h0] using h h0

theorem Machine.written_ret (s : Machine) (cs : List Chunk) : (s.written cs).ret = s.ret := rfl

theorem Machine.written_trace_length (s : Machine) (cs : List Chunk) :
    (s.written cs).trace.length = s.trace.length + cs.length := by
  simp [Machine.written]

theorem okPost_writeChunks (cs : List Chunk) (s : Machine) (Q : Unit → Machine → Prop) :
    okPost (writeChunks cs) s Q ↔
      ((∀ i, i < cs.length → s.ret (s.trace.length + i) = 0) → Q () (s.written cs)) := by
  induction cs generalizing s with
  | nil => simp [writeChunks_nil, okPost_pure, Machine.written_nil]
  | cons c cs ih =>
    rw [writeChunks_cons]
    have e : (do let retval ← gsd_write_chunk c; checkError retval; writeChunks cs) =
        ((do let retval ← gsd_write_chunk c; checkError retval) >>= fun _ => writeChunks cs) := by
      simp [bind_assoc]
    rw [e, okPost_bind, okPost_write_check]
    simp only [ih, Machine.written_ret, Machine.written_trace_length, Machine.written_written,
      List.length_cons, List.length_nil, List.singleton_append]
    constructor
    · intro h hall
      apply h (by simpa using hall 0 (by omega))
      intro i hi
      have := hall (i + 1) (by omega)
      rw [← this]
      congr 1
      omega
    · intro h h0 hall
      apply h
      intro i hi
      cases i with
      | zero => simpa using h0
      | succ j =>
        have := hall j (by omega)
        rw [← this]
        congr 1
        omega

theorem okPost_gsd_create (fname application schema : String) (v : Nat) (s : Machine)
    (Q : Int → Machine → Prop) :
    okPost (gsd_create fname application schema v) s Q ↔
      Q (s.ret s.trace.length)
        (if s.ret s.trace.length = 0 then
          { s with
              trace := s.trace ++ [GsdCall.gsd_create fname application schema v 0]
              disk := some ⟨⟨application, schema, v⟩, []⟩ }
         else
          { s with
              trace := s.trace ++
                [GsdCall.gsd_create fname application schema v (s.ret s.trace.length)] }) := by
  unfold okPost gsd_create
  by_cases h : s.ret s.trace.length = 0
  · simp [h]
  · simp [h]

theorem okPost_gsd_open_none (fname : String) (s : Machine) (Q : Int → Machine → Prop)
    (hd : s.disk = none) :
    okPost (gsd_open fname) s Q ↔
      Q (-1) { s with trace := s.trace ++ [GsdCall.gsd_open fname (-1)] } := by
  unfold okPost gsd_open
  simp [hd]

theorem okPost_gsd_open_some (fname : String) (s : Machine) (Q : Int → Machine → Prop)
    (f : GsdFile) (hd : s.disk = some f) :
    okPost (gsd_open fname) s Q ↔
      Q (s.ret s.trace.length)
        (if s.ret s.trace.length = 0 then
          { s with
              trace := s.trace ++ [GsdCall.gsd_open fname 0]
              writer := { s.writer with m_handle := ⟨f.header, f.frames, []⟩ } }
         else
          { s with trace := s.trace ++ [GsdCall.gsd_open fname (s.ret s.trace.length)] }) := by
  unfold okPost gsd_open
  by_cases h : s.ret s.trace.length = 0
  · simp [hd, h]
  · simp [hd, h]

theorem okPost_gsd_truncate (s : Machine) (Q : Int → Machine → Prop) :
    okPost gsd_truncate s Q ↔
      Q (s.ret s.trace.length)
        (if s.ret s.trace.length = 0 then
          { s with
              trace := s.trace ++ [GsdCall.gsd_truncate 0]
              disk := s.disk.map (fun f => { f with frames := [] })
              writer := { s.writer with
                m_handle := { s.writer.m_handle with frames := [], pending := [] } } }
         else
          { s with trace := s.trace ++ [GsdCall.gsd_truncate (s.ret s.trace.length)] }) := by
  unfold okPost gsd_truncate
  by_cases h : s.ret s.trace.length = 0
  · simp [h]
  · simp [h]

theorem okPost_gsd_end_frame (s : Machine) (Q : Int → Machine → Prop) :
    okPost gsd_end_frame s Q ↔
      Q (s.ret s.trace.length)
        (if s.ret s.trace.length = 0 then
          { s with
              trace := s.trace ++ [GsdCall.gsd_end_frame 0]
              disk := s.disk.map
                (fun f => { f with frames := f.frames ++ [s.writer.m_handle.pending] })
              writer := { s.writer with
                m_handle := { s.writer.m_handle with
                  frames := s.writer.m_handle.frames ++ [s.writer.m_handle.pending],
                  pending := [] } } }
         else
          { s with trace := s.trace ++ [GsdCall.gsd_end_frame (s.ret s.trace.length)] }) := by
  unfold okPost gsd_end_frame
  by_cases h : s.ret s.trace.length = 0
  · simp [h]
  · simp [h]

theorem gsd_open_post (fname : String) (s : Machine) :
    okPost (gsd_open fname) s (fun a s1 =>
      a = 0 → ∃ f, s.disk = some f ∧
        s1 = { s with
                trace := s.trace ++ [GsdCall.gsd_open fname 0]
                writer := { s.writer with m_handle := ⟨f.header, f.frames, []⟩ } }) := by
  rcases hd : s.disk with _ | f
  · rw [okPost_gsd_open_none fname s _ hd]
    intro h
    exact absurd h (by decide)
  · rw [okPost_gsd_open_some fname s _ f hd]
    intro h
    exact ⟨f, rfl, by simp [h, hd]⟩

/-- What holds when `initFileIO` returns: the settings and the result codes to
come are as before, the writer is initialized, and the handle refers to the
file on disk, whose schema passed the validation, with no frame in progress. -/
theorem initFileIO_post (s : Machine) :
    okPost initFileIO s (fun _ s1 =>
      s1.ret = s.ret ∧ s1.writer.settings = s.writer.settings ∧
      s1.writer.m_is_initialized = true ∧
      s1.writer.m_handle.pending = [] ∧
      s1.disk = some ⟨s1.writer.m_handle.header, s1.writer.m_handle.frames⟩ ∧
      s1.writer.m_handle.header.schema = "hoomd" ∧
      s1.writer.m_handle.header.schema_version < gsd_make_version 2 0) := by
  unfold initFileIO
  simp only [okPost_bind, okPost_getWriter, okPost_getStrerror, okPost_filesystem_exists,
    okPost_getVersionLong, okPost_ite, okPost_gsd_create, okPost_msg_error, okPost_throw,
    okPost_pure, okPost_set_m_is_initialized]
  refine ⟨fun _ => ⟨fun _ => trivial, fun h0 => ?_⟩, fun _ => ?_⟩
  · have h0 : s.ret s.trace.length = 0 := by simpa using h0
    rw [if_pos h0]
    refine okPost_mono (gsd_open_post _ _) ?_
    intro a s1 h
    refine ⟨fun _ => trivial, fun _ => ⟨fun _ => trivial, fun _ => ⟨fun _ => trivial, fun _ =>
      ⟨fun _ => trivial, fun _ => ⟨fun _ => trivial, fun _ => ⟨fun _ => trivial, fun ha => ?_⟩⟩⟩⟩⟩⟩
    have ha : a = 0 := by simpa using ha
    obtain ⟨f, hf, rfl⟩ := h ha
    refine ⟨fun _ => trivial, fun hs => ⟨fun _ => trivial, fun hv => ?_⟩⟩
    simp only [Option.some.injEq] at hf
    subst hf
    exact ⟨rfl, rfl, trivial, rfl, rfl, not_not.mp hs, not_le.mp hv⟩
  · refine okPost_mono (gsd_open_post _ _) ?_
    intro a s1 h
    refine ⟨fun _ => trivial, fun _ => ⟨fun _ => trivial, fun _ => ⟨fun _ => trivial, fun _ =>
      ⟨fun _ => trivial, fun _ => ⟨fun _ => trivial, fun _ => ⟨fun _ => trivial, fun ha => ?_⟩⟩⟩⟩⟩⟩
    have ha : a = 0 := by simpa using ha
    obtain ⟨f, hf, rfl⟩ := h ha
    refine ⟨fun _ => trivial, fun hs => ⟨fun _ => trivial, fun hv => ?_⟩⟩
    exact ⟨rfl, rfl, trivial, rfl, hf, not_not.mp hs, not_le.mp hv⟩

theorem okPost_write_check_bind {β : Type} (c : Chunk) (f : Unit → GsdM β) (s : Machine)
    (Q : β → Machine → Prop) :
    okPost (gsd_write_chunk c >>= fun retval => checkError retval >>= f) s Q ↔
      (s.ret s.trace.length = 0 → okPost (f ()) (s.written [c]) Q) := by
  have e : (gsd_write_chunk c >>= fun retval => checkError retval >>= f) =
      ((do let retval ← gsd_write_chunk c; checkError retval) >>= f) := by
    simp [bind_assoc]
  rw [e, okPost_bind, okPost_write_check]

theorem okPost_writeAttributes (snapshot : SnapshotParticleData) (s : Machine)
    (Q : Unit → Machine → Prop) :
    okPost (writeAttributes snapshot) s Q ↔
      okPost (writeChunks (attributeChunks s.writer.m_group snapshot)) s Q := by
  unfold okPost
  rw [writeAttributes_eq]

theorem okPost_writeProperties (snapshot : SnapshotParticleData) (s : Machine)
    (Q : Unit → Machine → Prop) :
    okPost (writeProperties snapshot) s Q ↔
      okPost (writeChunks (propertyChunks s.writer.m_group snapshot)) s Q := by
  unfold okPost
  rw [writeProperties_eq]

theorem okPost_writeMomenta (snapshot : SnapshotParticleData) (s : Machine)
    (Q : Unit → Machine → Prop) :
    okPost (writeMomenta snapshot) s Q ↔
      okPost (writeChunks (momentumChunks s.writer.m_group snapshot)) s Q := by
  unfold okPost
  rw [writeMomenta_eq]

theorem Machine.written_writer_settings (s : Machine) (cs : List Chunk) :
    (s.written cs).writer.settings = s.writer.settings := rfl

theorem Machine.written_m_group (s : Machine) (cs : List Chunk) :
    (s.written cs).writer.m_group = s.writer.m_group := rfl

theorem Machine.written_frames (s : Machine) (cs : List Chunk) :
    (s.written cs).writer.m_handle.frames = s.writer.m_handle.frames := rfl

theorem Machine.written_pending (s : Machine) (cs : List Chunk) :
    (s.written cs).writer.m_handle.pending = s.writer.m_handle.pending ++ cs := rfl

theorem Machine.written_is_initialized (s : Machine) (cs : List Chunk) :
    (s.written cs).writer.m_is_initialized = s.writer.m_is_initialized := rfl

theorem okPost_getWriter_bind {β : Type} (f : GSDDumpWriter → GsdM β) (s : Machine)
    (Q : β → Machine → Prop) :
    okPost (getWriter >>= f) s Q ↔ okPost (f s.writer) s Q := by
  rw [okPost_bind, okPost_getWriter]

theorem okPost_getStrerror_bind {β : Type} (f : String → GsdM β) (s : Machine)
    (Q : β → Machine → Prop) :
    okPost (getStrerror >>= f) s Q ↔ okPost (f s.strerror_errno) s Q := by
  rw [okPost_bind, okPost_getStrerror]

theorem okPost_gsd_get_nframes_bind {β : Type} (f : Nat → GsdM β) (s : Machine)
    (Q : β → Machine → Prop) :
    okPost (gsd_get_nframes >>= f) s Q ↔
      okPost (f s.writer.m_handle.frames.length)
        { s with trace := s.trace ++ [GsdCall.gsd_get_nframes s.writer.m_handle.frames.length] }
        Q := by
  rw [okPost_bind, okPost_gsd_get_nframes]

theorem okPost_ite_bind {α β : Type} (c : Prop) [Decidable c] (m n : GsdM α) (f : α → GsdM β)
    (s : Machine) (Q : β → Machine → Prop) :
    okPost ((if c then m else n) >>= f) s Q ↔
      (c → okPost m s (fun a s1 => okPost (f a) s1 Q)) ∧
      (¬ c → okPost n s (fun a s1 => okPost (f a) s1 Q)) := by
  rw [okPost_bind, okPost_ite]

/-- What holds when `writeFrameHeader` returns. -/
theorem writeFrameHeader_post (timestep : Nat) (sys : SystemDefinition) (s : Machine) :
    okPost (writeFrameHeader timestep sys) s (fun _ s1 =>
      s1.ret = s.ret ∧ s1.writer.settings = s.writer.settings ∧
      s1.writer.m_is_initialized = s.writer.m_is_initialized ∧
      s1.writer.m_handle.frames = s.writer.m_handle.frames ∧
      s1.writer.m_handle.pending = s.writer.m_handle.pending ++
        headerChunks s.writer.m_group s.writer.m_handle.frames.length timestep sys) := by
  unfold writeFrameHeader
  simp only [okPost_getWriter_bind, okPost_write_check_bind, okPost_write_check,
    okPost_gsd_get_nframes_bind, okPost_ite_bind, okPost_pure]
  intro _
  refine ⟨fun hn _ _ _ => ?_, fun hn _ _ => ?_⟩
  · have hn : s.writer.m_handle.frames.length = 0 := hn
    simp [Machine.written, headerChunks, optChunk, hn, GSDDumpWriter.settings]
  · have hn : ¬ s.writer.m_handle.frames.length = 0 := hn
    simp [Machine.written, headerChunks, optChunk, hn, GSDDumpWriter.settings]

theorem okPost_writeChunks_bind {β : Type} (cs : List Chunk) (f : Unit → GsdM β) (s : Machine)
    (Q : β → Machine → Prop) :
    okPost (writeChunks cs >>= f) s Q ↔
      ((∀ i, i < cs.length → s.ret (s.trace.length + i) = 0) →
        okPost (f ()) (s.written cs) Q) := by
  rw [okPost_bind, okPost_writeChunks]

theorem okPost_cond_bind {β : Type} (c : Prop) [Decidable c] (m : GsdM Unit) (cs : List Chunk)
    (f : Unit → GsdM β) (s : Machine) (Q : β → Machine → Prop)
    (hm : ∀ Q1, okPost m s Q1 ↔ okPost (writeChunks cs) s Q1) :
    okPost ((if c then m else pure ()) >>= f) s Q ↔
      ((∀ i, i < (if c then cs else []).length → s.ret (s.trace.length + i) = 0) →
        okPost (f ()) (s.written (if c then cs else [])) Q) := by
  by_cases h : c
  · simp only [h, if_true]
    rw [okPost_bind, hm, ← okPost_bind, okPost_writeChunks_bind]
  · simp only [h, if_false]
    rw [okPost_bind, okPost_pure]
    simp [Machine.written_nil]

theorem GSDDumpWriter.settings_with_handle (w : GSDDumpWriter) (h : gsd_handle) :
    ({ w with m_handle := h }).settings = w.settings := rfl

/-- What holds when `analyze` returns on the root rank, provided no frame was
left in progress by an earlier call: the call has added one frame to the
frames seen through the handle, and that frame is `frameChunks` for the number
of frames before it. -/
theorem analyze_post (timestep : Nat) (sys : SystemDefinition) (s : Machine)
    (hroot : sys.isRoot = true)
    (hp : s.writer.m_is_initialized = true → s.writer.m_truncate = false →
      s.writer.m_handle.pending = []) :
    okPost (analyze timestep sys) s (fun _ s1 =>
      ∃ pre, s1.writer.m_handle.frames = pre ++ [frameChunks s.writer pre.length timestep sys] ∧
        (s.writer.m_truncate = true → pre = []) ∧
        (s.writer.m_is_initialized = true → s.writer.m_truncate = false →
          pre = s.writer.m_handle.frames) ∧
        s1.writer.settings = s.writer.settings ∧
        s1.writer.m_is_initialized = true ∧
        s1.writer.m_handle.pending = [] ∧
        s1.ret = s.ret) := by
  unfold analyze
  simp only [okPost_getWriter_bind, okPost_getStrerror_bind, hroot, Bool.and_true]
  -- opening
  rw [okPost_bind]
  refine okPost_mono (Q := fun _ s1 => s1.ret = s.ret ∧ s1.writer.settings = s.writer.settings ∧
      s1.writer.m_is_initialized = true ∧
      (s.writer.m_truncate = false → s1.writer.m_handle.pending = []) ∧
      (s.writer.m_is_initialized = true → s1.writer.m_handle.frames = s.writer.m_handle.frames))
    ?_ ?_
  · rw [okPost_ite]
    constructor
    · intro hi
      refine okPost_mono (initFileIO_post s) ?_
      intro _ s1 h
      have hi : s.writer.m_is_initialized = false := by simpa using hi
      exact ⟨h.1, h.2.1, h.2.2.1, fun _ => h.2.2.2.1, fun h1 => by simp [hi] at h1⟩
    · intro hi
      rw [okPost_pure]
      have hi : s.writer.m_is_initialized = true := by simpa using hi
      exact ⟨rfl, rfl, hi, hp hi, fun _ => rfl⟩
  intro _ s1 h1
  -- truncation
  rw [okPost_bind]
  refine okPost_mono (Q := fun _ s2 => s2.ret = s.ret ∧ s2.writer.settings = s.writer.settings ∧
      s2.writer.m_is_initialized = true ∧ s2.writer.m_handle.pending = [] ∧
      (s.writer.m_truncate = true → s2.writer.m_handle.frames = []) ∧
      (s.writer.m_truncate = false → s2.writer.m_handle.frames = s1.writer.m_handle.frames))
    ?_ ?_
  · rw [okPost_ite]
    constructor
    · intro ht
      rw [okPost_bind, okPost_gsd_truncate]
      simp only [okPost_ite, okPost_bind, okPost_msg_error, okPost_throw, okPost_pure]
      refine ⟨fun _ => trivial, fun _ => ⟨fun _ => trivial, fun _ => ⟨fun _ => trivial, fun _ =>
        ⟨fun _ => trivial, fun _ => ⟨fun _ => trivial, fun _ => ⟨fun _ => trivial, fun h0 => ?_⟩⟩⟩⟩⟩⟩
      have h0 : s1.ret s1.trace.length = 0 := by simpa using h0
      rw [if_pos h0]
      exact ⟨h1.1, h1.2.1, h1.2.2.1, rfl, fun _ => rfl, fun hf => by simp [hf] at ht⟩
    · intro ht
      rw [okPost_pure]
      have ht : s.writer.m_truncate = false := by simpa using ht
      exact ⟨h1.1, h1.2.1, h1.2.2.1, h1.2.2.2.1 ht, fun h => by simp [ht] at h, fun _ => rfl⟩
  intro _ s2 h2
  -- the frame
  obtain ⟨hret, hset, hinit, hpend, hft, hff⟩ := h2
  have hg : s2.writer.m_group = s.writer.m_group := by
    have := congrArg (fun p => p.2.2.2.2.2.2.2) hset
    exact this
  simp only [if_true, bind_assoc, okPost_gsd_get_nframes_bind]
  rw [okPost_bind]
  refine okPost_mono (writeFrameHeader_post _ _ _) ?_
  intro _ s3 h3
  obtain ⟨h3ret, h3set, h3init, h3fr, h3pend⟩ := h3
  have h3g : s3.writer.m_group = s.writer.m_group := by
    have := congrArg (fun p => p.2.2.2.2.2.2.2) h3set
    exact this.trans hg
  rw [okPost_cond_bind _ _ _ _ _ _ (fun Q1 => okPost_writeAttributes _ _ Q1)]
  intro _
  rw [okPost_cond_bind _ _ _ _ _ _ (fun Q1 => okPost_writeProperties _ _ Q1)]
  intro _
  rw [okPost_cond_bind _ _ _ _ _ _ (fun Q1 => okPost_writeMomenta _ _ Q1)]
  intro _
  rw [writeTopology_eq, okPost_cond_bind _ _ _ _ _ _ (fun Q1 => Iff.rfl)]
  intro _
  rw [okPost_bind, okPost_gsd_end_frame, okPost_checkError]
  intro h0
  rw [if_pos h0]
  refine ⟨s2.writer.m_handle.frames, ?_, hft, ?_, ?_, ?_, rfl, ?_⟩
  · simp only [Machine.written_frames, Machine.written_pending, Machine.written_m_group,
      h3fr, h3pend, hpend, List.nil_append, h3g, hg, frameChunks, bodyChunks,
      List.append_assoc]
  · intro hi ht
    rw [hff ht]
    exact h1.2.2.2.2 hi
  · simp only [GSDDumpWriter.settings_with_handle, Machine.written_writer_settings]
    exact h3set.trans hset
  · simp only [Machine.written_is_initialized]
    exact h3init.trans hinit
  · simp only [Machine.written_ret]
    exact h3ret.trans hret

/-! ## Type tables -/

theorem type_table_row_length (n : Nat) (src : Label) : (type_table_row n src).length = n := by
  simp only [type_table_row, List.length_append, List.length_replicate, List.length_take]
  omega

theorem strncpy_eq (dest : List Nat) (pos : Nat) (src : Label) (n : Nat) :
    strncpy dest pos src n = dest.take pos ++ type_table_row n src ++ dest.drop (pos + n) := rfl

/-- The first loop of `writeTypeMapping` after `k` rounds. -/
theorem max_len_loop_succ (type_mapping : List Label) (k : Nat) :
    (List.range (k + 1)).foldl
        (fun max_len i => max max_len (type_mapping.getD i []).length) 0 =
      max ((List.range k).foldl
        (fun max_len i => max max_len (type_mapping.getD i []).length) 0)
        (type_mapping.getD k []).length := by
  simp [List.range_succ, List.foldl_append]

theorem max_len_loop_ge (type_mapping : List Label) (k i : Nat) (hi : i < k) :
    (type_mapping.getD i []).length ≤
      (List.range k).foldl (fun max_len i => max max_len (type_mapping.getD i []).length) 0 := by
  induction k with
  | zero => omega
  | succ k ih =>
    rw [max_len_loop_succ]
    by_cases h : i < k
    · exact le_trans (ih h) (le_max_left _ _)
    · have : i = k := by omega
      subst this
      exact le_max_right _ _

theorem max_len_loop_attained (type_mapping : List Label) (k : Nat) (hk : 0 < k) :
    ∃ i, i < k ∧ (type_mapping.getD i []).length =
      (List.range k).foldl (fun max_len i => max max_len (type_mapping.getD i []).length) 0 := by
  induction k with
  | zero => omega
  | succ k ih =>
    rw [max_len_loop_succ]
    rcases Nat.eq_zero_or_pos k with h0 | hpos
    · subst h0
      exact ⟨0, by omega, by simp⟩
    · obtain ⟨i, hi, he⟩ := ih hpos
      rcases le_total ((List.range k).foldl
          (fun max_len i => max max_len (type_mapping.getD i []).length) 0)
          (type_mapping.getD k []).length with h | h
      · exact ⟨k, by omega, by rw [max_eq_right h]⟩
      · exact ⟨i, by omega, by rw [max_eq_left h, he]⟩

theorem table_width_gt (type_mapping : List Label) (l : Label)
    (hl : l ∈ type_mapping) : l.length + 1 ≤ table_width type_mapping := by
  obtain ⟨i, hi, rfl⟩ := List.getElem_of_mem hl
  have := max_len_loop_ge type_mapping type_mapping.length i hi
  rw [List.getD_eq_getElem _ _ hi] at this
  unfold table_width
  omega

theorem table_width_attained (type_mapping : List Label) (hne : type_mapping ≠ []) :
    ∃ l, l ∈ type_mapping ∧ l.length + 1 = table_width type_mapping := by
  have hpos : 0 < type_mapping.length := List.length_pos.mpr hne
  obtain ⟨i, hi, he⟩ := max_len_loop_attained type_mapping type_mapping.length hpos
  rw [List.getD_eq_getElem _ _ hi] at he
  exact ⟨type_mapping[i], List.getElem_mem _, by unfold table_width; omega⟩

theorem uint_to_int32_small (n : Nat) (h : n < 2 ^ 31) : uint_to_int32 n = (n : Int) := by
  unfold uint_to_int32
  have h1 : n % 2 ^ 32 = n := Nat.mod_eq_of_lt (by omega)
  simp only [h1]
  rw [if_pos h]

/-- The first loop of `writeTypeMapping` in `int` and in unbounded numbers
agree while every size fits an `int`. -/
theorem max_len_loop_int (type_mapping : List Label) (k : Nat)
    (hlen : ∀ i, i < k → (type_mapping.getD i []).length < 2 ^ 31) :
    (List.range k).foldl
        (fun (max_len : Int) i => max max_len (uint_to_int32 (type_mapping.getD i []).length)) 0 =
      (((List.range k).foldl
        (fun max_len i => max max_len (type_mapping.getD i []).length) 0 : Nat) : Int) := by
  induction k with
  | zero => rfl
  | succ k ih =>
    rw [List.range_succ, List.foldl_append, List.foldl_append, ih (fun i hi => hlen i (by omega))]
    simp only [List.foldl_cons, List.foldl_nil]
    rw [uint_to_int32_small _ (hlen k (by omega))]
    push_cast
    rfl

theorem table_width_lt (labels : List Label) (hlen : ∀ l ∈ labels, l.length + 1 < 2 ^ 31) :
    table_width labels < 2 ^ 31 := by
  rcases labels with _ | ⟨l, ls⟩
  · decide
  · obtain ⟨l1, hl1, he⟩ := table_width_attained (l :: ls) (by simp)
    rw [← he]
    exact hlen l1 hl1

/-- While every label is shorter than 2^31 - 1 bytes, `max_len` is the width
of the specification. -/
theorem type_mapping_max_len_eq (labels : List Label)
    (hlen : ∀ l ∈ labels, l.length + 1 < 2 ^ 31) :
    type_mapping_max_len labels = (table_width labels : Int) := by
  have hw := table_width_lt labels hlen
  have h1 := max_len_loop_int labels labels.length (fun i hi => by
    rw [List.getD_eq_getElem _ _ hi]
    have := hlen _ (List.getElem_mem (h := hi) ..)
    omega)
  unfold type_mapping_max_len
  simp only [h1]
  unfold table_width at hw ⊢
  have e : (((((List.range labels.length).foldl
      (fun max_len i => max max_len (labels.getD i []).length) 0 : Nat) : Int) + 1) % 2 ^ 32).toNat
      = (List.range labels.length).foldl
        (fun max_len i => max max_len (labels.getD i []).length) 0 + 1 := by
    omega
  rw [e, uint_to_int32_small _ hw]

theorem flatten_rows_length (w : Nat) (rows : List (List Nat))
    (h : ∀ r ∈ rows, r.length = w) : rows.flatten.length = w * rows.length := by
  induction rows with
  | nil => simp
  | cons r rs ih =>
    simp only [List.flatten_cons, List.length_append, List.length_cons]
    rw [ih (fun r hr => h r (List.mem_cons_of_mem _ hr)), h r (List.mem_cons_self _ _)]
    ring

/-- The second loop of `writeTypeMapping` after `k` rounds: the first `k` rows
are filled, the rest of the buffer is still zero. -/
theorem types_loop (w : Nat) (type_mapping : List Label) (k : Nat)
    (hk : k ≤ type_mapping.length) :
    (List.range k).foldl
        (fun types i => strncpy types (w * i) (type_mapping.getD i []) w)
        (List.replicate (w * type_mapping.length) 0) =
      ((type_mapping.take k).map (type_table_row w)).flatten ++
        List.replicate (w * (type_mapping.length - k)) 0 := by
  induction k with
  | zero => simp
  | succ k ih =>
    have hk1 : k < type_mapping.length := hk
    rw [List.range_succ, List.foldl_append, ih (by omega)]
    simp only [List.foldl_cons, List.foldl_nil, strncpy_eq]
    have hlen : (((type_mapping.take k).map (type_table_row w)).flatten).length = w * k := by
      rw [flatten_rows_length w]
      · simp [Nat.min_eq_left (Nat.le_of_lt hk1)]
      · intro r hr
        obtain ⟨l, -, rfl⟩ := List.mem_map.mp hr
        exact type_table_row_length w l
    rw [List.take_append_of_le_length (by omega), List.take_of_length_le (by omega)]
    rw [List.drop_append_eq_append_drop, List.drop_of_length_le (by omega), hlen,
      List.drop_replicate, List.take_succ, List.getElem?_eq_getElem hk1,
      List.getD_eq_getElem _ _ hk1]
    simp only [Option.toList, List.map_append, List.map_cons, List.map_nil, List.flatten_append,
      List.flatten_cons, List.flatten_nil, List.append_nil, List.nil_append, List.append_assoc]
    congr 3
    have : w * (type_mapping.length - k) = w * (type_mapping.length - (k + 1)) + w := by
      have : type_mapping.length - k = (type_mapping.length - (k + 1)) + 1 := by omega
      rw [this]
      ring
    omega

/-- The second loop of `writeTypeMapping` with its machine arithmetic, while
the offsets fit 32 bits. -/
theorem types_loop_int (w : Nat) (type_mapping : List Label) (data : List Nat) (k : Nat)
    (hk : w * k < 2 ^ 32 ∨ k = 0) :
    (List.range k).foldl
        (fun types i => strncpy types (((w : Int) * i) % 2 ^ 32).toNat (type_mapping.getD i [])
          ((w : Int) % 2 ^ 64).toNat) data =
      (List.range k).foldl
        (fun types i => strncpy types (w * i) (type_mapping.getD i []) w) data := by
  induction k with
  | zero => rfl
  | succ k ih =>
    have hk1 : w * (k + 1) < 2 ^ 32 := by
      rcases hk with h | h
      · exact h
      · omega
    have hwk : w * k < 2 ^ 32 := by
      have : w * k ≤ w * (k + 1) := Nat.mul_le_mul_left w (by omega)
      omega
    rw [List.range_succ, List.foldl_append, List.foldl_append, ih (Or.inl hwk)]
    simp only [List.foldl_cons, List.foldl_nil]
    have hw : w < 2 ^ 32 := by
      have : w * 1 ≤ w * (k + 1) := Nat.mul_le_mul_left w (by omega)
      omega
    have e1 : (((w : Int) * (k : Int)) % 2 ^ 32).toNat = w * k := by
      have : ((w : Int) * (k : Int)) = ((w * k : Nat) : Int) := by push_cast; rfl
      rw [this]
      omega
    have e2 : ((w : Int) % 2 ^ 64).toNat = w := by omega
    rw [e1, e2]

/-- While every label is shorter than 2^31 - 1 bytes and the table is smaller
than 2^32 bytes, the buffer `types` holds the rows of the labels one after the
other. -/
theorem type_mapping_types_eq (type_mapping : List Label)
    (hlen : ∀ l ∈ type_mapping, l.length + 1 < 2 ^ 31)
    (hsize : table_width type_mapping * type_mapping.length < 2 ^ 32) :
    type_mapping_types type_mapping =
      (type_mapping.map (type_table_row (table_width type_mapping))).flatten := by
  unfold type_mapping_types
  simp only [type_mapping_max_len_eq type_mapping hlen]
  have e : (((table_width type_mapping : Int) * (type_mapping.length : Int)) % 2 ^ 64).toNat =
      table_width type_mapping * type_mapping.length := by
    have : ((table_width type_mapping : Int) * (type_mapping.length : Int)) =
        ((table_width type_mapping * type_mapping.length : Nat) : Int) := by push_cast; rfl
    rw [this]
    omega
  rw [e, types_loop_int _ _ _ _ (Or.inl hsize), types_loop _ _ _ (le_refl _)]
  simp

/-- Within these bounds the number of columns handed to `gsd_write_chunk` is
the width of the specification. -/
theorem type_mapping_columns_eq (labels : List Label)
    (hlen : ∀ l ∈ labels, l.length + 1 < 2 ^ 31) :
    (type_mapping_max_len labels % 2 ^ 32).toNat = table_width labels := by
  rw [type_mapping_max_len_eq labels hlen]
  have := table_width_lt labels hlen
  omega

theorem type_table_row_of_no_zero (w : Nat) (l : Label) (hz : 0 ∉ l) (hw : l.length ≤ w) :
    type_table_row w l = l ++ List.replicate (w - l.length) 0 := by
  have h1 : l.takeWhile (fun b => b != 0) = l := by
    rw [List.takeWhile_eq_self_iff]
    intro b hb
    have : b ≠ 0 := fun h => hz (h ▸ hb)
    simpa using this
  unfold type_table_row
  rw [h1, List.take_of_length_le hw]

theorem flatten_rows_getD (w : Nat) (rows : List (List Nat))
    (h : ∀ r ∈ rows, r.length = w) (i : Nat) (hi : i < rows.length) (j : Nat) (hj : j < w)
    (d : Nat) :
    rows.flatten.getD (i * w + j) d = (rows[i]).getD j d := by
  induction rows generalizing i with
  | nil => simp at hi
  | cons r rs ih =>
    have hr : r.length = w := h r (List.mem_cons_self _ _)
    cases i with
    | zero =>
      simp only [List.flatten_cons, Nat.zero_mul, Nat.zero_add, List.getElem_cons_zero]
      rw [List.getD_eq_getElem?_getD, List.getD_eq_getElem?_getD,
        List.getElem?_append_left (by omega)]
    | succ i =>
      simp only [List.flatten_cons, List.getElem_cons_succ]
      rw [List.getD_eq_getElem?_getD, List.getElem?_append_right (by rw [hr]; nlinarith)]
      have e : (i + 1) * w + j - r.length = i * w + j := by
        rw [hr, Nat.add_mul]
        omega
      rw [e, ← List.getD_eq_getElem?_getD]
      exact ih (fun r hr => h r (List.mem_cons_of_mem _ hr)) i (by simpa using hi)

theorem writeTypeMapping_trace (chunk : String) (type_mapping : List Label) (s : Machine) :
    (writeTypeMapping chunk type_mapping s).2.trace =
      s.trace ++ [GsdCall.gsd_write_chunk (typeMappingChunk chunk type_mapping)
        (s.ret s.trace.length)] := by
  unfold writeTypeMapping
  rw [GsdM.bind_apply]
  unfold gsd_write_chunk checkError
  by_cases h0 : s.ret s.trace.length = 0
  · simp only [h0, typeMappingChunk, if_true, if_false, Int.reduceNeg, Int.reduceEq,
      ne_eq, not_true_eq_false]
    rfl
  · by_cases h1 : s.ret s.trace.length = -1
    · simp [h1, typeMappingChunk, GsdM.bind_apply, getWriter, getStrerror, msg_error,
        throw_runtime_error]
    · simp [h0, h1, typeMappingChunk, GsdM.bind_apply, getWriter, msg_error,
        throw_runtime_error]

/-- The layout of the type table within the bounds of the machine arithmetic.
For a non-empty list of labels without zero bytes, each shorter than 2^31 - 1
bytes, whose table is smaller than 2^32 bytes, `writeTypeMapping` makes
exactly one `gsd_write_chunk` call; the chunk has the given name and type
uint8, as many rows as there are labels, and `w` columns where `w` is one more
than the greatest label length; its payload has rows times `w` bytes, and byte
`j` of row `i`, at offset `i * w + j`, is byte `j` of label `i` when the label
has one and zero otherwise. -/
theorem writeTypeMapping_layout (chunk : String) (labels : List Label) (s : Machine)
    (hne : labels ≠ []) (hz : ∀ l ∈ labels, 0 ∉ l)
    (hlen : ∀ l ∈ labels, l.length + 1 < 2 ^ 31)
    (hsize : table_width labels * labels.length < 2 ^ 32) :
    ∃ w bytes,
      (writeTypeMapping chunk labels s).2.trace =
        s.trace ++ [GsdCall.gsd_write_chunk
          ⟨chunk, GsdType.GSD_TYPE_UINT8, labels.length, w, Payload.u8 bytes⟩
          (s.ret s.trace.length)] ∧
      (∀ l ∈ labels, l.length + 1 ≤ w) ∧
      (∃ l ∈ labels, l.length + 1 = w) ∧
      bytes.length = labels.length * w ∧
      ∀ i (hi : i < labels.length) j, j < w →
        bytes.getD (i * w + j) 1 = (labels.get ⟨i, hi⟩).getD j 0 := by
  refine ⟨table_width labels, type_mapping_types labels, ?_, table_width_gt labels,
    table_width_attained labels hne, ?_, ?_⟩
  · rw [writeTypeMapping_trace, typeMappingChunk, type_mapping_columns_eq labels hlen]
  · rw [type_mapping_types_eq labels hlen hsize, flatten_rows_length (table_width labels)]
    · simp [Nat.mul_comm]
    · intro r hr
      obtain ⟨l, -, rfl⟩ := List.mem_map.mp hr
      exact type_table_row_length _ l
  · intro i hi j hj
    rw [type_mapping_types_eq labels hlen hsize, flatten_rows_getD (table_width labels) _ _ i
      (by simpa using hi) j hj]
    · have hl : labels[i] ∈ labels := List.getElem_mem _
      have hw := table_width_gt labels _ hl
      simp only [List.getElem_map, List.get_eq_getElem]
      rw [type_table_row_of_no_zero _ _ (hz _ hl) (by omega)]
      by_cases hjl : j < (labels[i]).length
      · rw [List.getD_eq_getElem _ _ (by simp; omega), List.getD_eq_getElem _ _ hjl,
          List.getElem_append_left hjl]
      · rw [List.getD_eq_getElem _ _ (by simp; omega), List.getD_eq_default _ _ (by omega),
          List.getElem_append_right (by omega)]
        simp
    · intro r hr
      obtain ⟨l, -, rfl⟩ := List.mem_map.mp hr
      exact type_table_row_length _ l

/-- The layout at the labels "A" and "BC" for the chunk `particles/types`. -/
theorem writeTypeMapping_layout_example :
    ∃ w bytes,
      (writeTypeMapping "particles/types" [[65], [66, 67]] exampleMachine).2.trace =
        exampleMachine.trace ++ [GsdCall.gsd_write_chunk
          ⟨"particles/types", GsdType.GSD_TYPE_UINT8,
            ([[65], [66, 67]] : List Label).length, w, Payload.u8 bytes⟩
          (exampleMachine.ret exampleMachine.trace.length)] ∧
      (∀ l ∈ ([[65], [66, 67]] : List Label), l.length + 1 ≤ w) ∧
      (∃ l ∈ ([[65], [66, 67]] : List Label), l.length + 1 = w) ∧
      bytes.length = ([[65], [66, 67]] : List Label).length * w ∧
      ∀ i (hi : i < ([[65], [66, 67]] : List Label).length) j, j < w →
        bytes.getD (i * w + j) 1 = (([[65], [66, 67]] : List Label).get ⟨i, hi⟩).getD j 0 :=
  writeTypeMapping_layout "particles/types" [[65], [66, 67]] exampleMachine
    (by decide) (by decide) (by decide) (by decide)

theorem rows_of_flatten (w : Nat) (rows : List (List Nat)) (h : ∀ r ∈ rows, r.length = w) :
    (List.range rows.length).map (fun i => (rows.flatten.drop (i * w)).take w) = rows := by
  induction rows with
  | nil => simp
  | cons r rs ih =>
    have hr : r.length = w := h r (List.mem_cons_self _ _)
    rw [List.length_cons, List.range_succ_eq_map, List.map_cons, List.map_map]
    congr 1
    · simp [hr.symm]
    · refine Eq.trans (List.map_congr_left ?_) (ih (fun r hr => h r (List.mem_cons_of_mem _ hr)))
      intro i _
      simp only [Function.comp, List.flatten_cons]
      rw [List.drop_append_eq_append_drop, List.drop_of_length_le (by rw [hr]; nlinarith)]
      have e : (i + 1) * w - r.length = i * w := by
        rw [hr, Nat.add_mul]
        omega
      rw [e, List.nil_append]

theorem takeWhile_type_table_row (w : Nat) (l : Label) (hz : 0 ∉ l) (hw : l.length ≤ w) :
    (type_table_row w l).takeWhile (fun b => b != 0) = l := by
  rw [type_table_row_of_no_zero w l hz hw, List.takeWhile_append_of_pos]
  · simp [List.takeWhile_replicate]
  · intro b hb
    have : b ≠ 0 := fun h => hz (h ▸ hb)
    simpa using this

theorem decodeTypeChunk_typeMappingChunk (chunk : String) (labels : List Label)
    (hz : ∀ l ∈ labels, 0 ∉ l) (hlen : ∀ l ∈ labels, l.length + 1 < 2 ^ 31)
    (hsize : table_width labels * labels.length < 2 ^ 32) :
    decodeTypeChunk (typeMappingChunk chunk labels) = labels := by
  simp only [decodeTypeChunk, typeMappingChunk, decodeTypeTable]
  rw [type_mapping_types_eq labels hlen hsize, type_mapping_columns_eq labels hlen]
  have hrows : ∀ r ∈ labels.map (type_table_row (table_width labels)),
      r.length = table_width labels := by
    intro r hr
    obtain ⟨l, -, rfl⟩ := List.mem_map.mp hr
    exact type_table_row_length _ l
  have e := rows_of_flatten (table_width labels) _ hrows
  rw [List.length_map] at e
  have e2 := congrArg (List.map (fun r => r.takeWhile (fun b => b != 0))) e
  rw [List.map_map, List.map_map] at e2
  refine Eq.trans ?_ (Eq.trans e2 ?_)
  · rfl
  · conv_rhs => rw [← List.map_id labels]
    apply List.map_congr_left
    intro l hl
    exact takeWhile_type_table_row _ l (hz l hl)
      (by have := table_width_gt labels l hl; omega)

/-- C9 as stated fails.  For the single label with the bytes 65, 0, 66 the
table written by `writeTypeMapping` reads back as the label with the one
byte 65. -/
theorem type_table_round_trip_counterexample :
    ∃ c, (writeTypeMapping "particles/types" [[65, 0, 66]] exampleMachine).2.trace =
        exampleMachine.trace ++ [GsdCall.gsd_write_chunk c 0] ∧
      decodeTypeChunk c = [[65]] ∧ decodeTypeChunk c ≠ [[65, 0, 66]] :=
  ⟨typeMappingChunk "particles/types" [[65, 0, 66]],
    writeTypeMapping_trace "particles/types" [[65, 0, 66]] exampleMachine,
    by decide, by decide⟩

/-- C9, amended.  For every ordered list of labels none of which contains a
zero byte (labels of length 0, a single label, many labels and the empty list
included), each label shorter than 2^31 - 1 bytes and the table, the number of
labels times one more than the greatest label length, smaller than 2^32
bytes, `writeTypeMapping` makes exactly one `gsd_write_chunk` call, and
reading the rows of that chunk up to their first zero byte gives back the
labels in their order. -/
theorem type_table_round_trip (chunk : String) (labels : List Label) (s : Machine)
    (hz : ∀ l ∈ labels, 0 ∉ l) (hlen : ∀ l ∈ labels, l.length + 1 < 2 ^ 31)
    (hsize : table_width labels * labels.length < 2 ^ 32) :
    ∃ c, (writeTypeMapping chunk labels s).2.trace =
        s.trace ++ [GsdCall.gsd_write_chunk c (s.ret s.trace.length)] ∧
      decodeTypeChunk c = labels :=
  ⟨typeMappingChunk chunk labels, writeTypeMapping_trace chunk labels s,
    decodeTypeChunk_typeMappingChunk chunk labels hz hlen hsize⟩

/-- C9, amended, at the labels "", "A", "BCD" and "". -/
theorem type_table_round_trip_witness :
    (∀ l ∈ ([[], [65], [66, 67, 68], []] : List Label), 0 ∉ l) ∧
    (∀ l ∈ ([[], [65], [66, 67, 68], []] : List Label), l.length + 1 < 2 ^ 31) ∧
    table_width [[], [65], [66, 67, 68], []] *
      ([[], [65], [66, 67, 68], []] : List Label).length < 2 ^ 32 ∧
    ∃ c, (writeTypeMapping "bonds/types" [[], [65], [66, 67, 68], []] exampleMachine).2.trace =
        exampleMachine.trace ++
          [GsdCall.gsd_write_chunk c (exampleMachine.ret exampleMachine.trace.length)] ∧
      decodeTypeChunk c = [[], [65], [66, 67, 68], []] :=
  ⟨by decide, by decide, by decide,
    type_table_round_trip "bonds/types" [[], [65], [66, 67, 68], []] exampleMachine
      (by decide) (by decide) (by decide)⟩

/-! ## Reasoning about all runs -/

theorem contPost_ok {α β : Type} (f : α → GsdM β) (Q : Except runtime_error β → Machine → Prop)
    (a : α) (s : Machine) : contPost f Q (Except.ok a) s = post (f a) s Q := rfl

theorem contPost_error {α β : Type} (f : α → GsdM β)
    (Q : Except runtime_error β → Machine → Prop) (e : runtime_error) (s : Machine) :
    contPost f Q (Except.error e) s = Q (Except.error e) s := rfl

theorem post_bind {α β : Type} (m : GsdM α) (f : α → GsdM β) (s : Machine)
    (Q : Except runtime_error β → Machine → Prop) :
    post (m >>= f) s Q ↔ post m s (contPost f Q) := by
  unfold post
  rw [GsdM.bind_apply]
  rcases h : m s with ⟨r, s1⟩
  cases r <;> rfl

theorem post_pure {α : Type} (a : α) (s : Machine)
    (Q : Except runtime_error α → Machine → Prop) :
    post (pure a) s Q ↔ Q (Except.ok a) s := Iff.rfl

theorem post_throw {α : Type} (what : String) (s : Machine)
    (Q : Except runtime_error α → Machine → Prop) :
    post (throw_runtime_error what) s Q ↔ Q (Except.error ⟨what⟩) s := Iff.rfl

theorem post_ite {α : Type} (c : Prop) [Decidable c] (m n : GsdM α) (s : Machine)
    (Q : Except runtime_error α → Machine → Prop) :
    post (if c then m else n) s Q ↔ (c → post m s Q) ∧ (¬ c → post n s Q) := by
  by_cases h : c <;> simp [h]

theorem post_msg_error (line : String) (s : Machine)
    (Q : Except runtime_error Unit → Machine → Prop) :
    post (msg_error line) s Q ↔ Q (Except.ok ()) { s with errlog := s.errlog ++ [line] } :=
  Iff.rfl

theorem post_getWriter (s : Machine) (Q : Except runtime_error GSDDumpWriter → Machine → Prop) :
    post getWriter s Q ↔ Q (Except.ok s.writer) s := Iff.rfl

theorem post_getStrerror (s : Machine) (Q : Except runtime_error String → Machine → Prop) :
    post getStrerror s Q ↔ Q (Except.ok s.strerror_errno) s := Iff.rfl

theorem post_getVersionLong (s : Machine) (Q : Except runtime_error String → Machine → Prop) :
    post getVersionLong s Q ↔ Q (Except.ok s.HOOMD_VERSION_LONG) s := Iff.rfl

theorem post_filesystem_exists (s : Machine) (Q : Except runtime_error Bool → Machine → Prop) :
    post filesystem_exists s Q ↔ Q (Except.ok s.disk.isSome) s := Iff.rfl

theorem post_set_m_is_initialized (b : Bool) (s : Machine)
    (Q : Except runtime_error Unit → Machine → Prop) :
    post (set_m_is_initialized b) s Q ↔
      Q (Except.ok ()) { s with writer := { s.writer with m_is_initialized := b } } := Iff.rfl

theorem post_gsd_create (fname application schema : String) (v : Nat) (s : Machine)
    (Q : Except runtime_error Int → Machine → Prop) :
    post (gsd_create fname application schema v) s Q ↔
      Q (Except.ok (s.ret s.trace.length))
        (if s.ret s.trace.length = 0 then
          { s with
              trace := s.trace ++ [GsdCall.gsd_create fname application schema v 0]
              disk := some ⟨⟨application, schema, v⟩, []⟩ }
         else
          { s with
              trace := s.trace ++
                [GsdCall.gsd_create fname application schema v (s.ret s.trace.length)] }) := by
  unfold post gsd_create
  by_cases h : s.ret s.trace.length = 0
  · simp [h]
  · simp [h]

theorem post_gsd_open_none (fname : String) (s : Machine)
    (Q : Except runtime_error Int → Machine → Prop) (hd : s.disk = none) :
    post (gsd_open fname) s Q ↔
      Q (Except.ok (-1)) { s with trace := s.trace ++ [GsdCall.gsd_open fname (-1)] } := by
  unfold post gsd_open
  simp [hd]

theorem post_gsd_open_some (fname : String) (s : Machine)
    (Q : Except runtime_error Int → Machine → Prop) (f : GsdFile) (hd : s.disk = some f) :
    post (gsd_open fname) s Q ↔
      Q (Except.ok (s.ret s.trace.length))
        (if s.ret s.trace.length = 0 then
          { s with
              trace := s.trace ++ [GsdCall.gsd_open fname 0]
              writer := { s.writer with m_handle := ⟨f.header, f.frames, []⟩ } }
         else
          { s with trace := s.trace ++ [GsdCall.gsd_open fname (s.ret s.trace.length)] }) := by
  unfold post gsd_open
  by_cases h : s.ret s.trace.length = 0
  · simp [hd, h]
  · simp [hd, h]

theorem initFileIO_eq_tail :
    initFileIO = (do
      let w ← getWriter
      let e ← getStrerror
      let file_exists ← filesystem_exists
      (if w.m_overwrite || !file_exists then do
        let v ← getVersionLong
        let retval ← gsd_create w.m_fname ("HOOMD-blue " ++ v) "hoomd" (gsd_make_version 1 0)
        (if retval ≠ 0 then do
          msg_error ("dump.gsd: " ++ e ++ " - " ++ w.m_fname)
          throw_runtime_error "Error creating GSD file"
        else pure ())
      else pure ())
      initFileIO_tail w e) := rfl

/-- The runs of `initFileIO` from the call of `gsd_open` on: `gsd_open`
returns 0 and the schema is accepted, or the schema name is rejected, or the
schema version is rejected, or `gsd_open` returns another code. -/
theorem initFileIO_tail_cases (s : Machine) (w : GSDDumpWriter) (e : String)
    (hw : w.m_fname = s.writer.m_fname)
    (Q : Except runtime_error Unit → Machine → Prop)
    (hok : ∀ f, s.disk = some f → s.ret s.trace.length = 0 →
      f.header.schema = "hoomd" → f.header.schema_version < gsd_make_version 2 0 →
      Q (Except.ok ())
        { s with
            trace := s.trace ++ [GsdCall.gsd_open s.writer.m_fname 0]
            writer := { s.writer with
              m_handle := ⟨f.header, f.frames, []⟩, m_is_initialized := true } })
    (hschema : ∀ f, s.disk = some f → s.ret s.trace.length = 0 → f.header.schema ≠ "hoomd" →
      Q (Except.error ⟨"Error opening GSD file"⟩)
        { s with
            trace := s.trace ++ [GsdCall.gsd_open s.writer.m_fname 0]
            writer := { s.writer with m_handle := ⟨f.header, f.frames, []⟩ }
            errlog := s.errlog ++ ["dump.gsd: " ++ "Invalid schema in " ++ s.writer.m_fname] })
    (hversion : ∀ f, s.disk = some f → s.ret s.trace.length = 0 →
      f.header.schema = "hoomd" → gsd_make_version 2 0 ≤ f.header.schema_version →
      Q (Except.error ⟨"Error opening GSD file"⟩)
        { s with
            trace := s.trace ++ [GsdCall.gsd_open s.writer.m_fname 0]
            writer := { s.writer with m_handle := ⟨f.header, f.frames, []⟩ }
            errlog := s.errlog ++
              ["dump.gsd: " ++ "Invalid schema version in " ++ s.writer.m_fname] })
    (hfail : ∀ (r : Int) (line : String), r ≠ 0 →
      (s.disk = none → r = -1) → (s.disk ≠ none → r = s.ret s.trace.length) →
      Q (Except.error ⟨"Error opening GSD file"⟩)
        { s with
            trace := s.trace ++ [GsdCall.gsd_open s.writer.m_fname r]
            errlog := s.errlog ++ [line] }) :
    post (initFileIO_tail w e) s Q := by
  unfold initFileIO_tail
  rcases hd : s.disk with _ | f
  · rw [post_bind, post_gsd_open_none _ _ _ hd, contPost_ok]
    simp only [post_bind, post_ite, post_msg_error, post_throw, contPost_ok, contPost_error, hw]
    simp only [true_implies, not_true_eq_false, false_implies, and_true]
    exact hfail (-1) _ (by decide) (fun _ => rfl) (fun h => absurd hd h)
  · by_cases h0 : s.ret s.trace.length = 0
    · rw [post_bind, post_gsd_open_some _ _ _ f hd, if_pos h0, h0, contPost_ok]
      simp only [post_bind, post_ite, post_pure, post_msg_error, post_throw, post_getWriter,
        post_set_m_is_initialized, contPost_ok, contPost_error, hw]
      simp only [Int.reduceNeg, Int.reduceEq, ne_eq, not_true_eq_false, false_implies,
        not_false_eq_true, true_implies, true_and, and_true, contPost_ok, post_getWriter,
        post_pure, post_bind, post_ite, post_msg_error, post_throw, contPost_error,
        post_set_m_is_initialized]
      refine ⟨hschema f hd h0, fun h1 => ⟨?_, ?_⟩⟩
      · intro h2
        exact hversion f hd h0 (not_not.mp h1) h2
      · intro h2
        exact hok f hd h0 (not_not.mp h1) (not_le.mp h2)
    · rw [post_bind, post_gsd_open_some _ _ _ f hd, if_neg h0, contPost_ok]
      have hr : ∀ line, Q (Except.error ⟨"Error opening GSD file"⟩)
          { s with
              trace := s.trace ++ [GsdCall.gsd_open s.writer.m_fname (s.ret s.trace.length)]
              errlog := s.errlog ++ [line] } :=
        fun line => hfail _ line h0 (fun h => by simp [hd] at h) (fun _ => rfl)
      simp only [post_bind, post_ite, post_msg_error, post_throw, contPost_ok, contPost_error,
        hw, post_pure]
      refine ⟨fun _ => hr _, fun _ => ⟨fun _ => hr _, fun _ => ⟨fun _ => hr _, fun _ =>
        ⟨fun _ => hr _, fun _ => ⟨fun _ => hr _, fun _ => ⟨fun _ => hr _, fun h => ?_⟩⟩⟩⟩⟩⟩
      exact absurd (not_not.mp h) h0

/-- The runs of `initFileIO`: `gsd_create` is called and fails; or it is
called, returns 0 and the rest runs on the new file; or it is not called and
the rest runs on the file that exists. -/
theorem initFileIO_cases (s : Machine) (Q : Except runtime_error Unit → Machine → Prop)
    (hcreate : (s.writer.m_overwrite || !s.disk.isSome) = true → s.ret s.trace.length ≠ 0 →
      Q (Except.error ⟨"Error creating GSD file"⟩)
        { s with
            trace := s.trace ++ [GsdCall.gsd_create s.writer.m_fname
              ("HOOMD-blue " ++ s.HOOMD_VERSION_LONG) "hoomd" (gsd_make_version 1 0)
              (s.ret s.trace.length)]
            errlog := s.errlog ++
              ["dump.gsd: " ++ s.strerror_errno ++ " - " ++ s.writer.m_fname] })
    (hcreated : (s.writer.m_overwrite || !s.disk.isSome) = true → s.ret s.trace.length = 0 →
      post (initFileIO_tail s.writer s.strerror_errno)
        { s with
            trace := s.trace ++ [GsdCall.gsd_create s.writer.m_fname
              ("HOOMD-blue " ++ s.HOOMD_VERSION_LONG) "hoomd" (gsd_make_version 1 0) 0]
            disk := some ⟨⟨"HOOMD-blue " ++ s.HOOMD_VERSION_LONG, "hoomd",
              gsd_make_version 1 0⟩, []⟩ } Q)
    (hexisting : (s.writer.m_overwrite || !s.disk.isSome) = false →
      post (initFileIO_tail s.writer s.strerror_errno) s Q) :
    post initFileIO s Q := by
  rw [initFileIO_eq_tail]
  simp only [post_bind, post_getWriter, post_getStrerror, post_filesystem_exists, contPost_ok,
    post_ite, post_getVersionLong, post_gsd_create, post_msg_error, post_throw, post_pure,
    contPost_error]
  refine ⟨fun hc => ⟨fun h0 => ?_, fun h0 => ?_⟩, fun hc => ?_⟩
  · rw [if_neg h0]
    exact hcreate hc h0
  · have h0 : s.ret s.trace.length = 0 := not_not.mp h0
    rw [if_pos h0]
    exact hcreated hc h0
  · exact hexisting ((Bool.not_eq_true _).mp hc)

theorem gsd_make_version_eq (major minor : Nat) (h1 : major < 2 ^ 16) (h2 : minor < 2 ^ 16) :
    gsd_make_version major minor = major * 2 ^ 16 + minor := by
  unfold gsd_make_version
  rw [Nat.mod_eq_of_lt (by
    have : major * 2 ^ 16 < 2 ^ 16 * 2 ^ 16 := Nat.mul_lt_mul_of_pos_right h1 (by norm_num)
    calc major * 2 ^ 16 < 2 ^ 16 * 2 ^ 16 := this
      _ = 2 ^ 32 := by norm_num)]
  rw [Nat.mul_comm, ← Nat.mul_add_lt_is_or h2]

/-- C10 (schema validation).  Let a run of `initFileIO` end with `gsd_open` as
the last call into the library, returning 0.  Then a file `f` is on disk, the
handle carries its header, and the run returns if and only if the stored
schema name is "hoomd" and the stored schema version is below
`gsd_make_version 2 0`; when it returns, `m_is_initialized` is set; when it
does not, it throws "Error opening GSD file" after a line on the error stream
and leaves `m_is_initialized` as it was.  In particular a differing schema name
and a major version of 2 or more make it throw. -/
theorem initFileIO_schema_validation (s : Machine) (r : Except runtime_error Unit)
    (s1 : Machine) (hrun : initFileIO s = (r, s1))
    (hopen : s1.trace.getLast? = some (GsdCall.gsd_open s.writer.m_fname 0)) :
    ∃ f, s1.disk = some f ∧ s1.writer.m_handle.header = f.header ∧
      (r = Except.ok () ↔
        f.header.schema = "hoomd" ∧ f.header.schema_version < gsd_make_version 2 0) ∧
      (r = Except.ok () → s1.writer.m_is_initialized = true) ∧
      (r ≠ Except.ok () → r = Except.error ⟨"Error opening GSD file"⟩ ∧
        s1.writer.m_is_initialized = s.writer.m_is_initialized ∧
        ∃ line, s1.errlog = s.errlog ++ [line]) ∧
      (f.header.schema ≠ "hoomd" → r = Except.error ⟨"Error opening GSD file"⟩) ∧
      (∀ major minor, 2 ≤ major → major < 2 ^ 16 → minor < 2 ^ 16 →
        f.header.schema_version = gsd_make_version major minor →
        r = Except.error ⟨"Error opening GSD file"⟩) := by
  have hver : ∀ v major minor, 2 ≤ major → major < 2 ^ 16 → minor < 2 ^ 16 →
      v = gsd_make_version major minor → ¬ v < gsd_make_version 2 0 := by
    intro v major minor h2 hM hm hv
    rw [hv, gsd_make_version_eq major minor hM hm, gsd_make_version_eq 2 0 (by norm_num)
      (by norm_num)]
    have : 2 * 2 ^ 16 ≤ major * 2 ^ 16 := Nat.mul_le_mul_right _ h2
    omega
  have key : ∀ (s0 : Machine), s0.writer = s.writer → s0.errlog = s.errlog →
      post (initFileIO_tail s.writer s.strerror_errno) s0 (fun r s1 =>
        s1.trace.getLast? = some (GsdCall.gsd_open s.writer.m_fname 0) →
        ∃ f, s1.disk = some f ∧ s1.writer.m_handle.header = f.header ∧
          (r = Except.ok () ↔
            f.header.schema = "hoomd" ∧ f.header.schema_version < gsd_make_version 2 0) ∧
          (r = Except.ok () → s1.writer.m_is_initialized = true) ∧
          (r ≠ Except.ok () → r = Except.error ⟨"Error opening GSD file"⟩ ∧
            s1.writer.m_is_initialized = s.writer.m_is_initialized ∧
            ∃ line, s1.errlog = s.errlog ++ [line]) ∧
          (f.header.schema ≠ "hoomd" → r = Except.error ⟨"Error opening GSD file"⟩) ∧
          (∀ major minor, 2 ≤ major → major < 2 ^ 16 → minor < 2 ^ 16 →
            f.header.schema_version = gsd_make_version major minor →
            r = Except.error ⟨"Error opening GSD file"⟩)) := by
    intro s0 hw0 he0
    apply initFileIO_tail_cases s0 s.writer s.strerror_errno (by rw [hw0])
    · intro f hd h0 hs hv _
      refine ⟨f, hd, rfl, ?_, fun _ => rfl, fun h => absurd rfl h, fun h => absurd hs h, ?_⟩
      · exact ⟨fun _ => ⟨hs, hv⟩, fun _ => rfl⟩
      · intro major minor h2 hM hm hv2
        exact absurd hv (hver _ major minor h2 hM hm hv2)
    · intro f hd h0 hs _
      refine ⟨f, hd, rfl, ?_, fun h => by simp at h, fun _ => ⟨rfl, ?_, ⟨_, by rw [← he0]⟩⟩,
        fun _ => rfl, fun _ _ _ _ _ _ => rfl⟩
      · exact ⟨fun h => by simp at h, fun h => absurd h.1 hs⟩
      · simp [hw0]
    · intro f hd h0 hs hv _
      refine ⟨f, hd, rfl, ?_, fun h => by simp at h, fun _ => ⟨rfl, ?_, ⟨_, by rw [← he0]⟩⟩,
        fun _ => rfl, fun _ _ _ _ _ _ => rfl⟩
      · exact ⟨fun h => by simp at h, fun h => absurd h.2 (not_lt.mpr hv)⟩
      · simp [hw0]
    · intro r line hr _ _ hlast
      simp [hw0] at hlast
      exact absurd hlast hr
  have h : post initFileIO s (fun r s1 =>
      s1.trace.getLast? = some (GsdCall.gsd_open s.writer.m_fname 0) →
      ∃ f, s1.disk = some f ∧ s1.writer.m_handle.header = f.header ∧
        (r = Except.ok () ↔
          f.header.schema = "hoomd" ∧ f.header.schema_version < gsd_make_version 2 0) ∧
        (r = Except.ok () → s1.writer.m_is_initialized = true) ∧
        (r ≠ Except.ok () → r = Except.error ⟨"Error opening GSD file"⟩ ∧
          s1.writer.m_is_initialized = s.writer.m_is_initialized ∧
          ∃ line, s1.errlog = s.errlog ++ [line]) ∧
        (f.header.schema ≠ "hoomd" → r = Except.error ⟨"Error opening GSD file"⟩) ∧
        (∀ major minor, 2 ≤ major → major < 2 ^ 16 → minor < 2 ^ 16 →
          f.header.schema_version = gsd_make_version major minor →
          r = Except.error ⟨"Error opening GSD file"⟩)) := by
    apply initFileIO_cases
    · intro _ h0 hlast
      simp at hlast
    · intro _ _
      exact key _ rfl rfl
    · intro _
      exact key s rfl rfl
  unfold post at h
  rw [hrun] at h
  exact h hopen

/-- C10, at a writer whose file exists with schema "hoomd" in version 1.0:
`gsd_open` returns 0 and `initFileIO` returns. -/
theorem initFileIO_schema_validation_witness :
    initFileIO existingMachine =
      (( initFileIO existingMachine).1, ( initFileIO existingMachine).2) ∧
    ( initFileIO existingMachine).2.trace.getLast? =
      some (GsdCall.gsd_open existingMachine.writer.m_fname 0) ∧
    ∃ f, ( initFileIO existingMachine).2.disk = some f ∧
      ( initFileIO existingMachine).2.writer.m_handle.header = f.header ∧
      (( initFileIO existingMachine).1 = Except.ok () ↔
        f.header.schema = "hoomd" ∧ f.header.schema_version < gsd_make_version 2 0) ∧
      (( initFileIO existingMachine).1 = Except.ok () →
        ( initFileIO existingMachine).2.writer.m_is_initialized = true) ∧
      (( initFileIO existingMachine).1 ≠ Except.ok () →
        ( initFileIO existingMachine).1 = Except.error ⟨"Error opening GSD file"⟩ ∧
        ( initFileIO existingMachine).2.writer.m_is_initialized =
          existingMachine.writer.m_is_initialized ∧
        ∃ line, ( initFileIO existingMachine).2.errlog = existingMachine.errlog ++ [line]) ∧
      (f.header.schema ≠ "hoomd" →
        ( initFileIO existingMachine).1 = Except.error ⟨"Error opening GSD file"⟩) ∧
      (∀ major minor, 2 ≤ major → major < 2 ^ 16 → minor < 2 ^ 16 →
        f.header.schema_version = gsd_make_version major minor →
        ( initFileIO existingMachine).1 = Except.error ⟨"Error opening GSD file"⟩) :=
  ⟨rfl, by decide,
    initFileIO_schema_validation existingMachine _ _ rfl (by decide)⟩

/-! ## The frame written by `analyze` -/

theorem anyMember_iff (g : ParticleGroup) (p : Nat → Bool) :
    anyMember g p = true ↔ ∃ t, t ∈ g.tags ∧ p t = true := by
  unfold anyMember ParticleGroup.getNumMembersGlobal ParticleGroup.getMemberTag
  simp only [Bool.not_eq_true', List.all_eq_false, List.mem_range, Bool.not_eq_true,
    Bool.not_eq_false']
  constructor
  · rintro ⟨i, hi, h⟩
    exact ⟨g.tags.getD i 0, by rw [List.getD_eq_getElem _ _ hi]; exact List.getElem_mem _,
      by simpa using h⟩
  · rintro ⟨t, ht, h⟩
    obtain ⟨i, hi, rfl⟩ := List.getElem_of_mem ht
    exact ⟨i, hi, by simp [List.getElem?_eq_getElem hi, h]⟩

theorem mem_ite_nil {α : Type} (c : Prop) [Decidable c] (l : List α) (x : α) :
    x ∈ (if c then l else []) ↔ c ∧ x ∈ l := by
  by_cases h : c <;> simp [h]

theorem mem_optChunk (p : Bool) (c x : Chunk) : x ∈ optChunk p c ↔ p = true ∧ x = c := by
  cases p <;> simp [optChunk]

/-- The frame that a returning call of `analyze` on the root rank has added,
provided no frame was in progress when the call started. -/
theorem analyze_frame (timestep : Nat) (sys : SystemDefinition) (s s1 : Machine)
    (pre : List (List Chunk)) (fr : List Chunk)
    (hroot : sys.isRoot = true) (hp : s.writer.m_handle.pending = [])
    (hrun : analyze timestep sys s = (Except.ok (), s1))
    (hfr : s1.writer.m_handle.frames = pre ++ [fr]) :
    fr = frameChunks s.writer pre.length timestep sys := by
  obtain ⟨pre0, h0, -⟩ := analyze_post timestep sys s hroot (fun _ _ => hp) () s1 hrun
  rw [hfr] at h0
  have hl : pre.length = pre0.length := by
    have := congrArg List.length h0
    simpa using this
  obtain ⟨h1, h2⟩ := List.append_inj h0 hl
  rw [h1]
  simpa using h2

/-- The names of a chunk of a frame: it belongs to the header, to a category
that runs, or to the topology. -/
theorem mem_frameChunks (w : GSDDumpWriter) (n timestep : Nat) (sys : SystemDefinition)
    (c : Chunk) :
    c ∈ frameChunks w n timestep sys ↔
      c ∈ headerChunks w.m_group n timestep sys ∨
      ((w.m_write_attribute = true ∨ n = 0) ∧ c ∈ attributeChunks w.m_group sys.snapshot) ∨
      ((w.m_write_property = true ∨ n = 0) ∧ c ∈ propertyChunks w.m_group sys.snapshot) ∨
      ((w.m_write_momentum = true ∨ n = 0) ∧ c ∈ momentumChunks w.m_group sys.snapshot) ∨
      ((w.m_group.getNumMembersGlobal = sys.NGlobal ∧ (w.m_write_topology = true ∨ n = 0)) ∧
        c ∈ topologyChunks sys.bond sys.angle sys.dihedral sys.improper sys.constraint) := by
  simp only [frameChunks, bodyChunks, List.mem_append, mem_ite_nil, Bool.or_eq_true,
    Bool.and_eq_true, decide_eq_true_eq, or_assoc]

theorem name_of_mem_headerChunks (g : ParticleGroup) (n timestep : Nat) (sys : SystemDefinition)
    (c : Chunk) (h : c ∈ headerChunks g n timestep sys) :
    c.name ∈ ["configuration/step", "configuration/dimensions", "configuration/box",
      "particles/N"] := by
  simp only [headerChunks, List.mem_append, List.mem_cons, List.mem_singleton, mem_optChunk,
    List.not_mem_nil, or_false] at h
  rcases h with (rfl | ⟨-, rfl⟩) | rfl | rfl <;> simp

theorem name_of_mem_attributeChunks (g : ParticleGroup) (snapshot : SnapshotParticleData)
    (c : Chunk) (h : c ∈ attributeChunks g snapshot) :
    c.name ∈ Category.attribute.chunkNames := by
  simp only [attributeChunks, List.mem_append, List.mem_cons, List.mem_singleton, mem_optChunk,
    List.not_mem_nil, or_false] at h
  rcases h with (((((rfl | ⟨-, rfl⟩) | ⟨-, rfl⟩) | ⟨-, rfl⟩) | ⟨-, rfl⟩) | ⟨-, rfl⟩) | ⟨-, rfl⟩ <;>
    simp [Category.chunkNames, typeMappingChunk]

theorem name_of_mem_propertyChunks (g : ParticleGroup) (snapshot : SnapshotParticleData)
    (c : Chunk) (h : c ∈ propertyChunks g snapshot) :
    c.name ∈ Category.property.chunkNames := by
  simp only [propertyChunks, List.mem_append, List.mem_cons, List.mem_singleton, mem_optChunk,
    List.not_mem_nil, or_false] at h
  rcases h with rfl | ⟨-, rfl⟩ <;> simp [Category.chunkNames]

theorem name_of_mem_momentumChunks (g : ParticleGroup) (snapshot : SnapshotParticleData)
    (c : Chunk) (h : c ∈ momentumChunks g snapshot) :
    c.name ∈ Category.momentum.chunkNames := by
  simp only [momentumChunks, List.mem_append, mem_optChunk] at h
  rcases h with (⟨-, rfl⟩ | ⟨-, rfl⟩) | ⟨-, rfl⟩ <;> simp [Category.chunkNames]

theorem name_of_mem_bondedChunks (nameN nameTypes nameTypeid nameGroup : String) (M : Nat)
    (snap : BondedSnapshot) (c : Chunk)
    (h : c ∈ bondedChunks nameN nameTypes nameTypeid nameGroup M snap) :
    c.name ∈ [nameN, nameTypes, nameTypeid, nameGroup] := by
  simp only [bondedChunks, mem_ite_nil, List.mem_cons, List.mem_singleton, List.not_mem_nil,
    or_false] at h
  rcases h with ⟨-, rfl | rfl | rfl | rfl⟩ <;> simp [typeMappingChunk]

theorem name_of_mem_topologyChunks (bond angle dihedral improper : BondedSnapshot)
    (constraint : ConstraintSnapshot) (c : Chunk)
    (h : c ∈ topologyChunks bond angle dihedral improper constraint) :
    c.name ∈ topologyNames := by
  simp only [topologyChunks, List.mem_append] at h
  rcases h with (((h | h) | h) | h) | h
  · have := name_of_mem_bondedChunks _ _ _ _ _ _ _ h
    simp only [List.mem_cons, List.mem_singleton, List.not_mem_nil, or_false] at this
    rcases this with e | e | e | e <;> simp [e, topologyNames]
  · have := name_of_mem_bondedChunks _ _ _ _ _ _ _ h
    simp only [List.mem_cons, List.mem_singleton, List.not_mem_nil, or_false] at this
    rcases this with e | e | e | e <;> simp [e, topologyNames]
  · have := name_of_mem_bondedChunks _ _ _ _ _ _ _ h
    simp only [List.mem_cons, List.mem_singleton, List.not_mem_nil, or_false] at this
    rcases this with e | e | e | e <;> simp [e, topologyNames]
  · have := name_of_mem_bondedChunks _ _ _ _ _ _ _ h
    simp only [List.mem_cons, List.mem_singleton, List.not_mem_nil, or_false] at this
    rcases this with e | e | e | e <;> simp [e, topologyNames]
  · simp only [constraintChunks, mem_ite_nil, List.mem_cons, List.mem_singleton,
      List.not_mem_nil, or_false] at h
    rcases h with ⟨-, rfl | rfl | rfl⟩ <;> simp [topologyNames]

theorem chunkNames_append (a b : List Chunk) :
    chunkNames (a ++ b) = chunkNames a ++ chunkNames b := by
  simp [chunkNames]

theorem chunkNames_ite (c : Prop) [Decidable c] (l : List Chunk) :
    chunkNames (if c then l else []) = if c then chunkNames l else [] := by
  by_cases h : c <;> simp [h, chunkNames]

theorem chunkNames_optChunk (p : Bool) (c : Chunk) :
    chunkNames (optChunk p c) = if p = true then [c.name] else [] := by
  cases p <;> simp [optChunk, chunkNames]

theorem chunkNames_cons (c : Chunk) (l : List Chunk) :
    chunkNames (c :: l) = c.name :: chunkNames l := rfl

theorem chunkNames_nil : chunkNames [] = [] := rfl

theorem chunkNames_headerChunks (g : ParticleGroup) (n timestep : Nat) (sys : SystemDefinition) :
    chunkNames (headerChunks g n timestep sys) =
      ["configuration/step"] ++ (if n = 0 then ["configuration/dimensions"] else []) ++
        ["configuration/box", "particles/N"] := by
  simp [headerChunks, chunkNames_append, chunkNames_optChunk, chunkNames_cons, chunkNames_nil]

theorem chunkNames_attributeChunks (g : ParticleGroup) (snapshot : SnapshotParticleData) :
    chunkNames (attributeChunks g snapshot) =
      ["particles/types"]
      ++ (if anyMember g (typeid_nondefault snapshot) = true then ["particles/typeid"] else [])
      ++ (if anyMember g (mass_nondefault snapshot) = true then ["particles/mass"] else [])
      ++ (if anyMember g (charge_nondefault snapshot) = true then ["particles/charge"] else [])
      ++ (if anyMember g (diameter_nondefault snapshot) = true then ["particles/diameter"]
          else [])
      ++ (if anyMember g (body_nondefault snapshot) = true then ["particles/body"] else [])
      ++ (if anyMember g (inertia_nondefault snapshot) = true then ["particles/moment_inertia"]
          else []) := by
  simp only [attributeChunks, chunkNames_append, chunkNames_optChunk, chunkNames_cons,
    chunkNames_nil, typeMappingChunk]

theorem chunkNames_propertyChunks (g : ParticleGroup) (snapshot : SnapshotParticleData) :
    chunkNames (propertyChunks g snapshot) =
      ["particles/position"]
      ++ (if anyMember g (orientation_nondefault snapshot) = true then ["particles/orientation"]
          else []) := by
  simp only [propertyChunks, chunkNames_append, chunkNames_optChunk, chunkNames_cons,
    chunkNames_nil]

theorem chunkNames_momentumChunks (g : ParticleGroup) (snapshot : SnapshotParticleData) :
    chunkNames (momentumChunks g snapshot) =
      (if anyMember g (velocity_nondefault snapshot) = true then ["particles/velocity"] else [])
      ++ (if anyMember g (angmom_nondefault snapshot) = true then ["particles/angmom"] else [])
      ++ (if anyMember g (image_nondefault snapshot) = true then ["particles/image"] else []) := by
  simp only [momentumChunks, chunkNames_append, chunkNames_optChunk]

theorem chunkNames_frameChunks (w : GSDDumpWriter) (n timestep : Nat) (sys : SystemDefinition) :
    chunkNames (frameChunks w n timestep sys) =
      chunkNames (headerChunks w.m_group n timestep sys)
      ++ (if w.m_write_attribute = true ∨ n = 0 then
            chunkNames (attributeChunks w.m_group sys.snapshot) else [])
      ++ (if w.m_write_property = true ∨ n = 0 then
            chunkNames (propertyChunks w.m_group sys.snapshot) else [])
      ++ (if w.m_write_momentum = true ∨ n = 0 then
            chunkNames (momentumChunks w.m_group sys.snapshot) else [])
      ++ (if w.m_group.getNumMembersGlobal = sys.NGlobal ∧ (w.m_write_topology = true ∨ n = 0)
          then chunkNames
            (topologyChunks sys.bond sys.angle sys.dihedral sys.improper sys.constraint)
          else []) := by
  simp only [frameChunks, bodyChunks, chunkNames_append, chunkNames_ite, Bool.or_eq_true,
    Bool.and_eq_true, decide_eq_true_eq, List.append_assoc]

theorem not_mem_topology_names (x : String) (hx : x ∉ topologyNames)
    (bond angle dihedral improper : BondedSnapshot) (constraint : ConstraintSnapshot) :
    x ∉ chunkNames (topologyChunks bond angle dihedral improper constraint) := by
  intro h
  obtain ⟨c, hc, rfl⟩ := List.mem_map.mp h
  exact hx (name_of_mem_topologyChunks _ _ _ _ _ c hc)

/-- The chunk of a quantity is in the frame exactly when its category runs and
some member of the group has a value that differs from the default. -/
theorem quantity_chunk_in_frame (w : GSDDumpWriter) (n timestep : Nat) (sys : SystemDefinition)
    (q : Quantity) :
    q.chunkName ∈ chunkNames (frameChunks w n timestep sys) ↔
      (w.enabled q.category = true ∨ n = 0) ∧
        ∃ t, t ∈ w.m_group.tags ∧ q.nondefault sys.snapshot t = true := by
  rw [← anyMember_iff, chunkNames_frameChunks, chunkNames_headerChunks,
    chunkNames_attributeChunks, chunkNames_propertyChunks, chunkNames_momentumChunks]
  have ht : q.chunkName ∉ chunkNames
      (topologyChunks sys.bond sys.angle sys.dihedral sys.improper sys.constraint) :=
    not_mem_topology_names _ (by cases q <;> decide) _ _ _ _ _
  simp only [List.mem_append, mem_ite_nil, ht, and_false, or_false]
  cases q <;>
    simp [Quantity.chunkName, Quantity.category, Quantity.nondefault, GSDDumpWriter.enabled]

/-! ## Frame zero and suppression (C1, C2) -/

/-- C1 as stated fails.  On a new file, with three particles whose every
quantity is at its default, the first call of `analyze` returns and writes
frame 0 with the chunks `configuration/step`, `configuration/dimensions`,
`configuration/box`, `particles/N`, `particles/types` and
`particles/position` only: none of the ten optional particle chunks is in
it. -/
theorem frame_zero_completeness_counterexample :
    (analyze 0 defaultSystem exampleMachine).1 = Except.ok () ∧
    (analyze 0 defaultSystem exampleMachine).2.writer.m_handle.frames.map chunkNames =
      [["configuration/step", "configuration/dimensions", "configuration/box", "particles/N",
        "particles/types", "particles/position"]] ∧
    ∀ q : Quantity, ∀ fr ∈ (analyze 0 defaultSystem exampleMachine).2.writer.m_handle.frames,
      q.chunkName ∉ chunkNames fr := by
  refine ⟨rfl, by decide, ?_⟩
  intro q
  cases q <;> decide

/-- The chunks of frame 0: whatever the category flags they hold
`configuration/dimensions`, `particles/types` and `particles/position`, and
the chunk of an optional quantity exactly when some member of the group has a
value that differs from the default. -/
theorem frameChunks_zero_contents (w : GSDDumpWriter) (timestep : Nat)
    (sys : SystemDefinition) :
    "configuration/dimensions" ∈ chunkNames (frameChunks w 0 timestep sys) ∧
    "particles/types" ∈ chunkNames (frameChunks w 0 timestep sys) ∧
    "particles/position" ∈ chunkNames (frameChunks w 0 timestep sys) ∧
    ∀ q : Quantity, q.chunkName ∈ chunkNames (frameChunks w 0 timestep sys) ↔
      ∃ t, t ∈ w.m_group.tags ∧ q.nondefault sys.snapshot t = true := by
  refine ⟨?_, ?_, ?_, ?_⟩
  · simp [chunkNames_frameChunks, chunkNames_headerChunks]
  · simp [chunkNames_frameChunks, chunkNames_attributeChunks]
  · simp [chunkNames_frameChunks, chunkNames_propertyChunks]
  · intro q
    rw [quantity_chunk_in_frame]
    simp

/-- C2 as stated fails.  In the example the attribute category is switched on
and every mass is at its default 1.0; the second call of `analyze`, on a file
that holds one frame, returns and writes a frame without `particles/mass`. -/
theorem suppression_counterexample :
    (analyze 1 exampleSystem frameZeroState).1 = Except.ok () ∧
    frameZeroState.writer.m_handle.frames.length = 1 ∧
    frameZeroState.writer.enabled Quantity.mass.category = true ∧
    frameOneState.writer.m_handle.frames.map chunkNames =
      [["configuration/step", "configuration/dimensions", "configuration/box", "particles/N",
        "particles/types", "particles/typeid", "particles/position"],
       ["configuration/step", "configuration/box", "particles/N",
        "particles/types", "particles/typeid", "particles/position"]] ∧
    Quantity.mass.chunkName ∉
      chunkNames (frameOneState.writer.m_handle.frames.getLastD []) := by
  refine ⟨rfl, by decide, by decide, by decide, by decide⟩

/-- The chunk of a suppressible quantity among the chunks of a frame that
comes after `n` frames. -/
theorem frameChunks_suppression (w : GSDDumpWriter) (n timestep : Nat)
    (sys : SystemDefinition) (q : Quantity) :
    (q.chunkName ∈ chunkNames (frameChunks w n timestep sys) ↔
      (w.enabled q.category = true ∨ n = 0) ∧
        ∃ t, t ∈ w.m_group.tags ∧ q.nondefault sys.snapshot t = true) ∧
    (0 < n →
      (q.chunkName ∈ chunkNames (frameChunks w n timestep sys) ↔
        w.enabled q.category = true ∧
          ∃ t, t ∈ w.m_group.tags ∧ q.nondefault sys.snapshot t = true) ∧
      (q.chunkName ∉ chunkNames (frameChunks w n timestep sys) ↔
        w.enabled q.category = false ∨
          ∀ t, t ∈ w.m_group.tags → q.nondefault sys.snapshot t = false)) := by
  have key0 := quantity_chunk_in_frame w n timestep sys q
  refine ⟨key0, fun hn => ?_⟩
  have hn0 : n ≠ 0 := by omega
  have key := key0
  simp only [hn0, or_false] at key
  refine ⟨key, ?_⟩
  rw [key]
  constructor
  · intro h
    by_cases he : w.enabled q.category = true
    · right
      intro t ht
      by_contra hc
      exact h ⟨he, t, ht, by simpa using hc⟩
    · left
      simpa using he
  · rintro (h | h) ⟨he, t, ht, hq⟩
    · rw [h] at he
      exact absurd he (by decide)
    · rw [h t ht] at hq
      exact absurd hq (by decide)

/-! ## Category gating and the frame header (C3, C4) -/

theorem filter_append_parts {α : Type} (p : α → Bool) (a b : List α) :
    (a ++ b).filter p = a.filter p ++ b.filter p := List.filter_append a b

theorem filter_ite_nil {α : Type} (p : α → Bool) (c : Prop) [Decidable c] (l : List α) :
    (if c then l else []).filter p = if c then l.filter p else [] := by
  by_cases h : c <;> simp [h]

theorem filter_names_eq_self (names : List String) (l : List Chunk)
    (h : ∀ c ∈ l, c.name ∈ names) :
    l.filter (fun c => decide (c.name ∈ names)) = l := by
  rw [List.filter_eq_self]
  intro c hc
  simpa using h c hc

theorem filter_names_eq_nil (names : List String) (l : List Chunk)
    (h : ∀ c ∈ l, c.name ∉ names) :
    l.filter (fun c => decide (c.name ∈ names)) = [] := by
  rw [List.filter_eq_nil_iff]
  intro c hc
  simpa using h c hc

/-- The chunks of a frame whose names belong to a category are the chunks of
the member function of that category when it runs, and none otherwise. -/
theorem filter_category_frameChunks (w : GSDDumpWriter) (n timestep : Nat)
    (sys : SystemDefinition) (cat : Category) :
    (frameChunks w n timestep sys).filter (fun c => decide (c.name ∈ cat.chunkNames)) =
      if w.enabled cat = true ∨ n = 0 then cat.chunks w.m_group sys.snapshot else [] := by
  have hH : ∀ c ∈ headerChunks w.m_group n timestep sys, c.name ∉ cat.chunkNames := by
    intro c hc
    have := name_of_mem_headerChunks _ _ _ _ c hc
    simp only [List.mem_cons, List.mem_singleton, List.not_mem_nil, or_false] at this
    rcases this with e | e | e | e <;> rw [e] <;> cases cat <;> decide
  have hT : ∀ c ∈ topologyChunks sys.bond sys.angle sys.dihedral sys.improper sys.constraint,
      c.name ∉ cat.chunkNames := by
    intro c hc
    have := name_of_mem_topologyChunks _ _ _ _ _ c hc
    simp only [topologyNames, List.mem_cons, List.mem_singleton, List.not_mem_nil,
      or_false] at this
    rcases this with e | e | e | e | e | e | e | e | e | e | e | e | e | e | e | e | e | e | e <;>
      rw [e] <;> cases cat <;> decide
  have hA : ∀ c ∈ attributeChunks w.m_group sys.snapshot,
      c.name ∈ Category.attribute.chunkNames := name_of_mem_attributeChunks _ _
  have hP : ∀ c ∈ propertyChunks w.m_group sys.snapshot,
      c.name ∈ Category.property.chunkNames := name_of_mem_propertyChunks _ _
  have hM : ∀ c ∈ momentumChunks w.m_group sys.snapshot,
      c.name ∈ Category.momentum.chunkNames := name_of_mem_momentumChunks _ _
  have hdis : ∀ (a b : Category) (x : String), a ≠ b → x ∈ a.chunkNames → x ∉ b.chunkNames := by
    intro a b x hab hx
    cases a <;> cases b <;>
      first
      | exact absurd rfl hab
      | (simp only [Category.chunkNames, List.mem_cons, List.mem_singleton, List.not_mem_nil,
          or_false] at hx
         rcases hx with e | e | e | e | e | e | e <;> rw [e] <;> decide)
      | (simp only [Category.chunkNames, List.mem_cons, List.mem_singleton, List.not_mem_nil,
          or_false] at hx
         rcases hx with e | e | e <;> rw [e] <;> decide)
      | (simp only [Category.chunkNames, List.mem_cons, List.mem_singleton, List.not_mem_nil,
          or_false] at hx
         rcases hx with e | e <;> rw [e] <;> decide)
  simp only [frameChunks, bodyChunks, filter_append_parts, filter_ite_nil,
    filter_names_eq_nil _ _ hH, filter_names_eq_nil _ _ hT, List.nil_append, List.append_nil,
    ite_self, Bool.or_eq_true, decide_eq_true_eq]
  cases cat
  · rw [filter_names_eq_self _ _ hA,
      filter_names_eq_nil _ _ (fun c hc => hdis _ _ _ (by decide) (hP c hc)),
      filter_names_eq_nil _ _ (fun c hc => hdis _ _ _ (by decide) (hM c hc))]
    simp [GSDDumpWriter.enabled, Category.chunks]
  · rw [filter_names_eq_self _ _ hP,
      filter_names_eq_nil _ _ (fun c hc => hdis _ _ _ (by decide) (hA c hc)),
      filter_names_eq_nil _ _ (fun c hc => hdis _ _ _ (by decide) (hM c hc))]
    simp [GSDDumpWriter.enabled, Category.chunks]
  · rw [filter_names_eq_self _ _ hM,
      filter_names_eq_nil _ _ (fun c hc => hdis _ _ _ (by decide) (hA c hc)),
      filter_names_eq_nil _ _ (fun c hc => hdis _ _ _ (by decide) (hP c hc))]
    simp [GSDDumpWriter.enabled, Category.chunks]

theorem memberFunction_eq (cat : Category) (snapshot : SnapshotParticleData) (s : Machine) :
    cat.memberFunction snapshot s =
      writeChunks (cat.chunks s.writer.m_group snapshot) s := by
  cases cat
  · exact writeAttributes_eq snapshot s
  · exact writeProperties_eq snapshot s
  · exact writeMomenta_eq snapshot s

/-- The chunks of a category among the chunks of a frame that comes after `n`
frames: those of its member function when the flag of the category is set or
`n = 0`, none otherwise. -/
theorem frameChunks_category (w : GSDDumpWriter) (n timestep : Nat)
    (sys : SystemDefinition) (cat : Category) :
    (frameChunks w n timestep sys).filter (fun c => decide (c.name ∈ cat.chunkNames)) =
      (if w.enabled cat = true ∨ n = 0 then cat.chunks w.m_group sys.snapshot else []) ∧
    (¬ (w.enabled cat = true ∨ n = 0) →
      ∀ x ∈ cat.chunkNames, x ∉ chunkNames (frameChunks w n timestep sys)) ∧
    ("particles/types" ∈ chunkNames (frameChunks w n timestep sys) ↔
      (w.m_write_attribute = true ∨ n = 0)) ∧
    ("particles/position" ∈ chunkNames (frameChunks w n timestep sys) ↔
      (w.m_write_property = true ∨ n = 0)) := by
  have hf := filter_category_frameChunks w n timestep sys cat
  refine ⟨hf, ?_, ?_, ?_⟩
  · intro hc x hx hmem
    rw [if_neg hc, List.filter_eq_nil_iff] at hf
    obtain ⟨c, hcm, rfl⟩ := List.mem_map.mp hmem
    exact hf c hcm (by simpa using hx)
  · have ht : "particles/types" ∉ chunkNames
        (topologyChunks sys.bond sys.angle sys.dihedral sys.improper sys.constraint) :=
      not_mem_topology_names _ (by decide) _ _ _ _ _
    simp [chunkNames_frameChunks, chunkNames_headerChunks, chunkNames_attributeChunks,
      chunkNames_propertyChunks, chunkNames_momentumChunks, mem_ite_nil, ht]
  · have ht : "particles/position" ∉ chunkNames
        (topologyChunks sys.bond sys.angle sys.dihedral sys.improper sys.constraint) :=
      not_mem_topology_names _ (by decide) _ _ _ _ _
    simp [chunkNames_frameChunks, chunkNames_headerChunks, chunkNames_attributeChunks,
      chunkNames_propertyChunks, chunkNames_momentumChunks, mem_ite_nil, ht]

theorem name_of_mem_bodyChunks (w : GSDDumpWriter) (n : Nat) (sys : SystemDefinition)
    (c : Chunk) (h : c ∈ bodyChunks w n sys) :
    c.name ∈ Category.attribute.chunkNames ++ Category.property.chunkNames ++
      Category.momentum.chunkNames ++ topologyNames := by
  simp only [bodyChunks, List.mem_append, mem_ite_nil] at h ⊢
  rcases h with ((⟨-, h⟩ | ⟨-, h⟩) | ⟨-, h⟩) | ⟨-, h⟩
  · exact Or.inl (Or.inl (Or.inl (name_of_mem_attributeChunks _ _ c h)))
  · exact Or.inl (Or.inl (Or.inr (name_of_mem_propertyChunks _ _ c h)))
  · exact Or.inl (Or.inr (name_of_mem_momentumChunks _ _ c h))
  · exact Or.inr (name_of_mem_topologyChunks _ _ _ _ _ c h)

/-- The chunks of a frame that comes after `n` frames start with the header:
`configuration/step`, `configuration/dimensions` when `n = 0` and only then,
`configuration/box` and `particles/N`; none of these four names occurs among
the chunks that follow. -/
theorem frameChunks_header (w : GSDDumpWriter) (n timestep : Nat) (sys : SystemDefinition) :
    (∃ rest, frameChunks w n timestep sys =
        [⟨"configuration/step", GsdType.GSD_TYPE_UINT64, 1, 1, Payload.u64 [timestep]⟩] ++
        (if n = 0 then
          [⟨"configuration/dimensions", GsdType.GSD_TYPE_UINT8, 1, 1,
            Payload.u8 [sys.NDimensions % 2 ^ 8]⟩]
         else []) ++
        [⟨"configuration/box", GsdType.GSD_TYPE_FLOAT, 6, 1,
            Payload.f32 [sys.globalBox.L.x, sys.globalBox.L.y, sys.globalBox.L.z,
              sys.globalBox.xy, sys.globalBox.xz, sys.globalBox.yz]⟩,
         ⟨"particles/N", GsdType.GSD_TYPE_UINT32, 1, 1,
            Payload.u32 [w.m_group.getNumMembersGlobal]⟩] ++ rest ∧
      ∀ x ∈ ["configuration/step", "configuration/dimensions", "configuration/box",
        "particles/N"], x ∉ chunkNames rest) ∧
    ("configuration/dimensions" ∈ chunkNames (frameChunks w n timestep sys) ↔ n = 0) ∧
    "configuration/step" ∈ chunkNames (frameChunks w n timestep sys) ∧
    "configuration/box" ∈ chunkNames (frameChunks w n timestep sys) ∧
    "particles/N" ∈ chunkNames (frameChunks w n timestep sys) := by
  have hrest : ∀ x ∈ ["configuration/step", "configuration/dimensions", "configuration/box",
      "particles/N"], x ∉ chunkNames (bodyChunks w n sys) := by
    intro x hx hmem
    obtain ⟨c, hc, rfl⟩ := List.mem_map.mp hmem
    have hb := name_of_mem_bodyChunks _ _ _ c hc
    simp only [List.mem_cons, List.mem_singleton, List.not_mem_nil, or_false] at hx
    rcases hx with e | e | e | e <;> rw [e] at hb <;> revert hb <;> decide
  refine ⟨⟨bodyChunks w n sys, ?_, hrest⟩, ?_, ?_, ?_, ?_⟩
  · simp only [frameChunks, headerChunks, optChunk, decide_eq_true_eq]
  · have := hrest "configuration/dimensions" (by decide)
    simp only [frameChunks, chunkNames_append, chunkNames_headerChunks, List.mem_append,
      this, or_false]
    simp [mem_ite_nil]
  · simp [frameChunks, chunkNames_append, chunkNames_headerChunks]
  · simp [frameChunks, chunkNames_append, chunkNames_headerChunks]
  · simp [frameChunks, chunkNames_append, chunkNames_headerChunks]

/-! ## Topology (C5, C6, C7) -/

theorem topologyChunks_ne_nil (bond angle dihedral improper : BondedSnapshot)
    (constraint : ConstraintSnapshot)
    (h : 0 < bond.size ∨ 0 < angle.size ∨ 0 < dihedral.size ∨ 0 < improper.size ∨
      0 < constraint.size) :
    topologyChunks bond angle dihedral improper constraint ≠ [] := by
  unfold topologyChunks bondedChunks constraintChunks
  rcases h with h | h | h | h | h <;> simp [h]

theorem frame_front_names (w : GSDDumpWriter) (n timestep : Nat) (sys : SystemDefinition)
    (c : Chunk)
    (h : c ∈ headerChunks w.m_group n timestep sys ∨
      ((w.m_write_attribute = true ∨ n = 0) ∧ c ∈ attributeChunks w.m_group sys.snapshot) ∨
      ((w.m_write_property = true ∨ n = 0) ∧ c ∈ propertyChunks w.m_group sys.snapshot) ∨
      ((w.m_write_momentum = true ∨ n = 0) ∧ c ∈ momentumChunks w.m_group sys.snapshot)) :
    c.name ∉ topologyNames := by
  rcases h with h | ⟨-, h⟩ | ⟨-, h⟩ | ⟨-, h⟩
  · have := name_of_mem_headerChunks _ _ _ _ c h
    simp only [List.mem_cons, List.mem_singleton, List.not_mem_nil, or_false] at this
    rcases this with e | e | e | e <;> rw [e] <;> decide
  · have := name_of_mem_attributeChunks _ _ c h
    simp only [Category.chunkNames, List.mem_cons, List.mem_singleton, List.not_mem_nil,
      or_false] at this
    rcases this with e | e | e | e | e | e | e <;> rw [e] <;> decide
  · have := name_of_mem_propertyChunks _ _ c h
    simp only [Category.chunkNames, List.mem_cons, List.mem_singleton, List.not_mem_nil,
      or_false] at this
    rcases this with e | e <;> rw [e] <;> decide
  · have := name_of_mem_momentumChunks _ _ c h
    simp only [Category.chunkNames, List.mem_cons, List.mem_singleton, List.not_mem_nil,
      or_false] at this
    rcases this with e | e | e <;> rw [e] <;> decide

/-- C5 as stated fails.  The system has one bond and the group holds all three
particles, but the topology flag is not set: the second call of `analyze`
returns and writes a frame without any topology chunk (the first frame has
the four `bonds/` chunks). -/
theorem topology_gating_counterexample :
    (analyze 1 bondedSystem bondedZeroState).1 = Except.ok () ∧
    0 < bondedSystem.bond.size ∧
    bondedZeroState.writer.m_group.getNumMembersGlobal = bondedSystem.NGlobal ∧
    bondedOneState.writer.m_handle.frames.map chunkNames =
      [["configuration/step", "configuration/dimensions", "configuration/box", "particles/N",
        "particles/types", "particles/typeid", "particles/position",
        "bonds/N", "bonds/types", "bonds/typeid", "bonds/group"],
       ["configuration/step", "configuration/box", "particles/N",
        "particles/types", "particles/typeid", "particles/position"]] ∧
    ∀ x ∈ chunkNames (bondedOneState.writer.m_handle.frames.getLastD []),
      x ∉ topologyNames := by
  refine ⟨rfl, by decide, by decide, by decide, by decide⟩

/-- The topology chunks among the chunks of a frame that comes after `n`
frames. -/
theorem frameChunks_topology_cond (w : GSDDumpWriter) (n timestep : Nat)
    (sys : SystemDefinition) :
    ((0 < sys.bond.size ∨ 0 < sys.angle.size ∨ 0 < sys.dihedral.size ∨
        0 < sys.improper.size ∨ 0 < sys.constraint.size) →
      ((∃ x ∈ chunkNames (frameChunks w n timestep sys), x ∈ topologyNames) ↔
        (w.m_group.getNumMembersGlobal = sys.NGlobal ∧
          (w.m_write_topology = true ∨ n = 0)))) ∧
    (∀ x ∈ chunkNames (frameChunks w n timestep sys), x ∈ topologyNames →
      w.m_group.getNumMembersGlobal = sys.NGlobal ∧ (w.m_write_topology = true ∨ n = 0)) := by
  have hmem : ∀ x ∈ chunkNames (frameChunks w n timestep sys),
      x ∈ topologyNames →
      w.m_group.getNumMembersGlobal = sys.NGlobal ∧
        (w.m_write_topology = true ∨ n = 0) := by
    intro x hx hxt
    obtain ⟨c, hc, rfl⟩ := List.mem_map.mp hx
    rw [mem_frameChunks] at hc
    rcases hc with hc | hc | hc | hc | ⟨hcond, -⟩
    · exact absurd hxt (frame_front_names w n timestep sys c (Or.inl hc))
    · exact absurd hxt (frame_front_names w n timestep sys c (Or.inr (Or.inl hc)))
    · exact absurd hxt (frame_front_names w n timestep sys c (Or.inr (Or.inr (Or.inl hc))))
    · exact absurd hxt (frame_front_names w n timestep sys c (Or.inr (Or.inr (Or.inr hc))))
    · exact hcond
  refine ⟨fun hent => ⟨fun ⟨x, hx, hxt⟩ => hmem x hx hxt, fun hcond => ?_⟩, hmem⟩
  obtain ⟨c, hc⟩ := List.exists_mem_of_ne_nil _
    (topologyChunks_ne_nil sys.bond sys.angle sys.dihedral sys.improper sys.constraint hent)
  refine ⟨c.name, List.mem_map.mpr ⟨c, ?_, rfl⟩, name_of_mem_topologyChunks _ _ _ _ _ c hc⟩
  rw [mem_frameChunks]
  exact Or.inr (Or.inr (Or.inr (Or.inr ⟨hcond, hc⟩)))

/-- The chunks of a frame that comes after `n` frames end with the chunks of
`writeTopology` when the number of group members equals the number of
particles and the topology flag is set or `n = 0`, and with nothing
otherwise; no chunk before that part has a topology name. -/
theorem frameChunks_topology_split (w : GSDDumpWriter) (n timestep : Nat)
    (sys : SystemDefinition) :
    (∃ front, frameChunks w n timestep sys = front ++
        (if w.m_group.getNumMembersGlobal = sys.NGlobal ∧
            (w.m_write_topology = true ∨ n = 0) then
          topologyChunks sys.bond sys.angle sys.dihedral sys.improper sys.constraint
        else []) ∧
      ∀ x ∈ chunkNames front, x ∉ topologyNames) ∧
    (frameChunks w n timestep sys).filter (fun c => decide (c.name ∈ topologyNames)) =
      (if w.m_group.getNumMembersGlobal = sys.NGlobal ∧
          (w.m_write_topology = true ∨ n = 0) then
        topologyChunks sys.bond sys.angle sys.dihedral sys.improper sys.constraint
      else []) := by
  have hfront : ∀ c ∈ headerChunks w.m_group n timestep sys ++
      ((if w.m_write_attribute = true ∨ n = 0 then
          attributeChunks w.m_group sys.snapshot else []) ++
        ((if w.m_write_property = true ∨ n = 0 then
            propertyChunks w.m_group sys.snapshot else []) ++
          (if w.m_write_momentum = true ∨ n = 0 then
            momentumChunks w.m_group sys.snapshot else []))),
      c.name ∉ topologyNames := by
    intro c hc
    simp only [List.mem_append, mem_ite_nil] at hc
    exact frame_front_names w n timestep sys c hc
  have hsplit : frameChunks w n timestep sys =
      (headerChunks w.m_group n timestep sys ++
      ((if w.m_write_attribute = true ∨ n = 0 then
          attributeChunks w.m_group sys.snapshot else []) ++
        ((if w.m_write_property = true ∨ n = 0 then
            propertyChunks w.m_group sys.snapshot else []) ++
          (if w.m_write_momentum = true ∨ n = 0 then
            momentumChunks w.m_group sys.snapshot else [])))) ++
      (if w.m_group.getNumMembersGlobal = sys.NGlobal ∧
          (w.m_write_topology = true ∨ n = 0) then
        topologyChunks sys.bond sys.angle sys.dihedral sys.improper sys.constraint
      else []) := by
    simp only [frameChunks, bodyChunks, Bool.or_eq_true, Bool.and_eq_true, decide_eq_true_eq,
      List.append_assoc]
  refine ⟨⟨_, hsplit, ?_⟩, ?_⟩
  · intro x hx
    obtain ⟨c, hc, rfl⟩ := List.mem_map.mp hx
    exact hfront c hc
  · rw [hsplit, filter_append_parts, filter_names_eq_nil _ _ hfront, List.nil_append,
      filter_ite_nil, filter_names_eq_self _ _ (name_of_mem_topologyChunks _ _ _ _ _)]

theorem write_check_ok (c : Chunk) (s : Machine) (h : s.ret s.trace.length = 0) :
    (do let retval ← gsd_write_chunk c; checkError retval) s =
      (Except.ok (), s.written [c]) := by
  rw [GsdM.bind_apply]
  unfold gsd_write_chunk checkError
  simp only [h, if_true, Int.reduceNeg, Int.reduceEq, if_false, ne_eq, not_true_eq_false]
  rfl

theorem write_check_error (c : Chunk) (s : Machine) (h : s.ret s.trace.length ≠ 0)
    (s1 : Machine) :
    (do let retval ← gsd_write_chunk c; checkError retval) s ≠ (Except.ok (), s1) := by
  intro e
  exact h ((okPost_write_check c s (fun _ _ => s.ret s.trace.length = 0)).mpr (fun h0 => h0)
    () s1 e)

/-- A list of chunks is written and the call returns exactly when each of the
`gsd_write_chunk` calls returns 0; the state is then the one with the chunks
added. -/
theorem writeChunks_eq_ok_iff (cs : List Chunk) (s s1 : Machine) :
    writeChunks cs s = (Except.ok (), s1) ↔
      (∀ k, k < cs.length → s.ret (s.trace.length + k) = 0) ∧ s1 = s.written cs := by
  induction cs generalizing s with
  | nil =>
    rw [writeChunks_nil, Machine.written_nil]
    constructor
    · intro h
      have e : (Except.ok (), s) = ((Except.ok () : Except runtime_error Unit), s1) := h
      exact ⟨fun k hk => absurd hk (by simp), (Prod.mk.inj e).2.symm⟩
    · rintro ⟨-, rfl⟩
      rfl
  | cons c cs ih =>
    have e : writeChunks (c :: cs) =
        ((do let retval ← gsd_write_chunk c; checkError retval) >>= fun _ => writeChunks cs) := by
      rw [writeChunks_cons]
      simp [bind_assoc]
    rw [e, GsdM.bind_apply]
    by_cases h0 : s.ret s.trace.length = 0
    · rw [write_check_ok c s h0]
      simp only [ih, Machine.written_ret, Machine.written_trace_length, Machine.written_written,
        List.length_cons, List.length_nil, List.singleton_append]
      constructor
      · rintro ⟨hall, rfl⟩
        refine ⟨?_, rfl⟩
        intro k hk
        cases k with
        | zero => simpa using h0
        | succ j =>
          have := hall j (by omega)
          rw [← this]
          congr 1
          omega
      · rintro ⟨hall, rfl⟩
        refine ⟨?_, rfl⟩
        intro k hk
        have := hall (k + 1) (by omega)
        rw [← this]
        congr 1
        omega
    · constructor
      · intro h
        exfalso
        rcases hm : (do let retval ← gsd_write_chunk c; checkError retval) s with ⟨r, s2⟩
        rw [hm] at h
        cases r with
        | error err => simp at h
        | ok u => exact write_check_error c s h0 s2 hm
      · rintro ⟨hall, -⟩
        exact absurd (by simpa using hall 0 (by simp)) h0

theorem groups_buffer_length (groups : Nat → Nat → Nat) (N M : Nat) :
    (groups_buffer groups N M).length = N * M := by
  unfold groups_buffer
  rw [flatten_rows_length M]
  · simp [Nat.mul_comm]
  · intro r hr
    obtain ⟨i, -, rfl⟩ := List.mem_map.mp hr
    simp

theorem kindChunks_bonds (snap : BondedSnapshot) :
    kindChunks "bonds" 2 snap =
      bondedChunks "bonds/N" "bonds/types" "bonds/typeid" "bonds/group" 2 snap := by
  unfold kindChunks bondedChunks
  have e1 : "bonds" ++ "/N" = "bonds/N" := by decide
  have e2 : "bonds" ++ "/types" = "bonds/types" := by decide
  have e3 : "bonds" ++ "/typeid" = "bonds/typeid" := by decide
  have e4 : "bonds" ++ "/group" = "bonds/group" := by decide
  rw [e1, e2, e3, e4]
  by_cases h : snap.size = 0
  · simp [h]
  · simp [h, Nat.pos_of_ne_zero h]

theorem kindChunks_angles (snap : BondedSnapshot) :
    kindChunks "angles" 3 snap =
      bondedChunks "angles/N" "angles/types" "angles/typeid" "angles/group" 3 snap := by
  unfold kindChunks bondedChunks
  have e1 : "angles" ++ "/N" = "angles/N" := by decide
  have e2 : "angles" ++ "/types" = "angles/types" := by decide
  have e3 : "angles" ++ "/typeid" = "angles/typeid" := by decide
  have e4 : "angles" ++ "/group" = "angles/group" := by decide
  rw [e1, e2, e3, e4]
  by_cases h : snap.size = 0
  · simp [h]
  · simp [h, Nat.pos_of_ne_zero h]

theorem kindChunks_dihedrals (snap : BondedSnapshot) :
    kindChunks "dihedrals" 4 snap =
      bondedChunks "dihedrals/N" "dihedrals/types" "dihedrals/typeid" "dihedrals/group" 4
        snap := by
  unfold kindChunks bondedChunks
  have e1 : "dihedrals" ++ "/N" = "dihedrals/N" := by decide
  have e2 : "dihedrals" ++ "/types" = "dihedrals/types" := by decide
  have e3 : "dihedrals" ++ "/typeid" = "dihedrals/typeid" := by decide
  have e4 : "dihedrals" ++ "/group" = "dihedrals/group" := by decide
  rw [e1, e2, e3, e4]
  by_cases h : snap.size = 0
  · simp [h]
  · simp [h, Nat.pos_of_ne_zero h]

theorem kindChunks_impropers (snap : BondedSnapshot) :
    kindChunks "impropers" 4 snap =
      bondedChunks "impropers/N" "impropers/types" "impropers/typeid" "impropers/group" 4
        snap := by
  unfold kindChunks bondedChunks
  have e1 : "impropers" ++ "/N" = "impropers/N" := by decide
  have e2 : "impropers" ++ "/types" = "impropers/types" := by decide
  have e3 : "impropers" ++ "/typeid" = "impropers/typeid" := by decide
  have e4 : "impropers" ++ "/group" = "impropers/group" := by decide
  rw [e1, e2, e3, e4]
  by_cases h : snap.size = 0
  · simp [h]
  · simp [h, Nat.pos_of_ne_zero h]

theorem topologySpecChunks_eq (bond angle dihedral improper : BondedSnapshot)
    (constraint : ConstraintSnapshot) :
    topologySpecChunks bond angle dihedral improper constraint =
      topologyChunks bond angle dihedral improper constraint := by
  unfold topologySpecChunks topologyChunks
  rw [kindChunks_bonds, kindChunks_angles, kindChunks_dihedrals, kindChunks_impropers]
  congr 1
  unfold constraintKindChunks constraintChunks
  by_cases h : constraint.size = 0
  · simp [h]
  · simp [h, Nat.pos_of_ne_zero h]

/-- C7 (topology chunk structure).  `writeTopology` is the writing, chunk by
chunk with the error check after each, of the list the specification gives:
for bonds, angles, dihedrals and impropers in this order, each with at least
one entry, `K/N`, `K/types`, `K/typeid` (N rows, 1 column) and `K/group`
(N rows and 2, 3, 4, 4 columns); for constraints with at least one entry
`constraints/N`, `constraints/value` and `constraints/group` (2 columns);
nothing for a kind without entries.  So a call returns exactly when every
`gsd_write_chunk` call returns 0, and then precisely these chunks have been
handed to the library, in this order.  The buffers of `K/typeid` and `K/group`
hold N and N times columns values. -/
theorem writeTopology_chunk_structure (bond angle dihedral improper : BondedSnapshot)
    (constraint : ConstraintSnapshot) :
    writeTopology bond angle dihedral improper constraint =
      writeChunks (topologySpecChunks bond angle dihedral improper constraint) ∧
    (∀ s s1 : Machine,
      writeTopology bond angle dihedral improper constraint s = (Except.ok (), s1) ↔
        (∀ k, k < (topologySpecChunks bond angle dihedral improper constraint).length →
          s.ret (s.trace.length + k) = 0) ∧
        s1 = s.written (topologySpecChunks bond angle dihedral improper constraint)) ∧
    (∀ (snap : BondedSnapshot) (cols : Nat),
      ((List.range snap.size).map snap.type_id).length = snap.size * 1 ∧
      (groups_buffer snap.groups snap.size cols).length = snap.size * cols) ∧
    ((List.range constraint.size).map constraint.val).length = constraint.size * 1 ∧
    (groups_buffer constraint.groups constraint.size 2).length = constraint.size * 2 := by
  have e : writeTopology bond angle dihedral improper constraint =
      writeChunks (topologySpecChunks bond angle dihedral improper constraint) := by
    rw [topologySpecChunks_eq, writeTopology_eq]
  refine ⟨e, ?_, ?_, by simp, groups_buffer_length _ _ _⟩
  · intro s s1
    rw [e]
    exact writeChunks_eq_ok_iff _ s s1
  · intro snap cols
    exact ⟨by simp, groups_buffer_length _ _ _⟩

/-- C7, at a system with one bond and nothing else, every library call
returning 0: `writeTopology` returns after the four `bonds/` chunks. -/
theorem writeTopology_chunk_structure_witness :
    writeTopology oneBond emptyBonded emptyBonded emptyBonded emptyConstraint exampleMachine =
      (Except.ok (), exampleMachine.written
        (topologySpecChunks oneBond emptyBonded emptyBonded emptyBonded emptyConstraint)) ∧
    topologySpecChunks oneBond emptyBonded emptyBonded emptyBonded emptyConstraint =
      [⟨"bonds/N", GsdType.GSD_TYPE_UINT32, 1, 1, Payload.u32 [1]⟩,
       ⟨"bonds/types", GsdType.GSD_TYPE_UINT8, 1, 3, Payload.u8 [65, 66, 0]⟩,
       ⟨"bonds/typeid", GsdType.GSD_TYPE_UINT32, 1, 1, Payload.u32 [0]⟩,
       ⟨"bonds/group", GsdType.GSD_TYPE_UINT32, 1, 2, Payload.u32 [0, 1]⟩] :=
  ⟨((writeTopology_chunk_structure oneBond emptyBonded emptyBonded emptyBonded
      emptyConstraint).2.1 exampleMachine _).mpr ⟨fun _ _ => rfl, rfl⟩,
    by decide⟩

/-! ## Runs that return -/

theorem returnsWith_mono {α : Type} {m : GsdM α} {s : Machine} {Q Q1 : α → Machine → Prop}
    (h : returnsWith m s Q) (hq : ∀ a s1, Q a s1 → Q1 a s1) : returnsWith m s Q1 := by
  obtain ⟨a, s1, e, hQ⟩ := h
  exact ⟨a, s1, e, hq a s1 hQ⟩

theorem returnsWith_bind {α β : Type} (m : GsdM α) (f : α → GsdM β) (s : Machine)
    (Q : β → Machine → Prop) :
    returnsWith (m >>= f) s Q ↔ returnsWith m s (fun a s1 => returnsWith (f a) s1 Q) := by
  unfold returnsWith
  constructor
  · rintro ⟨b, s2, e, hQ⟩
    rw [GsdM.bind_apply] at e
    rcases hm : m s with ⟨r, s1⟩
    rw [hm] at e
    cases r with
    | error err => simp at e
    | ok a => exact ⟨a, s1, rfl, b, s2, e, hQ⟩
  · rintro ⟨a, s1, e, b, s2, e2, hQ⟩
    refine ⟨b, s2, ?_, hQ⟩
    rw [GsdM.bind_apply, e]
    exact e2

theorem returnsWith_pure {α : Type} (a : α) (s : Machine) (Q : α → Machine → Prop) :
    returnsWith (pure a) s Q ↔ Q a s := by
  unfold returnsWith
  constructor
  · rintro ⟨b, s1, e, hQ⟩
    have e2 : (Except.ok a, s) = ((Except.ok b : Except runtime_error α), s1) := e
    cases e2
    exact hQ
  · intro h
    exact ⟨a, s, rfl, h⟩

theorem returnsWith_of_eq {α : Type} (m : GsdM α) (s s1 : Machine) (a : α)
    (Q : α → Machine → Prop) (e : m s = (Except.ok a, s1)) :
    returnsWith m s Q ↔ Q a s1 := by
  unfold returnsWith
  constructor
  · rintro ⟨b, s2, e2, hQ⟩
    rw [e] at e2
    cases e2
    exact hQ
  · intro h
    exact ⟨a, s1, e, h⟩

theorem returnsWith_ite {α : Type} (c : Prop) [Decidable c] (m n : GsdM α) (s : Machine)
    (Q : α → Machine → Prop) :
    returnsWith (if c then m else n) s Q ↔
      (c → returnsWith m s Q) ∧ (¬ c → returnsWith n s Q) := by
  by_cases h : c <;> simp [h]

theorem returnsWith_throw {α : Type} (what : String) (s : Machine) (Q : α → Machine → Prop) :
    returnsWith (throw_runtime_error what) s Q ↔ False := by
  simp [returnsWith, throw_runtime_error]

theorem returnsWith_msg_error (line : String) (s : Machine) (Q : Unit → Machine → Prop) :
    returnsWith (msg_error line) s Q ↔ Q () { s with errlog := s.errlog ++ [line] } :=
  returnsWith_of_eq _ _ _ _ _ rfl

theorem returnsWith_getWriter (s : Machine) (Q : GSDDumpWriter → Machine → Prop) :
    returnsWith getWriter s Q ↔ Q s.writer s := returnsWith_of_eq _ _ _ _ _ rfl

theorem returnsWith_getStrerror (s : Machine) (Q : String → Machine → Prop) :
    returnsWith getStrerror s Q ↔ Q s.strerror_errno s := returnsWith_of_eq _ _ _ _ _ rfl

theorem returnsWith_getVersionLong (s : Machine) (Q : String → Machine → Prop) :
    returnsWith getVersionLong s Q ↔ Q s.HOOMD_VERSION_LONG s := returnsWith_of_eq _ _ _ _ _ rfl

theorem returnsWith_filesystem_exists (s : Machine) (Q : Bool → Machine → Prop) :
    returnsWith filesystem_exists s Q ↔ Q s.disk.isSome s := returnsWith_of_eq _ _ _ _ _ rfl

theorem returnsWith_set_m_is_initialized (b : Bool) (s : Machine)
    (Q : Unit → Machine → Prop) :
    returnsWith (set_m_is_initialized b) s Q ↔
      Q () { s with writer := { s.writer with m_is_initialized := b } } :=
  returnsWith_of_eq _ _ _ _ _ rfl

theorem returnsWith_gsd_get_nframes (s : Machine) (Q : Nat → Machine → Prop) :
    returnsWith gsd_get_nframes s Q ↔
      Q s.writer.m_handle.frames.length
        { s with trace := s.trace ++ [GsdCall.gsd_get_nframes s.writer.m_handle.frames.length] } :=
  returnsWith_of_eq _ _ _ _ _ rfl

theorem returnsWith_checkError (retval : Int) (s : Machine) (Q : Unit → Machine → Prop) :
    returnsWith (checkError retval) s Q ↔ retval = 0 ∧ Q () s := by
  unfold checkError
  by_cases h1 : retval = -1
  · simp [h1, returnsWith_bind, returnsWith_getWriter, returnsWith_getStrerror,
      returnsWith_msg_error, returnsWith_throw]
  · by_cases h0 : retval = 0
    · simp [h0, returnsWith_pure]
    · simp [h1, h0, returnsWith_bind, returnsWith_getWriter, returnsWith_msg_error,
        returnsWith_throw]

theorem returnsWith_writeChunks (cs : List Chunk) (s : Machine) (Q : Unit → Machine → Prop) :
    returnsWith (writeChunks cs) s Q ↔
      (∀ k, k < cs.length → s.ret (s.trace.length + k) = 0) ∧ Q () (s.written cs) := by
  unfold returnsWith
  constructor
  · rintro ⟨a, s1, e, hQ⟩
    obtain ⟨h1, rfl⟩ := (writeChunks_eq_ok_iff cs s s1).mp e
    exact ⟨h1, hQ⟩
  · rintro ⟨h1, hQ⟩
    exact ⟨(), s.written cs, (writeChunks_eq_ok_iff cs s _).mpr ⟨h1, rfl⟩, hQ⟩

theorem returnsWith_gsd_create_zero (fname application schema : String) (v : Nat) (s : Machine)
    (Q : Int → Machine → Prop) (h0 : s.ret s.trace.length = 0) :
    returnsWith (gsd_create fname application schema v) s Q ↔
      Q 0 { s with
              trace := s.trace ++ [GsdCall.gsd_create fname application schema v 0]
              disk := some ⟨⟨application, schema, v⟩, []⟩ } := by
  apply returnsWith_of_eq
  unfold gsd_create
  simp [h0]

theorem returnsWith_gsd_open_zero (fname : String) (s : Machine) (Q : Int → Machine → Prop)
    (f : GsdFile) (hd : s.disk = some f) (h0 : s.ret s.trace.length = 0) :
    returnsWith (gsd_open fname) s Q ↔
      Q 0 { s with
              trace := s.trace ++ [GsdCall.gsd_open fname 0]
              writer := { s.writer with m_handle := ⟨f.header, f.frames, []⟩ } } := by
  apply returnsWith_of_eq
  unfold gsd_open
  simp [hd, h0]

theorem returnsWith_gsd_truncate_zero (s : Machine) (Q : Int → Machine → Prop)
    (h0 : s.ret s.trace.length = 0) :
    returnsWith gsd_truncate s Q ↔
      Q 0 { s with
              trace := s.trace ++ [GsdCall.gsd_truncate 0]
              disk := s.disk.map (fun f => { f with frames := [] })
              writer := { s.writer with
                m_handle := { s.writer.m_handle with frames := [], pending := [] } } } := by
  apply returnsWith_of_eq
  unfold gsd_truncate
  simp [h0]

theorem returnsWith_gsd_end_frame_zero (s : Machine) (Q : Int → Machine → Prop)
    (h0 : s.ret s.trace.length = 0) :
    returnsWith gsd_end_frame s Q ↔
      Q 0 { s with
              trace := s.trace ++ [GsdCall.gsd_end_frame 0]
              disk := s.disk.map
                (fun f => { f with frames := f.frames ++ [s.writer.m_handle.pending] })
              writer := { s.writer with
                m_handle := { s.writer.m_handle with
                  frames := s.writer.m_handle.frames ++ [s.writer.m_handle.pending],
                  pending := [] } } } := by
  apply returnsWith_of_eq
  unfold gsd_end_frame
  simp [h0]

/-- When every call into the library returns 0 and the file, if it is kept, has
an accepted schema, `initFileIO` returns. -/
theorem initFileIO_returns (s : Machine) (hret : ∀ k, s.ret k = 0)
    (hfile : (s.writer.m_overwrite || !s.disk.isSome) = false →
      ∀ f, s.disk = some f →
        f.header.schema = "hoomd" ∧ f.header.schema_version < gsd_make_version 2 0) :
    returnsWith initFileIO s (fun _ s1 =>
      s1.ret = s.ret ∧ s1.writer.settings = s.writer.settings ∧
      s1.writer.m_is_initialized = true ∧ s1.writer.m_handle.pending = []) := by
  have hv : gsd_make_version 1 0 < gsd_make_version 2 0 := by decide
  unfold initFileIO
  simp only [returnsWith_bind, returnsWith_getWriter, returnsWith_getStrerror,
    returnsWith_filesystem_exists]
  by_cases hc : (s.writer.m_overwrite || !s.disk.isSome) = true
  · rw [if_pos hc]
    simp only [returnsWith_bind, returnsWith_getVersionLong]
    refine (returnsWith_gsd_create_zero _ _ _ _ _ _ ?_).mpr ?_
    · exact hret _
    simp only [ne_eq, not_true_eq_false, if_false, returnsWith_pure]
    refine (returnsWith_gsd_open_zero _ _ _
      ⟨⟨"HOOMD-blue " ++ s.HOOMD_VERSION_LONG, "hoomd", gsd_make_version 1 0⟩, []⟩ ?_ ?_).mpr ?_
    · rfl
    · exact hret _
    simp only [Int.reduceNeg, Int.reduceEq, if_false, ne_eq, not_true_eq_false,
      returnsWith_pure, returnsWith_bind, returnsWith_getWriter, returnsWith_ite,
      returnsWith_set_m_is_initialized, returnsWith_msg_error, returnsWith_throw]
    simp [not_le.mpr hv, GSDDumpWriter.settings]
  · rw [if_neg hc]
    have hc2 : (s.writer.m_overwrite || !s.disk.isSome) = false := (Bool.not_eq_true _).mp hc
    rcases hd : s.disk with _ | f
    · simp [hd] at hc2
    · obtain ⟨hs, hver⟩ := hfile hc2 f hd
      simp only [returnsWith_pure]
      refine (returnsWith_gsd_open_zero _ _ _ f hd ?_).mpr ?_
      · exact hret _
      simp only [Int.reduceNeg, Int.reduceEq, if_false, ne_eq, not_true_eq_false,
        returnsWith_pure, returnsWith_bind, returnsWith_getWriter, returnsWith_ite,
        returnsWith_set_m_is_initialized, returnsWith_msg_error, returnsWith_throw]
      simp [hs, not_le.mpr hver, GSDDumpWriter.settings]

theorem returnsWith_write_check (c : Chunk) (s : Machine) (Q : Unit → Machine → Prop) :
    returnsWith (do let retval ← gsd_write_chunk c; checkError retval) s Q ↔
      s.ret s.trace.length = 0 ∧ Q () (s.written [c]) := by
  have h := returnsWith_writeChunks [c] s Q
  rw [writeChunks_singleton] at h
  rw [h]
  simp

theorem returnsWith_write_check_bind {β : Type} (c : Chunk) (f : Unit → GsdM β) (s : Machine)
    (Q : β → Machine → Prop) :
    returnsWith (gsd_write_chunk c >>= fun retval => checkError retval >>= f) s Q ↔
      s.ret s.trace.length = 0 ∧ returnsWith (f ()) (s.written [c]) Q := by
  have e : (gsd_write_chunk c >>= fun retval => checkError retval >>= f) =
      ((do let retval ← gsd_write_chunk c; checkError retval) >>= f) := by
    simp [bind_assoc]
  rw [e, returnsWith_bind, returnsWith_write_check]

theorem returnsWith_getWriter_bind {β : Type} (f : GSDDumpWriter → GsdM β) (s : Machine)
    (Q : β → Machine → Prop) :
    returnsWith (getWriter >>= f) s Q ↔ returnsWith (f s.writer) s Q := by
  rw [returnsWith_bind, returnsWith_getWriter]

theorem returnsWith_getStrerror_bind {β : Type} (f : String → GsdM β) (s : Machine)
    (Q : β → Machine → Prop) :
    returnsWith (getStrerror >>= f) s Q ↔ returnsWith (f s.strerror_errno) s Q := by
  rw [returnsWith_bind, returnsWith_getStrerror]

theorem returnsWith_gsd_get_nframes_bind {β : Type} (f : Nat → GsdM β) (s : Machine)
    (Q : β → Machine → Prop) :
    returnsWith (gsd_get_nframes >>= f) s Q ↔
      returnsWith (f s.writer.m_handle.frames.length)
        { s with trace := s.trace ++ [GsdCall.gsd_get_nframes s.writer.m_handle.frames.length] }
        Q := by
  rw [returnsWith_bind, returnsWith_gsd_get_nframes]

theorem returnsWith_ite_bind {α β : Type} (c : Prop) [Decidable c] (m n : GsdM α)
    (f : α → GsdM β) (s : Machine) (Q : β → Machine → Prop) :
    returnsWith ((if c then m else n) >>= f) s Q ↔
      (c → returnsWith m s (fun a s1 => returnsWith (f a) s1 Q)) ∧
      (¬ c → returnsWith n s (fun a s1 => returnsWith (f a) s1 Q)) := by
  rw [returnsWith_bind, returnsWith_ite]

/-- When every call into the library returns 0, `writeFrameHeader` returns. -/
theorem writeFrameHeader_returns (timestep : Nat) (sys : SystemDefinition) (s : Machine)
    (hret : ∀ k, s.ret k = 0) :
    returnsWith (writeFrameHeader timestep sys) s (fun _ s1 =>
      s1.ret = s.ret ∧ s1.writer.m_group = s.writer.m_group) := by
  unfold writeFrameHeader
  simp only [returnsWith_getWriter_bind, returnsWith_write_check_bind, returnsWith_write_check,
    returnsWith_gsd_get_nframes_bind, returnsWith_ite_bind, returnsWith_pure,
    Machine.written_ret, hret, true_and, and_true, implies_true, Machine.written_m_group]

theorem returnsWith_cond_bind {β : Type} (c : Prop) [Decidable c] (m : GsdM Unit)
    (cs : Machine → List Chunk) (f : Unit → GsdM β) (s : Machine) (Q : β → Machine → Prop)
    (hm : ∀ s0, m s0 = writeChunks (cs s0) s0) (hret : ∀ k, s.ret k = 0) :
    returnsWith ((if c then m else pure ()) >>= f) s Q ↔
      returnsWith (f ()) (s.written (if c then cs s else [])) Q := by
  by_cases h : c
  · simp only [h, if_true]
    rw [returnsWith_bind]
    have e : returnsWith m s (fun a s1 => returnsWith (f a) s1 Q) ↔
        returnsWith (writeChunks (cs s)) s (fun a s1 => returnsWith (f a) s1 Q) := by
      unfold returnsWith
      rw [hm s]
    rw [e, returnsWith_writeChunks]
    simp [hret]
  · simp only [h, if_false]
    rw [returnsWith_bind, returnsWith_pure, Machine.written_nil]

/-- When every call into the library returns 0 and the file, if the writer has
yet to open it and keeps it, has an accepted schema, `analyze` returns on the
root rank. -/
theorem analyze_returns (timestep : Nat) (sys : SystemDefinition) (s : Machine)
    (hroot : sys.isRoot = true) (hret : ∀ k, s.ret k = 0)
    (hfile : s.writer.m_is_initialized = false →
      (s.writer.m_overwrite || !s.disk.isSome) = false →
      ∀ f, s.disk = some f →
        f.header.schema = "hoomd" ∧ f.header.schema_version < gsd_make_version 2 0) :
    ∃ s1, analyze timestep sys s = (Except.ok (), s1) := by
  suffices h : returnsWith (analyze timestep sys) s (fun _ _ => True) by
    obtain ⟨a, s1, e, -⟩ := h
    exact ⟨s1, e⟩
  unfold analyze
  simp only [returnsWith_getWriter_bind, returnsWith_getStrerror_bind, hroot, Bool.and_true]
  -- opening
  rw [returnsWith_bind]
  refine returnsWith_mono (Q := fun _ s1 => s1.ret = s.ret) ?_ ?_
  · rw [returnsWith_ite]
    constructor
    · intro hi
      have hi : s.writer.m_is_initialized = false := by simpa using hi
      exact returnsWith_mono (initFileIO_returns s hret (hfile hi)) (fun _ _ h => h.1)
    · intro _
      rw [returnsWith_pure]
  intro _ s1 h1
  have hret1 : ∀ k, s1.ret k = 0 := fun k => by rw [h1]; exact hret k
  -- truncation
  rw [returnsWith_bind]
  refine returnsWith_mono (Q := fun _ s2 => s2.ret = s.ret) ?_ ?_
  · rw [returnsWith_ite]
    constructor
    · intro _
      rw [returnsWith_bind]
      refine (returnsWith_gsd_truncate_zero _ _ ?_).mpr ?_
      · exact hret1 _
      simp only [Int.reduceNeg, Int.reduceEq, if_false, ne_eq, not_true_eq_false,
        returnsWith_pure]
      exact h1
    · intro _
      rw [returnsWith_pure]
      exact h1
  intro _ s2 h2
  have hret2 : ∀ k, s2.ret k = 0 := fun k => by rw [h2]; exact hret k
  -- the frame
  simp only [if_true, bind_assoc, returnsWith_gsd_get_nframes_bind]
  rw [returnsWith_bind]
  refine returnsWith_mono (writeFrameHeader_returns _ _ _ (fun k => hret2 k)) ?_
  intro _ s3 h3
  have hret3 : ∀ k, s3.ret k = 0 := fun k => by rw [h3.1]; exact hret2 k
  refine (returnsWith_cond_bind _ _ _ _ _ _ (fun s0 => writeAttributes_eq _ s0) ?_).mpr ?_
  · exact fun k => hret3 k
  refine (returnsWith_cond_bind _ _ _ _ _ _ (fun s0 => writeProperties_eq _ s0) ?_).mpr ?_
  · exact fun k => hret3 k
  refine (returnsWith_cond_bind _ _ _ _ _ _ (fun s0 => writeMomenta_eq _ s0) ?_).mpr ?_
  · exact fun k => hret3 k
  rw [writeTopology_eq]
  refine (returnsWith_cond_bind _ _ (fun _ => _) _ _ _ (fun _ => rfl) ?_).mpr ?_
  · exact fun k => hret3 k
  rw [returnsWith_bind]
  refine (returnsWith_gsd_end_frame_zero _ _ ?_).mpr ?_
  · exact hret3 _
  rw [returnsWith_checkError]
  exact ⟨rfl, trivial⟩

theorem analyze_not_root (timestep : Nat) (sys : SystemDefinition) (s : Machine)
    (hroot : sys.isRoot = false) :
    analyze timestep sys s = (Except.ok (), s) := by
  unfold analyze
  simp only [hroot, Bool.and_false, Bool.false_eq_true, if_false, getWriter_bind]
  have hs : ∀ {α : Type} (f : String → GsdM α) (s : Machine),
      (getStrerror >>= f) s = f s.strerror_errno s := fun _ _ => rfl
  rw [hs]
  simp only [pure_bind, ite_self]
  rfl

/-- C15 (non-writer isolation).  A call of `analyze` on a rank that is not the
root returns without an exception and leaves the whole state as it was: the
trace of calls into the library gains no entry (no create, open, truncate,
frame-count read, chunk write or end-frame), the data members of the writer,
`m_is_initialized` among them, keep their values, the file on disk is
unchanged and nothing is written to the error stream.  This holds for every
snapshot, every setting of the flags and every state of the file. -/
theorem non_writer_isolation (timestep : Nat) (sys : SystemDefinition) (s : Machine)
    (hroot : sys.isRoot = false) :
    (analyze timestep sys s).1 = Except.ok () ∧
    (analyze timestep sys s).2.trace = s.trace ∧
    (analyze timestep sys s).2.writer = s.writer ∧
    (analyze timestep sys s).2.disk = s.disk ∧
    (analyze timestep sys s).2.errlog = s.errlog ∧
    (analyze timestep sys s).2 = s := by
  rw [analyze_not_root timestep sys s hroot]
  exact ⟨rfl, rfl, rfl, rfl, rfl, rfl⟩

theorem non_writer_isolation_witness :
    nonRootSystem.isRoot = false ∧
    (analyze 0 nonRootSystem existingMachine).1 = Except.ok () ∧
    (analyze 0 nonRootSystem existingMachine).2.trace = existingMachine.trace ∧
    (analyze 0 nonRootSystem existingMachine).2.writer = existingMachine.writer ∧
    (analyze 0 nonRootSystem existingMachine).2.disk = existingMachine.disk ∧
    (analyze 0 nonRootSystem existingMachine).2.errlog = existingMachine.errlog ∧
    (analyze 0 nonRootSystem existingMachine).2 = existingMachine :=
  ⟨rfl, non_writer_isolation 0 nonRootSystem existingMachine rfl⟩

/-! ## The outcomes of `initFileIO`, state by state -/

theorem post_eq {α : Type} (m : GsdM α) (s : Machine) (x : Except runtime_error α × Machine)
    (h : post m s (fun r s1 => (r, s1) = x)) : m s = x := h

theorem initFileIO_create_failed (s : Machine) (hc : s.creating = true)
    (hr : s.ret s.trace.length ≠ 0) :
    initFileIO s = (Except.error ⟨"Error creating GSD file"⟩,
      { s with
          trace := s.trace ++ [s.createCall (s.ret s.trace.length)]
          errlog := s.errlog ++
            ["dump.gsd: " ++ s.strerror_errno ++ " - " ++ s.writer.m_fname] }) := by
  apply post_eq
  refine initFileIO_cases s _ (fun _ _ => rfl) (fun _ h0 => absurd h0 hr)
    (fun h => ?_)
  rw [Machine.creating] at hc
  rw [hc] at h
  exact absurd h (by decide)

theorem initFileIO_eq_afterCreate (s : Machine)
    (hr : s.creating = true → s.ret s.trace.length = 0) :
    initFileIO s = initFileIO_tail s.writer s.strerror_errno s.afterCreate := by
  apply post_eq
  refine initFileIO_cases s _ (fun hc h0 => absurd (hr hc) h0) (fun hc _ => ?_) (fun hc => ?_)
  · have e : s.afterCreate = { s with
          trace := s.trace ++ [GsdCall.gsd_create s.writer.m_fname
            ("HOOMD-blue " ++ s.HOOMD_VERSION_LONG) "hoomd" (gsd_make_version 1 0) 0]
          disk := some ⟨⟨"HOOMD-blue " ++ s.HOOMD_VERSION_LONG, "hoomd",
            gsd_make_version 1 0⟩, []⟩ } := by
      have hc1 : s.creating = true := hc
      unfold Machine.afterCreate
      rw [if_pos hc1]
      rfl
    rw [e]
    rfl
  · have e : s.afterCreate = s := by
      unfold Machine.afterCreate
      rw [if_neg]
      rw [Machine.creating, hc]
      decide
    rw [e]
    rfl

/-- The result code of `gsd_open` in the state `s`: -1 without a file, the
next code of the library otherwise. -/
theorem gsd_open_code (fname : String) (s : Machine) :
    (gsd_open fname s).1 =
      Except.ok (match s.disk with | none => -1 | some _ => s.ret s.trace.length) := by
  unfold gsd_open
  rcases s.disk with _ | f
  · rfl
  · by_cases h : s.ret s.trace.length = 0 <;> simp [h]

theorem initFileIO_tail_fail (s : Machine) (w : GSDDumpWriter) (e : String)
    (hw : w.m_fname = s.writer.m_fname) (r : Int) (hr : r ≠ 0)
    (hd : match s.disk with | none => r = -1 | some _ => r = s.ret s.trace.length) :
    initFileIO_tail w e s = (Except.error ⟨"Error opening GSD file"⟩,
      { s with
          trace := s.trace ++ [GsdCall.gsd_open s.writer.m_fname r]
          errlog := s.errlog ++ [openErrorLine r e s.writer.m_fname] }) := by
  apply post_eq
  unfold initFileIO_tail
  have key : post (gsd_open w.m_fname) s (fun x s1 => x = Except.ok r ∧
      s1 = { s with trace := s.trace ++ [GsdCall.gsd_open s.writer.m_fname r] }) := by
    rcases hdisk : s.disk with _ | f
    · rw [hdisk] at hd
      rw [post_gsd_open_none _ _ _ hdisk, hd, hw]
      exact ⟨rfl, by rw [hdisk]⟩
    · rw [hdisk] at hd
      rw [post_gsd_open_some _ _ _ f hdisk, ← hd, if_neg hr, hw]
      exact ⟨rfl, by rw [hdisk]⟩
  rw [post_bind]
  unfold post at key ⊢
  obtain ⟨k1, k2⟩ := key
  rw [k1, k2, contPost_ok]
  by_cases h1 : r = -1
  · subst h1
    simp only [post_bind, post_ite, post_msg_error, post_throw, contPost_ok, contPost_error,
      openErrorLine, hw, if_true, true_implies, not_true_eq_false, false_implies, and_true]
  by_cases h2 : r = -2
  · subst h2
    simp only [post_bind, post_ite, post_msg_error, post_throw, contPost_ok, contPost_error,
      openErrorLine, hw, if_true, true_implies, not_true_eq_false, false_implies, and_true,
      h1, if_false, not_false_eq_true, true_and]
  by_cases h3 : r = -3
  · subst h3
    simp only [post_bind, post_ite, post_msg_error, post_throw, contPost_ok, contPost_error,
      openErrorLine, hw, if_true, true_implies, not_true_eq_false, false_implies, and_true,
      h1, h2, if_false, not_false_eq_true, true_and]
  by_cases h4 : r = -4
  · subst h4
    simp only [post_bind, post_ite, post_msg_error, post_throw, contPost_ok, contPost_error,
      openErrorLine, hw, if_true, true_implies, not_true_eq_false, false_implies, and_true,
      h1, h2, h3, if_false, not_false_eq_true, true_and]
  by_cases h5 : r = -5
  · subst h5
    simp only [post_bind, post_ite, post_msg_error, post_throw, contPost_ok, contPost_error,
      openErrorLine, hw, if_true, true_implies, not_true_eq_false, false_implies, and_true,
      h1, h2, h3, h4, if_false, not_false_eq_true, true_and]
  simp only [post_bind, post_ite, post_msg_error, post_throw, contPost_ok, contPost_error,
    openErrorLine, hw, if_true, true_implies, not_true_eq_false, false_implies, and_true,
    h1, h2, h3, h4, h5, hr, ne_eq, if_false, not_false_eq_true, true_and]

theorem initFileIO_tail_ok (s : Machine) (w : GSDDumpWriter) (e : String)
    (hw : w.m_fname = s.writer.m_fname) (f : GsdFile) (hd : s.disk = some f)
    (h0 : s.ret s.trace.length = 0) (hs : f.header.schema = "hoomd")
    (hv : f.header.schema_version < gsd_make_version 2 0) :
    initFileIO_tail w e s = (Except.ok (),
      { s with
          trace := s.trace ++ [GsdCall.gsd_open s.writer.m_fname 0]
          writer := { s.writer with
            m_handle := ⟨f.header, f.frames, []⟩, m_is_initialized := true } }) := by
  apply post_eq
  refine initFileIO_tail_cases s w e hw _ (fun f1 hd1 _ _ _ => ?_) (fun f1 hd1 _ hs1 => ?_)
    (fun f1 hd1 _ _ hv1 => ?_) (fun r line hr _ hr1 => ?_)
  · rw [hd] at hd1
    cases hd1
    rfl
  · rw [hd] at hd1
    cases hd1
    exact absurd hs hs1
  · rw [hd] at hd1
    cases hd1
    exact absurd hv (Nat.not_lt.mpr hv1)
  · rw [hr1 (by rw [hd]; exact Option.some_ne_none f)] at hr
    exact absurd h0 hr

theorem initFileIO_tail_rejected (s : Machine) (w : GSDDumpWriter) (e : String)
    (hw : w.m_fname = s.writer.m_fname) (f : GsdFile) (hd : s.disk = some f)
    (h0 : s.ret s.trace.length = 0)
    (hbad : f.header.schema ≠ "hoomd" ∨ gsd_make_version 2 0 ≤ f.header.schema_version) :
    ∃ line, initFileIO_tail w e s = (Except.error ⟨"Error opening GSD file"⟩,
      { s with
          trace := s.trace ++ [GsdCall.gsd_open s.writer.m_fname 0]
          writer := { s.writer with m_handle := ⟨f.header, f.frames, []⟩ }
          errlog := s.errlog ++ [line] }) := by
  have key : post (initFileIO_tail w e) s (fun r s1 => ∃ line,
      (r, s1) = (Except.error ⟨"Error opening GSD file"⟩,
        { s with
            trace := s.trace ++ [GsdCall.gsd_open s.writer.m_fname 0]
            writer := { s.writer with m_handle := ⟨f.header, f.frames, []⟩ }
            errlog := s.errlog ++ [line] })) := by
    refine initFileIO_tail_cases s w e hw _ (fun f1 hd1 _ hs1 hv1 => ?_) (fun f1 hd1 _ hs1 => ?_)
      (fun f1 hd1 _ _ hv1 => ?_) (fun r line hr _ hr1 => ?_)
    · rw [hd] at hd1
      cases hd1
      rcases hbad with h | h
      · exact absurd hs1 h
      · exact absurd hv1 (Nat.not_lt.mpr h)
    · rw [hd] at hd1
      cases hd1
      exact ⟨_, rfl⟩
    · rw [hd] at hd1
      cases hd1
      exact ⟨_, rfl⟩
    · rw [hr1 (by rw [hd]; exact Option.some_ne_none f)] at hr
      exact absurd h0 hr
  obtain ⟨line, h⟩ := key
  exact ⟨line, h⟩

/-- Every run of the opening part of `initFileIO` makes exactly one call into
the library, `gsd_open`, and leaves the file on disk as it was. -/
theorem initFileIO_tail_trace (s : Machine) (w : GSDDumpWriter) (e : String)
    (hw : w.m_fname = s.writer.m_fname) :
    ∃ r, (initFileIO_tail w e s).2.trace = s.trace ++ [GsdCall.gsd_open s.writer.m_fname r] ∧
      (initFileIO_tail w e s).2.disk = s.disk ∧
      (r ≠ 0 → (initFileIO_tail w e s).1 = Except.error ⟨"Error opening GSD file"⟩ ∧
        (initFileIO_tail w e s).2.errlog = s.errlog ++ [openErrorLine r e s.writer.m_fname] ∧
        (initFileIO_tail w e s).2.writer = s.writer) := by
  rcases hd : s.disk with _ | f
  · refine ⟨-1, ?_⟩
    rw [initFileIO_tail_fail s w e hw (-1) (by decide) (by rw [hd])]
    exact ⟨rfl, hd, fun _ => ⟨rfl, rfl, rfl⟩⟩
  · by_cases h0 : s.ret s.trace.length = 0
    · refine ⟨0, ?_⟩
      by_cases hgood : f.header.schema = "hoomd" ∧
          f.header.schema_version < gsd_make_version 2 0
      · rw [initFileIO_tail_ok s w e hw f hd h0 hgood.1 hgood.2]
        exact ⟨rfl, hd, fun h => absurd rfl h⟩
      · obtain ⟨line, h⟩ := initFileIO_tail_rejected s w e hw f hd h0 (by
          by_cases hs : f.header.schema = "hoomd"
          · exact Or.inr (Nat.not_lt.mp (fun hv => hgood ⟨hs, hv⟩))
          · exact Or.inl hs)
        rw [h]
        exact ⟨rfl, hd, fun h => absurd rfl h⟩
    · refine ⟨s.ret s.trace.length, ?_⟩
      rw [initFileIO_tail_fail s w e hw _ h0 (by rw [hd])]
      exact ⟨rfl, hd, fun _ => ⟨rfl, rfl, rfl⟩⟩

theorem Machine.afterCreate_trace (s : Machine) :
    s.afterCreate.trace = s.trace ++ (if s.creating then [s.createCall 0] else []) := by
  unfold Machine.afterCreate
  by_cases h : s.creating = true <;> simp [h]

theorem Machine.afterCreate_writer (s : Machine) : s.afterCreate.writer = s.writer := by
  unfold Machine.afterCreate
  by_cases h : s.creating = true <;> simp [h]

theorem Machine.afterCreate_errlog (s : Machine) : s.afterCreate.errlog = s.errlog := by
  unfold Machine.afterCreate
  by_cases h : s.creating = true <;> simp [h]

theorem Machine.afterCreate_ret (s : Machine) : s.afterCreate.ret = s.ret := by
  unfold Machine.afterCreate
  by_cases h : s.creating = true <;> simp [h]

theorem Machine.afterCreate_disk (s : Machine) :
    s.afterCreate.disk = if s.creating then some s.newFile else s.disk := by
  unfold Machine.afterCreate
  by_cases h : s.creating = true <;> simp [h]

theorem Machine.afterCreate_of_not_creating (s : Machine) (h : s.creating = false) :
    s.afterCreate = s := by
  unfold Machine.afterCreate
  rw [if_neg (by rw [h]; decide)]

/-- C13 (create-if-absent).  With `creating` the condition `m_overwrite ||
!exists(m_fname)`: when it holds, the first call of `initFileIO` into the
library is `gsd_create` with the file name, the application "HOOMD-blue "
followed by the version text, the schema "hoomd" and the schema version
`gsd_make_version 1 0`, no later call is a `gsd_create`, a result 0 leaves the
new file with that header and no frame on disk, and a result other than 0
ends the run with "Error creating GSD file", no `gsd_open` and the disk as it
was.  When the condition does not hold, `gsd_create` is not called: the only
call is `gsd_open` and the file on disk is unchanged. -/
theorem create_if_absent (s : Machine) :
    (s.creating = true →
      ∃ d, ( initFileIO s).2.trace = s.trace ++ s.createCall (s.ret s.trace.length) :: d ∧
        (∀ ev ∈ d, ev.isCreate = false) ∧
        (s.ret s.trace.length = 0 →
          (∃ r, d = [GsdCall.gsd_open s.writer.m_fname r]) ∧
          ( initFileIO s).2.disk = some s.newFile ∧ s.newFile.frames = [] ∧
          s.newFile.header = ⟨"HOOMD-blue " ++ s.HOOMD_VERSION_LONG, "hoomd",
            gsd_make_version 1 0⟩) ∧
        (s.ret s.trace.length ≠ 0 →
          d = [] ∧ ( initFileIO s).1 = Except.error ⟨"Error creating GSD file"⟩ ∧
          ( initFileIO s).2.disk = s.disk)) ∧
    (s.creating = false →
      ∃ r, ( initFileIO s).2.trace = s.trace ++ [GsdCall.gsd_open s.writer.m_fname r] ∧
        ( initFileIO s).2.disk = s.disk) := by
  constructor
  · intro hc
    by_cases h0 : s.ret s.trace.length = 0
    · obtain ⟨r, ht, hdisk, -⟩ := initFileIO_tail_trace s.afterCreate s.writer s.strerror_errno
        (by rw [Machine.afterCreate_writer])
      rw [← initFileIO_eq_afterCreate s (fun _ => h0), Machine.afterCreate_trace,
        Machine.afterCreate_writer, if_pos hc] at ht
      rw [← initFileIO_eq_afterCreate s (fun _ => h0), Machine.afterCreate_disk, if_pos hc]
        at hdisk
      refine ⟨[GsdCall.gsd_open s.writer.m_fname r], ?_, ?_, fun _ => ⟨⟨r, rfl⟩, hdisk, rfl, rfl⟩,
        fun h => absurd h0 h⟩
      · rw [ht, h0, List.append_assoc]
        rfl
      · intro ev hev
        rw [List.mem_singleton] at hev
        rw [hev]
        rfl
    · rw [initFileIO_create_failed s hc h0]
      exact ⟨[], rfl, fun ev hev => absurd hev (List.not_mem_nil ev), fun h => absurd h h0,
        fun _ => ⟨rfl, rfl, rfl⟩⟩
  · intro hc
    obtain ⟨r, ht, hdisk, -⟩ := initFileIO_tail_trace s.afterCreate s.writer s.strerror_errno
      (by rw [Machine.afterCreate_writer])
    rw [← initFileIO_eq_afterCreate s (fun h => by rw [hc] at h; exact absurd h (by decide)),
      Machine.afterCreate_of_not_creating s hc] at ht hdisk
    exact ⟨r, ht, hdisk⟩

theorem create_if_absent_witness :
    (exampleMachine.creating = true →
      ∃ d, ( initFileIO exampleMachine).2.trace = exampleMachine.trace ++
          exampleMachine.createCall (exampleMachine.ret exampleMachine.trace.length) :: d ∧
        (∀ ev ∈ d, ev.isCreate = false) ∧
        (exampleMachine.ret exampleMachine.trace.length = 0 →
          (∃ r, d = [GsdCall.gsd_open exampleMachine.writer.m_fname r]) ∧
          ( initFileIO exampleMachine).2.disk = some exampleMachine.newFile ∧
          exampleMachine.newFile.frames = [] ∧
          exampleMachine.newFile.header =
            ⟨"HOOMD-blue " ++ exampleMachine.HOOMD_VERSION_LONG, "hoomd",
              gsd_make_version 1 0⟩) ∧
        (exampleMachine.ret exampleMachine.trace.length ≠ 0 →
          d = [] ∧
          ( initFileIO exampleMachine).1 = Except.error ⟨"Error creating GSD file"⟩ ∧
          ( initFileIO exampleMachine).2.disk = exampleMachine.disk)) ∧
    (exampleMachine.creating = false →
      ∃ r, ( initFileIO exampleMachine).2.trace =
          exampleMachine.trace ++ [GsdCall.gsd_open exampleMachine.writer.m_fname r] ∧
        ( initFileIO exampleMachine).2.disk = exampleMachine.disk) :=
  create_if_absent exampleMachine

/-- C11, as the claim states it, fails: when `gsd_open` returns -2 (not a
valid file) and when it returns -4 (corrupt file), `initFileIO` hands its
caller the same exception. -/
theorem distinct_open_errors_counterexample :
    ( initFileIO (failingOpenMachine (-2))).2.trace = [GsdCall.gsd_open "trajectory.gsd" (-2)] ∧
    ( initFileIO (failingOpenMachine (-4))).2.trace = [GsdCall.gsd_open "trajectory.gsd" (-4)] ∧
    ( initFileIO (failingOpenMachine (-2))).1 = ( initFileIO (failingOpenMachine (-4))).1 :=
  ⟨by decide, by decide, rfl⟩

/-- C11 (open errors), amended.  Whenever a run of `initFileIO` ends with a
`gsd_open` that returned a code `r` other than 0, the exception is
`runtime_error("Error opening GSD file")`, the same for every such code, and
exactly one line is added to the error stream, `openErrorLine r`: the
`strerror` text for -1, "... is not a valid GSD file" for -2, "Invalid GSD
file version in ..." for -3, "Corrupt GSD file: ..." for -4, "Out of memory
opening: ..." for -5 and "Unknown error opening: ..." for any other code. -/
theorem open_errors_reported (s : Machine) (r : Int) (hr : r ≠ 0)
    (hlast : ( initFileIO s).2.trace.getLast? = some (GsdCall.gsd_open s.writer.m_fname r)) :
    ( initFileIO s).1 = Except.error ⟨"Error opening GSD file"⟩ ∧
    ( initFileIO s).2.errlog = s.errlog ++ [openErrorLine r s.strerror_errno s.writer.m_fname] ∧
    openErrorLine (-1) s.strerror_errno s.writer.m_fname =
      "dump.gsd: " ++ s.strerror_errno ++ " - " ++ s.writer.m_fname ∧
    openErrorLine (-2) s.strerror_errno s.writer.m_fname =
      "dump.gsd: " ++ s.writer.m_fname ++ " is not a valid GSD file" ∧
    openErrorLine (-3) s.strerror_errno s.writer.m_fname =
      "dump.gsd: " ++ "Invalid GSD file version in " ++ s.writer.m_fname ∧
    openErrorLine (-4) s.strerror_errno s.writer.m_fname =
      "dump.gsd: " ++ "Corrupt GSD file: " ++ s.writer.m_fname ∧
    openErrorLine (-5) s.strerror_errno s.writer.m_fname =
      "dump.gsd: " ++ "Out of memory opening: " ++ s.writer.m_fname ∧
    (r ≠ -1 → r ≠ -2 → r ≠ -3 → r ≠ -4 → r ≠ -5 →
      openErrorLine r s.strerror_errno s.writer.m_fname =
        "dump.gsd: " ++ "Unknown error opening: " ++ s.writer.m_fname) := by
  refine ⟨?_, ?_, rfl, rfl, rfl, rfl, rfl, fun h1 h2 h3 h4 h5 => by
    simp [openErrorLine, h1, h2, h3, h4, h5]⟩
  all_goals
    by_cases hc : s.creating = true ∧ s.ret s.trace.length ≠ 0
    · rw [initFileIO_create_failed s hc.1 hc.2] at hlast
      simp [Machine.createCall] at hlast
    · have he := initFileIO_eq_afterCreate s (fun h => by
        by_contra h0
        exact hc ⟨h, h0⟩)
      obtain ⟨r1, ht, -, hf⟩ := initFileIO_tail_trace s.afterCreate s.writer s.strerror_errno
        (by rw [Machine.afterCreate_writer])
      rw [← he] at ht hf
      rw [ht, List.getLast?_append, Machine.afterCreate_writer] at hlast
      simp at hlast
      subst hlast
      obtain ⟨h1, h2, -⟩ := hf hr
      rw [Machine.afterCreate_errlog, Machine.afterCreate_writer] at h2
      first
        | exact h1
        | exact h2

theorem open_errors_reported_witness :
    (-2 : Int) ≠ 0 ∧
    ( initFileIO (failingOpenMachine (-2))).2.trace.getLast? =
      some (GsdCall.gsd_open (failingOpenMachine (-2)).writer.m_fname (-2)) ∧
    ( initFileIO (failingOpenMachine (-2))).1 = Except.error ⟨"Error opening GSD file"⟩ ∧
    ( initFileIO (failingOpenMachine (-2))).2.errlog =
      ["dump.gsd: trajectory.gsd is not a valid GSD file"] :=
  ⟨by decide, by decide,
    (open_errors_reported (failingOpenMachine (-2)) (-2) (by decide) (by decide)).1,
    by decide⟩

/-- C28 (a created file is accepted).  The header that `initFileIO` passes to
`gsd_create` has the schema name "hoomd" and a schema version below
`gsd_make_version 2 0`; and when `initFileIO` creates the file and both
`gsd_create` and `gsd_open` return 0, it returns without an exception, with
`m_is_initialized` set and the handle carrying that header. -/
theorem created_file_accepted (s : Machine) (hc : s.creating = true)
    (h0 : s.ret s.trace.length = 0) (h1 : s.ret (s.trace.length + 1) = 0) :
    s.newFile.header.schema = "hoomd" ∧
    s.newFile.header.schema_version = gsd_make_version 1 0 ∧
    gsd_make_version 1 0 < gsd_make_version 2 0 ∧
    ( initFileIO s).1 = Except.ok () ∧
    ( initFileIO s).2.writer.m_is_initialized = true ∧
    ( initFileIO s).2.writer.m_handle.header = s.newFile.header ∧
    ( initFileIO s).2.disk = some s.newFile ∧
    ( initFileIO s).2.trace = s.trace ++
      [s.createCall 0, GsdCall.gsd_open s.writer.m_fname 0] := by
  have hd : s.afterCreate.disk = some s.newFile := by
    rw [Machine.afterCreate_disk, if_pos hc]
  have hr : s.afterCreate.ret s.afterCreate.trace.length = 0 := by
    rw [Machine.afterCreate_ret, Machine.afterCreate_trace, if_pos hc]
    simpa using h1
  rw [initFileIO_eq_afterCreate s (fun _ => h0),
    initFileIO_tail_ok s.afterCreate s.writer s.strerror_errno
      (by rw [Machine.afterCreate_writer]) s.newFile hd hr rfl
      (show gsd_make_version 1 0 < gsd_make_version 2 0 by decide)]
  refine ⟨rfl, rfl, by decide, rfl, rfl, rfl, hd, ?_⟩
  show s.afterCreate.trace ++ [GsdCall.gsd_open s.afterCreate.writer.m_fname 0] = _
  rw [Machine.afterCreate_trace, if_pos hc, Machine.afterCreate_writer, List.append_assoc]
  rfl

theorem created_file_accepted_witness :
    exampleMachine.creating = true ∧
    ( initFileIO exampleMachine).1 = Except.ok () ∧
    ( initFileIO exampleMachine).2.writer.m_is_initialized = true :=
  ⟨rfl, (created_file_accepted exampleMachine rfl rfl rfl).2.2.2.1,
    (created_file_accepted exampleMachine rfl rfl rfl).2.2.2.2.1⟩

/-! ## Runs that throw -/

theorem write_check_fail (c : Chunk) (s : Machine) (h : s.ret s.trace.length ≠ 0) :
    (do let retval ← gsd_write_chunk c; checkError retval) s =
      (Except.error ⟨"Error writing GSD file"⟩,
        s.failedCall (GsdCall.gsd_write_chunk c (s.ret s.trace.length))
          (writeErrorLine (s.ret s.trace.length) s.strerror_errno s.writer.m_fname)) := by
  rw [GsdM.bind_apply]
  unfold gsd_write_chunk
  simp only [h, if_false]
  unfold checkError
  by_cases h1 : s.ret s.trace.length = -1
  · simp only [h1, if_true, writeErrorLine]
    rfl
  · simp only [h1, if_false, h, ne_eq, not_false_eq_true, if_true, writeErrorLine]
    rfl

theorem end_check_fail (s : Machine) (h : s.ret s.trace.length ≠ 0) :
    (do let retval ← gsd_end_frame; checkError retval) s =
      (Except.error ⟨"Error writing GSD file"⟩,
        s.failedCall (GsdCall.gsd_end_frame (s.ret s.trace.length))
          (writeErrorLine (s.ret s.trace.length) s.strerror_errno s.writer.m_fname)) := by
  rw [GsdM.bind_apply]
  unfold gsd_end_frame
  simp only [h, if_false]
  unfold checkError
  by_cases h1 : s.ret s.trace.length = -1
  · simp only [h1, if_true, writeErrorLine]
    rfl
  · simp only [h1, if_false, h, ne_eq, not_false_eq_true, if_true, writeErrorLine]
    rfl

theorem end_check_ok (s : Machine) (h : s.ret s.trace.length = 0) :
    (do let retval ← gsd_end_frame; checkError retval) s = (Except.ok (), s.ended) := by
  rw [GsdM.bind_apply]
  unfold gsd_end_frame checkError
  simp only [h, if_true, Int.reduceNeg, Int.reduceEq, if_false, ne_eq, not_true_eq_false]
  rfl

/-- Every outcome of writing a list of chunks: all calls return 0 and the list
is written, or the first call that returns another code ends the run. -/
theorem writeChunks_outcome (cs : List Chunk) (s : Machine) :
    ((∀ k, k < cs.length → s.ret (s.trace.length + k) = 0) ∧
      writeChunks cs s = (Except.ok (), s.written cs)) ∨
    (∃ (k : Nat) (c : Chunk), cs[k]? = some c ∧
      (∀ j, j < k → s.ret (s.trace.length + j) = 0) ∧
      s.ret (s.trace.length + k) ≠ 0 ∧
      writeChunks cs s = (Except.error ⟨"Error writing GSD file"⟩,
        (s.written (cs.take k)).failedCall
          (GsdCall.gsd_write_chunk c (s.ret (s.trace.length + k)))
          (writeErrorLine (s.ret (s.trace.length + k)) s.strerror_errno s.writer.m_fname))) := by
  induction cs generalizing s with
  | nil =>
    left
    exact ⟨fun k hk => absurd hk (by simp), by rw [writeChunks_nil, Machine.written_nil]; rfl⟩
  | cons c cs ih =>
    have e : writeChunks (c :: cs) =
        ((do let retval ← gsd_write_chunk c; checkError retval) >>= fun _ => writeChunks cs) := by
      rw [writeChunks_cons, bind_assoc]
    by_cases h0 : s.ret s.trace.length = 0
    · have hlen : (s.written [c]).trace.length = s.trace.length + 1 := by
        simp [Machine.written]
      rcases ih (s.written [c]) with ⟨hall, hrun⟩ | ⟨k, c1, hk, hlt, hne, hrun⟩
      · left
        refine ⟨fun k hk => ?_, ?_⟩
        · rcases k with _ | k
          · simpa using h0
          · have := hall k (by simpa using hk)
            rw [hlen, Machine.written_ret] at this
            rw [← this]
            congr 1
            omega
        · rw [e, GsdM.bind_apply, write_check_ok c s h0]
          show writeChunks cs (s.written [c]) = _
          rw [hrun, Machine.written_written]
          rfl
      · right
        refine ⟨k + 1, c1, by simpa using hk, fun j hj => ?_, ?_, ?_⟩
        · rcases j with _ | j
          · simpa using h0
          · have := hlt j (by omega)
            rw [hlen, Machine.written_ret] at this
            rw [← this]
            congr 1
            omega
        · rw [hlen, Machine.written_ret] at hne
          intro h
          apply hne
          rw [← h]
          congr 1
          omega
        · rw [e, GsdM.bind_apply, write_check_ok c s h0]
          show writeChunks cs (s.written [c]) = _
          rw [hrun, Machine.written_written, hlen, Machine.written_ret]
          have e1 : s.trace.length + 1 + k = s.trace.length + (k + 1) := by omega
          rw [e1]
          rfl
    · right
      refine ⟨0, c, by simp, fun j hj => absurd hj (by simp), by simpa using h0, ?_⟩
      rw [e, GsdM.bind_apply, write_check_fail c s h0]
      simp only [List.take_zero, Machine.written_nil, Nat.add_zero]

/-! ## The frame part of `analyze`, all outcomes -/

theorem FrameRun.refl (s : Machine) : FrameRun s none s :=
  ⟨[], by simp, rfl, rfl, rfl, rfl, rfl, rfl, by simp, by simp, by simp,
    fun _ => ⟨by simp, rfl, [], by simp, by simp⟩⟩

theorem FrameRun.trans {s s1 s2 : Machine} {o : Option runtime_error}
    (h1 : FrameRun s none s1) (h2 : FrameRun s1 o s2) : FrameRun s o s2 := by
  obtain ⟨d1, a1, a2, a3, a4, a5, a6, a7, a8, -, -, a11⟩ := h1
  obtain ⟨d2, b1, b2, b3, b4, b5, b6, b7, b8, b9, b10, b11⟩ := h2
  obtain ⟨a0, a12, cs1, a13, a14⟩ := a11 rfl
  refine ⟨d1 ++ d2, by rw [b1, a1, List.append_assoc], b2.trans a2, b3.trans a3, b4.trans a4,
    b5.trans a5, b6.trans a6, b7.trans a7, ?_, ?_, ?_, ?_⟩
  · intro ev hev
    rcases List.mem_append.mp hev with h | h
    · exact a8 ev h
    · rw [← a2]
      exact b8 ev h
  · intro ev hev
    rcases List.eq_nil_or_concat d2 with h | ⟨d3, x, h⟩
    · rw [h, List.append_nil] at hev
      exact a0 ev (List.mem_of_mem_dropLast hev)
    · rw [h, List.concat_eq_append, ← List.append_assoc, List.dropLast_concat] at hev
      rcases List.mem_append.mp hev with h3 | h3
      · exact a0 ev h3
      · refine b9 ev ?_
        rw [h, List.concat_eq_append, List.dropLast_concat]
        exact h3
  · intro e he
    obtain ⟨c1, ev, c2, c3⟩ := b10 e he
    refine ⟨c1, ev, ?_, c3⟩
    rw [List.getLast?_append, c2]
    rfl
  · intro ho
    obtain ⟨c0, c1, cs2, c2, c3⟩ := b11 ho
    refine ⟨?_, c1.trans a12, cs1 ++ cs2, by rw [c2, a13, List.append_assoc], ?_⟩
    · intro ev hev
      rcases List.mem_append.mp hev with h | h
      · exact a0 ev h
      · exact c0 ev h
    · rw [List.filter_append, a14, c3, List.map_append]

theorem frameHolds_pure {α : Type} (a : α) (s : Machine) :
    frameHolds (pure a : GsdM α) s := FrameRun.refl s

theorem frameHolds_bind {α β : Type} (m : GsdM α) (f : α → GsdM β) (s : Machine)
    (hm : frameHolds m s) (hf : ∀ a s1, m s = (Except.ok a, s1) → frameHolds (f a) s1) :
    frameHolds (m >>= f) s := by
  unfold frameHolds at hm ⊢
  rw [GsdM.bind_apply]
  rcases h : m s with ⟨r, s1⟩
  rw [h] at hm
  cases r with
  | error e => exact hm
  | ok a => exact FrameRun.trans hm (hf a s1 h)

theorem frameHolds_ite {α : Type} (c : Prop) [Decidable c] (m n : GsdM α) (s : Machine)
    (hm : frameHolds m s) (hn : frameHolds n s) : frameHolds (if c then m else n) s := by
  by_cases h : c <;> simp [h, hm, hn]

theorem frameHolds_congr {α : Type} (m n : GsdM α) (s : Machine) (h : m s = n s)
    (hn : frameHolds n s) : frameHolds m s := by
  unfold frameHolds at hn ⊢
  rw [h]
  exact hn

theorem frameHolds_gsd_get_nframes (s : Machine) : frameHolds gsd_get_nframes s :=
  ⟨[GsdCall.gsd_get_nframes s.writer.m_handle.frames.length], rfl, rfl, rfl, rfl, rfl, rfl, rfl,
    by simp, by simp, by simp [gsd_get_nframes, thrown],
    fun _ => ⟨by simp [GsdCall.code], rfl, [], by simp [gsd_get_nframes],
      by simp [GsdCall.isWriteChunk]⟩⟩

theorem frameHolds_getWriter (s : Machine) : frameHolds getWriter s := FrameRun.refl s

theorem frameHolds_writeChunks (cs : List Chunk) (s : Machine) :
    frameHolds (writeChunks cs) s := by
  unfold frameHolds
  have hz : ∀ (l : List Chunk) (ev : GsdCall),
      ev ∈ l.map (fun c => GsdCall.gsd_write_chunk c 0) → ev.code = 0 := by
    intro l ev hev
    obtain ⟨c, -, rfl⟩ := List.mem_map.mp hev
    rfl
  rcases writeChunks_outcome cs s with ⟨-, hrun⟩ | ⟨k, c, hk, -, hne, hrun⟩
  · rw [hrun]
    refine ⟨cs.map (fun c => GsdCall.gsd_write_chunk c 0), rfl, rfl, rfl, rfl, rfl, rfl, rfl,
      ?_, ?_, by simp [thrown], fun _ => ⟨hz cs, rfl, cs, rfl, ?_⟩⟩
    · intro ev hev
      obtain ⟨c, -, rfl⟩ := List.mem_map.mp hev
      exact Or.inl rfl
    · intro ev hev
      exact hz cs ev (List.mem_of_mem_dropLast hev)
    · rw [List.filter_eq_self]
      intro ev hev
      obtain ⟨c, -, rfl⟩ := List.mem_map.mp hev
      rfl
  · rw [hrun]
    refine ⟨(cs.take k).map (fun c => GsdCall.gsd_write_chunk c 0) ++
        [GsdCall.gsd_write_chunk c (s.ret (s.trace.length + k))], ?_, rfl, rfl, rfl, rfl, rfl, rfl,
      ?_, ?_, ?_, by simp [thrown]⟩
    · simp [Machine.failedCall, Machine.written, List.append_assoc]
    · intro ev hev
      rcases List.mem_append.mp hev with h | h
      · obtain ⟨c, -, rfl⟩ := List.mem_map.mp h
        exact Or.inl rfl
      · rw [List.mem_singleton] at h
        rw [h]
        exact Or.inl rfl
    · intro ev hev
      rw [List.dropLast_concat] at hev
      exact hz _ ev hev
    · intro e he
      have he1 : e = ⟨"Error writing GSD file"⟩ := by
        simp only [thrown, Option.some.injEq] at he
        exact he.symm
      exact ⟨he1, GsdCall.gsd_write_chunk c (s.ret (s.trace.length + k)), by simp, hne, rfl⟩

theorem writeFrameHeader_eq (timestep : Nat) (sys : SystemDefinition) (s : Machine) :
    writeFrameHeader timestep sys s =
      (do
        writeChunks [⟨"configuration/step", GsdType.GSD_TYPE_UINT64, 1, 1,
          Payload.u64 [timestep]⟩]
        let n ← gsd_get_nframes
        writeChunks (optChunk (decide (n = 0))
            ⟨"configuration/dimensions", GsdType.GSD_TYPE_UINT8, 1, 1,
              Payload.u8 [sys.NDimensions % 2 ^ 8]⟩
          ++ [(⟨"configuration/box", GsdType.GSD_TYPE_FLOAT, 6, 1,
                Payload.f32 [sys.globalBox.L.x, sys.globalBox.L.y, sys.globalBox.L.z,
                  sys.globalBox.xy, sys.globalBox.xz, sys.globalBox.yz]⟩ : Chunk),
              ⟨"particles/N", GsdType.GSD_TYPE_UINT32, 1, 1,
                Payload.u32 [s.writer.m_group.getNumMembersGlobal]⟩])) s := by
  unfold writeFrameHeader
  rw [getWriter_bind]
  simp only [writeChunks_append, writeChunks_optChunk, writeChunks_singleton, writeChunks_cons,
    writeChunks_nil, bind_assoc, decide_eq_true_eq, bind_pure_comp, id_map', Functor.map_map]

theorem frameHolds_writeFrameHeader (timestep : Nat) (sys : SystemDefinition) (s : Machine) :
    frameHolds (writeFrameHeader timestep sys) s := by
  refine frameHolds_congr _ _ s (writeFrameHeader_eq timestep sys s) ?_
  refine frameHolds_bind _ _ s (frameHolds_writeChunks _ s) (fun _ s1 _ => ?_)
  refine frameHolds_bind _ _ s1 (frameHolds_gsd_get_nframes s1) (fun n s2 _ => ?_)
  exact frameHolds_writeChunks _ s2

theorem frameHolds_writeAttributes (snapshot : SnapshotParticleData) (s : Machine) :
    frameHolds (writeAttributes snapshot) s :=
  frameHolds_congr _ _ s (writeAttributes_eq snapshot s) (frameHolds_writeChunks _ s)

theorem frameHolds_writeProperties (snapshot : SnapshotParticleData) (s : Machine) :
    frameHolds (writeProperties snapshot) s :=
  frameHolds_congr _ _ s (writeProperties_eq snapshot s) (frameHolds_writeChunks _ s)

theorem frameHolds_writeMomenta (snapshot : SnapshotParticleData) (s : Machine) :
    frameHolds (writeMomenta snapshot) s :=
  frameHolds_congr _ _ s (writeMomenta_eq snapshot s) (frameHolds_writeChunks _ s)

theorem frameHolds_writeTopology (bond angle dihedral improper : BondedSnapshot)
    (constraint : ConstraintSnapshot) (s : Machine) :
    frameHolds (writeTopology bond angle dihedral improper constraint) s := by
  rw [writeTopology_eq]
  exact frameHolds_writeChunks _ s

theorem analyze_eq_parts (timestep : Nat) (sys : SystemDefinition) :
    analyze timestep sys = (do
      let w ← getWriter
      let e ← getStrerror
      (if !w.m_is_initialized && sys.isRoot then do initFileIO else pure ())
      (if w.m_truncate && sys.isRoot then analyze_truncate w e else pure ())
      let nframes ← if sys.isRoot then gsd_get_nframes else (pure sys.bcast_nframes : GsdM Nat)
      analyze_write w nframes timestep sys
      (if sys.isRoot then do
        let retval ← gsd_end_frame
        checkError retval
      else pure ())) := by
  unfold analyze analyze_write analyze_truncate
  simp only [bind_assoc]

theorem analyze_truncate_ok (w : GSDDumpWriter) (e : String) (s : Machine)
    (h0 : s.ret s.trace.length = 0) :
    analyze_truncate w e s = (Except.ok (), s.truncated) := by
  unfold analyze_truncate
  rw [GsdM.bind_apply]
  unfold gsd_truncate
  simp only [h0, if_true, Int.reduceNeg, Int.reduceEq, if_false, ne_eq, not_true_eq_false]
  rfl

theorem analyze_truncate_fail (w : GSDDumpWriter) (e : String) (s : Machine)
    (h0 : s.ret s.trace.length ≠ 0) :
    analyze_truncate w e s = (Except.error ⟨"Error opening GSD file"⟩,
      s.failedCall (GsdCall.gsd_truncate (s.ret s.trace.length))
        (openErrorLine (s.ret s.trace.length) e w.m_fname)) := by
  unfold analyze_truncate
  rw [GsdM.bind_apply]
  unfold gsd_truncate
  simp only [h0, if_false]
  by_cases h1 : s.ret s.trace.length = -1
  · simp only [h1, if_true, openErrorLine]
    rfl
  by_cases h2 : s.ret s.trace.length = -2
  · simp only [h2, if_true, openErrorLine, Int.reduceNeg, Int.reduceEq, if_false]
    rfl
  by_cases h3 : s.ret s.trace.length = -3
  · simp only [h3, if_true, openErrorLine, Int.reduceNeg, Int.reduceEq, if_false]
    rfl
  by_cases h4 : s.ret s.trace.length = -4
  · simp only [h4, if_true, openErrorLine, Int.reduceNeg, Int.reduceEq, if_false]
    rfl
  by_cases h5 : s.ret s.trace.length = -5
  · simp only [h5, if_true, openErrorLine, Int.reduceNeg, Int.reduceEq, if_false]
    rfl
  simp only [h1, h2, h3, h4, h5, h0, if_false, openErrorLine, ne_eq, not_false_eq_true, if_true]
  rfl

theorem frameHolds_analyze_write (w : GSDDumpWriter) (nframes timestep : Nat)
    (sys : SystemDefinition) (s : Machine) :
    frameHolds (analyze_write w nframes timestep sys) s := by
  unfold analyze_write
  refine frameHolds_bind _ _ s ?_ (fun _ s1 _ => ?_)
  · refine frameHolds_ite _ _ _ s ?_ (frameHolds_pure _ s)
    refine frameHolds_bind _ _ s (frameHolds_writeFrameHeader _ _ s) (fun _ s1 _ => ?_)
    refine frameHolds_bind _ _ s1 (frameHolds_ite _ _ _ s1 (frameHolds_writeAttributes _ s1)
      (frameHolds_pure _ s1)) (fun _ s2 _ => ?_)
    refine frameHolds_bind _ _ s2 (frameHolds_ite _ _ _ s2 (frameHolds_writeProperties _ s2)
      (frameHolds_pure _ s2)) (fun _ s3 _ => ?_)
    exact frameHolds_ite _ _ _ s3 (frameHolds_writeMomenta _ s3) (frameHolds_pure _ s3)
  · refine frameHolds_ite _ _ _ s1 ?_ (frameHolds_pure _ s1)
    exact frameHolds_ite _ _ _ s1 (frameHolds_writeTopology _ _ _ _ _ s1) (frameHolds_pure _ s1)

/-- Every outcome of `analyze` on the root rank: `initFileIO` throws; or
`gsd_truncate` fails; or a chunk write fails; or `gsd_end_frame` fails; or the
call returns. -/
theorem analyze_cases (timestep : Nat) (sys : SystemDefinition) (s : Machine)
    (hroot : sys.isRoot = true) (Q : Except runtime_error Unit → Machine → Prop)
    (hinit : s.writer.m_is_initialized = false → ∀ e s1,
      initFileIO s = (Except.error e, s1) → Q (Except.error e) s1)
    (htrunc : ∀ s1, ((s.writer.m_is_initialized = true ∧ s1 = s) ∨
        (s.writer.m_is_initialized = false ∧ initFileIO s = (Except.ok (), s1))) →
      s.writer.m_truncate = true → s1.ret s1.trace.length ≠ 0 →
      Q (Except.error ⟨"Error opening GSD file"⟩)
        (s1.failedCall (GsdCall.gsd_truncate (s1.ret s1.trace.length))
          (openErrorLine (s1.ret s1.trace.length) s.strerror_errno s.writer.m_fname)))
    (hframe : ∀ s2 e s3, SetupDone s s2 → FrameRun s2.counted (some e) s3 →
      Q (Except.error e) s3)
    (hend : ∀ s2 s3, SetupDone s s2 → FrameRun s2.counted none s3 →
      s3.ret s3.trace.length ≠ 0 →
      Q (Except.error ⟨"Error writing GSD file"⟩)
        (s3.failedCall (GsdCall.gsd_end_frame (s3.ret s3.trace.length))
          (writeErrorLine (s3.ret s3.trace.length) s3.strerror_errno s3.writer.m_fname)))
    (hok : ∀ s2 s3, SetupDone s s2 → FrameRun s2.counted none s3 →
      s3.ret s3.trace.length = 0 → Q (Except.ok ()) s3.ended) :
    post (analyze timestep sys) s Q := by
  rw [analyze_eq_parts]
  simp only [hroot, Bool.and_true, if_true]
  rw [post_bind, post_getWriter, contPost_ok, post_bind, post_getStrerror, contPost_ok]
  -- the part after the opening
  have rest : ∀ s1, ((s.writer.m_is_initialized = true ∧ s1 = s) ∨
      (s.writer.m_is_initialized = false ∧ initFileIO s = (Except.ok (), s1))) →
      post (do
        (if s.writer.m_truncate = true then analyze_truncate s.writer s.strerror_errno
          else pure ())
        let nframes ← gsd_get_nframes
        analyze_write s.writer nframes timestep sys
        let retval ← gsd_end_frame
        checkError retval) s1 Q := by
    intro s1 hs1
    -- the part after the truncation
    have rest2 : ∀ s2, SetupDone s s2 →
        post (do
          let nframes ← gsd_get_nframes
          analyze_write s.writer nframes timestep sys
          let retval ← gsd_end_frame
          checkError retval) s2 Q := by
      intro s2 hs2
      rw [post_bind]
      show contPost _ Q (Except.ok s2.writer.m_handle.frames.length) s2.counted
      rw [contPost_ok, post_bind]
      have hw := frameHolds_analyze_write s.writer s2.writer.m_handle.frames.length timestep sys
        s2.counted
      unfold frameHolds at hw
      unfold post
      rcases hrun : analyze_write s.writer s2.writer.m_handle.frames.length timestep sys
        s2.counted with ⟨r, s3⟩
      rw [hrun] at hw
      cases r with
      | error e => exact hframe s2 e s3 hs2 hw
      | ok a =>
        rw [contPost_ok]
        unfold post
        by_cases h0 : s3.ret s3.trace.length = 0
        · rw [end_check_ok s3 h0]
          exact hok s2 s3 hs2 hw h0
        · rw [end_check_fail s3 h0]
          exact hend s2 s3 hs2 hw h0
    by_cases ht : s.writer.m_truncate = true
    · rw [if_pos ht, post_bind]
      unfold post
      by_cases h0 : s1.ret s1.trace.length = 0
      · rw [analyze_truncate_ok _ _ s1 h0, contPost_ok]
        exact rest2 _ ⟨s1, hs1, Or.inr ⟨ht, h0, rfl⟩⟩
      · rw [analyze_truncate_fail _ _ s1 h0, contPost_error]
        exact htrunc s1 hs1 ht h0
    · rw [if_neg ht, post_bind, post_pure, contPost_ok]
      exact rest2 _ ⟨s1, hs1, Or.inl ⟨(Bool.not_eq_true _).mp ht, rfl⟩⟩
  by_cases hi : s.writer.m_is_initialized = true
  · simp only [hi, Bool.not_true, Bool.false_eq_true, if_false]
    rw [post_bind, post_pure, contPost_ok]
    exact rest s (Or.inl ⟨hi, rfl⟩)
  · have hi : s.writer.m_is_initialized = false := (Bool.not_eq_true _).mp hi
    simp only [hi, Bool.not_false, if_true]
    rw [post_bind]
    unfold post
    rcases hrun : initFileIO s with ⟨r, s1⟩
    cases r with
    | error e =>
      rw [contPost_error]
      exact hinit hi e s1 hrun
    | ok a =>
      rw [contPost_ok]
      exact rest s1 (Or.inr ⟨hi, hrun⟩)

theorem initFileIO_ok_state (s s1 : Machine) (h : initFileIO s = (Except.ok (), s1)) :
    (s.creating = true → s.ret s.trace.length = 0) ∧
    ∃ f, s.afterCreate.disk = some f ∧ s.afterCreate.ret s.afterCreate.trace.length = 0 ∧
      ¬ f.rejected ∧ s1 = s.afterCreate.opened f := by
  have hc : s.creating = true → s.ret s.trace.length = 0 := by
    intro hc
    by_contra h0
    rw [initFileIO_create_failed s hc h0] at h
    cases h
  refine ⟨hc, ?_⟩
  rw [initFileIO_eq_afterCreate s hc] at h
  have hw : s.writer.m_fname = s.afterCreate.writer.m_fname := by rw [Machine.afterCreate_writer]
  rcases hd : s.afterCreate.disk with _ | f
  · rw [initFileIO_tail_fail _ _ _ hw (-1) (by decide) (by rw [hd])] at h
    cases h
  · by_cases h0 : s.afterCreate.ret s.afterCreate.trace.length = 0
    · by_cases hr : f.rejected
      · obtain ⟨line, hl⟩ := initFileIO_tail_rejected _ _ s.strerror_errno hw f hd h0 hr
        rw [hl] at h
        cases h
      · have hs : f.header.schema = "hoomd" := by
          by_contra hs
          exact hr (Or.inl hs)
        have hv : f.header.schema_version < gsd_make_version 2 0 := by
          by_contra hv
          exact hr (Or.inr (Nat.not_lt.mp hv))
        rw [initFileIO_tail_ok _ _ _ hw f hd h0 hs hv] at h
        exact ⟨f, rfl, h0, hr, (Prod.mk.inj h).2.symm⟩
    · rw [initFileIO_tail_fail _ _ _ hw _ h0 (by rw [hd])] at h
      cases h

/-- Every outcome of `initFileIO` that throws: a call into the library has
returned a code other than 0, or the header of the opened file is
rejected. -/
theorem initFileIO_error_state (s s1 : Machine) (e : runtime_error)
    (h : initFileIO s = (Except.error e, s1)) :
    s1.writer.m_is_initialized = s.writer.m_is_initialized ∧
    s1.writer.settings = s.writer.settings ∧ s1.ret = s.ret ∧
    ((s.creating = true ∧ s.ret s.trace.length ≠ 0 ∧ e = ⟨"Error creating GSD file"⟩ ∧
        s1.trace = s.trace ++ [s.createCall (s.ret s.trace.length)]) ∨
     (∃ r, r ≠ 0 ∧ e = ⟨"Error opening GSD file"⟩ ∧
        s1.trace = s.afterCreate.trace ++ [GsdCall.gsd_open s.writer.m_fname r]) ∨
     (∃ f, s.afterCreate.disk = some f ∧ f.rejected ∧ e = ⟨"Error opening GSD file"⟩ ∧
        s1.trace = s.afterCreate.trace ++ [GsdCall.gsd_open s.writer.m_fname 0])) := by
  by_cases hc : s.creating = true ∧ s.ret s.trace.length ≠ 0
  · rw [initFileIO_create_failed s hc.1 hc.2] at h
    obtain ⟨h1, h2⟩ := Prod.mk.inj h
    cases h1
    subst h2
    exact ⟨rfl, rfl, rfl, Or.inl ⟨hc.1, hc.2, rfl, rfl⟩⟩
  · have hc1 : s.creating = true → s.ret s.trace.length = 0 := by
      intro h1
      by_contra h0
      exact hc ⟨h1, h0⟩
    rw [initFileIO_eq_afterCreate s hc1] at h
    have hw : s.writer.m_fname = s.afterCreate.writer.m_fname := by
      rw [Machine.afterCreate_writer]
    have fail : ∀ r, r ≠ 0 →
        initFileIO_tail s.writer s.strerror_errno s.afterCreate =
          (Except.error ⟨"Error opening GSD file"⟩,
            { s.afterCreate with
                trace := s.afterCreate.trace ++ [GsdCall.gsd_open s.afterCreate.writer.m_fname r]
                errlog := s.afterCreate.errlog ++
                  [openErrorLine r s.strerror_errno s.afterCreate.writer.m_fname] }) →
        s1.writer.m_is_initialized = s.writer.m_is_initialized ∧
        s1.writer.settings = s.writer.settings ∧ s1.ret = s.ret ∧
        ((s.creating = true ∧ s.ret s.trace.length ≠ 0 ∧ e = ⟨"Error creating GSD file"⟩ ∧
            s1.trace = s.trace ++ [s.createCall (s.ret s.trace.length)]) ∨
         (∃ r, r ≠ 0 ∧ e = ⟨"Error opening GSD file"⟩ ∧
            s1.trace = s.afterCreate.trace ++ [GsdCall.gsd_open s.writer.m_fname r]) ∨
         (∃ f, s.afterCreate.disk = some f ∧ f.rejected ∧ e = ⟨"Error opening GSD file"⟩ ∧
            s1.trace = s.afterCreate.trace ++ [GsdCall.gsd_open s.writer.m_fname 0])) := by
      intro r hr hrun
      rw [hrun] at h
      obtain ⟨h1, h2⟩ := Prod.mk.inj h
      cases h1
      subst h2
      refine ⟨?_, ?_, Machine.afterCreate_ret s, Or.inr (Or.inl ⟨r, hr, rfl, ?_⟩)⟩
      · show s.afterCreate.writer.m_is_initialized = _
        rw [Machine.afterCreate_writer]
      · show s.afterCreate.writer.settings = _
        rw [Machine.afterCreate_writer]
      · show s.afterCreate.trace ++ [GsdCall.gsd_open s.afterCreate.writer.m_fname r] = _
        rw [Machine.afterCreate_writer]
    rcases hd : s.afterCreate.disk with _ | f
    · have h2 := fail (-1) (by decide)
        (initFileIO_tail_fail _ _ _ hw (-1) (by decide) (by rw [hd]))
      rw [hd] at h2
      exact h2
    · by_cases h0 : s.afterCreate.ret s.afterCreate.trace.length = 0
      · by_cases hr : f.rejected
        · obtain ⟨line, hl⟩ := initFileIO_tail_rejected _ _ s.strerror_errno hw f hd h0 hr
          rw [hl] at h
          obtain ⟨h1, h2⟩ := Prod.mk.inj h
          cases h1
          subst h2
          refine ⟨?_, ?_, Machine.afterCreate_ret s, Or.inr (Or.inr ⟨f, rfl, hr, rfl, ?_⟩)⟩
          · show s.afterCreate.writer.m_is_initialized = _
            rw [Machine.afterCreate_writer]
          · show ( { s.afterCreate.writer with m_handle := ⟨f.header, f.frames, []⟩ } :
              GSDDumpWriter).settings = _
            rw [GSDDumpWriter.settings_with_handle, Machine.afterCreate_writer]
          · show s.afterCreate.trace ++ [GsdCall.gsd_open s.afterCreate.writer.m_fname 0] = _
            rw [Machine.afterCreate_writer]
        · have hs : f.header.schema = "hoomd" := by
            by_contra hs
            exact hr (Or.inl hs)
          have hv : f.header.schema_version < gsd_make_version 2 0 := by
            by_contra hv
            exact hr (Or.inr (Nat.not_lt.mp hv))
          rw [initFileIO_tail_ok _ _ _ hw f hd h0 hs hv] at h
          cases h
      · have h2 := fail _ h0 (initFileIO_tail_fail _ _ _ hw _ h0 (by rw [hd]))
        rw [hd] at h2
        exact h2

theorem Machine.afterCreate_creating (s : Machine) (hc : s.creating = true) :
    s.afterCreate = { s with trace := s.trace ++ [s.createCall 0], disk := some s.newFile } := by
  unfold Machine.afterCreate
  rw [if_pos hc]

/-- The state after the opening part of `analyze` has returned. -/
theorem init_done_facts {s s1 : Machine}
    (h1 : (s.writer.m_is_initialized = true ∧ s1 = s) ∨
      (s.writer.m_is_initialized = false ∧ initFileIO s = (Except.ok (), s1))) :
    s1.trace = s.trace ++
      (if s.writer.m_is_initialized then []
       else (if s.creating then [s.createCall 0] else []) ++
         [GsdCall.gsd_open s.writer.m_fname 0]) ∧
    s1.writer.m_is_initialized = true ∧
    s1.writer.settings = s.writer.settings ∧
    s1.ret = s.ret ∧ s1.strerror_errno = s.strerror_errno ∧
    s1.writer.m_handle.frames =
      (if s.writer.m_is_initialized then s.writer.m_handle.frames
       else if s.creating then []
       else match s.disk with
        | some f => f.frames
        | none => []) ∧
    (s.writer.m_is_initialized = true → s1.writer.m_handle.pending = s.writer.m_handle.pending) ∧
    (s.writer.m_is_initialized = false → s1.writer.m_handle.pending = []) ∧
    (s.writer.m_is_initialized = false ∨ s.disk.isSome = true →
      ∃ f, s1.disk = some f ∧ (s.writer.m_is_initialized = false →
        f.frames = s1.writer.m_handle.frames))  := by
  rcases h1 with ⟨hi, rfl⟩ | ⟨hi, hrun⟩
  · refine ⟨by simp [hi], hi, rfl, rfl, rfl, by simp [hi], fun _ => rfl,
      (fun h => by rw [hi] at h; cases h), fun h => ?_⟩
    rcases h with h | h
    · rw [hi] at h
      cases h
    · obtain ⟨f, hf⟩ := Option.isSome_iff_exists.mp h
      exact ⟨f, hf, (fun h => by rw [hi] at h; cases h)⟩
  · obtain ⟨hc0, f, hd, h0, hr, rfl⟩ := initFileIO_ok_state s s1 hrun
    by_cases hc : s.creating = true
    · rw [Machine.afterCreate_creating s hc] at hd ⊢
      cases hd
      refine ⟨by simp [hi, hc, Machine.opened, List.append_assoc], rfl, rfl, rfl, rfl,
        by simp [hi, hc, Machine.opened, Machine.newFile], (fun h => by rw [hi] at h; cases h),
        fun _ => rfl, fun _ => ⟨s.newFile, rfl, fun _ => rfl⟩⟩
    · have hc : s.creating = false := (Bool.not_eq_true _).mp hc
      rw [Machine.afterCreate_of_not_creating s hc] at hd ⊢
      refine ⟨by simp [hi, hc, Machine.opened], rfl, rfl, rfl, rfl,
        by simp [hi, hc, Machine.opened, hd], (fun h => by rw [hi] at h; cases h),
        fun _ => rfl, fun _ => ⟨f, hd, fun _ => rfl⟩⟩

/-- The state in which `analyze` reads the frame count. -/
theorem SetupDone.facts {s s2 : Machine} (h : SetupDone s s2) :
    s2.trace = s.trace ++ s.setupCalls ∧
    s2.writer.m_is_initialized = true ∧
    s2.writer.settings = s.writer.settings ∧
    s2.ret = s.ret ∧ s2.strerror_errno = s.strerror_errno ∧
    s2.writer.m_handle.frames = s.startFrames ∧
    (s.writer.m_is_initialized = true → s.writer.m_truncate = false →
      s2.writer.m_handle.pending = s.writer.m_handle.pending) ∧
    (s.writer.m_is_initialized = false ∨ s.writer.m_truncate = true →
      s2.writer.m_handle.pending = []) ∧
    (s.writer.m_is_initialized = false ∨ s.disk.isSome = true →
      ∃ f, s2.disk = some f ∧ (s.writer.m_is_initialized = false ∨ s.writer.m_truncate = true →
        f.frames = s2.writer.m_handle.frames)) := by
  obtain ⟨s1, h1, h2⟩ := h
  obtain ⟨a1, a2, a3, a4, a5, a6, a7, a8, a9⟩ := init_done_facts h1
  rcases h2 with ⟨ht, rfl⟩ | ⟨ht, -, rfl⟩
  · refine ⟨?_, a2, a3, a4, a5, ?_, fun hi _ => a7 hi, fun h => ?_, fun h => ?_⟩
    · rw [a1, Machine.setupCalls, ht]
      simp
    · rw [a6, Machine.startFrames, ht]
      simp
    · rcases h with h | h
      · exact a8 h
      · rw [ht] at h
        cases h
    · obtain ⟨f, hf, hf2⟩ := a9 h
      refine ⟨f, hf, fun h1 => ?_⟩
      rcases h1 with h1 | h1
      · exact hf2 h1
      · rw [ht] at h1
        cases h1
  · refine ⟨?_, a2, a3, a4, a5, ?_, (fun _ h => by rw [ht] at h; cases h), fun _ => rfl,
      fun h => ?_⟩
    · show s1.trace ++ [GsdCall.gsd_truncate 0] = _
      rw [a1, Machine.setupCalls, ht]
      simp
    · rw [Machine.startFrames, ht]
      rfl
    · obtain ⟨f, hf, -⟩ := a9 h
      exact ⟨{ f with frames := [] }, by simp [Machine.truncated, hf], fun _ => rfl⟩

theorem Machine.setupCalls_kinds (s : Machine) (ev : GsdCall) (h : ev ∈ s.setupCalls) :
    ev.code = 0 ∧ (ev.isCreate = true ∨ ev.isOpen = true ∨ ev.isTruncate = true) ∧
    ev.isWriteChunk = false ∧ ev.isEndFrame = false ∧ ev.isGetNframes = false ∧
    (s.writer.m_is_initialized = true → ev.isTruncate = true) := by
  unfold Machine.setupCalls at h
  simp only [List.mem_append] at h
  rcases h with h | h
  · by_cases hi : s.writer.m_is_initialized = true
    · simp [hi] at h
    · simp only [hi, Bool.false_eq_true, if_false, List.mem_append, List.mem_singleton] at h
      rcases h with h | h
      · by_cases hc : s.creating = true
        · simp only [hc, if_true, List.mem_singleton] at h
          subst h
          exact ⟨rfl, Or.inl rfl, rfl, rfl, rfl, fun h => absurd h hi⟩
        · simp [hc] at h
      · subst h
        exact ⟨rfl, Or.inr (Or.inl rfl), rfl, rfl, rfl, fun h => absurd h hi⟩
  · by_cases ht : s.writer.m_truncate = true
    · simp only [ht, if_true, List.mem_singleton] at h
      subst h
      exact ⟨rfl, Or.inr (Or.inr rfl), rfl, rfl, rfl, fun _ => rfl⟩
    · simp [ht] at h

theorem Machine.setupCalls_head (s : Machine) (hi : s.writer.m_is_initialized = false) :
    ∃ ev rest, s.setupCalls = ev :: rest ∧ (ev.isCreate = true ∨ ev.isOpen = true) := by
  unfold Machine.setupCalls
  by_cases hc : s.creating = true
  · refine ⟨s.createCall 0, GsdCall.gsd_open s.writer.m_fname 0 ::
      (if s.writer.m_truncate then [GsdCall.gsd_truncate 0] else []), ?_, Or.inl rfl⟩
    simp [hi, hc]
  · refine ⟨GsdCall.gsd_open s.writer.m_fname 0,
      (if s.writer.m_truncate then [GsdCall.gsd_truncate 0] else []), ?_, Or.inr rfl⟩
    simp [hi, hc]

theorem Machine.setupCalls_opens (s : Machine) :
    (s.setupCalls.filter GsdCall.isOpen).length =
      (if s.writer.m_is_initialized then 0 else 1) ∧
    (s.setupCalls.filter GsdCall.isCreate).length =
      (if s.writer.m_is_initialized then 0 else if s.creating then 1 else 0) := by
  unfold Machine.setupCalls
  by_cases hi : s.writer.m_is_initialized = true <;> by_cases hc : s.creating = true <;>
    by_cases ht : s.writer.m_truncate = true <;>
    simp [hi, hc, ht, List.filter, GsdCall.isOpen, GsdCall.isCreate, Machine.createCall]

theorem GsdCall.what_of_isWriteChunk (ev : GsdCall) (h : ev.isWriteChunk = true) :
    ev.what = "Error writing GSD file" ∧ ev.isEndFrame = false ∧ ev.isOpen = false ∧
      ev.isCreate = false ∧ ev.isGetNframes = false ∧ ev.isTruncate = false := by
  cases ev <;> simp_all [GsdCall.isWriteChunk, GsdCall.what, GsdCall.isEndFrame, GsdCall.isOpen,
    GsdCall.isCreate, GsdCall.isGetNframes, GsdCall.isTruncate]

/-- The calls of `analyze` up to the point where it has written chunks of the
frame, relative to the state at the start of the call. -/
theorem frame_leaf {s s2 s3 : Machine} {o : Option runtime_error} (h2 : SetupDone s s2)
    (h3 : FrameRun s2.counted o s3) :
    ∃ d, s3.trace = s.trace ++ d ∧
      (∀ ev ∈ d.dropLast, ev.code = 0) ∧
      (∀ ev ∈ d, ev.isEndFrame = false) ∧
      (∀ ev ∈ d, ev.isGetNframes = true → ev = GsdCall.gsd_get_nframes s.startFrames.length) ∧
      GsdCall.gsd_get_nframes s.startFrames.length ∈ d ∧
      (s.writer.m_is_initialized = false →
        ∃ ev rest, d = ev :: rest ∧ (ev.isCreate = true ∨ ev.isOpen = true)) ∧
      (d.filter GsdCall.isOpen).length = (if s.writer.m_is_initialized then 0 else 1) ∧
      (d.filter GsdCall.isCreate).length =
        (if s.writer.m_is_initialized then 0 else if s.creating then 1 else 0) ∧
      s3.writer.m_handle.frames = s.startFrames ∧
      s3.writer.m_is_initialized = true ∧
      s3.writer.settings = s.writer.settings ∧ s3.ret = s.ret ∧
      (∀ e, o = some e → e = ⟨"Error writing GSD file"⟩ ∧
        ∃ ev, d.getLast? = some ev ∧ ev.code ≠ 0 ∧ ev.isWriteChunk = true) ∧
      (o = none → ∀ ev ∈ d, ev.code = 0) := by
  obtain ⟨a1, a2, a3, a4, a5, a6, -, -, -⟩ := h2.facts
  obtain ⟨dF, b1, b2, b3, b4, b5, b6, b7, b8, b9, b10, b11⟩ := h3
  have hn : s2.counted.writer.m_handle.frames.length = s.startFrames.length := by
    show s2.writer.m_handle.frames.length = _
    rw [a6]
  rw [hn] at b8
  have hdF : ∀ ev ∈ dF, ev.isEndFrame = false ∧ ev.isOpen = false ∧ ev.isCreate = false ∧
      (ev.isGetNframes = true → ev = GsdCall.gsd_get_nframes s.startFrames.length) := by
    intro ev hev
    rcases b8 ev hev with h | h
    · obtain ⟨-, c1, c2, c3, c4, -⟩ := GsdCall.what_of_isWriteChunk ev h
      exact ⟨c1, c2, c3, fun h => by rw [c4] at h; cases h⟩
    · rw [h]
      exact ⟨rfl, rfl, rfl, fun _ => rfl⟩
  refine ⟨s.setupCalls ++ (GsdCall.gsd_get_nframes s.startFrames.length :: dF), ?_, ?_, ?_, ?_,
    ?_, ?_, ?_, ?_, ?_, ?_, ?_, ?_, ?_, ?_⟩
  · rw [b1]
    show s2.trace ++ [GsdCall.gsd_get_nframes s2.writer.m_handle.frames.length] ++ dF = _
    rw [a1, a6]
    simp [List.append_assoc]
  · intro ev hev
    rw [List.dropLast_append_of_ne_nil _ (List.cons_ne_nil _ _)] at hev
    rcases List.mem_append.mp hev with h | h
    · exact (s.setupCalls_kinds ev h).1
    · rcases List.eq_nil_or_concat dF with h1 | ⟨d3, x, h1⟩
      · rw [h1] at h
        simp at h
      · rw [h1, List.concat_eq_append, ← List.cons_append, List.dropLast_concat,
          List.mem_cons] at h
        rcases h with h | h
        · rw [h]
          rfl
        · refine b9 ev ?_
          rw [h1, List.concat_eq_append, List.dropLast_concat]
          exact h
  · intro ev hev
    rcases List.mem_append.mp hev with h | h
    · exact (s.setupCalls_kinds ev h).2.2.2.1
    · rcases List.mem_cons.mp h with h | h
      · rw [h]
        rfl
      · exact (hdF ev h).1
  · intro ev hev hg
    rcases List.mem_append.mp hev with h | h
    · rw [(s.setupCalls_kinds ev h).2.2.2.2.1] at hg
      cases hg
    · rcases List.mem_cons.mp h with h | h
      · exact h
      · exact (hdF ev h).2.2.2 hg
  · simp
  · intro hi
    obtain ⟨ev, rest, h, hk⟩ := s.setupCalls_head hi
    exact ⟨ev, rest ++ (GsdCall.gsd_get_nframes s.startFrames.length :: dF), by rw [h]; rfl, hk⟩
  · rw [List.filter_append, List.length_append, s.setupCalls_opens.1, List.filter_cons]
    have : dF.filter GsdCall.isOpen = [] :=
      List.filter_eq_nil_iff.mpr (fun ev hev => by rw [(hdF ev hev).2.1]; decide)
    simp [this, GsdCall.isOpen]
  · rw [List.filter_append, List.length_append, s.setupCalls_opens.2, List.filter_cons]
    have : dF.filter GsdCall.isCreate = [] :=
      List.filter_eq_nil_iff.mpr (fun ev hev => by rw [(hdF ev hev).2.2.1]; decide)
    simp [this, GsdCall.isCreate]
  · rw [b2]
    exact a6
  · rw [b6]
    exact a2
  · rw [b7]
    exact a3
  · rw [b4]
    exact a4
  · intro e he
    obtain ⟨c1, ev, c2, c3, c4⟩ := b10 e he
    refine ⟨c1, ev, ?_, c3, c4⟩
    rw [List.getLast?_append,
      show GsdCall.gsd_get_nframes s.startFrames.length :: dF =
        [GsdCall.gsd_get_nframes s.startFrames.length] ++ dF from rfl,
      List.getLast?_append, c2]
    rfl
  · intro ho ev hev
    rcases List.mem_append.mp hev with h | h
    · exact (s.setupCalls_kinds ev h).1
    · rcases List.mem_cons.mp h with h | h
      · rw [h]
        rfl
      · exact (b11 ho).1 ev h

theorem GsdCall.setup_kind (ev : GsdCall)
    (h : ev.isCreate = true ∨ ev.isOpen = true ∨ ev.isTruncate = true) :
    ev.isEndFrame = false ∧ ev.isGetNframes = false ∧ ev.isWriteChunk = false := by
  cases ev <;> simp_all [GsdCall.isWriteChunk, GsdCall.isEndFrame, GsdCall.isOpen,
    GsdCall.isCreate, GsdCall.isGetNframes, GsdCall.isTruncate]

/-- A run that ends while the file is set up: the calls are `gsd_create`,
`gsd_open` and `gsd_truncate`, each before the last with result 0. -/
theorem setup_shape (pre : List GsdCall) (last : GsdCall)
    (hpre : ∀ ev ∈ pre, ev.code = 0 ∧
      (ev.isCreate = true ∨ ev.isOpen = true ∨ ev.isTruncate = true))
    (hlast : last.isCreate = true ∨ last.isOpen = true ∨ last.isTruncate = true) :
    (∀ ev ∈ (pre ++ [last]).dropLast, ev.code = 0 ∧ ev.isEndFrame = false) ∧
    (∀ ev ∈ pre ++ [last], ev.isGetNframes = false ∧ ev.isWriteChunk = false) ∧
    (pre ++ [last]).getLast? = some last := by
  refine ⟨fun ev hev => ?_, fun ev hev => ?_, by simp⟩
  · rw [List.dropLast_concat] at hev
    exact ⟨(hpre ev hev).1, (GsdCall.setup_kind ev (hpre ev hev).2).1⟩
  · rcases List.mem_append.mp hev with h | h
    · exact (GsdCall.setup_kind ev (hpre ev h).2).2
    · rw [List.mem_singleton] at h
      rw [h]
      exact (GsdCall.setup_kind last hlast).2

/-- The calls `gsd_create` that precede `gsd_open` in `initFileIO`. -/
theorem createPart_kinds (s : Machine) (ev : GsdCall)
    (h : ev ∈ (if s.creating then [s.createCall 0] else [])) :
    ev.code = 0 ∧ (ev.isCreate = true ∨ ev.isOpen = true ∨ ev.isTruncate = true) := by
  by_cases hc : s.creating = true
  · simp only [hc, if_true, List.mem_singleton] at h
    rw [h]
    exact ⟨rfl, Or.inl rfl⟩
  · simp [hc] at h

theorem openCalls_kinds (s : Machine) (ev : GsdCall)
    (h : ev ∈ (if s.writer.m_is_initialized then []
         else (if s.creating then [s.createCall 0] else []) ++
           [GsdCall.gsd_open s.writer.m_fname 0])) :
    ev.code = 0 ∧ (ev.isCreate = true ∨ ev.isOpen = true ∨ ev.isTruncate = true) := by
  by_cases hi : s.writer.m_is_initialized = true
  · simp [hi] at h
  · simp only [hi, Bool.false_eq_true, if_false, List.mem_append, List.mem_singleton] at h
    rcases h with h | h
    · exact createPart_kinds s ev h
    · rw [h]
      exact ⟨rfl, Or.inr (Or.inl rfl)⟩

theorem head_of_createPart (s : Machine) (r : Int) :
    ∃ ev rest, (if s.creating then [s.createCall 0] else []) ++
        [GsdCall.gsd_open s.writer.m_fname r] = ev :: rest ∧
      (ev.isCreate = true ∨ ev.isOpen = true) := by
  by_cases hc : s.creating = true
  · exact ⟨s.createCall 0, [GsdCall.gsd_open s.writer.m_fname r], by simp [hc], Or.inl rfl⟩
  · exact ⟨GsdCall.gsd_open s.writer.m_fname r, [], by simp [hc], Or.inr rfl⟩

/-- A run of `analyze` that ends while the file is set up satisfies
`RunFacts`. -/
theorem setup_failure_facts (s s1 : Machine) (e : runtime_error) (pre : List GsdCall)
    (last : GsdCall)
    (hpre : ∀ ev ∈ pre, ev.code = 0 ∧
      (ev.isCreate = true ∨ ev.isOpen = true ∨ ev.isTruncate = true))
    (hlast : last.isCreate = true ∨ last.isOpen = true ∨ last.isTruncate = true)
    (he : last.code ≠ 0 → e = ⟨last.what⟩)
    (hcause : last.code ≠ 0 ∨
      (e = ⟨"Error opening GSD file"⟩ ∧ s.writer.m_is_initialized = false ∧
        s1.writer.m_is_initialized = false ∧ ∃ f, s.afterCreate.disk = some f ∧ f.rejected))
    (hfirst : s.writer.m_is_initialized = false →
      ∃ ev rest, pre ++ [last] = ev :: rest ∧ (ev.isCreate = true ∨ ev.isOpen = true))
    (hset : s1.writer.settings = s.writer.settings ∧ s1.ret = s.ret) :
    RunFacts s (Except.error e) s1 (pre ++ [last]) := by
  obtain ⟨c1, c2, c3⟩ := setup_shape pre last hpre hlast
  refine ⟨c1, ?_, ?_, hfirst, ?_, ?_, ?_, hset⟩
  · intro ev hev hc
    rw [c3] at hev
    cases hev
    rw [he hc]
  · intro e1 _
    rcases hcause with h | h
    · exact Or.inl ⟨last, c3, h⟩
    · right
      have : e1 = e := by
        rename_i h1
        cases h1
        rfl
      rw [this]
      exact h
  · intro ev hev hg
    rw [(c2 ev hev).1] at hg
    cases hg
  · rintro ⟨ev, hev, hw⟩
    rw [(c2 ev hev).2] at hw
    cases hw
  · intro h
    cases h

/-- Every call of `analyze` on the root rank satisfies `RunFacts`. -/
theorem analyze_run (timestep : Nat) (sys : SystemDefinition) (s : Machine)
    (hroot : sys.isRoot = true) :
    ∃ d, (analyze timestep sys s).2.trace = s.trace ++ d ∧
      RunFacts s (analyze timestep sys s).1 (analyze timestep sys s).2 d := by
  have key : post (analyze timestep sys) s (fun r s1 =>
      ∃ d, s1.trace = s.trace ++ d ∧ RunFacts s r s1 d) := by
    refine analyze_cases timestep sys s hroot _ ?_ ?_ ?_ ?_ ?_
    · -- initFileIO throws
      intro hi e s1 hrun
      obtain ⟨a1, a2, a3, a4⟩ := initFileIO_error_state s s1 e hrun
      rcases a4 with ⟨hc, hr, he, ht⟩ | ⟨r, hr, he, ht⟩ | ⟨f, hf, hrej, he, ht⟩
      · refine ⟨[] ++ [s.createCall (s.ret s.trace.length)], ht, ?_⟩
        exact setup_failure_facts s s1 e [] _ (fun ev hev => absurd hev (List.not_mem_nil ev))
          (Or.inl rfl) (fun _ => he) (Or.inl hr)
          (fun _ => ⟨_, [], rfl, Or.inl rfl⟩) ⟨a2, a3⟩
      · rw [Machine.afterCreate_trace, List.append_assoc] at ht
        refine ⟨_, ht, ?_⟩
        exact setup_failure_facts s s1 e _ _ (createPart_kinds s)
          (Or.inr (Or.inl rfl)) (fun _ => he) (Or.inl hr)
          (fun _ => head_of_createPart s r) ⟨a2, a3⟩
      · rw [Machine.afterCreate_trace, List.append_assoc] at ht
        refine ⟨_, ht, ?_⟩
        exact setup_failure_facts s s1 e _ _ (createPart_kinds s)
          (Or.inr (Or.inl rfl)) (fun h => absurd rfl h)
          (Or.inr ⟨he, hi, by rw [a1, hi], f, hf, hrej⟩)
          (fun _ => head_of_createPart s 0) ⟨a2, a3⟩
    · -- gsd_truncate fails
      intro s1 h1 ht h0
      obtain ⟨a1, a2, a3, a4, -⟩ := init_done_facts h1
      refine ⟨(if s.writer.m_is_initialized then []
         else (if s.creating then [s.createCall 0] else []) ++
           [GsdCall.gsd_open s.writer.m_fname 0]) ++
        [GsdCall.gsd_truncate (s1.ret s1.trace.length)], ?_, ?_⟩
      · show s1.trace ++ [GsdCall.gsd_truncate (s1.ret s1.trace.length)] = _
        rw [a1, List.append_assoc]
      · refine setup_failure_facts s _ _ _ _ (openCalls_kinds s) (Or.inr (Or.inr rfl))
          (fun _ => rfl) (Or.inl h0) (fun hi => ?_) ⟨a3, a4⟩
        obtain ⟨ev, rest, h, hk⟩ := head_of_createPart s 0
        refine ⟨ev, rest ++ [GsdCall.gsd_truncate (s1.ret s1.trace.length)], ?_, hk⟩
        simp only [hi, Bool.false_eq_true, if_false]
        rw [h]
        rfl
    · -- a chunk write fails
      intro s2 e s3 h2 h3
      obtain ⟨d, b1, b2, b3, b4, b5, b6, b7, b8, b9, b10, b11, b12, b13, b14⟩ := frame_leaf h2 h3
      obtain ⟨c1, ev, c2, c3, c4⟩ := b13 e rfl
      refine ⟨d, b1, ⟨fun x hx => ⟨b2 x hx, b3 x (List.mem_of_mem_dropLast hx)⟩, ?_, ?_, b6, b4,
        fun _ => ⟨b5, fun _ => b9⟩, ?_, ⟨b11, b12⟩⟩⟩
      · intro x hx _
        rw [c2] at hx
        cases hx
        rw [c1, (GsdCall.what_of_isWriteChunk ev c4).1]
      · intro e1 _
        exact Or.inl ⟨ev, c2, c3⟩
      · intro h
        cases h
    · -- gsd_end_frame fails
      intro s2 s3 h2 h3 h0
      obtain ⟨d, b1, b2, b3, b4, b5, b6, b7, b8, b9, b10, b11, b12, b13, b14⟩ := frame_leaf h2 h3
      refine ⟨d ++ [GsdCall.gsd_end_frame (s3.ret s3.trace.length)], ?_,
        ⟨?_, ?_, ?_, ?_, ?_, ?_, ?_, ⟨b11, b12⟩⟩⟩
      · show s3.trace ++ [GsdCall.gsd_end_frame (s3.ret s3.trace.length)] = _
        rw [b1, List.append_assoc]
      · intro x hx
        rw [List.dropLast_concat] at hx
        exact ⟨b14 rfl x hx, b3 x hx⟩
      · intro x hx _
        rw [List.getLast?_concat] at hx
        cases hx
        rfl
      · intro e1 _
        exact Or.inl ⟨_, List.getLast?_concat _, h0⟩
      · intro hi
        obtain ⟨ev, rest, h, hk⟩ := b6 hi
        exact ⟨ev, rest ++ [GsdCall.gsd_end_frame (s3.ret s3.trace.length)], by rw [h]; rfl, hk⟩
      · intro x hx hg
        rcases List.mem_append.mp hx with h | h
        · exact b4 x h hg
        · rw [List.mem_singleton] at h
          rw [h] at hg
          cases hg
      · intro _
        exact ⟨List.mem_append.mpr (Or.inl b5), fun _ => b9⟩
      · intro h
        cases h
    · -- the call returns
      intro s2 s3 h2 h3 h0
      obtain ⟨d, b1, b2, b3, b4, b5, b6, b7, b8, b9, b10, b11, b12, b13, b14⟩ := frame_leaf h2 h3
      refine ⟨d ++ [GsdCall.gsd_end_frame 0], ?_,
        ⟨?_, ?_, ?_, ?_, ?_, ?_, ?_, ⟨b11, b12⟩⟩⟩
      · show s3.trace ++ [GsdCall.gsd_end_frame 0] = _
        rw [b1, List.append_assoc]
      · intro x hx
        rw [List.dropLast_concat] at hx
        exact ⟨b14 rfl x hx, b3 x hx⟩
      · intro x hx hc
        rw [List.getLast?_concat] at hx
        cases hx
        exact absurd rfl hc
      · intro e1 h
        cases h
      · intro hi
        obtain ⟨ev, rest, h, hk⟩ := b6 hi
        exact ⟨ev, rest ++ [GsdCall.gsd_end_frame 0], by rw [h]; rfl, hk⟩
      · intro x hx hg
        rcases List.mem_append.mp hx with h | h
        · exact b4 x h hg
        · rw [List.mem_singleton] at h
          rw [h] at hg
          cases hg
      · intro _
        exact ⟨List.mem_append.mpr (Or.inl b5),
          fun h => absurd (List.getLast?_concat _) h⟩
      · intro _
        refine ⟨List.getLast?_concat _, ?_, ?_, b10, ?_, rfl, List.mem_append.mpr (Or.inl b5)⟩
        · rw [List.filter_append, List.length_append, b7]
          rfl
        · rw [List.filter_append, List.length_append, b8]
          rfl
        · show (s3.writer.m_handle.frames ++ [s3.writer.m_handle.pending]).length = _
          rw [b9]
          simp
  exact key

theorem mem_dropLast_of_getElem? {α : Type} (l : List α) (i : Nat) (x : α)
    (h : l[i]? = some x) (hi : i + 1 < l.length) : x ∈ l.dropLast := by
  rw [List.dropLast_eq_take, List.mem_iff_getElem?]
  refine ⟨i, ?_⟩
  rw [List.getElem?_take_of_lt (by omega)]
  exact h

theorem mem_dropLast_or_getLast {α : Type} (l : List α) (x : α) (h : x ∈ l) :
    x ∈ l.dropLast ∨ l.getLast? = some x := by
  rcases List.eq_nil_or_concat l with h1 | ⟨l1, y, h1⟩
  · rw [h1] at h
    cases h
  · rw [h1, List.concat_eq_append] at h ⊢
    rw [List.dropLast_concat, List.getLast?_concat]
    rcases List.mem_append.mp h with h2 | h2
    · exact Or.inl h2
    · rw [List.mem_singleton] at h2
      exact Or.inr (by rw [h2])

/-- A call that returned a code other than 0 is the last call of the run, and
the run has thrown the exception that belongs to the call. -/
theorem failed_call_is_last (timestep : Nat) (sys : SystemDefinition) (s : Machine)
    (hroot : sys.isRoot = true) (d : List GsdCall)
    (hd : (analyze timestep sys s).2.trace = s.trace ++ d) :
    RunFacts s (analyze timestep sys s).1 (analyze timestep sys s).2 d ∧
    ∀ i ev, d[i]? = some ev → ev.code ≠ 0 →
      (analyze timestep sys s).1 = Except.error ⟨ev.what⟩ ∧ i + 1 = d.length ∧
      d.getLast? = some ev := by
  obtain ⟨d0, h0, hf⟩ := analyze_run timestep sys s hroot
  have e : d = d0 := List.append_cancel_left (hd.symm.trans h0)
  subst e
  refine ⟨hf, fun i ev hi hc => ?_⟩
  have hlt : i < d.length := by
    by_contra h
    rw [List.getElem?_eq_none (by omega)] at hi
    cases hi
  have hlast : i + 1 = d.length := by
    by_contra h
    exact hc (hf.before_last ev (mem_dropLast_of_getElem? d i ev hi (by omega))).1
  have hg : d.getLast? = some ev := by
    rw [List.getLast?_eq_getElem?, ← hi]
    congr 1
    omega
  exact ⟨hf.last_fails ev hg hc, hlast, hg⟩

/-- C17 (chunk-failure atomicity).  Let `d` be the calls into the library made
by a call of `analyze` on the root rank, and let the call at position `i` be a
`gsd_write_chunk` that returned a code `rc` other than 0.  Then `analyze` has
thrown "Error writing GSD file", the failed write is the last call (no
further chunk is written), `gsd_end_frame` is not among the calls, and the
number of committed frames of the handle is the count that the call has read
with `gsd_get_nframes`. -/
theorem chunk_failure_atomicity (timestep : Nat) (sys : SystemDefinition) (s : Machine)
    (hroot : sys.isRoot = true) (d : List GsdCall) (i : Nat) (c : Chunk) (rc : Int)
    (hd : (analyze timestep sys s).2.trace = s.trace ++ d)
    (hi : d[i]? = some (GsdCall.gsd_write_chunk c rc)) (hrc : rc ≠ 0) :
    (analyze timestep sys s).1 = Except.error ⟨"Error writing GSD file"⟩ ∧
    i + 1 = d.length ∧
    (∀ ev ∈ d, ev.isEndFrame = false) ∧
    GsdCall.gsd_get_nframes (analyze timestep sys s).2.writer.m_handle.frames.length ∈ d ∧
    (∀ ev ∈ d, ev.isGetNframes = true →
      ev = GsdCall.gsd_get_nframes (analyze timestep sys s).2.writer.m_handle.frames.length) := by
  obtain ⟨hf, hl⟩ := failed_call_is_last timestep sys s hroot d hd
  obtain ⟨h1, h2, h3⟩ := hl i _ hi hrc
  have hmem : GsdCall.gsd_write_chunk c rc ∈ d := List.mem_iff_getElem?.mpr ⟨i, hi⟩
  obtain ⟨h4, h5⟩ := hf.writes ⟨_, hmem, rfl⟩
  have h6 := h5 (by rw [h3]; simp)
  rw [h6]
  refine ⟨h1, h2, fun ev hev => ?_, h4, hf.counts⟩
  rcases mem_dropLast_or_getLast d ev hev with h | h
  · exact (hf.before_last ev h).2
  · rw [h3] at h
    cases h
    rfl

theorem chunk_failure_atomicity_witness :
    exampleSystem.isRoot = true ∧
    (analyze 0 exampleSystem failingWriteMachine).2.trace =
      failingWriteMachine.trace ++ (analyze 0 exampleSystem failingWriteMachine).2.trace ∧
    (analyze 0 exampleSystem failingWriteMachine).2.trace[5]? =
      some (GsdCall.gsd_write_chunk
        ⟨"configuration/dimensions", GsdType.GSD_TYPE_UINT8, 1, 1, Payload.u8 [3]⟩ (-1)) ∧
    (analyze 0 exampleSystem failingWriteMachine).1 =
      Except.error ⟨"Error writing GSD file"⟩ ∧
    (analyze 0 exampleSystem failingWriteMachine).2.trace.length = 6 ∧
    (analyze 0 exampleSystem failingWriteMachine).2.writer.m_handle.frames.length = 0 :=
  ⟨rfl, rfl, by decide,
    (chunk_failure_atomicity 0 exampleSystem failingWriteMachine rfl
      (analyze 0 exampleSystem failingWriteMachine).2.trace 5
      ⟨"configuration/dimensions", GsdType.GSD_TYPE_UINT8, 1, 1, Payload.u8 [3]⟩ (-1) rfl
      (by decide) (by decide)).1,
    by decide, by decide⟩

theorem checkError_returns_iff (retval : Int) (s : Machine) :
    (checkError retval s).1 = Except.ok () ↔ retval = 0 := by
  unfold checkError
  by_cases h1 : retval = -1
  · subst h1
    simp only [if_true]
    constructor
    · intro h
      cases h
    · intro h
      cases h
  · by_cases h0 : retval = 0
    · subst h0
      simp only [Int.reduceNeg, Int.reduceEq, if_false, ne_eq, not_true_eq_false]
      exact ⟨fun _ => trivial, fun _ => rfl⟩
    · simp only [h1, if_false, h0, ne_eq, not_false_eq_true, if_true]
      constructor
      · intro h
        cases h
      · intro h
        exact h.elim

/-- C18, as the claim states it, fails in its last part: on a file whose
schema is not "hoomd" the only call into the library, `gsd_open`, returns 0,
and `analyze` throws all the same. -/
theorem no_swallowed_error_counterexample :
    (analyze 0 exampleSystem foreignMachine).2.trace = [GsdCall.gsd_open "trajectory.gsd" 0] ∧
    (∀ ev ∈ (analyze 0 exampleSystem foreignMachine).2.trace, ev.code = 0) ∧
    (analyze 0 exampleSystem foreignMachine).1 = Except.error ⟨"Error opening GSD file"⟩ :=
  ⟨by decide, by decide, rfl⟩

/-- C18 (no swallowed error), amended.  `checkError` returns if and only if
its argument is 0.  In a call of `analyze` on the root rank with the calls `d`
into the library, a call (`gsd_create`, `gsd_open`, `gsd_truncate`,
`gsd_write_chunk` or `gsd_end_frame`) that returned a code other than 0 is the
last call, and `analyze` has thrown the exception that belongs to it.  When
`analyze` throws, either its last call returned a code other than 0, or the
writer was not initialised and `initFileIO` has rejected the schema name or
the schema version of the file it opened. -/
theorem no_swallowed_error (timestep : Nat) (sys : SystemDefinition) (s : Machine)
    (hroot : sys.isRoot = true) (d : List GsdCall)
    (hd : (analyze timestep sys s).2.trace = s.trace ++ d) :
    (∀ (retval : Int) (s0 : Machine), (checkError retval s0).1 = Except.ok () ↔ retval = 0) ∧
    (∀ i ev, d[i]? = some ev → ev.code ≠ 0 →
      (analyze timestep sys s).1 = Except.error ⟨ev.what⟩ ∧ i + 1 = d.length) ∧
    (∀ e, (analyze timestep sys s).1 = Except.error e →
      (∃ ev, d.getLast? = some ev ∧ ev.code ≠ 0) ∨
      (e = ⟨"Error opening GSD file"⟩ ∧ s.writer.m_is_initialized = false ∧
        ∃ f, s.afterCreate.disk = some f ∧
          (f.header.schema ≠ "hoomd" ∨ gsd_make_version 2 0 ≤ f.header.schema_version))) := by
  obtain ⟨hf, hl⟩ := failed_call_is_last timestep sys s hroot d hd
  refine ⟨checkError_returns_iff, fun i ev hi hc => ⟨(hl i ev hi hc).1, (hl i ev hi hc).2.1⟩,
    fun e he => ?_⟩
  rcases hf.thrown_cause e he with h | ⟨h1, h2, -, f, h3, h4⟩
  · exact Or.inl h
  · exact Or.inr ⟨h1, h2, f, h3, h4⟩

theorem no_swallowed_error_witness :
    exampleSystem.isRoot = true ∧
    (analyze 0 exampleSystem failingWriteMachine).2.trace =
      failingWriteMachine.trace ++ (analyze 0 exampleSystem failingWriteMachine).2.trace ∧
    (analyze 0 exampleSystem failingWriteMachine).1 =
      Except.error ⟨"Error writing GSD file"⟩ :=
  ⟨rfl, rfl,
    ((no_swallowed_error 0 exampleSystem failingWriteMachine rfl
      (analyze 0 exampleSystem failingWriteMachine).2.trace rfl).2.1 5
      (GsdCall.gsd_write_chunk
        ⟨"configuration/dimensions", GsdType.GSD_TYPE_UINT8, 1, 1, Payload.u8 [3]⟩ (-1))
      (by decide) (by decide)).1⟩

theorem analyze_init_failed (timestep : Nat) (sys : SystemDefinition) (s s1 : Machine)
    (e : runtime_error) (hroot : sys.isRoot = true) (hi : s.writer.m_is_initialized = false)
    (hfail : initFileIO s = (Except.error e, s1)) :
    analyze timestep sys s = (Except.error e, s1) := by
  apply post_eq
  have no_init : ∀ s1', ¬ ((s.writer.m_is_initialized = true ∧ s1' = s) ∨
      (s.writer.m_is_initialized = false ∧ initFileIO s = (Except.ok (), s1'))) := by
    rintro s1' (⟨h, -⟩ | ⟨-, h⟩)
    · rw [hi] at h
      cases h
    · rw [hfail] at h
      cases h
  refine analyze_cases timestep sys s hroot _ ?_ ?_ ?_ ?_ ?_
  · intro _ e1 s2 h
    rw [hfail] at h
    exact h.symm
  · intro s1' h
    exact absurd h (no_init s1')
  · rintro s2 e1 s3 ⟨s1', h, -⟩
    exact absurd h (no_init s1')
  · rintro s2 s3 ⟨s1', h, -⟩
    exact absurd h (no_init s1')
  · rintro s2 s3 ⟨s1', h, -⟩
    exact absurd h (no_init s1')

/-- C12, as the claim states it, fails: after a first call of `analyze` in
which `gsd_open` returned -2 and `initFileIO` threw, the second call on the
same writer calls `gsd_open` again, and this time it succeeds and a frame is
written. -/
theorem terminal_open_errors_counterexample :
    (analyze 0 exampleSystem (failingOpenMachine (-2))).1 =
      Except.error ⟨"Error opening GSD file"⟩ ∧
    failedOpenState.trace = [GsdCall.gsd_open "trajectory.gsd" (-2)] ∧
    (analyze 1 exampleSystem failedOpenState).2.trace[1]? =
      some (GsdCall.gsd_open "trajectory.gsd" 0) ∧
    (analyze 1 exampleSystem failedOpenState).1 = Except.ok () :=
  ⟨rfl, by decide, by decide, rfl⟩

/-- C12 (open errors), amended.  When `initFileIO` throws during a call of
`analyze` on the root rank, `analyze` throws the same exception and
`m_is_initialized` stays false; the failure is not terminal: the next call of
`analyze` on the root rank starts with a further call of `gsd_create` or
`gsd_open`, and so does every call of `analyze` on the root rank that is made
while `m_is_initialized` is false, that is, until a call of `initFileIO` has
returned. -/
theorem init_failure_retried (timestep : Nat) (sys : SystemDefinition) (s s1 : Machine)
    (e : runtime_error) (hroot : sys.isRoot = true) (hi : s.writer.m_is_initialized = false)
    (hfail : initFileIO s = (Except.error e, s1)) :
    analyze timestep sys s = (Except.error e, s1) ∧
    s1.writer.m_is_initialized = false ∧
    (∀ (t2 : Nat) (sys2 : SystemDefinition), sys2.isRoot = true →
      ∃ ev rest, (analyze t2 sys2 s1).2.trace = s1.trace ++ ev :: rest ∧
        (ev.isCreate = true ∨ ev.isOpen = true)) ∧
    (∀ (s2 : Machine) (t2 : Nat) (sys2 : SystemDefinition),
      s2.writer.m_is_initialized = false → sys2.isRoot = true →
      (∃ ev rest, (analyze t2 sys2 s2).2.trace = s2.trace ++ ev :: rest ∧
        (ev.isCreate = true ∨ ev.isOpen = true)) ∧
      ∀ e2 s3, initFileIO s2 = (Except.error e2, s3) →
        analyze t2 sys2 s2 = (Except.error e2, s3) ∧ s3.writer.m_is_initialized = false) := by
  have h1 : s1.writer.m_is_initialized = false := by
    rw [(initFileIO_error_state s s1 e hfail).1, hi]
  have hgen : ∀ (s2 : Machine) (t2 : Nat) (sys2 : SystemDefinition),
      s2.writer.m_is_initialized = false → sys2.isRoot = true →
      ∃ ev rest, (analyze t2 sys2 s2).2.trace = s2.trace ++ ev :: rest ∧
        (ev.isCreate = true ∨ ev.isOpen = true) := by
    intro s2 t2 sys2 h2i hr2
    obtain ⟨d, hd, hf⟩ := analyze_run t2 sys2 s2 hr2
    obtain ⟨ev, rest, h2, h3⟩ := hf.first_call h2i
    exact ⟨ev, rest, by rw [hd, h2], h3⟩
  refine ⟨analyze_init_failed timestep sys s s1 e hroot hi hfail, h1,
    fun t2 sys2 hr2 => hgen s1 t2 sys2 h1 hr2,
    fun s2 t2 sys2 h2i hr2 => ⟨hgen s2 t2 sys2 h2i hr2, fun e2 s3 hf2 =>
      ⟨analyze_init_failed t2 sys2 s2 s3 e2 hr2 h2i hf2, ?_⟩⟩⟩
  rw [(initFileIO_error_state s2 s3 e2 hf2).1, h2i]

/-- C12, amended, at the call in which `gsd_open` returns -2. -/
theorem init_failure_retried_witness :
    exampleSystem.isRoot = true ∧
    (failingOpenMachine (-2)).writer.m_is_initialized = false ∧
    initFileIO (failingOpenMachine (-2)) =
      (Except.error ⟨"Error opening GSD file"⟩, ( initFileIO (failingOpenMachine (-2))).2) ∧
    (analyze 0 exampleSystem (failingOpenMachine (-2)) =
      (Except.error ⟨"Error opening GSD file"⟩, ( initFileIO (failingOpenMachine (-2))).2) ∧
    ( initFileIO (failingOpenMachine (-2))).2.writer.m_is_initialized = false ∧
    (∀ (t2 : Nat) (sys2 : SystemDefinition), sys2.isRoot = true →
      ∃ ev rest, (analyze t2 sys2 ( initFileIO (failingOpenMachine (-2))).2).2.trace =
          ( initFileIO (failingOpenMachine (-2))).2.trace ++ ev :: rest ∧
        (ev.isCreate = true ∨ ev.isOpen = true)) ∧
    (∀ (s2 : Machine) (t2 : Nat) (sys2 : SystemDefinition),
      s2.writer.m_is_initialized = false → sys2.isRoot = true →
      (∃ ev rest, (analyze t2 sys2 s2).2.trace = s2.trace ++ ev :: rest ∧
        (ev.isCreate = true ∨ ev.isOpen = true)) ∧
      ∀ e2 s3, initFileIO s2 = (Except.error e2, s3) →
        analyze t2 sys2 s2 = (Except.error e2, s3) ∧ s3.writer.m_is_initialized = false)) :=
  ⟨rfl, rfl, by apply Prod.ext <;> rfl,
    init_failure_retried 0 exampleSystem (failingOpenMachine (-2))
      ( initFileIO (failingOpenMachine (-2))).2 ⟨"Error opening GSD file"⟩ rfl rfl
      (by apply Prod.ext <;> rfl)⟩

/-- A call of `analyze` that returns has added one frame to those of the file
as set up, in the handle and, when a file is known to be on disk, on disk. -/
theorem analyze_ok_prefix (timestep : Nat) (sys : SystemDefinition) (s s1 : Machine)
    (hroot : sys.isRoot = true) (hrun : analyze timestep sys s = (Except.ok (), s1)) :
    ∃ fr, s1.writer.m_handle.frames = s.startFrames ++ [fr] ∧
      (s.writer.m_is_initialized = false ∨
        (s.disk.isSome = true ∧ s.writer.m_truncate = true) →
        ∃ f, s1.disk = some f ∧ f.frames = s.startFrames ++ [fr]) := by
  have key : post (analyze timestep sys) s (fun r s1 => r = Except.ok () →
      ∃ fr, s1.writer.m_handle.frames = s.startFrames ++ [fr] ∧
        (s.writer.m_is_initialized = false ∨
          (s.disk.isSome = true ∧ s.writer.m_truncate = true) →
          ∃ f, s1.disk = some f ∧ f.frames = s.startFrames ++ [fr])) := by
    refine analyze_cases timestep sys s hroot _ (fun _ _ _ _ h => by cases h)
      (fun _ _ _ _ h => by cases h) (fun _ _ _ _ _ h => by cases h)
      (fun _ _ _ _ _ h => by cases h) ?_
    intro s2 s3 h2 h3 _ _
    obtain ⟨-, -, -, -, -, a6, -, -, a9⟩ := h2.facts
    obtain ⟨dF, -, b2, b3, -⟩ := h3
    have hfr : s3.writer.m_handle.frames = s.startFrames := by
      rw [b2]
      exact a6
    refine ⟨s3.writer.m_handle.pending, ?_, fun h => ?_⟩
    · show s3.writer.m_handle.frames ++ [s3.writer.m_handle.pending] = _
      rw [hfr]
    · obtain ⟨f, hf, hf2⟩ := a9 (by
        rcases h with h | h
        · exact Or.inl h
        · exact Or.inr h.1)
      have hd : s3.disk = some f := by
        rw [b3]
        exact hf
      refine ⟨{ f with frames := f.frames ++ [s3.writer.m_handle.pending] }, ?_, ?_⟩
      · simp [Machine.ended, hd]
      · show f.frames ++ [s3.writer.m_handle.pending] = _
        rw [hf2 (by
          rcases h with h | h
          · exact Or.inl h
          · exact Or.inr h.2), a6]
  have := key
  unfold post at this
  rw [hrun] at this
  exact this rfl

/-- The frames of the handle after a call of `analyze` that returns. -/
theorem analyze_ok_frames (timestep : Nat) (sys : SystemDefinition) (s s1 : Machine)
    (hroot : sys.isRoot = true)
    (hp : s.writer.m_is_initialized = true → s.writer.m_truncate = false →
      s.writer.m_handle.pending = [])
    (hrun : analyze timestep sys s = (Except.ok (), s1)) :
    s1.writer.m_handle.frames =
      s.startFrames ++ [frameChunks s.writer s.startFrames.length timestep sys] := by
  obtain ⟨fr, h1, -⟩ := analyze_ok_prefix timestep sys s s1 hroot hrun
  obtain ⟨pre, h2, -⟩ := analyze_post timestep sys s hroot hp () s1 hrun
  rw [h1] at h2
  have hl : s.startFrames.length = pre.length := by
    have := congrArg List.length h2
    simpa using this
  obtain ⟨e1, e2⟩ := List.append_inj h2 hl
  rw [h1, e1]
  simp only [List.cons.injEq, and_true] at e2
  rw [e2]

/-- C16 as stated fails.  The writer is in overwrite mode and not in truncate
mode, and the file on disk holds one frame.  The first call of `analyze`
returns: `initFileIO` has created the file anew, and the file holds one frame
after the call, as many as before it and not one more. -/
theorem frame_commit_counterexample :
    overwriteMachine.writer.m_truncate = false ∧
    overwriteMachine.writer.m_overwrite = true ∧
    overwriteMachine.disk.map (fun f => f.frames.length) = some 1 ∧
    (analyze 0 exampleSystem overwriteMachine).1 = Except.ok () ∧
    (analyze 0 exampleSystem overwriteMachine).2.writer.m_handle.frames.length = 1 ∧
    (analyze 0 exampleSystem overwriteMachine).2.disk.map (fun f => f.frames.length) =
      some 1 := by
  refine ⟨rfl, rfl, by decide, rfl, by decide, by decide⟩

/-- C16, amended.  A call of `analyze` on the root rank that returns has
called `gsd_end_frame` exactly once, as its last call into the library (so
after every chunk write of the call, and with no chunk write after it), and
the number of committed frames is one more than that of the file as the call
has set it up: 1 in truncate mode; without truncate mode one more than the
handle held before for an initialised writer, 1 when the first call creates
the file (`Machine.creating`: there is no file on disk, or the writer is in
overwrite mode and replaces the file, whatever it held), and one more than the
file on disk held when the first call keeps it. -/
theorem frame_commit (timestep : Nat) (sys : SystemDefinition) (s s1 : Machine)
    (hroot : sys.isRoot = true) (hrun : analyze timestep sys s = (Except.ok (), s1)) :
    (∃ d, s1.trace = s.trace ++ d ++ [GsdCall.gsd_end_frame 0] ∧
      ∀ ev ∈ d, ev.isEndFrame = false) ∧
    s1.writer.m_handle.frames.length = s.startFrames.length + 1 ∧
    (s.writer.m_truncate = true → s1.writer.m_handle.frames.length = 1) ∧
    (s.writer.m_truncate = false → s.writer.m_is_initialized = true →
      s1.writer.m_handle.frames.length = s.writer.m_handle.frames.length + 1) ∧
    (s.writer.m_truncate = false → s.writer.m_is_initialized = false → s.creating = true →
      s1.writer.m_handle.frames.length = 1) ∧
    (s.writer.m_truncate = false → s.writer.m_is_initialized = false → s.creating = false →
      ∀ f, s.disk = some f → s1.writer.m_handle.frames.length = f.frames.length + 1) := by
  obtain ⟨d, hd, hf⟩ := analyze_run timestep sys s hroot
  rw [hrun] at hd hf
  obtain ⟨h1, -, -, -, h5, -⟩ := hf.returned rfl
  have hd0 : d = d.dropLast ++ [GsdCall.gsd_end_frame 0] := by
    rcases List.eq_nil_or_concat d with h | ⟨l, x, h⟩
    · rw [h] at h1
      cases h1
    · rw [h, List.concat_eq_append, List.getLast?_concat] at h1
      cases h1
      rw [h, List.concat_eq_append, List.dropLast_concat]
  refine ⟨⟨d.dropLast, ?_, fun ev hev => (hf.before_last ev hev).2⟩, h5, ?_, ?_, ?_, ?_⟩
  · show s1.trace = _
    rw [List.append_assoc, ← hd0]
    exact hd
  · intro ht
    rw [h5, Machine.startFrames, ht]
    rfl
  · intro ht hi
    rw [h5, Machine.startFrames, ht, hi]
    rfl
  · intro ht hi hc
    rw [h5, Machine.startFrames, ht, hi, hc]
    rfl
  · intro ht hi hc f hdisk
    rw [h5, Machine.startFrames, ht, hi, hc, hdisk]
    rfl

theorem frame_commit_witness :
    exampleSystem.isRoot = true ∧
    analyze 1 exampleSystem frameZeroState = (Except.ok (), frameOneState) ∧
    frameZeroState.writer.m_handle.frames.length = 1 ∧
    frameOneState.writer.m_handle.frames.length = 2 ∧
    frameOneState.trace.getLast? = some (GsdCall.gsd_end_frame 0) :=
  ⟨rfl, rfl, by decide,
    (frame_commit 1 exampleSystem frameZeroState frameOneState rfl rfl).2.2.2.1 rfl (by decide),
    by decide⟩

theorem analyzeCalls_cons (c : Nat × SystemDefinition) (cs : List (Nat × SystemDefinition))
    (s : Machine) :
    analyzeCalls (c :: cs) s =
      match analyze c.1 c.2 s with
      | (Except.ok _, s1) => analyzeCalls cs s1
      | (Except.error e, s1) => (Except.error e, s1) := by
  show (analyze c.1 c.2 >>= fun _ => analyzeCalls cs) s = _
  rw [GsdM.bind_apply]
  rcases analyze c.1 c.2 s with ⟨r, s1⟩
  cases r <;> rfl

theorem analyzeCalls_cons_ok (c : Nat × SystemDefinition) (cs : List (Nat × SystemDefinition))
    (s s1 : Machine) (h : analyzeCalls (c :: cs) s = (Except.ok (), s1)) :
    ∃ s2, analyze c.1 c.2 s = (Except.ok (), s2) ∧ analyzeCalls cs s2 = (Except.ok (), s1) := by
  rw [analyzeCalls_cons] at h
  rcases hrun : analyze c.1 c.2 s with ⟨r, s2⟩
  rw [hrun] at h
  cases r with
  | error e => cases h
  | ok a => exact ⟨s2, rfl, h⟩

/-- Calls on an initialised writer that return leave it initialised and call
neither `gsd_create` nor `gsd_open`. -/
theorem analyzeCalls_initialised (calls : List (Nat × SystemDefinition)) (s s1 : Machine)
    (hroot : ∀ c ∈ calls, c.2.isRoot = true) (hi : s.writer.m_is_initialized = true)
    (hrun : analyzeCalls calls s = (Except.ok (), s1)) :
    s1.writer.m_is_initialized = true ∧
    ∃ d, s1.trace = s.trace ++ d ∧ (d.filter GsdCall.isOpen).length = 0 ∧
      (d.filter GsdCall.isCreate).length = 0 := by
  induction calls generalizing s with
  | nil =>
    have e : (Except.ok (), s) = ((Except.ok () : Except runtime_error Unit), s1) := hrun
    cases e
    exact ⟨hi, [], by simp, rfl, rfl⟩
  | cons c cs ih =>
    obtain ⟨s2, h1, h2⟩ := analyzeCalls_cons_ok c cs s s1 hrun
    obtain ⟨d1, hd1, hf⟩ := analyze_run c.1 c.2 s (hroot c (List.mem_cons_self c cs))
    rw [h1] at hd1 hf
    obtain ⟨-, b2, b3, b4, -⟩ := hf.returned rfl
    rw [hi] at b2 b3
    obtain ⟨c1, d2, c2, c3, c4⟩ := ih s2 (fun x hx => hroot x (List.mem_cons_of_mem c hx)) b4 h2
    refine ⟨c1, d1 ++ d2, ?_, ?_, ?_⟩
    · rw [c2]
      show s2.trace ++ d2 = _
      rw [hd1, List.append_assoc]
    · rw [List.filter_append, List.length_append, c3]
      exact b2
    · rw [List.filter_append, List.length_append, c4]
      exact b3

/-- When a sequence of calls returns, so does each of its initial parts. -/
theorem analyzeCalls_take (calls : List (Nat × SystemDefinition)) (s s1 : Machine)
    (hrun : analyzeCalls calls s = (Except.ok (), s1)) (k : Nat) :
    ∃ sk, analyzeCalls (calls.take k) s = (Except.ok (), sk) := by
  induction calls generalizing s k with
  | nil => exact ⟨s, by rw [List.take_nil]; rfl⟩
  | cons c cs ih =>
    rcases k with _ | k
    · exact ⟨s, rfl⟩
    · obtain ⟨s2, h1, h2⟩ := analyzeCalls_cons_ok c cs s s1 hrun
      obtain ⟨sk, hk⟩ := ih s2 h2 k
      refine ⟨sk, ?_⟩
      rw [List.take_succ_cons, analyzeCalls_cons, h1]
      exact hk

/-- C14 (lazy one-time initialisation).  The constructor performs no file
operation: it returns with the trace of calls into the library and the disk
as they were and with `m_is_initialized` false.  In a sequence of calls of
`analyze` on the root rank that all return, after the first `k` calls, for
every `k` from 1 on, the writer is initialised and the calls made so far
contain exactly one `gsd_open`, and one `gsd_create` if the file was created
(none otherwise): `initFileIO` has run exactly once, in the first call. -/
theorem lazy_initialisation (fname : String) (group : ParticleGroup) (overwrite truncate : Bool)
    (s0 s1 : Machine) (calls : List (Nat × SystemDefinition))
    (hroot : ∀ c ∈ calls, c.2.isRoot = true)
    (hrun : analyzeCalls calls (GSDDumpWriter_constructor fname group overwrite truncate s0).2 =
      (Except.ok (), s1)) :
    (GSDDumpWriter_constructor fname group overwrite truncate s0).1 = Except.ok () ∧
    (GSDDumpWriter_constructor fname group overwrite truncate s0).2.trace = s0.trace ∧
    (GSDDumpWriter_constructor fname group overwrite truncate s0).2.disk = s0.disk ∧
    (GSDDumpWriter_constructor fname group overwrite truncate s0).2.writer.m_is_initialized =
      false ∧
    ∀ k, 0 < k → k ≤ calls.length → ∃ sk dk,
      analyzeCalls (calls.take k)
        (GSDDumpWriter_constructor fname group overwrite truncate s0).2 = (Except.ok (), sk) ∧
      sk.writer.m_is_initialized = true ∧
      sk.trace = s0.trace ++ dk ∧
      (dk.filter GsdCall.isOpen).length = 1 ∧
      (dk.filter GsdCall.isCreate).length =
        (if (GSDDumpWriter_constructor fname group overwrite truncate s0).2.creating
          then 1 else 0) := by
  refine ⟨rfl, rfl, rfl, rfl, fun k hk hkl => ?_⟩
  generalize hs : (GSDDumpWriter_constructor fname group overwrite truncate s0).2 = s at hrun
  have hi : s.writer.m_is_initialized = false := by rw [← hs]; rfl
  have ht : s.trace = s0.trace := by rw [← hs]; rfl
  obtain ⟨sk, hsk⟩ := analyzeCalls_take calls s s1 hrun k
  rcases hc : calls.take k with _ | ⟨c, cs⟩
  · rcases calls with _ | ⟨c, cs⟩
    · simp at hkl
      omega
    · rcases k with _ | k
      · omega
      · simp at hc
  · rw [hc] at hsk
    have hmem : ∀ x ∈ c :: cs, x.2.isRoot = true := by
      intro x hx
      rw [← hc] at hx
      exact hroot x (List.mem_of_mem_take hx)
    obtain ⟨s2, h1, h2⟩ := analyzeCalls_cons_ok c cs s sk hsk
    obtain ⟨d1, hd1, hf⟩ := analyze_run c.1 c.2 s (hmem c (List.mem_cons_self c cs))
    rw [h1] at hd1 hf
    obtain ⟨-, b2, b3, b4, -⟩ := hf.returned rfl
    rw [hi] at b2 b3
    obtain ⟨c1, d2, c2, c3, c4⟩ := analyzeCalls_initialised cs s2 sk
      (fun x hx => hmem x (List.mem_cons_of_mem c hx)) b4 h2
    refine ⟨sk, d1 ++ d2, hsk, c1, ?_, ?_, ?_⟩
    · rw [c2]
      show s2.trace ++ d2 = _
      rw [hd1, List.append_assoc, ht]
    · rw [List.filter_append, List.length_append, c3]
      exact b2
    · rw [List.filter_append, List.length_append, c4]
      exact b3

theorem anyMember_eq_false (g : ParticleGroup) (p : Nat → Bool)
    (h : ∀ t, t ∈ g.tags → p t = false) : anyMember g p = false := by
  rw [← Bool.not_eq_true, anyMember_iff]
  rintro ⟨t, ht, hp⟩
  rw [h t ht] at hp
  cases hp

/-- C19, as the claim states it, fails: a writer in truncate mode, called on
three particles whose every quantity is at its default, returns and leaves a
file of one frame that holds none of the ten optional particle chunks. -/
theorem truncate_semantics_counterexample :
    truncateMachine.writer.m_truncate = true ∧
    (analyze 0 defaultSystem truncateMachine).1 = Except.ok () ∧
    (analyze 0 defaultSystem truncateMachine).2.writer.m_handle.frames.map chunkNames =
      [["configuration/step", "configuration/dimensions", "configuration/box", "particles/N",
        "particles/types", "particles/position"]] ∧
    ∀ q : Quantity, ∀ fr ∈ (analyze 0 defaultSystem truncateMachine).2.writer.m_handle.frames,
      q.chunkName ∉ chunkNames fr := by
  refine ⟨rfl, rfl, by decide, ?_⟩
  intro q
  cases q <;> decide

/-- C19 (truncate semantics), amended.  Let `analyze` return on the root rank
of a writer in truncate mode.  Whatever the file held and whatever the flags:
the call has read the frame count 0 and no other count; the handle then holds
exactly one frame, and so does the file on disk when the call has opened it
or a file was on disk; the frame contains `configuration/step`,
`configuration/dimensions`, `configuration/box`, `particles/N`,
`particles/types` and `particles/position`, and the chunk of each optional
quantity if and only if some member of the group has a value that differs
from the default. -/
theorem truncate_semantics (timestep : Nat) (sys : SystemDefinition) (s s1 : Machine)
    (hroot : sys.isRoot = true) (htrunc : s.writer.m_truncate = true)
    (hrun : analyze timestep sys s = (Except.ok (), s1)) :
    (∃ d, s1.trace = s.trace ++ d ∧ GsdCall.gsd_get_nframes 0 ∈ d ∧
      ∀ ev ∈ d, ev.isGetNframes = true → ev = GsdCall.gsd_get_nframes 0) ∧
    s1.writer.m_handle.frames = [frameChunks s.writer 0 timestep sys] ∧
    (s.writer.m_is_initialized = false ∨ s.disk.isSome = true →
      ∃ f, s1.disk = some f ∧ f.frames = [frameChunks s.writer 0 timestep sys]) ∧
    (∀ name ∈ ["configuration/step", "configuration/dimensions", "configuration/box",
        "particles/N", "particles/types", "particles/position"],
      name ∈ chunkNames (frameChunks s.writer 0 timestep sys)) ∧
    ∀ q : Quantity, q.chunkName ∈ chunkNames (frameChunks s.writer 0 timestep sys) ↔
      ∃ t, t ∈ s.writer.m_group.tags ∧ q.nondefault sys.snapshot t = true := by
  have hs : s.startFrames = [] := by
    rw [Machine.startFrames, htrunc]
    rfl
  have hfr := analyze_ok_frames timestep sys s s1 hroot
    (fun _ h => by rw [htrunc] at h; cases h) hrun
  rw [hs] at hfr
  obtain ⟨d, hd, hf⟩ := analyze_run timestep sys s hroot
  rw [hrun] at hd hf
  obtain ⟨-, -, -, -, -, -, hmem⟩ := hf.returned rfl
  have hcounts := hf.counts
  rw [hs] at hmem hcounts
  obtain ⟨fr, h1, h2⟩ := analyze_ok_prefix timestep sys s s1 hroot hrun
  rw [hs, hfr] at h1
  have hfr1 : fr = frameChunks s.writer 0 timestep sys := by
    simp only [List.nil_append, List.cons.injEq, and_true] at h1
    exact h1.symm
  refine ⟨⟨d, hd, hmem, hcounts⟩, hfr, fun h => ?_, ?_, fun q => ?_⟩
  · obtain ⟨f, hf1, hf2⟩ := h2 (by
      rcases h with h | h
      · exact Or.inl h
      · exact Or.inr ⟨h, htrunc⟩)
    rw [hs, hfr1] at hf2
    exact ⟨f, hf1, hf2⟩
  · intro name hn
    simp only [List.mem_cons, List.mem_singleton, List.not_mem_nil, or_false] at hn
    rcases hn with h | h | h | h | h | h <;> rw [h] <;>
      simp [chunkNames_frameChunks, chunkNames_headerChunks, chunkNames_attributeChunks,
        chunkNames_propertyChunks]
  · rw [quantity_chunk_in_frame]
    simp

theorem truncate_semantics_witness :
    exampleSystem.isRoot = true ∧ truncateMachine.writer.m_truncate = true ∧
    (analyze 0 exampleSystem truncateMachine).2.writer.m_handle.frames =
      [frameChunks truncateMachine.writer 0 0 exampleSystem] :=
  ⟨rfl, rfl,
    (truncate_semantics 0 exampleSystem truncateMachine
      (analyze 0 exampleSystem truncateMachine).2 rfl rfl (by apply Prod.ext <;> rfl)).2.1⟩

theorem lazy_initialisation_witness :
    (∀ c ∈ [(0, exampleSystem)], c.2.isRoot = true) ∧
    analyzeCalls [(0, exampleSystem)]
      (GSDDumpWriter_constructor "trajectory.gsd" ⟨[0, 1, 2]⟩ false false exampleMachine).2 =
      (Except.ok (), frameZeroState) ∧
    (GSDDumpWriter_constructor "trajectory.gsd" ⟨[0, 1, 2]⟩ false false
      exampleMachine).2.writer.m_is_initialized = false :=
  have hrun : analyzeCalls [(0, exampleSystem)]
      (GSDDumpWriter_constructor "trajectory.gsd" ⟨[0, 1, 2]⟩ false false exampleMachine).2 =
      (Except.ok (), frameZeroState) := by
    have h0 : (GSDDumpWriter_constructor "trajectory.gsd" ⟨[0, 1, 2]⟩ false false
        exampleMachine).2 = exampleMachine := rfl
    have h1 : analyze 0 exampleSystem exampleMachine = (Except.ok (), frameZeroState) := rfl
    rw [h0, analyzeCalls_cons]
    show (match analyze 0 exampleSystem exampleMachine with
      | (Except.ok _, s1) => analyzeCalls [] s1
      | (Except.error e, s1) => (Except.error e, s1)) = _
    rw [h1]
    rfl
  ⟨fun c hc => by
      rw [List.mem_singleton] at hc
      rw [hc]
      rfl,
    hrun,
    (lazy_initialisation "trajectory.gsd" ⟨[0, 1, 2]⟩ false false exampleMachine frameZeroState
      [(0, exampleSystem)]
      (fun c hc => by
        rw [List.mem_singleton] at hc
        rw [hc]
        rfl)
      hrun).2.2.2.1⟩

theorem foldl_set_length {α β : Type} (l : List β) (pos : β → Nat) (val : β → α)
    (data : List α) :
    (l.foldl (fun d k => d.set (pos k) (val k)) data).length = data.length := by
  induction l generalizing data with
  | nil => rfl
  | cons x xs ih => rw [List.foldl_cons, ih, List.length_set]

theorem fill_buffer_length {α : Type} (zero : α) (N M : Nat) (values : Nat → List α) :
    (fill_buffer zero N M values).length = (N * M) % 2 ^ 32 := by
  unfold fill_buffer
  have h : ∀ (l : List Nat) (data : List α),
      (l.foldl (fun data group_idx =>
        (List.range M).foldl
          (fun data k => data.set ((group_idx * M + k) % 2 ^ 32)
            ((values group_idx).getD k zero)) data) data).length = data.length := by
    intro l
    induction l with
    | nil => intro data; rfl
    | cons x xs ih =>
      intro data
      rw [List.foldl_cons, ih, foldl_set_length]
  rw [h, List.length_replicate]

/-- Storing the first `m` values of `row` at the positions `p`, `p + 1`, ... -/
theorem store_row {α : Type} (zero : α) (A X B row : List α) (p m : Nat) (hp : A.length = p)
    (hX : m ≤ X.length) (hr : m ≤ row.length) (pos : Nat → Nat) (hpos : ∀ k, k < m → pos k = p + k) :
    (List.range m).foldl (fun d k => d.set (pos k) (row.getD k zero)) (A ++ X ++ B) =
      A ++ (row.take m ++ X.drop m) ++ B := by
  induction m with
  | zero => simp
  | succ m ih =>
    rw [List.range_succ, List.foldl_append, ih (by omega) (by omega) (fun k hk => hpos k (by omega))]
    simp only [List.foldl_cons, List.foldl_nil]
    rw [hpos m (by omega)]
    have hm : m < row.length := by omega
    have e1 : (A ++ (row.take m ++ X.drop m) ++ B) = A ++ (row.take m ++ (X.drop m ++ B)) := by
      simp
    rw [e1, List.set_append_right _ _ (by omega), hp, Nat.add_sub_cancel_left,
      List.set_append_right _ _ (by simp)]
    have e2 : m - (List.take m row).length = 0 := by simp; omega
    rw [e2]
    have hX2 : X.drop m = X[m] :: X.drop (m + 1) := by
      rw [List.drop_eq_getElem_cons]
    rw [hX2]
    simp only [List.cons_append, List.set_cons_zero]
    have ht : List.take (m + 1) row = List.take m row ++ [row[m]] := by
      rw [List.take_succ, List.getElem?_eq_getElem hm]
      rfl
    rw [List.getD_eq_getElem _ _ hm, ht]
    simp only [List.append_assoc, List.singleton_append, List.cons_append, List.nil_append]

theorem fill_rows {α : Type} (zero : α) (N M : Nat) (values : Nat → List α)
    (hM : ∀ i, (values i).length = M) (h : N * M < 2 ^ 32) (n : Nat) (hn : n ≤ N) :
    (List.range n).foldl
      (fun data group_idx =>
        (List.range M).foldl
          (fun data k => data.set ((group_idx * M + k) % 2 ^ 32)
            ((values group_idx).getD k zero)) data)
      (List.replicate (N * M) zero) =
    ((List.range n).map values).flatten ++ List.replicate ((N - n) * M) zero := by
  induction n with
  | zero => simp
  | succ n ih =>
    rw [List.range_succ, List.foldl_append, ih (by omega)]
    simp only [List.foldl_cons, List.foldl_nil, List.map_append, List.map_cons, List.map_nil,
      List.flatten_append, List.flatten_cons, List.flatten_nil, List.append_nil]
    have hlen : (((List.range n).map values).flatten).length = n * M := by
      have : ∀ l : List Nat, ((l.map values).flatten).length = l.length * M := by
        intro l
        induction l with
        | nil => simp
        | cons x xs ih2 =>
          simp only [List.map_cons, List.flatten_cons, List.length_append, ih2, hM,
            List.length_cons]
          rw [Nat.add_mul]
          omega
      rw [this, List.length_range]
    have hsplit : List.replicate ((N - n) * M) zero =
        List.replicate M zero ++ List.replicate ((N - (n + 1)) * M) zero := by
      rw [← List.replicate_add]
      congr 1
      have : N - n = (N - (n + 1)) + 1 := by omega
      rw [this, Nat.add_mul]
      omega
    rw [hsplit, ← List.append_assoc]
    have hle : (n + 1) * M ≤ N * M := Nat.mul_le_mul_right M hn
    have key := store_row zero ((List.range n).map values).flatten (List.replicate M zero)
      (List.replicate ((N - (n + 1)) * M) zero) (values n) (n * M) M hlen (by simp) (by rw [hM])
      (fun k => (n * M + k) % 2 ^ 32) (fun k hk => Nat.mod_eq_of_lt (by
        have : n * M + k < (n + 1) * M := by rw [Nat.add_mul]; omega
        omega))
    rw [key]
    have : List.take M (values n) = values n := by rw [List.take_of_length_le (by rw [hM])]
    rw [this]
    simp

theorem fill_buffer_eq {α : Type} (zero : α) (N M : Nat) (values : Nat → List α)
    (hM : ∀ i, (values i).length = M) (h : N * M < 2 ^ 32) :
    fill_buffer zero N M values = ((List.range N).map values).flatten := by
  unfold fill_buffer
  rw [Nat.mod_eq_of_lt h, fill_rows zero N M values hM h N (le_refl N)]
  simp

theorem fill_buffer_congr {α : Type} (zero : α) (N M : Nat) (v v1 : Nat → List α)
    (h : ∀ i, i < N → v i = v1 i) : fill_buffer zero N M v = fill_buffer zero N M v1 := by
  unfold fill_buffer
  have key : ∀ (l : List Nat) (data : List α), (∀ i ∈ l, v i = v1 i) →
      l.foldl (fun data group_idx =>
        (List.range M).foldl
          (fun data k => data.set ((group_idx * M + k) % 2 ^ 32) ((v group_idx).getD k zero))
          data) data =
      l.foldl (fun data group_idx =>
        (List.range M).foldl
          (fun data k => data.set ((group_idx * M + k) % 2 ^ 32) ((v1 group_idx).getD k zero))
          data) data := by
    intro l
    induction l with
    | nil => intro data _; rfl
    | cons x xs ih =>
      intro data hl
      rw [List.foldl_cons, List.foldl_cons, hl x (List.mem_cons_self _ _)]
      exact ih _ (fun i hi => hl i (List.mem_cons_of_mem _ hi))
  exact key _ _ (fun i hi => h i (List.mem_range.mp hi))

/-- While the number of elements fits 32 bits, the buffer of a chunk holds the
values of the group members one after the other. -/
theorem gather_buffer_eq {α : Type} (zero : α) (g : ParticleGroup) (M : Nat)
    (f : Nat → List α) (hM : ∀ t, (f t).length = M) (h : g.getNumMembersGlobal * M < 2 ^ 32) :
    gather_buffer zero g M f = (gather g f).flatten := by
  unfold gather_buffer gather
  exact fill_buffer_eq zero _ M _ (fun i => hM _) h

theorem gather_buffer_length {α : Type} (zero : α) (g : ParticleGroup) (M : Nat)
    (f : Nat → List α) :
    (gather_buffer zero g M f).length = (g.getNumMembersGlobal * M) % 2 ^ 32 :=
  fill_buffer_length zero _ M _

theorem gather_three {α : Type} (f : Nat → α) : gather ⟨[0, 1, 2]⟩ f = [f 0, f 1, f 2] := by
  simp [gather, ParticleGroup.getNumMembersGlobal, ParticleGroup.getMemberTag, List.range_succ]

/-- C20 (end-to-end frame 0).  A writer that is not initialised, for the group
of the three tags 0, 1, 2, called on the root rank with no file on disk, the
type names "A" and "B" and the type ids 0, 1, 0, when every call into the
library returns 0: the first call of `analyze` returns, the handle and the
file on disk hold exactly one frame, and the frame contains `particles/types`
with 2 rows, `particles/typeid` with the data 0, 1, 0 and
`particles/position` with 3 rows and 3 columns holding the positions of the
three particles.  This holds for any values of the other quantities, so in
particular when they are at their defaults. -/
theorem end_to_end_frame_zero (timestep : Nat) (sys : SystemDefinition) (s : Machine)
    (hroot : sys.isRoot = true) (hnew : s.disk = none)
    (hi : s.writer.m_is_initialized = false) (hret : ∀ k, s.ret k = 0)
    (hgroup : s.writer.m_group = ⟨[0, 1, 2]⟩)
    (htypes : sys.snapshot.type_mapping = [[65], [66]])
    (h0 : sys.snapshot.type 0 = 0) (h1 : sys.snapshot.type 1 = 1)
    (h2 : sys.snapshot.type 2 = 0) :
    ∃ s1 fr, analyze timestep sys s = (Except.ok (), s1) ∧
      s1.writer.m_handle.frames = [fr] ∧
      (∃ f, s1.disk = some f ∧ f.frames = [fr]) ∧
      (⟨"particles/types", GsdType.GSD_TYPE_UINT8, 2, 2, Payload.u8 [65, 0, 66, 0]⟩ : Chunk)
        ∈ fr ∧
      (⟨"particles/typeid", GsdType.GSD_TYPE_UINT32, 3, 1, Payload.u32 [0, 1, 0]⟩ : Chunk)
        ∈ fr ∧
      (⟨"particles/position", GsdType.GSD_TYPE_FLOAT, 3, 3,
        Payload.f32 [(sys.snapshot.pos 0).x, (sys.snapshot.pos 0).y, (sys.snapshot.pos 0).z,
          (sys.snapshot.pos 1).x, (sys.snapshot.pos 1).y, (sys.snapshot.pos 1).z,
          (sys.snapshot.pos 2).x, (sys.snapshot.pos 2).y, (sys.snapshot.pos 2).z]⟩ : Chunk)
        ∈ fr := by
  have hc : s.creating = true := by
    rw [Machine.creating, hnew]
    simp
  obtain ⟨s1, hrun⟩ := analyze_returns timestep sys s hroot hret (fun _ h => by
    rw [← Machine.creating, hc] at h
    cases h)
  have hs : s.startFrames = [] := by
    rw [Machine.startFrames, hi, hc]
    simp
  have hfr := analyze_ok_frames timestep sys s s1 hroot
    (fun h => by rw [hi] at h; cases h) hrun
  obtain ⟨fr, e1, e2⟩ := analyze_ok_prefix timestep sys s s1 hroot hrun
  rw [hs] at hfr e1 e2
  have hfr1 : fr = frameChunks s.writer 0 timestep sys := by
    rw [hfr] at e1
    simp only [List.nil_append, List.cons.injEq, and_true] at e1
    exact e1.symm
  refine ⟨s1, frameChunks s.writer 0 timestep sys, hrun, hfr, ?_, ?_, ?_, ?_⟩
  · obtain ⟨f, f1, f2⟩ := e2 (Or.inl hi)
    rw [hfr1] at f2
    exact ⟨f, f1, f2⟩
  · rw [mem_frameChunks]
    refine Or.inr (Or.inl ⟨Or.inr rfl, ?_⟩)
    simp only [attributeChunks, List.mem_append, List.mem_singleton]
    refine Or.inl (Or.inl (Or.inl (Or.inl (Or.inl (Or.inl ?_)))))
    rw [htypes]
    decide
  · rw [mem_frameChunks]
    refine Or.inr (Or.inl ⟨Or.inr rfl, ?_⟩)
    simp only [attributeChunks, List.mem_append]
    refine Or.inl (Or.inl (Or.inl (Or.inl (Or.inl (Or.inr ?_)))))
    rw [mem_optChunk]
    refine ⟨(anyMember_iff _ _).mpr ⟨1, by rw [hgroup]; simp, by simp [typeid_nondefault, h1]⟩,
      ?_⟩
    rw [hgroup, gather_three, h0, h1, h2]
    rfl
  · rw [mem_frameChunks]
    refine Or.inr (Or.inr (Or.inl ⟨Or.inr rfl, ?_⟩))
    simp only [propertyChunks, List.mem_append, List.mem_singleton]
    refine Or.inl ?_
    rw [hgroup]
    have e := gather_buffer_eq F32.zero ⟨[0, 1, 2]⟩ 3
      (fun t => [(sys.snapshot.pos t).x, (sys.snapshot.pos t).y, (sys.snapshot.pos t).z])
      (fun _ => rfl) (by decide)
    rw [e, gather_three]
    rfl

theorem end_to_end_frame_zero_witness :
    exampleSystem.isRoot = true ∧ exampleMachine.disk = none ∧
    exampleMachine.writer.m_is_initialized = false ∧ (∀ k, exampleMachine.ret k = 0) ∧
    exampleMachine.writer.m_group = ⟨[0, 1, 2]⟩ ∧
    exampleSystem.snapshot.type_mapping = [[65], [66]] ∧
    exampleSystem.snapshot.type 0 = 0 ∧ exampleSystem.snapshot.type 1 = 1 ∧
    exampleSystem.snapshot.type 2 = 0 ∧
    ∃ s1 fr, analyze 0 exampleSystem exampleMachine = (Except.ok (), s1) ∧
      s1.writer.m_handle.frames = [fr] ∧
      (∃ f, s1.disk = some f ∧ f.frames = [fr]) ∧
      (⟨"particles/types", GsdType.GSD_TYPE_UINT8, 2, 2, Payload.u8 [65, 0, 66, 0]⟩ : Chunk)
        ∈ fr ∧
      (⟨"particles/typeid", GsdType.GSD_TYPE_UINT32, 3, 1, Payload.u32 [0, 1, 0]⟩ : Chunk)
        ∈ fr ∧
      (⟨"particles/position", GsdType.GSD_TYPE_FLOAT, 3, 3,
        Payload.f32 [(exampleSystem.snapshot.pos 0).x, (exampleSystem.snapshot.pos 0).y,
          (exampleSystem.snapshot.pos 0).z,
          (exampleSystem.snapshot.pos 1).x, (exampleSystem.snapshot.pos 1).y,
          (exampleSystem.snapshot.pos 1).z,
          (exampleSystem.snapshot.pos 2).x, (exampleSystem.snapshot.pos 2).y,
          (exampleSystem.snapshot.pos 2).z]⟩ : Chunk) ∈ fr :=
  ⟨rfl, rfl, rfl, fun _ => rfl, rfl, rfl, rfl, rfl, rfl,
    end_to_end_frame_zero 0 exampleSystem exampleMachine rfl rfl rfl (fun _ => rfl) rfl rfl
      rfl rfl rfl⟩

/-- C21, as the claim states it, fails: the second call of `analyze` in the
example writes a frame that also contains `particles/types`, a chunk outside
the set of five names of the claim. -/
theorem end_to_end_frame_one_counterexample :
    exampleWriter.m_write_attribute = true ∧ exampleWriter.m_write_property = true ∧
    analyze 1 exampleSystem frameZeroState = (Except.ok (), frameOneState) ∧
    frameOneState.writer.m_handle.frames.length = 2 ∧
    chunkNames (frameOneState.writer.m_handle.frames.getLastD []) =
      ["configuration/step", "configuration/box", "particles/N", "particles/types",
        "particles/typeid", "particles/position"] ∧
    "particles/types" ∉ ["configuration/step", "configuration/box", "particles/N",
      "particles/typeid", "particles/position"] :=
  ⟨rfl, rfl, rfl, by decide, by decide, by decide⟩

/-! ## Shapes and rows of the per-particle chunks (C22, C23, C24, C26, C27) -/

theorem gather_length {α : Type} (g : ParticleGroup) (f : Nat → α) :
    (gather g f).length = g.getNumMembersGlobal := by
  simp [gather]

theorem gather_getElem? {α : Type} (g : ParticleGroup) (f : Nat → α) (i : Nat)
    (hi : i < g.getNumMembersGlobal) :
    (gather g f)[i]? = some (f (g.getMemberTag i)) := by
  simp [gather, List.getElem?_map, List.getElem?_range hi]

theorem gather_flatten_length {α : Type} (g : ParticleGroup) (f : Nat → List α) (M : Nat)
    (hM : ∀ t, (f t).length = M) :
    (gather g f).flatten.length = g.getNumMembersGlobal * M := by
  rw [List.length_flatten]
  have : List.map List.length (gather g f) = List.replicate g.getNumMembersGlobal M := by
    apply List.ext_getElem
    · simp [gather]
    · intro i h1 h2
      simp [gather, hM]
  rw [this]
  simp

theorem take_one_of_getElem? {α : Type} (l : List α) (i : Nat) (x : α) (h : l[i]? = some x) :
    (l.drop (i * 1)).take 1 = [x] := by
  rw [Nat.mul_one]
  have hi : i < l.length := by
    by_contra hc
    rw [List.getElem?_eq_none (by omega)] at h
    cases h
  rw [List.getElem?_eq_getElem hi] at h
  cases h
  rw [List.drop_eq_getElem_cons hi]
  rfl

theorem flatten_row {α : Type} (l : List (List α)) (M : Nat) (hM : ∀ r ∈ l, r.length = M)
    (i : Nat) (x : List α) (h : l[i]? = some x) :
    (l.flatten.drop (i * M)).take M = x := by
  induction l generalizing i with
  | nil => simp at h
  | cons r rs ih =>
    have hr : r.length = M := hM r (List.mem_cons_self r rs)
    rcases i with _ | i
    · simp only [List.getElem?_cons_zero, Option.some.injEq] at h
      subst h
      simp [List.flatten, List.take_append_of_le_length, ← hr]
    · simp only [List.getElem?_cons_succ] at h
      have := ih (fun r hr => hM r (List.mem_cons_of_mem _ hr)) i h
      rw [List.flatten_cons, Nat.succ_mul, Nat.add_comm, ← hr, List.drop_append]
      rw [hr]
      exact this

theorem gather_row {α : Type} (g : ParticleGroup) (f : Nat → List α) (M : Nat)
    (hM : ∀ t, (f t).length = M) (i : Nat) (hi : i < g.getNumMembersGlobal) :
    ((gather g f).flatten.drop (i * M)).take M = f (g.getMemberTag i) := by
  refine flatten_row _ M (fun r hr => ?_) i _ (gather_getElem? g f i hi)
  obtain ⟨j, -, rfl⟩ := List.mem_map.mp hr
  exact hM _

theorem gather_row_one {α : Type} (g : ParticleGroup) (f : Nat → α) (i : Nat)
    (hi : i < g.getNumMembersGlobal) :
    ((gather g f).drop (i * 1)).take 1 = [f (g.getMemberTag i)] :=
  take_one_of_getElem? _ i _ (gather_getElem? g f i hi)

/-- The calls into the library made by writing a list of chunks, in every
run: each is a `gsd_write_chunk` of a chunk of the list, the first one of the
first chunk; when the run returns, every chunk of the list has been written
with result 0 and is in the frame in progress. -/
theorem writeChunks_calls (cs : List Chunk) (s : Machine) :
    ∃ d, (writeChunks cs s).2.trace = s.trace ++ d ∧
      (∀ ev ∈ d, ∃ c, c ∈ cs ∧ ∃ r, ev = GsdCall.gsd_write_chunk c r) ∧
      (∀ c0 rest, cs = c0 :: rest → ∃ r d1, d = GsdCall.gsd_write_chunk c0 r :: d1) ∧
      ((writeChunks cs s).1 = Except.ok () →
        d = cs.map (fun c => GsdCall.gsd_write_chunk c 0) ∧
        (writeChunks cs s).2.writer.m_handle.pending = s.writer.m_handle.pending ++ cs) := by
  rcases writeChunks_outcome cs s with ⟨-, hrun⟩ | ⟨k, c, hk, -, hne, hrun⟩
  · rw [hrun]
    refine ⟨cs.map (fun c => GsdCall.gsd_write_chunk c 0), rfl, ?_, ?_, fun _ => ⟨rfl, rfl⟩⟩
    · intro ev hev
      obtain ⟨c, hc, rfl⟩ := List.mem_map.mp hev
      exact ⟨c, hc, 0, rfl⟩
    · intro c0 rest h
      rw [h]
      exact ⟨0, _, rfl⟩
  · rw [hrun]
    refine ⟨(cs.take k).map (fun c => GsdCall.gsd_write_chunk c 0) ++
        [GsdCall.gsd_write_chunk c (s.ret (s.trace.length + k))], ?_, ?_, ?_, ?_⟩
    · simp [Machine.failedCall, Machine.written, List.append_assoc]
    · intro ev hev
      rcases List.mem_append.mp hev with h | h
      · obtain ⟨c1, hc1, rfl⟩ := List.mem_map.mp h
        exact ⟨c1, List.mem_of_mem_take hc1, 0, rfl⟩
      · rw [List.mem_singleton] at h
        exact ⟨c, List.mem_iff_getElem?.mpr ⟨k, hk⟩, _, h⟩
    · intro c0 rest h
      subst h
      rcases k with _ | k
      · simp only [List.getElem?_cons_zero, Option.some.injEq] at hk
        subst hk
        exact ⟨s.ret (s.trace.length + 0), [], by simp⟩
      · exact ⟨0, (rest.take k).map (fun c => GsdCall.gsd_write_chunk c 0) ++
          [GsdCall.gsd_write_chunk c (s.ret (s.trace.length + (k + 1)))],
          by simp [List.take_succ_cons]⟩
    · intro h
      cases h

theorem memberFunction_calls (cat : Category) (snapshot : SnapshotParticleData) (s : Machine) :
    ∃ d, (cat.memberFunction snapshot s).2.trace = s.trace ++ d ∧
      (∀ ev ∈ d, ∃ c, c ∈ cat.chunks s.writer.m_group snapshot ∧
        ∃ r, ev = GsdCall.gsd_write_chunk c r) ∧
      (∀ c0 rest, cat.chunks s.writer.m_group snapshot = c0 :: rest →
        ∃ r d1, d = GsdCall.gsd_write_chunk c0 r :: d1) ∧
      ((cat.memberFunction snapshot s).1 = Except.ok () →
        d = (cat.chunks s.writer.m_group snapshot).map (fun c => GsdCall.gsd_write_chunk c 0) ∧
        (cat.memberFunction snapshot s).2.writer.m_handle.pending =
          s.writer.m_handle.pending ++ cat.chunks s.writer.m_group snapshot) := by
  rw [memberFunction_eq]
  exact writeChunks_calls _ s

/-- The shape of every per-particle chunk of a category: its rows, columns and
element type, and the number of elements of its buffer, which is the product
of rows and columns in `unsigned int` for a chunk of 3 or 4 columns. -/
theorem chunk_shape_wrapped (g : ParticleGroup) (snapshot : SnapshotParticleData)
    (cat : Category) (c : Chunk) (hc : c ∈ cat.chunks g snapshot)
    (hn : c.name ≠ "particles/types") :
    c.N = g.getNumMembersGlobal ∧ (c.name, c.M) ∈ perParticleColumns ∧
    c.data.gsdType = c.type ∧
    c.data.length = (if c.M = 1 then c.N else (c.N * c.M) % 2 ^ 32) := by
  cases cat
  · simp only [Category.chunks, attributeChunks, List.mem_append, mem_optChunk,
      List.mem_singleton, or_assoc] at hc
    rcases hc with hc | ⟨-, hc⟩ | ⟨-, hc⟩ | ⟨-, hc⟩ | ⟨-, hc⟩ | ⟨-, hc⟩ | ⟨-, hc⟩
    · rw [hc] at hn
      exact absurd rfl hn
    all_goals
      subst hc
      refine ⟨rfl, by simp [perParticleColumns], rfl, ?_⟩
      first
        | exact gather_buffer_length _ g 3 _
        | simp [Payload.length, gather_length]
  · simp only [Category.chunks, propertyChunks, List.mem_append, mem_optChunk,
      List.mem_singleton] at hc
    rcases hc with hc | ⟨-, hc⟩
    all_goals
      subst hc
      refine ⟨rfl, by simp [perParticleColumns], rfl, ?_⟩
      first
        | exact gather_buffer_length _ g 3 _
        | exact gather_buffer_length _ g 4 _
  · simp only [Category.chunks, momentumChunks, List.mem_append, mem_optChunk,
      or_assoc] at hc
    rcases hc with ⟨-, hc⟩ | ⟨-, hc⟩ | ⟨-, hc⟩
    all_goals
      subst hc
      refine ⟨rfl, by simp [perParticleColumns], rfl, ?_⟩
      first
        | exact gather_buffer_length _ g 3 _
        | exact gather_buffer_length _ g 4 _

/-- The shape of every per-particle chunk of a category whose number of
elements fits 32 bits. -/
theorem chunk_shape (g : ParticleGroup) (snapshot : SnapshotParticleData) (cat : Category)
    (c : Chunk) (hc : c ∈ cat.chunks g snapshot) (hn : c.name ≠ "particles/types")
    (hb : c.N * c.M < 2 ^ 32) :
    c.N = g.getNumMembersGlobal ∧ (c.name, c.M) ∈ perParticleColumns ∧
    c.data.gsdType = c.type ∧ c.data.length = c.N * c.M ∧
    c.data.byteLength = c.N * c.M * gsd_sizeof_type c.type := by
  obtain ⟨h1, h2, h3, h4⟩ := chunk_shape_wrapped g snapshot cat c hc hn
  have h5 : c.data.length = c.N * c.M := by
    rw [h4]
    by_cases hM : c.M = 1
    · rw [if_pos hM, hM, Nat.mul_one]
    · rw [if_neg hM, Nat.mod_eq_of_lt hb]
  refine ⟨h1, h2, h3, h5, ?_⟩
  rw [Payload.byteLength, h5, h3]

/-- The shape of the chunks that the member functions write, within the bound
of the 32-bit products.  Every chunk other than the type table that
`writeAttributes`, `writeProperties` or `writeMomenta` hands to
`gsd_write_chunk`, in any run, declares as many rows as the group has members
globally, which is the value written in `particles/N`; its number of columns
is the one listed for its name (1 for typeid, mass, charge, diameter, body; 3
for moment_inertia, position, velocity, image; 4 for orientation, angmom);
when rows times columns is below 2^32, its buffer has the declared element
type and holds rows times columns elements, that is rows times columns times
the element size in bytes. -/
theorem chunk_shape_bounded (cat : Category) (snapshot : SnapshotParticleData)
    (s : Machine) (d : List GsdCall) (c : Chunk) (r : Int)
    (hd : (cat.memberFunction snapshot s).2.trace = s.trace ++ d)
    (hc : GsdCall.gsd_write_chunk c r ∈ d) (hn : c.name ≠ "particles/types")
    (hb : c.N * c.M < 2 ^ 32) :
    c.N = s.writer.m_group.getNumMembersGlobal ∧
    (∀ (n timestep : Nat) (sys : SystemDefinition),
      (⟨"particles/N", GsdType.GSD_TYPE_UINT32, 1, 1, Payload.u32 [c.N]⟩ : Chunk) ∈
        headerChunks s.writer.m_group n timestep sys) ∧
    (c.name, c.M) ∈ perParticleColumns ∧
    c.data.gsdType = c.type ∧ c.data.length = c.N * c.M ∧
    c.data.byteLength = c.N * c.M * gsd_sizeof_type c.type := by
  obtain ⟨d0, h0, h1, -⟩ := memberFunction_calls cat snapshot s
  have e : d = d0 := List.append_cancel_left (hd.symm.trans h0)
  subst e
  obtain ⟨c1, hc1, r1, he⟩ := h1 _ hc
  cases he
  obtain ⟨a1, a2, a3, a4, a5⟩ := chunk_shape s.writer.m_group snapshot cat c hc1 hn hb
  refine ⟨a1, fun n timestep sys => ?_, a2, a3, a4, a5⟩
  rw [a1]
  simp [headerChunks]

/-- The position chunk of the example: three rows of three floats. -/
theorem chunk_shape_bounded_example :
    (Category.property.memberFunction exampleSnapshot exampleMachine).2.trace =
      [GsdCall.gsd_write_chunk
        ⟨"particles/position", GsdType.GSD_TYPE_FLOAT, 3, 3,
          Payload.f32 [F32.zero, F32.zero, F32.zero, F32.zero, F32.zero, F32.zero,
            F32.zero, F32.zero, F32.zero]⟩ 0] ∧
    (3 : Nat) = exampleMachine.writer.m_group.getNumMembersGlobal ∧
    (Payload.f32 [F32.zero, F32.zero, F32.zero, F32.zero, F32.zero, F32.zero,
      F32.zero, F32.zero, F32.zero]).byteLength = 3 * 3 * gsd_sizeof_type GsdType.GSD_TYPE_FLOAT :=
  ⟨by decide,
    (chunk_shape_bounded Category.property exampleSnapshot exampleMachine
      (Category.property.memberFunction exampleSnapshot exampleMachine).2.trace
      ⟨"particles/position", GsdType.GSD_TYPE_FLOAT, 3, 3,
        Payload.f32 [F32.zero, F32.zero, F32.zero, F32.zero, F32.zero, F32.zero,
          F32.zero, F32.zero, F32.zero]⟩ 0 rfl (by decide) (by decide) (by decide)).1,
    (chunk_shape_bounded Category.property exampleSnapshot exampleMachine
      (Category.property.memberFunction exampleSnapshot exampleMachine).2.trace
      ⟨"particles/position", GsdType.GSD_TYPE_FLOAT, 3, 3,
        Payload.f32 [F32.zero, F32.zero, F32.zero, F32.zero, F32.zero, F32.zero,
          F32.zero, F32.zero, F32.zero]⟩ 0 rfl (by decide) (by decide) (by decide)).2.2.2.2.2⟩

/-- Every chunk of a category is the type table, the position, or the chunk
of a quantity for which some member of the group has a value that differs
from the default. -/
theorem category_chunk_kinds (g : ParticleGroup) (snapshot : SnapshotParticleData)
    (cat : Category) (c : Chunk) (hc : c ∈ cat.chunks g snapshot) :
    c.name = "particles/types" ∨ c.name = "particles/position" ∨
    ∃ q : Quantity, c.name = q.chunkName ∧ q.category = cat ∧
      ∃ t, t ∈ g.tags ∧ q.nondefault snapshot t = true := by
  cases cat
  · simp only [Category.chunks, attributeChunks, List.mem_append, mem_optChunk,
      List.mem_singleton, or_assoc, anyMember_iff] at hc
    rcases hc with hc | ⟨h, hc⟩ | ⟨h, hc⟩ | ⟨h, hc⟩ | ⟨h, hc⟩ | ⟨h, hc⟩ | ⟨h, hc⟩
    · exact Or.inl (by rw [hc]; rfl)
    · exact Or.inr (Or.inr ⟨Quantity.typeid, by rw [hc]; rfl, rfl, h⟩)
    · exact Or.inr (Or.inr ⟨Quantity.mass, by rw [hc]; rfl, rfl, h⟩)
    · exact Or.inr (Or.inr ⟨Quantity.charge, by rw [hc]; rfl, rfl, h⟩)
    · exact Or.inr (Or.inr ⟨Quantity.diameter, by rw [hc]; rfl, rfl, h⟩)
    · exact Or.inr (Or.inr ⟨Quantity.body, by rw [hc]; rfl, rfl, h⟩)
    · exact Or.inr (Or.inr ⟨Quantity.moment_inertia, by rw [hc]; rfl, rfl, h⟩)
  · simp only [Category.chunks, propertyChunks, List.mem_append, mem_optChunk,
      List.mem_singleton, anyMember_iff] at hc
    rcases hc with hc | ⟨h, hc⟩
    · exact Or.inr (Or.inl (by rw [hc]))
    · exact Or.inr (Or.inr ⟨Quantity.orientation, by rw [hc]; rfl, rfl, h⟩)
  · simp only [Category.chunks, momentumChunks, List.mem_append, mem_optChunk, or_assoc,
      anyMember_iff] at hc
    rcases hc with ⟨h, hc⟩ | ⟨h, hc⟩ | ⟨h, hc⟩
    · exact Or.inr (Or.inr ⟨Quantity.velocity, by rw [hc]; rfl, rfl, h⟩)
    · exact Or.inr (Or.inr ⟨Quantity.angmom, by rw [hc]; rfl, rfl, h⟩)
    · exact Or.inr (Or.inr ⟨Quantity.image, by rw [hc]; rfl, rfl, h⟩)

theorem anyMember_congr (g : ParticleGroup) (p q : Nat → Bool)
    (h : ∀ t, t ∈ g.tags → p t = q t) : anyMember g p = anyMember g q := by
  rw [Bool.eq_iff_iff, anyMember_iff, anyMember_iff]
  constructor
  · rintro ⟨t, ht, hp⟩
    exact ⟨t, ht, by rw [← h t ht]; exact hp⟩
  · rintro ⟨t, ht, hp⟩
    exact ⟨t, ht, by rw [h t ht]; exact hp⟩

theorem getMemberTag_mem (g : ParticleGroup) (i : Nat) (hi : i < g.getNumMembersGlobal) :
    g.getMemberTag i ∈ g.tags := by
  unfold ParticleGroup.getMemberTag
  rw [List.getD_eq_getElem _ _ hi]
  exact List.getElem_mem _

theorem gather_congr {α : Type} (g : ParticleGroup) (f f1 : Nat → α)
    (h : ∀ t, t ∈ g.tags → f t = f1 t) : gather g f = gather g f1 := by
  unfold gather
  apply List.map_congr_left
  intro i hi
  exact h _ (getMemberTag_mem g i (List.mem_range.mp hi))

/-- Two snapshots that agree on the members of the group and on the type
names give the same chunks. -/
theorem gather_buffer_congr {α : Type} (zero : α) (g : ParticleGroup) (M : Nat)
    (f f1 : Nat → List α) (h : ∀ t, t ∈ g.tags → f t = f1 t) :
    gather_buffer zero g M f = gather_buffer zero g M f1 := by
  unfold gather_buffer
  exact fill_buffer_congr zero _ M _ _ (fun i hi => h _ (getMemberTag_mem g i hi))

theorem chunks_congr (g : ParticleGroup) (a b : SnapshotParticleData)
    (h : ∀ t, t ∈ g.tags → sameParticle a b t) (cat : Category) :
    chunkNames (cat.chunks g a) = chunkNames (cat.chunks g b) ∧
    (a.type_mapping = b.type_mapping → cat.chunks g a = cat.chunks g b) := by
  have e1 : anyMember g (typeid_nondefault a) = anyMember g (typeid_nondefault b) :=
    anyMember_congr g _ _ (fun t ht => by simp [typeid_nondefault, (h t ht).2.2.1])
  have e2 : anyMember g (mass_nondefault a) = anyMember g (mass_nondefault b) :=
    anyMember_congr g _ _ (fun t ht => by simp [mass_nondefault, (h t ht).2.2.2.1])
  have e3 : anyMember g (charge_nondefault a) = anyMember g (charge_nondefault b) :=
    anyMember_congr g _ _ (fun t ht => by simp [charge_nondefault, (h t ht).2.2.2.2.1])
  have e4 : anyMember g (diameter_nondefault a) = anyMember g (diameter_nondefault b) :=
    anyMember_congr g _ _ (fun t ht => by simp [diameter_nondefault, (h t ht).2.2.2.2.2.1])
  have e5 : anyMember g (body_nondefault a) = anyMember g (body_nondefault b) :=
    anyMember_congr g _ _ (fun t ht => by simp [body_nondefault, (h t ht).2.2.2.2.2.2.1])
  have e6 : anyMember g (image_nondefault a) = anyMember g (image_nondefault b) :=
    anyMember_congr g _ _ (fun t ht => by simp [image_nondefault, (h t ht).2.2.2.2.2.2.2.1])
  have e7 : anyMember g (orientation_nondefault a) = anyMember g (orientation_nondefault b) :=
    anyMember_congr g _ _ (fun t ht => by
      simp [orientation_nondefault, (h t ht).2.2.2.2.2.2.2.2.1])
  have e8 : anyMember g (angmom_nondefault a) = anyMember g (angmom_nondefault b) :=
    anyMember_congr g _ _ (fun t ht => by
      simp [angmom_nondefault, (h t ht).2.2.2.2.2.2.2.2.2.1])
  have e9 : anyMember g (inertia_nondefault a) = anyMember g (inertia_nondefault b) :=
    anyMember_congr g _ _ (fun t ht => by
      simp [inertia_nondefault, (h t ht).2.2.2.2.2.2.2.2.2.2])
  have e10 : anyMember g (velocity_nondefault a) = anyMember g (velocity_nondefault b) :=
    anyMember_congr g _ _ (fun t ht => by simp [velocity_nondefault, (h t ht).2.1])
  have g1 : gather g a.type = gather g b.type :=
    gather_congr g _ _ (fun t ht => (h t ht).2.2.1)
  have g2 : gather g a.mass = gather g b.mass :=
    gather_congr g _ _ (fun t ht => (h t ht).2.2.2.1)
  have g3 : gather g a.charge = gather g b.charge :=
    gather_congr g _ _ (fun t ht => (h t ht).2.2.2.2.1)
  have g4 : gather g a.diameter = gather g b.diameter :=
    gather_congr g _ _ (fun t ht => (h t ht).2.2.2.2.2.1)
  have g5 : gather g (fun t => uint_to_int32 (a.body t)) =
      gather g (fun t => uint_to_int32 (b.body t)) :=
    gather_congr g _ _ (fun t ht => by simp only [(h t ht).2.2.2.2.2.2.1])
  have g6 : gather_buffer F32.zero g 3 (fun t => [(a.inertia t).x, (a.inertia t).y, (a.inertia t).z]) =
      gather_buffer F32.zero g 3 (fun t => [(b.inertia t).x, (b.inertia t).y, (b.inertia t).z]) :=
    gather_buffer_congr _ g 3 _ _ (fun t ht => by simp only [(h t ht).2.2.2.2.2.2.2.2.2.2])
  have g7 : gather_buffer F32.zero g 3 (fun t => [(a.pos t).x, (a.pos t).y, (a.pos t).z]) =
      gather_buffer F32.zero g 3 (fun t => [(b.pos t).x, (b.pos t).y, (b.pos t).z]) :=
    gather_buffer_congr _ g 3 _ _ (fun t ht => by simp only [(h t ht).1])
  have g8 : gather_buffer F32.zero g 4 (fun t => [(a.orientation t).s, (a.orientation t).v.x,
        (a.orientation t).v.y, (a.orientation t).v.z]) =
      gather_buffer F32.zero g 4 (fun t => [(b.orientation t).s, (b.orientation t).v.x,
        (b.orientation t).v.y, (b.orientation t).v.z]) :=
    gather_buffer_congr _ g 4 _ _ (fun t ht => by simp only [(h t ht).2.2.2.2.2.2.2.2.1])
  have g9 : gather_buffer F32.zero g 3 (fun t => [(a.vel t).x, (a.vel t).y, (a.vel t).z]) =
      gather_buffer F32.zero g 3 (fun t => [(b.vel t).x, (b.vel t).y, (b.vel t).z]) :=
    gather_buffer_congr _ g 3 _ _ (fun t ht => by simp only [(h t ht).2.1])
  have g10 : gather_buffer F32.zero g 4 (fun t => [(a.angmom t).s, (a.angmom t).v.x,
        (a.angmom t).v.y, (a.angmom t).v.z]) =
      gather_buffer F32.zero g 4 (fun t => [(b.angmom t).s, (b.angmom t).v.x,
        (b.angmom t).v.y, (b.angmom t).v.z]) :=
    gather_buffer_congr _ g 4 _ _ (fun t ht => by simp only [(h t ht).2.2.2.2.2.2.2.2.2.1])
  have g11 : gather_buffer (0 : Int) g 3 (fun t => [float_to_int32 (int_to_float (a.image t).x),
        float_to_int32 (int_to_float (a.image t).y),
        float_to_int32 (int_to_float (a.image t).z)]) =
      gather_buffer (0 : Int) g 3 (fun t => [float_to_int32 (int_to_float (b.image t).x),
        float_to_int32 (int_to_float (b.image t).y),
        float_to_int32 (int_to_float (b.image t).z)]) :=
    gather_buffer_congr _ g 3 _ _ (fun t ht => by simp only [(h t ht).2.2.2.2.2.2.2.1])
  cases cat
  · refine ⟨?_, fun ht => ?_⟩
    · rw [Category.chunks, Category.chunks, chunkNames_attributeChunks,
        chunkNames_attributeChunks, e1, e2, e3, e4, e5, e9]
    · simp only [Category.chunks, attributeChunks, e1, e2, e3, e4, e5, e9, g1, g2, g3, g4, g5,
        g6, ht]
  · refine ⟨?_, fun _ => ?_⟩
    · rw [Category.chunks, Category.chunks, chunkNames_propertyChunks,
        chunkNames_propertyChunks, e7]
    · simp only [Category.chunks, propertyChunks, e7, g7, g8]
  · refine ⟨?_, fun _ => ?_⟩
    · rw [Category.chunks, Category.chunks, chunkNames_momentumChunks,
        chunkNames_momentumChunks, e10, e8, e6]
    · simp only [Category.chunks, momentumChunks, e10, e8, e6, g9, g10, g11]

theorem quantity_chunk_in_category (g : ParticleGroup) (snapshot : SnapshotParticleData)
    (q : Quantity) :
    q.chunkName ∈ chunkNames (q.category.chunks g snapshot) ↔
      ∃ t, t ∈ g.tags ∧ q.nondefault snapshot t = true := by
  rw [← anyMember_iff]
  cases q <;>
    simp [Quantity.chunkName, Quantity.category, Quantity.nondefault, Category.chunks,
      chunkNames_attributeChunks, chunkNames_propertyChunks, chunkNames_momentumChunks]

/-- C26 (group-scoped default detection).  The member function of a category
writes the chunks `chunks g snapshot` for the group `g` of the writer.  The
chunk of a suppressible quantity is among them if and only if some member of
the group has a value that differs from the default.  Two snapshots that hold
the same values for every member of the group give chunks with the same
names, and the same chunks when they also have the same type names, whatever
the particles outside the group hold.  For an empty group no chunk of a
suppressible quantity is written. -/
theorem group_scoped_default_detection (g : ParticleGroup) (snapshot : SnapshotParticleData) :
    (∀ (cat : Category) (s : Machine), s.writer.m_group = g →
      cat.memberFunction snapshot s = writeChunks (cat.chunks g snapshot) s) ∧
    (∀ q : Quantity, q.chunkName ∈ chunkNames (q.category.chunks g snapshot) ↔
      ∃ t, t ∈ g.tags ∧ q.nondefault snapshot t = true) ∧
    (∀ other : SnapshotParticleData, (∀ t, t ∈ g.tags → sameParticle snapshot other t) →
      ∀ cat : Category,
        chunkNames (cat.chunks g snapshot) = chunkNames (cat.chunks g other) ∧
        (snapshot.type_mapping = other.type_mapping →
          cat.chunks g snapshot = cat.chunks g other)) ∧
    (g.tags = [] → ∀ q : Quantity, q.chunkName ∉ chunkNames (q.category.chunks g snapshot)) := by
  refine ⟨fun cat s hg => ?_, quantity_chunk_in_category g snapshot,
    fun other h cat => chunks_congr g snapshot other h cat, fun hempty q => ?_⟩
  · rw [memberFunction_eq, hg]
  · rw [quantity_chunk_in_category, hempty]
    simp

theorem group_scoped_default_detection_witness :
    Quantity.typeid.chunkName ∈
      chunkNames (Quantity.typeid.category.chunks ⟨[0, 1, 2]⟩ exampleSnapshot) ∧
    Quantity.typeid.chunkName ∉
      chunkNames (Quantity.typeid.category.chunks ⟨[0, 2]⟩ exampleSnapshot) :=
  ⟨((group_scoped_default_detection ⟨[0, 1, 2]⟩ exampleSnapshot).2.1 Quantity.typeid).mpr
      ⟨1, by decide, by decide⟩,
    fun h => by
      obtain ⟨t, ht, hq⟩ :=
        ((group_scoped_default_detection ⟨[0, 2]⟩ exampleSnapshot).2.1 Quantity.typeid).mp h
      have h3 : t = 0 ∨ t = 2 := by
        have h4 : t ∈ [0, 2] := ht
        simpa using h4
      rcases h3 with h | h <;> subst h <;> exact absurd hq (by decide)⟩

theorem int_to_float_exact (z : Int) (h : z.natAbs ≤ 2 ^ 24) :
    float_to_int32 (int_to_float z) = z := by
  have h1 : int_to_float z = z := by
    unfold int_to_float
    by_cases h2 : z.natAbs < 2 ^ 24
    · simp only [h2, if_true]
    · have h3 : z.natAbs = 2 ^ 24 := by omega
      simp only [h3]
      have e1 : Nat.log2 (2 ^ 24) = 24 := by
        rw [Nat.log2_eq_log_two]
        exact Nat.log_pow (by norm_num) 24
      simp only [e1]
      norm_num
      split
      · omega
      · omega
  rw [h1]
  unfold float_to_int32
  rw [if_pos]
  constructor <;> omega

/-- Row `i` of a per-particle chunk of a category, whose number of elements
fits 32 bits, holds the values of the member `i` of the group. -/
theorem chunk_row (g : ParticleGroup) (snapshot : SnapshotParticleData) (cat : Category)
    (c : Chunk) (hc : c ∈ cat.chunks g snapshot) (hn : c.name ≠ "particles/types")
    (hb : c.N * c.M < 2 ^ 32)
    (i : Nat) (hi : i < g.getNumMembersGlobal)
    (himg : c.name = "particles/image" →
      (snapshot.image (g.getMemberTag i)).x.natAbs ≤ 2 ^ 24 ∧
      (snapshot.image (g.getMemberTag i)).y.natAbs ≤ 2 ^ 24 ∧
      (snapshot.image (g.getMemberTag i)).z.natAbs ≤ 2 ^ 24) :
    rowOfTag snapshot (g.getMemberTag i) c.name = some (c.row i) := by
  cases cat
  · simp only [Category.chunks, attributeChunks, List.mem_append, mem_optChunk,
      List.mem_singleton, or_assoc] at hc
    rcases hc with hc | ⟨-, hc⟩ | ⟨-, hc⟩ | ⟨-, hc⟩ | ⟨-, hc⟩ | ⟨-, hc⟩ | ⟨-, hc⟩
    · rw [hc] at hn
      exact absurd rfl hn
    all_goals
      subst hc
      simp only [rowOfTag, Chunk.row, Payload.slice, Option.some.injEq, Payload.f32.injEq,
        Payload.u32.injEq, Payload.i32.injEq]
      first
        | rw [gather_row_one g _ i hi]
        | (rw [gather_buffer_eq _ g 3 _ ?_ hb, gather_row g _ 3 ?_ i hi]
           · exact fun _ => rfl
           · exact fun _ => rfl)
  · simp only [Category.chunks, propertyChunks, List.mem_append, mem_optChunk,
      List.mem_singleton] at hc
    rcases hc with hc | ⟨-, hc⟩
    · subst hc
      simp only [rowOfTag, Chunk.row, Payload.slice, Option.some.injEq, Payload.f32.injEq]
      rw [gather_buffer_eq _ g 3 _ ?_ hb, gather_row g _ 3 ?_ i hi]
      · exact fun _ => rfl
      · exact fun _ => rfl
    · subst hc
      simp only [rowOfTag, Chunk.row, Payload.slice, Option.some.injEq, Payload.f32.injEq]
      rw [gather_buffer_eq _ g 4 _ ?_ hb, gather_row g _ 4 ?_ i hi]
      · exact fun _ => rfl
      · exact fun _ => rfl
  · simp only [Category.chunks, momentumChunks, List.mem_append, mem_optChunk,
      or_assoc] at hc
    rcases hc with ⟨-, hc⟩ | ⟨-, hc⟩ | ⟨-, hc⟩
    · subst hc
      simp only [rowOfTag, Chunk.row, Payload.slice, Option.some.injEq, Payload.f32.injEq]
      rw [gather_buffer_eq _ g 3 _ ?_ hb, gather_row g _ 3 ?_ i hi]
      · exact fun _ => rfl
      · exact fun _ => rfl
    · subst hc
      simp only [rowOfTag, Chunk.row, Payload.slice, Option.some.injEq, Payload.f32.injEq]
      rw [gather_buffer_eq _ g 4 _ ?_ hb, gather_row g _ 4 ?_ i hi]
      · exact fun _ => rfl
      · exact fun _ => rfl
    · subst hc
      obtain ⟨hx, hy, hz⟩ := himg rfl
      simp only [rowOfTag, Chunk.row, Payload.slice, Option.some.injEq, Payload.i32.injEq]
      rw [gather_buffer_eq _ g 3 _ ?_ hb, gather_row g _ 3 ?_ i hi, int_to_float_exact _ hx,
        int_to_float_exact _ hy, int_to_float_exact _ hz]
      · exact fun _ => rfl
      · exact fun _ => rfl

/-- C24, counterexample.  For the snapshot in which the particles 1 and 2
belong to no body, `writeAttributes` writes `particles/body` with the row -1
for the member 1 of the group, while the snapshot holds the body 4294967295
for that particle: the row is not the value of the snapshot. -/
theorem group_ordered_gather_counterexample :
    GsdCall.gsd_write_chunk
        ⟨"particles/body", GsdType.GSD_TYPE_INT32, 3, 1, Payload.i32 [0, -1, -1]⟩ 0 ∈
      (writeAttributes bodySnapshot exampleMachine).2.trace ∧
    Chunk.row ⟨"particles/body", GsdType.GSD_TYPE_INT32, 3, 1, Payload.i32 [0, -1, -1]⟩ 1 =
      Payload.i32 [-1] ∧
    bodySnapshot.body (exampleMachine.writer.m_group.getMemberTag 1) = 4294967295 := by
  decide

/-- C24 (group-ordered gather), amended.  For every chunk other than the type
table that `writeAttributes`, `writeProperties` or `writeMomenta` hands to
`gsd_write_chunk`, in any run, and every group index `i` below its number of
rows: the chunk has one row per member of the group, member `i` of the group
is the particle with tag `getMemberTag i`, and row `i` of the payload is the
row of that particle: the value of the snapshot for typeid, mass, charge,
diameter, moment of inertia, position, orientation, velocity and angular
momentum, the body converted to `int32_t` for the body, and the image when
each of its components is at most 2^24 in absolute value; this for a chunk
whose number of elements, rows times columns, is below 2^32.  The calls do not
depend on the particles outside the group: a snapshot that holds the same
values for the members of the group and the same type names gives the same
run. -/
theorem group_ordered_gather (cat : Category) (snapshot : SnapshotParticleData)
    (s : Machine) (d : List GsdCall) (c : Chunk) (r : Int) (i : Nat)
    (hd : (cat.memberFunction snapshot s).2.trace = s.trace ++ d)
    (hc : GsdCall.gsd_write_chunk c r ∈ d) (hn : c.name ≠ "particles/types")
    (hi : i < c.N) (hb : c.N * c.M < 2 ^ 32)
    (himg : c.name = "particles/image" →
      (snapshot.image (s.writer.m_group.getMemberTag i)).x.natAbs ≤ 2 ^ 24 ∧
      (snapshot.image (s.writer.m_group.getMemberTag i)).y.natAbs ≤ 2 ^ 24 ∧
      (snapshot.image (s.writer.m_group.getMemberTag i)).z.natAbs ≤ 2 ^ 24) :
    c.N = s.writer.m_group.tags.length ∧
    s.writer.m_group.tags[i]? = some (s.writer.m_group.getMemberTag i) ∧
    rowOfTag snapshot (s.writer.m_group.getMemberTag i) c.name = some (c.row i) ∧
    (∀ other : SnapshotParticleData,
      (∀ t, t ∈ s.writer.m_group.tags → sameParticle snapshot other t) →
      snapshot.type_mapping = other.type_mapping →
      cat.memberFunction other s = cat.memberFunction snapshot s) := by
  obtain ⟨d0, h0, h1, -⟩ := memberFunction_calls cat snapshot s
  have e : d = d0 := List.append_cancel_left (hd.symm.trans h0)
  subst e
  obtain ⟨c1, hc1, r1, he⟩ := h1 _ hc
  cases he
  have a1 : c.N = s.writer.m_group.getNumMembersGlobal :=
    (chunk_shape_wrapped s.writer.m_group snapshot cat c hc1 hn).1
  have hi1 : i < s.writer.m_group.tags.length := by
    rw [a1] at hi
    exact hi
  refine ⟨a1, ?_, chunk_row s.writer.m_group snapshot cat c hc1 hn hb i hi1 himg,
    fun other hsame htm => ?_⟩
  · unfold ParticleGroup.getMemberTag
    rw [List.getD_eq_getElem _ _ hi1, List.getElem?_eq_getElem hi1]
  · rw [memberFunction_eq, memberFunction_eq,
      (chunks_congr s.writer.m_group snapshot other hsame cat).2 htm]

theorem group_ordered_gather_witness :
    GsdCall.gsd_write_chunk
        ⟨"particles/typeid", GsdType.GSD_TYPE_UINT32, 2, 1, Payload.u32 [1, 0]⟩ 0 ∈
      (Category.attribute.memberFunction exampleSnapshot reorderedMachine).2.trace ∧
    reorderedMachine.writer.m_group.tags[0]? =
      some (reorderedMachine.writer.m_group.getMemberTag 0) ∧
    rowOfTag exampleSnapshot (reorderedMachine.writer.m_group.getMemberTag 0)
        "particles/typeid" =
      some (Chunk.row
        ⟨"particles/typeid", GsdType.GSD_TYPE_UINT32, 2, 1, Payload.u32 [1, 0]⟩ 0) :=
  ⟨by decide,
    (group_ordered_gather Category.attribute exampleSnapshot reorderedMachine
      (Category.attribute.memberFunction exampleSnapshot reorderedMachine).2.trace
      ⟨"particles/typeid", GsdType.GSD_TYPE_UINT32, 2, 1, Payload.u32 [1, 0]⟩ 0 0
      rfl (by decide) (by decide) (by decide) (by decide) (fun h => absurd h (by decide))).2.1,
    (group_ordered_gather Category.attribute exampleSnapshot reorderedMachine
      (Category.attribute.memberFunction exampleSnapshot reorderedMachine).2.trace
      ⟨"particles/typeid", GsdType.GSD_TYPE_UINT32, 2, 1, Payload.u32 [1, 0]⟩ 0 0
      rfl (by decide) (by decide) (by decide) (by decide) (fun h => absurd h (by decide))).2.2.1⟩

theorem image_rounded : float_to_int32 (int_to_float 16777217) = 16777216 := by
  have e1 : Nat.log2 16777217 = 24 := by
    rw [Nat.log2_eq_log_two]
    exact Nat.log_eq_of_pow_le_of_lt_pow (by norm_num) (by norm_num)
  have e0 : (16777217 : Int).natAbs = 16777217 := rfl
  have h1 : int_to_float 16777217 = 16777216 := by
    unfold int_to_float
    simp only [e0, e1]
    norm_num
  rw [h1]
  decide

theorem imageSnapshot_chunks :
    momentumChunks exampleMachine.writer.m_group imageSnapshot =
      [⟨"particles/image", GsdType.GSD_TYPE_INT32, 3, 3,
          Payload.i32 [16777216, 0, 0, 0, 0, 0, 0, 0, 0]⟩] := by
  have h0 : momentumChunks exampleMachine.writer.m_group imageSnapshot =
      [⟨"particles/image", GsdType.GSD_TYPE_INT32, 3, 3,
          Payload.i32 [float_to_int32 (int_to_float 16777217), 0, 0, 0, 0, 0, 0, 0, 0]⟩] := by
    have e := gather_buffer_eq (0 : Int) exampleMachine.writer.m_group 3
      (fun t => [float_to_int32 (int_to_float (imageSnapshot.image t).x),
        float_to_int32 (int_to_float (imageSnapshot.image t).y),
        float_to_int32 (int_to_float (imageSnapshot.image t).z)]) (fun _ => rfl) (by decide)
    unfold momentumChunks
    rw [e]
    rfl
  rw [h0, image_rounded]

/-- C27 (image values stored exactly), the failing input.  For the snapshot
in which the particle with tag 0 has the image 16777217 in the x direction,
`writeMomenta` writes `particles/image` with the entry 16777216 for it: the
conversion `float(...)` rounds the value to the nearest float, and the claim
fails for this 32-bit integer. -/
theorem image_not_stored_exactly :
    (writeMomenta imageSnapshot exampleMachine).2.trace =
      [GsdCall.gsd_write_chunk
        ⟨"particles/image", GsdType.GSD_TYPE_INT32, 3, 3,
          Payload.i32 [16777216, 0, 0, 0, 0, 0, 0, 0, 0]⟩ 0] ∧
    (imageSnapshot.image (exampleMachine.writer.m_group.getMemberTag 0)).x = 16777217 ∧
    float_to_int32 (int_to_float 16777217) = 16777216 := by
  refine ⟨?_, by decide, image_rounded⟩
  have h := memberFunction_eq Category.momentum imageSnapshot exampleMachine
  have h2 : writeMomenta imageSnapshot exampleMachine =
      writeChunks (momentumChunks exampleMachine.writer.m_group imageSnapshot) exampleMachine := h
  rw [h2, imageSnapshot_chunks]
  decide

theorem ofstream.put_good (ok : Nat → Bool) (f : ofstream) (line : String)
    (h : (f.put ok line).good = true) :
    f.good = true ∧ (f.put ok line).lines = f.lines ++ [line] := by
  unfold ofstream.put at h ⊢
  by_cases hc : (f.is_good && ok f.attempts) = true
  · rw [if_pos hc]
    simp only [Bool.and_eq_true] at hc
    exact ⟨hc.1, rfl⟩
  · rw [if_neg hc] at h
    cases h

theorem ofstream.putAll_good (ok : Nat → Bool) (lines : List String) (f : ofstream)
    (h : (f.putAll ok lines).good = true) :
    f.good = true ∧ (f.putAll ok lines).lines = f.lines ++ lines := by
  induction lines generalizing f with
  | nil => exact ⟨h, (List.append_nil _).symm⟩
  | cons l ls ih =>
    have h1 := ih (f.put ok l) h
    have h2 := ofstream.put_good ok f l h1.1
    refine ⟨h2.1, ?_⟩
    show ((f.put ok l).putAll ok ls).lines = _
    rw [h1.2, h2.2, List.append_assoc]
    rfl

theorem MOL2DumpWriter.writeAtoms_none (w : MOL2DumpWriter) (js : List Nat) (f : ofstream)
    (h : (w.writeAtoms js f).1 = none) (hg : (w.writeAtoms js f).2.good = true) :
    f.good = true ∧ (w.writeAtoms js f).2.lines = f.lines ++ js.map w.atomLine := by
  induction js generalizing f with
  | nil => exact ⟨hg, (List.append_nil _).symm⟩
  | cons j js ih =>
    unfold MOL2DumpWriter.writeAtoms at h hg ⊢
    simp only at h hg ⊢
    split at h
    · cases h
    · rename_i hlen
      rw [if_neg hlen] at hg ⊢
      split at h
      · cases h
      · rename_i hgood
        rw [if_neg hgood] at hg ⊢
        have h1 := ih _ h hg
        have h2 := ofstream.put_good _ f _ h1.1
        refine ⟨h2.1, ?_⟩
        rw [h1.2, h2.2, List.append_assoc]
        rfl

/-- The file that a returning call of `MOL2DumpWriter::analyze` has
written. -/
theorem MOL2DumpWriter.analyze_ok (w : MOL2DumpWriter) (timestep : Nat)
    (hw : w.m_written = false) (hret : (w.analyze timestep).1 = Except.ok ()) :
    (w.analyze timestep).2.disk =
      some (w.headerLines ++ (List.range w.m_pdata.arrays.nparticles).map w.atomLine ++
        "@<TRIPOS>BOND" :: w.bondSection) := by
  unfold MOL2DumpWriter.analyze at hret ⊢
  rw [hw] at hret ⊢
  simp only [Bool.false_eq_true, if_false] at hret ⊢
  split at hret
  · cases hret
  · rename_i hopen
    rw [if_neg hopen]
    rcases hwa : w.writeAtoms (List.range w.m_pdata.arrays.nparticles)
      (ofstream.putAll w.write_ok ⟨[], true, 0⟩ w.headerLines) with ⟨r, f⟩
    rw [hwa] at hret
    rcases r with _ | line
    · simp only at hret ⊢
      split at hret
      · cases hret
      · rename_i hgood
        rw [if_neg hgood]
        have hgood1 : (ofstream.putAll w.write_ok f
            ("@<TRIPOS>BOND" :: w.bondSection)).good = true := by
          simpa using hgood
        have h3 := ofstream.putAll_good _ _ _ hgood1
        have h2 := MOL2DumpWriter.writeAtoms_none w _ _ (by rw [hwa]) (by rw [hwa]; exact h3.1)
        have h1 := ofstream.putAll_good _ _ _ h2.1
        rw [hwa] at h2
        show some (ofstream.putAll w.write_ok f ("@<TRIPOS>BOND" :: w.bondSection)).lines = _
        rw [h3.2, h2.2, h1.2]
        simp
    · cases hret

theorem toString_nat_int (n : Nat) : toString (n : Int) = toString n := by
  cases n <;> rfl

/-- The bond section and the header of the MOL2 file for bond counts that fit
the `int num_bonds`.  When a call of
`MOL2DumpWriter::analyze` on a writer that has not written yet returns, the
file holds the five header lines, the third of them the number of particles
followed by `num_bonds`, one line per particle, the line `@<TRIPOS>BOND` and
the bond section.  With `B > 0` bonds, `B` below 2^31 (the range of the
`int num_bonds`) and particle indices below 2^32 - 1, the header says `B` and
the section is the `B` lines "i+1 a+1 b+1 1" in the order of the bonds.
Without bonds, or without bond data, the header says 1 and the section is the
single line "1 1 2 1".  In each case the number in the header is the number
of lines of the section. -/
theorem mol2_bond_section_bounded (w : MOL2DumpWriter) (timestep : Nat)
    (hw : w.m_written = false) (hret : (w.analyze timestep).1 = Except.ok ())
    (hB : ∀ d, w.m_pdata.bond_data = some d → d.getNumBonds < 2 ^ 31)
    (hab : ∀ d, w.m_pdata.bond_data = some d →
      ∀ b ∈ d.m_bonds, b.a + 1 < 2 ^ 32 ∧ b.b + 1 < 2 ^ 32) :
    ∃ count : Nat, ∃ section_lines : List String,
      (w.analyze timestep).2.disk =
        some (["@<TRIPOS>MOLECULE", "Generated by HOOMD",
            toString w.m_pdata.getN ++ " " ++ toString count, "NO_CHARGES", "@<TRIPOS>ATOM"] ++
          (List.range w.m_pdata.arrays.nparticles).map w.atomLine ++
          "@<TRIPOS>BOND" :: section_lines) ∧
      count = section_lines.length ∧
      (∀ d, w.m_pdata.bond_data = some d → 0 < d.getNumBonds →
        count = d.getNumBonds ∧
        section_lines = (List.range d.getNumBonds).map (fun i =>
          toString (i + 1) ++ " " ++ toString ((d.getBond i).a + 1) ++ " " ++
            toString ((d.getBond i).b + 1) ++ " 1")) ∧
      ((w.m_pdata.bond_data = none ∨ w.m_pdata.bond_data = some ⟨[]⟩) →
        count = 1 ∧ section_lines = ["1 1 2 1"]) := by
  have hdisk := MOL2DumpWriter.analyze_ok w timestep hw hret
  rcases hbd : w.m_pdata.bond_data with _ | d
  · refine ⟨1, ["1 1 2 1"], ?_, rfl, (fun d hd => by cases hd), fun _ => ⟨rfl, rfl⟩⟩
    rw [hdisk]
    simp only [MOL2DumpWriter.headerLines, MOL2DumpWriter.num_bonds,
      MOL2DumpWriter.bondSection, hbd]
    rfl
  · by_cases hpos : d.getNumBonds > 0
    · have hlt : d.getNumBonds < 2 ^ 31 := hB d hbd
      have hsec : (List.range d.getNumBonds).map d.bondLine =
          (List.range d.getNumBonds).map (fun i =>
            toString (i + 1) ++ " " ++ toString ((d.getBond i).a + 1) ++ " " ++
              toString ((d.getBond i).b + 1) ++ " 1") := by
        apply List.map_congr_left
        intro i hi
        have hi1 : i < d.m_bonds.length := List.mem_range.mp hi
        have hmem : d.getBond i ∈ d.m_bonds := by
          unfold BondData.getBond
          rw [List.getD_eq_getElem _ _ hi1]
          exact List.getElem_mem _
        have h2 := hab d hbd _ hmem
        have hi2 : i + 1 < 2 ^ 32 := by
          have : d.m_bonds.length < 2 ^ 31 := hlt
          omega
        simp only [BondData.bondLine, Nat.mod_eq_of_lt hi2, Nat.mod_eq_of_lt h2.1,
          Nat.mod_eq_of_lt h2.2]
      refine ⟨d.getNumBonds, (List.range d.getNumBonds).map (fun i =>
          toString (i + 1) ++ " " ++ toString ((d.getBond i).a + 1) ++ " " ++
            toString ((d.getBond i).b + 1) ++ " 1"), ?_, by simp, ?_, ?_⟩
      · rw [hdisk]
        simp only [MOL2DumpWriter.headerLines, MOL2DumpWriter.num_bonds,
          MOL2DumpWriter.bondSection, hbd, if_pos hpos, uint_to_int32_small _ hlt,
          toString_nat_int, hsec]
      · intro d1 hd1 _
        cases hd1
        exact ⟨rfl, rfl⟩
      · rintro (h | h)
        · cases h
        · cases h
          exact absurd hpos (by decide)
    · have h0 : d.getNumBonds = 0 := by omega
      refine ⟨1, ["1 1 2 1"], ?_, rfl, ?_, fun _ => ⟨rfl, rfl⟩⟩
      · rw [hdisk]
        simp only [MOL2DumpWriter.headerLines, MOL2DumpWriter.num_bonds,
          MOL2DumpWriter.bondSection, hbd, if_neg hpos]
        rfl
      · intro d1 hd1 hp
        cases hd1
        exact absurd hp hpos

/-- The file written for the system with two bonds. -/
theorem mol2_bond_section_example :
    mol2Writer.m_written = false ∧
    (mol2Writer.analyze 0).1 = Except.ok () ∧
    (mol2Writer.analyze 0).2.disk =
      some ["@<TRIPOS>MOLECULE", "Generated by HOOMD", "3 2", "NO_CHARGES", "@<TRIPOS>ATOM",
        "1 A 0 0 0 A", "2 B 0 0 0 B", "3 A 0 0 0 A", "@<TRIPOS>BOND", "1 1 2 1", "2 2 3 1"] ∧
    ∃ count : Nat, ∃ section_lines : List String,
      (mol2Writer.analyze 0).2.disk =
        some (["@<TRIPOS>MOLECULE", "Generated by HOOMD",
            toString mol2Writer.m_pdata.getN ++ " " ++ toString count, "NO_CHARGES",
            "@<TRIPOS>ATOM"] ++
          (List.range mol2Writer.m_pdata.arrays.nparticles).map mol2Writer.atomLine ++
          "@<TRIPOS>BOND" :: section_lines) ∧
      count = section_lines.length ∧
      (∀ d, mol2Writer.m_pdata.bond_data = some d → 0 < d.getNumBonds →
        count = d.getNumBonds ∧
        section_lines = (List.range d.getNumBonds).map (fun i =>
          toString (i + 1) ++ " " ++ toString ((d.getBond i).a + 1) ++ " " ++
            toString ((d.getBond i).b + 1) ++ " 1")) ∧
      ((mol2Writer.m_pdata.bond_data = none ∨ mol2Writer.m_pdata.bond_data = some ⟨[]⟩) →
        count = 1 ∧ section_lines = ["1 1 2 1"]) :=
  ⟨rfl, rfl, by decide,
    mol2_bond_section_bounded mol2Writer 0 rfl rfl
      (fun d hd => by
        have h : d = ⟨[⟨0, 1⟩, ⟨1, 2⟩]⟩ := (Option.some.inj hd).symm
        subst h
        decide)
      (fun d hd => by
        have h : d = ⟨[⟨0, 1⟩, ⟨1, 2⟩]⟩ := (Option.some.inj hd).symm
        subst h
        decide)⟩

/-- The file written for the system without bonds. -/
theorem mol2_no_bonds_example :
    (mol2WriterNoBonds.analyze 0).2.disk =
      some ["@<TRIPOS>MOLECULE", "Generated by HOOMD", "3 1", "NO_CHARGES", "@<TRIPOS>ATOM",
        "1 A 0 0 0 A", "2 B 0 0 0 B", "3 A 0 0 0 A", "@<TRIPOS>BOND", "1 1 2 1"] := by
  decide

theorem copy_loop_succ (mem : Memory) (ptr data n : Nat) :
    ManagedArray.copy_loop mem ptr data (n + 1) =
      copy_int (ManagedArray.copy_loop mem ptr data n) (ptr + 4 * n) (data + 4 * n) := by
  unfold ManagedArray.copy_loop
  rw [List.range_succ, List.foldl_append]
  rfl

/-- The loop writes the bytes from `ptr` up to `ptr + 4 * n` only. -/
theorem copy_loop_outside (mem : Memory) (ptr data n a : Nat)
    (ha : a < ptr ∨ ptr + 4 * n ≤ a) :
    ManagedArray.copy_loop mem ptr data n a = mem a := by
  induction n with
  | zero => rfl
  | succ n ih =>
    rw [copy_loop_succ]
    unfold copy_int
    rw [if_neg (by omega)]
    exact ih (by omega)

/-- When the destination does not overlap the array, the loop leaves at
`ptr + j` the byte that the array held at `data + j`. -/
theorem copy_loop_inside (mem : Memory) (ptr data n : Nat)
    (hsep : ptr + 4 * n ≤ data ∨ data + 4 * n ≤ ptr) (j : Nat) (hj : j < 4 * n) :
    ManagedArray.copy_loop mem ptr data n (ptr + j) = mem (data + j) := by
  induction n with
  | zero => omega
  | succ n ih =>
    rw [copy_loop_succ]
    unfold copy_int
    by_cases h : ptr + 4 * n ≤ ptr + j ∧ ptr + j < ptr + 4 * n + 4
    · rw [if_pos h]
      have e : data + 4 * n + (ptr + j - (ptr + 4 * n)) = data + j := by omega
      rw [e]
      exact copy_loop_outside mem ptr data n (data + j) (by omega)
    · rw [if_neg h]
      exact ih (by omega) (by omega)

/-- The byte accounting of `load_shared` for an array whose number of ints
fits an `unsigned int`. -/
theorem load_shared_accounting (sizeof_T : Nat) (a : ManagedArray) (mem : Memory) (ptr : Nat)
    (load : Bool) (hsize : a.N * sizeof_T / 4 < 2 ^ 32) :
    (a.load_shared sizeof_T mem ptr load).2.2 = ptr + a.N * sizeof_T ∧
    (load = false →
      (a.load_shared sizeof_T mem ptr load).1 = a ∧
      (a.load_shared sizeof_T mem ptr load).2.1 = mem) ∧
    (load = true →
      (a.load_shared sizeof_T mem ptr load).1 = { a with data := ptr } ∧
      (∀ x, x < ptr ∨ ptr + 4 * (a.N * sizeof_T / 4) ≤ x →
        (a.load_shared sizeof_T mem ptr load).2.1 x = mem x) ∧
      ((ptr + 4 * (a.N * sizeof_T / 4) ≤ a.data ∨ a.data + 4 * (a.N * sizeof_T / 4) ≤ ptr) →
        (∀ j, j < 4 * (a.N * sizeof_T / 4) →
          (a.load_shared sizeof_T mem ptr load).2.1 (ptr + j) = mem (a.data + j)) ∧
        (a.N * sizeof_T % 4 = 0 → ∀ j, j < a.N * sizeof_T →
          (a.load_shared sizeof_T mem ptr load).2.1 (ptr + j) = mem (a.data + j)))) := by
  have h64 : a.N * sizeof_T < 2 ^ 64 := by omega
  have hk : a.size_int sizeof_T = a.N * sizeof_T / 4 := by
    unfold ManagedArray.size_int
    rw [Nat.mul_comm sizeof_T a.N, Nat.mod_eq_of_lt h64, Nat.mod_eq_of_lt hsize]
  refine ⟨?_, ?_, ?_⟩
  · show ptr + (a.N * sizeof_T) % 2 ^ 64 = _
    rw [Nat.mod_eq_of_lt h64]
  · intro hl
    subst hl
    exact ⟨rfl, rfl⟩
  · intro hl
    subst hl
    have hm : (a.load_shared sizeof_T mem ptr true).2.1 =
        ManagedArray.copy_loop mem ptr a.data (a.N * sizeof_T / 4) := by
      rw [← hk]
      rfl
    refine ⟨rfl, fun x hx => ?_, fun hsep => ⟨fun j hj => ?_, fun hmod j hj => ?_⟩⟩
    · rw [hm]
      exact copy_loop_outside mem ptr a.data _ x hx
    · rw [hm]
      exact copy_loop_inside mem ptr a.data _ hsep j hj
    · rw [hm]
      exact copy_loop_inside mem ptr a.data _ hsep j (by omega)

/-- C29 (byte accounting of `ManagedArray::load_shared`), the failing input.
For an array of 2^30 elements of 16 bytes each, `load_shared` with `load`
true computes `size_int` as 2^32 converted to `unsigned int`, that is 0: the
memory is left as it was, no byte is copied, while the data pointer is
redirected to the old `ptr` and `ptr` advances by the 2^34 bytes of the
array. -/
theorem load_shared_copies_nothing (mem : Memory) (data ptr managed : Nat) :
    ManagedArray.size_int 16 ⟨data, 2 ^ 30, managed⟩ = 0 ∧
    4 * ((2 ^ 30 * 16) / 4) = 2 ^ 34 ∧
    ManagedArray.load_shared 16 ⟨data, 2 ^ 30, managed⟩ mem ptr true =
      (⟨ptr, 2 ^ 30, managed⟩, mem, ptr + 2 ^ 34) := by
  have h0 : ManagedArray.size_int 16 ⟨data, 2 ^ 30, managed⟩ = 0 := by
    unfold ManagedArray.size_int
    norm_num
  refine ⟨h0, by norm_num, ?_⟩
  unfold ManagedArray.load_shared
  simp only [if_true, h0]
  refine Prod.ext rfl (Prod.ext rfl ?_)
  show ptr + (2 ^ 30 * 16) % 2 ^ 64 = ptr + 2 ^ 34
  norm_num

/-- An array of three elements of two bytes: one int, four of the six bytes,
is copied. -/
theorem load_shared_example :
    (exampleArray.load_shared 2 exampleMemory 5000 true).2.2 = 5006 ∧
    (exampleArray.load_shared 2 exampleMemory 5000 true).1.data = 5000 ∧
    (exampleArray.load_shared 2 exampleMemory 5000 true).2.1 5003 = exampleMemory 1003 ∧
    (exampleArray.load_shared 2 exampleMemory 5000 true).2.1 5004 = exampleMemory 5004 :=
  ⟨(load_shared_accounting 2 exampleArray exampleMemory 5000 true (by decide)).1,
    by rw [((load_shared_accounting 2 exampleArray exampleMemory 5000 true (by decide)).2.2
      rfl).1],
    (((load_shared_accounting 2 exampleArray exampleMemory 5000 true (by decide)).2.2
      rfl).2.2 (by decide)).1 3 (by decide),
    ((load_shared_accounting 2 exampleArray exampleMemory 5000 true (by decide)).2.2
      rfl).2.1 5004 (by decide)⟩

theorem type_mapping_max_len_narrowed (l : Label) (hlen : l.length = 2147483648) :
    type_mapping_max_len [l] = 1 := by
  unfold type_mapping_max_len
  simp only [List.length_singleton, show List.range 1 = [0] from rfl, List.foldl_cons, List.foldl_nil,
    List.getD_cons_zero, hlen]
  have e : uint_to_int32 2147483648 = -2147483648 := by decide
  rw [e]
  decide

theorem type_mapping_types_narrowed (l : Label) (b : Nat) (rest : Label) (hl : l = b :: rest)
    (hb : b ≠ 0) (hlen : l.length = 2147483648) :
    type_mapping_types [l] = [b] := by
  unfold type_mapping_types
  simp only [type_mapping_max_len_narrowed l hlen, List.length_singleton, show List.range 1 = [0] from rfl,
    List.foldl_cons, List.foldl_nil, List.getD_cons_zero]
  subst hl
  have hb1 : (b != 0) = true := by simpa using hb
  simp [strncpy, List.takeWhile_cons, hb1, List.take_succ_cons]

/-- C8 (type-table layout), the failing input.  For the single label of 2^31
bytes, each of them 65, the conversion `(int)type_mapping[i].size()` gives
-2^31, so `max_len` stays 0 in the loop and is 1 after the increment: in every
run `writeTypeMapping` hands to `gsd_write_chunk` a chunk of 1 row and 1
column, not of 2^31 + 1 columns, whose payload is the single byte 65 without a
zero byte after it. -/
theorem type_table_width_narrowed (chunk : String) (s : Machine) :
    (List.replicate 2147483648 65 : Label).length = 2147483648 ∧
    (∀ b ∈ (List.replicate 2147483648 65 : Label), b = 65) ∧
    (writeTypeMapping chunk [List.replicate 2147483648 65] s).2.trace =
      s.trace ++ [GsdCall.gsd_write_chunk
        ⟨chunk, GsdType.GSD_TYPE_UINT8, 1, 1, Payload.u8 [65]⟩ (s.ret s.trace.length)] := by
  have hlen : (List.replicate 2147483648 65 : Label).length = 2147483648 :=
    List.length_replicate _ _
  refine ⟨hlen, fun b hb => List.eq_of_mem_replicate hb, ?_⟩
  rw [writeTypeMapping_trace, typeMappingChunk, type_mapping_max_len_narrowed _ hlen,
    type_mapping_types_narrowed _ 65 (List.replicate 2147483647 65)
      (List.replicate_succ 65 2147483647) (by decide) hlen]
  rfl

theorem largeTags_length : largeTags.length = 1431655766 := by
  unfold largeTags
  exact List.length_range 1431655766

theorem largeGroupMachine_members :
    largeGroupMachine.writer.m_group.getNumMembersGlobal = 1431655766 :=
  largeTags_length

/-- C23 (chunk shape consistency), the failing input.  For a group of
1431655766 members the size `N*3` of the position buffer, a product in
`unsigned int`, is 4294967298 modulo 2^32, that is 2.  In every run of
`writeProperties`, for every snapshot, the first call into the library is
`gsd_write_chunk` of `particles/position`, declared with 1431655766 rows and
3 columns, with a buffer of 2 elements and not of 4294967298.  The stores of
the loop beyond these 2 elements, which have no defined behaviour in C++, are
dropped in the model (`fill_buffer`). -/
theorem position_buffer_wrapped (snapshot : SnapshotParticleData) (s : Machine)
    (hN : s.writer.m_group.getNumMembersGlobal = 1431655766) :
    ∃ c r d1, (writeProperties snapshot s).2.trace =
        s.trace ++ GsdCall.gsd_write_chunk c r :: d1 ∧
      c.name = "particles/position" ∧ c.type = GsdType.GSD_TYPE_FLOAT ∧
      c.N = 1431655766 ∧ c.M = 3 ∧ c.N * c.M = 4294967298 ∧ c.data.length = 2 := by
  obtain ⟨d, h0, -, h2, -⟩ := memberFunction_calls Category.property snapshot s
  obtain ⟨r, d1, hd⟩ := h2 _ _ rfl
  refine ⟨_, r, d1, by rw [← hd]; exact h0, rfl, rfl, hN, rfl, ?_, ?_⟩
  · show s.writer.m_group.getNumMembersGlobal * 3 = 4294967298
    rw [hN]
  · show (gather_buffer F32.zero s.writer.m_group 3 _).length = 2
    rw [gather_buffer_length, hN]
    decide

/-- C23, the failing input, at a machine whose group has 1431655766
members. -/
theorem position_buffer_wrapped_witness :
    largeGroupMachine.writer.m_group.getNumMembersGlobal = 1431655766 ∧
    ∃ c r d1, (writeProperties exampleSnapshot largeGroupMachine).2.trace =
        largeGroupMachine.trace ++ GsdCall.gsd_write_chunk c r :: d1 ∧
      c.name = "particles/position" ∧ c.type = GsdType.GSD_TYPE_FLOAT ∧
      c.N = 1431655766 ∧ c.M = 3 ∧ c.N * c.M = 4294967298 ∧ c.data.length = 2 :=
  ⟨largeGroupMachine_members,
    position_buffer_wrapped exampleSnapshot largeGroupMachine largeGroupMachine_members⟩

theorem Emits.append_right {cs : List Chunk} (cs2 : List Chunk) {s s1 : Machine}
    {e : runtime_error} (h : Emits cs s (some e) s1) : Emits (cs ++ cs2) s (some e) s1 := by
  obtain ⟨a1, a2, d, a3, a4, -, a6⟩ := h
  refine ⟨a1, a2, d, a3, fun ev hev hw => ?_, fun h => (by cases h), fun e1 _ => ?_⟩
  · obtain ⟨c, hc, r, hr⟩ := a4 ev hev hw
    exact ⟨c, List.mem_append.mpr (Or.inl hc), r, hr⟩
  · obtain ⟨k, c, r, hk, hr, hf⟩ := a6 e rfl
    have hlt : k < cs.length := by
      rcases Nat.lt_or_ge k cs.length with h | h
      · exact h
      · rw [List.getElem?_eq_none h] at hk
        cases hk
    refine ⟨k, c, r, ?_, hr, ?_⟩
    · rw [List.getElem?_append_left hlt]
      exact hk
    · rw [hf, List.take_append_of_le_length (Nat.le_of_lt hlt)]

theorem Emits.chain {cs1 cs2 : List Chunk} {s s1 s2 : Machine} {o : Option runtime_error}
    (h1 : Emits cs1 s none s1) (h2 : Emits cs2 s1 o s2) : Emits (cs1 ++ cs2) s o s2 := by
  obtain ⟨a1, a2, d1, a3, a4, a5, -⟩ := h1
  obtain ⟨b1, b2, d2, b3, b4, b5, b8⟩ := h2
  obtain ⟨a6, a7⟩ := a5 rfl
  refine ⟨b1.trans a1, b2.trans a2, d1 ++ d2, by rw [b3, a3, List.append_assoc],
    fun ev hev hw => ?_, fun ho => ?_, fun e he => ?_⟩
  · rcases List.mem_append.mp hev with h | h
    · obtain ⟨c, hc, r, hr⟩ := a4 ev h hw
      exact ⟨c, List.mem_append.mpr (Or.inl hc), r, hr⟩
    · obtain ⟨c, hc, r, hr⟩ := b4 ev h hw
      exact ⟨c, List.mem_append.mpr (Or.inr hc), r, hr⟩
  · obtain ⟨b6, b7⟩ := b5 ho
    refine ⟨by rw [b6, a6, List.append_assoc], ?_⟩
    rw [List.filter_append, a7, b7, List.map_append]
  · obtain ⟨k, c, r, hk, hr, hf⟩ := b8 e he
    refine ⟨cs1.length + k, c, r, ?_, hr, ?_⟩
    · rw [List.getElem?_append_right (Nat.le_add_right _ _), Nat.add_sub_cancel_left]
      exact hk
    · rw [List.filter_append, a7, hf, List.take_append, List.map_append, List.append_assoc]

theorem Emits.none_written (s : Machine) : Emits [] s none s :=
  ⟨rfl, rfl, [], (List.append_nil _).symm, fun _ h => absurd h (List.not_mem_nil _),
    fun _ => ⟨(List.append_nil _).symm, rfl⟩, fun _ h => by cases h⟩

theorem emits_pure {α : Type} (a : α) (s : Machine) : emits [] (pure a : GsdM α) s :=
  Emits.none_written s

theorem emits_bind {α β : Type} (cs1 cs2 : List Chunk) (m : GsdM α) (f : α → GsdM β)
    (s : Machine) (hm : emits cs1 m s)
    (hf : ∀ a s1, m s = (Except.ok a, s1) → emits cs2 (f a) s1) :
    emits (cs1 ++ cs2) (m >>= f) s := by
  unfold emits at hm ⊢
  rw [GsdM.bind_apply]
  rcases h : m s with ⟨r, s1⟩
  rw [h] at hm
  cases r with
  | error e => exact Emits.append_right cs2 hm
  | ok a => exact Emits.chain hm (hf a s1 h)

theorem emits_congr {α : Type} (cs : List Chunk) (m n : GsdM α) (s : Machine) (h : m s = n s)
    (hn : emits cs n s) : emits cs m s := by
  unfold emits at hn ⊢
  rw [h]
  exact hn

theorem emits_cond (c : Prop) [Decidable c] (cs : List Chunk) (m : GsdM Unit) (s : Machine)
    (hm : emits cs m s) : emits (if c then cs else []) (if c then m else pure ()) s := by
  by_cases h : c
  · simp only [h, if_true]
    exact hm
  · simp only [h, if_false]
    exact emits_pure () s

theorem emits_writeChunks (cs : List Chunk) (s : Machine) : emits cs (writeChunks cs) s := by
  obtain ⟨d0, f1, f2, f3, -, -, -, f7, -⟩ := frameHolds_writeChunks cs s
  obtain ⟨d, h0, h1, -, h3⟩ := writeChunks_calls cs s
  have hg : (writeChunks cs s).2.writer.m_group = s.writer.m_group := by
    have := congrArg (fun p => p.2.2.2.2.2.2.2) f7
    exact this
  refine ⟨hg, f2, d, h0, fun ev hev _ => h1 ev hev, fun ho => ?_, fun e he => ?_⟩
  · have hok : (writeChunks cs s).1 = Except.ok () := by
      rcases hr : (writeChunks cs s).1 with e | u
      · rw [hr] at ho
        cases ho
      · rfl
    obtain ⟨e1, e2⟩ := h3 hok
    refine ⟨e2, ?_⟩
    rw [e1, List.filter_eq_self.mpr]
    intro ev hev
    obtain ⟨c, -, rfl⟩ := List.mem_map.mp hev
    rfl
  · rcases writeChunks_outcome cs s with ⟨-, hrun⟩ | ⟨k, c, hk, -, hne, hrun⟩
    · rw [hrun] at he
      cases he
    · refine ⟨k, c, s.ret (s.trace.length + k), hk, hne, ?_⟩
      have hd : d = (cs.take k).map (fun c => GsdCall.gsd_write_chunk c 0) ++
          [GsdCall.gsd_write_chunk c (s.ret (s.trace.length + k))] := by
        rw [hrun] at h0
        refine List.append_cancel_left (h0.symm.trans ?_)
        simp [Machine.failedCall, Machine.written, List.append_assoc]
      rw [hd, List.filter_eq_self.mpr]
      intro ev hev
      rcases List.mem_append.mp hev with h | h
      · obtain ⟨c1, -, rfl⟩ := List.mem_map.mp h
        rfl
      · rw [List.mem_singleton] at h
        rw [h]
        rfl

theorem emits_get_nframes_bind {β : Type} (cs : List Chunk) (f : Nat → GsdM β) (s : Machine)
    (hf : emits cs (f s.writer.m_handle.frames.length) s.counted) :
    emits cs (gsd_get_nframes >>= f) s := by
  unfold emits at hf ⊢
  rw [GsdM.bind_apply]
  have e : gsd_get_nframes s = (Except.ok s.writer.m_handle.frames.length, s.counted) := rfl
  rw [e]
  obtain ⟨a1, a2, d, a3, a4, a5, a6⟩ := hf
  refine ⟨a1, a2, GsdCall.gsd_get_nframes s.writer.m_handle.frames.length :: d, ?_,
    fun ev hev hw => ?_, fun ho => ?_, fun e he => ?_⟩
  · rw [a3]
    simp [Machine.counted]
  · rcases List.mem_cons.mp hev with h | h
    · rw [h] at hw
      cases hw
    · exact a4 ev h hw
  · obtain ⟨b1, b2⟩ := a5 ho
    refine ⟨b1, ?_⟩
    rw [List.filter_cons_of_neg (by simp [GsdCall.isWriteChunk])]
    exact b2
  · obtain ⟨k, c, r, hk, hr, hf2⟩ := a6 e he
    refine ⟨k, c, r, hk, hr, ?_⟩
    rw [List.filter_cons_of_neg (by simp [GsdCall.isWriteChunk])]
    exact hf2

theorem emits_writeFrameHeader (timestep : Nat) (sys : SystemDefinition) (s : Machine) :
    emits (headerChunks s.writer.m_group s.writer.m_handle.frames.length timestep sys)
      (writeFrameHeader timestep sys) s := by
  refine emits_congr _ _ _ s (writeFrameHeader_eq timestep sys s) ?_
  unfold headerChunks
  rw [List.append_assoc]
  refine emits_bind _ _ _ _ s (emits_writeChunks _ s) (fun _ s1 h1 => ?_)
  have hs1 := emits_writeChunks
    [(⟨"configuration/step", GsdType.GSD_TYPE_UINT64, 1, 1, Payload.u64 [timestep]⟩ : Chunk)] s
  unfold emits at hs1
  rw [h1] at hs1
  obtain ⟨-, hfr, -⟩ := hs1
  refine emits_get_nframes_bind _ _ s1 ?_
  rw [hfr]
  exact emits_writeChunks _ _

theorem emits_memberFunction (cat : Category) (snapshot : SnapshotParticleData) (s : Machine) :
    emits (cat.chunks s.writer.m_group snapshot) (cat.memberFunction snapshot) s :=
  emits_congr _ _ _ s (memberFunction_eq cat snapshot s) (emits_writeChunks _ s)

theorem emits_state {α : Type} {cs : List Chunk} {m : GsdM α} {s s1 : Machine} {a : α}
    (h : emits cs m s) (hrun : m s = (Except.ok a, s1)) :
    s1.writer.m_group = s.writer.m_group ∧
      s1.writer.m_handle.frames = s.writer.m_handle.frames := by
  unfold emits at h
  rw [hrun] at h
  exact ⟨h.1, h.2.1⟩

/-- The part of `analyze` that writes the frame emits the chunks of
`frameChunks`. -/
theorem emits_analyze_write (w : GSDDumpWriter) (timestep : Nat) (sys : SystemDefinition)
    (s : Machine) (hroot : sys.isRoot = true) (hg : s.writer.m_group = w.m_group) :
    emits (frameChunks w s.writer.m_handle.frames.length timestep sys)
      (analyze_write w s.writer.m_handle.frames.length timestep sys) s := by
  unfold analyze_write frameChunks bodyChunks
  simp only [hroot, if_true]
  rw [← hg]
  have e : ∀ (a b c dd e : List Chunk), a ++ (b ++ c ++ dd ++ e) = (a ++ (b ++ (c ++ dd))) ++ e := by
    intro a b c dd e
    simp
  rw [e]
  refine emits_bind _ _ _ _ s ?_ (fun _ s4 h4 => ?_)
  · refine emits_bind _ _ _ _ s (emits_writeFrameHeader timestep sys s) (fun _ s1 h1 => ?_)
    obtain ⟨g1, f1⟩ := emits_state (emits_writeFrameHeader timestep sys s) h1
    refine emits_bind _ _ _ _ s1 ?_ (fun _ s2 h2 => ?_)
    · have := emits_cond (w.m_write_attribute || decide (s.writer.m_handle.frames.length = 0)) _ _ s1
        (emits_memberFunction Category.attribute sys.snapshot s1)
      rw [g1] at this
      exact this
    · have hh := emits_cond (w.m_write_attribute || decide (s.writer.m_handle.frames.length = 0))
        _ _ s1 (emits_memberFunction Category.attribute sys.snapshot s1)
      obtain ⟨g2, f2⟩ := emits_state hh h2
      refine emits_bind _ _ _ _ s2 ?_ (fun _ s3 h3 => ?_)
      · have := emits_cond (w.m_write_property || decide (s.writer.m_handle.frames.length = 0))
          _ _ s2 (emits_memberFunction Category.property sys.snapshot s2)
        rw [g2, g1] at this
        exact this
      · have hh3 := emits_cond
          (w.m_write_property || decide (s.writer.m_handle.frames.length = 0))
          _ _ s2 (emits_memberFunction Category.property sys.snapshot s2)
        obtain ⟨g3, f3⟩ := emits_state hh3 h3
        have := emits_cond (w.m_write_momentum || decide (s.writer.m_handle.frames.length = 0))
          _ _ s3 (emits_memberFunction Category.momentum sys.snapshot s3)
        rw [g3, g2, g1] at this
        exact this
  · have := emits_cond (s.writer.m_group.getNumMembersGlobal = sys.NGlobal &&
        (w.m_write_topology || decide (s.writer.m_handle.frames.length = 0))) _ _ s4
      (emits_congr _
        (writeTopology sys.bond sys.angle sys.dihedral sys.improper sys.constraint) _ s4
        (by rw [writeTopology_eq]) (emits_writeChunks
        (topologyChunks sys.bond sys.angle sys.dihedral sys.improper sys.constraint) s4))
    exact this
/-- The same case distinction, with the chunks that the frame part emits.
Every outcome of `analyze` on the root rank: `initFileIO` throws; or
`gsd_truncate` fails; or a chunk write fails; or `gsd_end_frame` fails; or the
call returns. -/
theorem analyze_cases_emits (timestep : Nat) (sys : SystemDefinition) (s : Machine)
    (hroot : sys.isRoot = true) (Q : Except runtime_error Unit → Machine → Prop)
    (hinit : s.writer.m_is_initialized = false → ∀ e s1,
      initFileIO s = (Except.error e, s1) → Q (Except.error e) s1)
    (htrunc : ∀ s1, ((s.writer.m_is_initialized = true ∧ s1 = s) ∨
        (s.writer.m_is_initialized = false ∧ initFileIO s = (Except.ok (), s1))) →
      s.writer.m_truncate = true → s1.ret s1.trace.length ≠ 0 →
      Q (Except.error ⟨"Error opening GSD file"⟩)
        (s1.failedCall (GsdCall.gsd_truncate (s1.ret s1.trace.length))
          (openErrorLine (s1.ret s1.trace.length) s.strerror_errno s.writer.m_fname)))
    (hframe : ∀ s2 e s3, SetupDone s s2 → FrameRun s2.counted (some e) s3 →
      Emits (frameChunks s.writer s.startFrames.length timestep sys) s2.counted (some e) s3 →
      Q (Except.error e) s3)
    (hend : ∀ s2 s3, SetupDone s s2 → FrameRun s2.counted none s3 →
      Emits (frameChunks s.writer s.startFrames.length timestep sys) s2.counted none s3 →
      s3.ret s3.trace.length ≠ 0 →
      Q (Except.error ⟨"Error writing GSD file"⟩)
        (s3.failedCall (GsdCall.gsd_end_frame (s3.ret s3.trace.length))
          (writeErrorLine (s3.ret s3.trace.length) s3.strerror_errno s3.writer.m_fname)))
    (hok : ∀ s2 s3, SetupDone s s2 → FrameRun s2.counted none s3 →
      Emits (frameChunks s.writer s.startFrames.length timestep sys) s2.counted none s3 →
      s3.ret s3.trace.length = 0 → Q (Except.ok ()) s3.ended) :
    post (analyze timestep sys) s Q := by
  rw [analyze_eq_parts]
  simp only [hroot, Bool.and_true, if_true]
  rw [post_bind, post_getWriter, contPost_ok, post_bind, post_getStrerror, contPost_ok]
  -- the part after the opening
  have rest : ∀ s1, ((s.writer.m_is_initialized = true ∧ s1 = s) ∨
      (s.writer.m_is_initialized = false ∧ initFileIO s = (Except.ok (), s1))) →
      post (do
        (if s.writer.m_truncate = true then analyze_truncate s.writer s.strerror_errno
          else pure ())
        let nframes ← gsd_get_nframes
        analyze_write s.writer nframes timestep sys
        let retval ← gsd_end_frame
        checkError retval) s1 Q := by
    intro s1 hs1
    -- the part after the truncation
    have rest2 : ∀ s2, SetupDone s s2 →
        post (do
          let nframes ← gsd_get_nframes
          analyze_write s.writer nframes timestep sys
          let retval ← gsd_end_frame
          checkError retval) s2 Q := by
      intro s2 hs2
      rw [post_bind]
      show contPost _ Q (Except.ok s2.writer.m_handle.frames.length) s2.counted
      rw [contPost_ok, post_bind]
      have hw := frameHolds_analyze_write s.writer s2.writer.m_handle.frames.length timestep sys
        s2.counted
      have he := emits_analyze_write s.writer timestep sys s2.counted hroot (by
        have := congrArg (fun p => p.2.2.2.2.2.2.2) hs2.facts.2.2.1
        exact this)
      have hlen : s2.counted.writer.m_handle.frames.length = s.startFrames.length := by
        show s2.writer.m_handle.frames.length = _
        rw [hs2.facts.2.2.2.2.2.1]
      rw [hlen] at he
      have hlen2 : s2.writer.m_handle.frames.length = s.startFrames.length := hlen
      rw [hlen2] at hw ⊢
      unfold frameHolds at hw
      unfold emits at he
      unfold post
      rcases hrun : analyze_write s.writer s.startFrames.length timestep sys
        s2.counted with ⟨r, s3⟩
      rw [hrun] at hw he
      cases r with
      | error e => exact hframe s2 e s3 hs2 hw he
      | ok a =>
        rw [contPost_ok]
        unfold post
        by_cases h0 : s3.ret s3.trace.length = 0
        · rw [end_check_ok s3 h0]
          exact hok s2 s3 hs2 hw he h0
        · rw [end_check_fail s3 h0]
          exact hend s2 s3 hs2 hw he h0
    by_cases ht : s.writer.m_truncate = true
    · rw [if_pos ht, post_bind]
      unfold post
      by_cases h0 : s1.ret s1.trace.length = 0
      · rw [analyze_truncate_ok _ _ s1 h0, contPost_ok]
        exact rest2 _ ⟨s1, hs1, Or.inr ⟨ht, h0, rfl⟩⟩
      · rw [analyze_truncate_fail _ _ s1 h0, contPost_error]
        exact htrunc s1 hs1 ht h0
    · rw [if_neg ht, post_bind, post_pure, contPost_ok]
      exact rest2 _ ⟨s1, hs1, Or.inl ⟨(Bool.not_eq_true _).mp ht, rfl⟩⟩
  by_cases hi : s.writer.m_is_initialized = true
  · simp only [hi, Bool.not_true, Bool.false_eq_true, if_false]
    rw [post_bind, post_pure, contPost_ok]
    exact rest s (Or.inl ⟨hi, rfl⟩)
  · have hi : s.writer.m_is_initialized = false := (Bool.not_eq_true _).mp hi
    simp only [hi, Bool.not_false, if_true]
    rw [post_bind]
    unfold post
    rcases hrun : initFileIO s with ⟨r, s1⟩
    cases r with
    | error e =>
      rw [contPost_error]
      exact hinit hi e s1 hrun
    | ok a =>
      rw [contPost_ok]
      exact rest s1 (Or.inr ⟨hi, hrun⟩)


theorem SetupDone.pending {s s2 : Machine} (h : SetupDone s s2) :
    s2.writer.m_handle.pending = s.leftover := by
  obtain ⟨-, -, -, -, -, -, a7, a8, -⟩ := h.facts
  unfold Machine.leftover
  by_cases hi : s.writer.m_is_initialized = true
  · by_cases ht : s.writer.m_truncate = true
    · rw [a8 (Or.inr ht)]
      simp [ht]
    · have ht : s.writer.m_truncate = false := (Bool.not_eq_true _).mp ht
      rw [a7 hi ht]
      simp [hi, ht]
  · have hi : s.writer.m_is_initialized = false := (Bool.not_eq_true _).mp hi
    rw [a8 (Or.inl hi)]
    simp [hi]

theorem setup_no_write (l : List GsdCall)
    (h : ∀ ev ∈ l, ev.isCreate = true ∨ ev.isOpen = true ∨ ev.isTruncate = true)
    (ev : GsdCall) (hev : ev ∈ l) (hw : ev.isWriteChunk = true) : False := by
  have := (GsdCall.setup_kind ev (h ev hev)).2.2
  rw [this] at hw
  cases hw

/-- The chunk writes of a call of `analyze` on the root rank, whatever its
outcome: every chunk handed to `gsd_write_chunk` is a chunk of `frameChunks`
for the frame count of the file as the call has set it up.  When the call
returns, these chunks have been written in their order, each with result 0,
and the frame that the call has committed holds them after the chunks that an
earlier call had left in the frame in progress. -/
theorem analyze_chunks (timestep : Nat) (sys : SystemDefinition) (s : Machine)
    (hroot : sys.isRoot = true) :
    ∃ d, (analyze timestep sys s).2.trace = s.trace ++ d ∧
      (∀ ev ∈ d, ev.isWriteChunk = true →
        ∃ c ∈ frameChunks s.writer s.startFrames.length timestep sys,
          ∃ r, ev = GsdCall.gsd_write_chunk c r) ∧
      ((analyze timestep sys s).1 = Except.ok () →
        d.filter GsdCall.isWriteChunk =
          (frameChunks s.writer s.startFrames.length timestep sys).map
            (fun c => GsdCall.gsd_write_chunk c 0) ∧
        (analyze timestep sys s).2.writer.m_handle.frames =
          s.startFrames ++
            [s.leftover ++ frameChunks s.writer s.startFrames.length timestep sys]) := by
  have key : post (analyze timestep sys) s (fun r s1 =>
      ∃ d, s1.trace = s.trace ++ d ∧
        (∀ ev ∈ d, ev.isWriteChunk = true →
          ∃ c ∈ frameChunks s.writer s.startFrames.length timestep sys,
            ∃ r, ev = GsdCall.gsd_write_chunk c r) ∧
        (r = Except.ok () →
          d.filter GsdCall.isWriteChunk =
            (frameChunks s.writer s.startFrames.length timestep sys).map
              (fun c => GsdCall.gsd_write_chunk c 0) ∧
          s1.writer.m_handle.frames =
            s.startFrames ++
              [s.leftover ++ frameChunks s.writer s.startFrames.length timestep sys])) := by
    refine analyze_cases_emits timestep sys s hroot _ ?_ ?_ ?_ ?_ ?_
    · -- initFileIO throws
      intro hi e s1 hrun
      obtain ⟨-, -, -, a4⟩ := initFileIO_error_state s s1 e hrun
      rcases a4 with ⟨-, -, -, ht⟩ | ⟨r, -, -, ht⟩ | ⟨f, -, -, -, ht⟩
      · refine ⟨_, ht, fun ev hev hw => ?_, fun h => by cases h⟩
        rw [List.mem_singleton] at hev
        rw [hev] at hw
        cases hw
      · rw [Machine.afterCreate_trace, List.append_assoc] at ht
        refine ⟨_, ht, fun ev hev hw => ?_, fun h => by cases h⟩
        exfalso
        refine setup_no_write _ (fun x hx => ?_) ev hev hw
        rcases List.mem_append.mp hx with h | h
        · exact (createPart_kinds s x h).2
        · rw [List.mem_singleton] at h
          rw [h]
          exact Or.inr (Or.inl rfl)
      · rw [Machine.afterCreate_trace, List.append_assoc] at ht
        refine ⟨_, ht, fun ev hev hw => ?_, fun h => by cases h⟩
        exfalso
        refine setup_no_write _ (fun x hx => ?_) ev hev hw
        rcases List.mem_append.mp hx with h | h
        · exact (createPart_kinds s x h).2
        · rw [List.mem_singleton] at h
          rw [h]
          exact Or.inr (Or.inl rfl)
    · -- gsd_truncate fails
      intro s1 h1 ht h0
      obtain ⟨a1, -⟩ := init_done_facts h1
      refine ⟨(if s.writer.m_is_initialized then []
         else (if s.creating then [s.createCall 0] else []) ++
           [GsdCall.gsd_open s.writer.m_fname 0]) ++
        [GsdCall.gsd_truncate (s1.ret s1.trace.length)], ?_, fun ev hev hw => ?_,
        fun h => by cases h⟩
      · show s1.trace ++ [GsdCall.gsd_truncate (s1.ret s1.trace.length)] = _
        rw [a1, List.append_assoc]
      · exfalso
        refine setup_no_write _ (fun x hx => ?_) ev hev hw
        rcases List.mem_append.mp hx with h | h
        · exact (openCalls_kinds s x h).2
        · rw [List.mem_singleton] at h
          rw [h]
          exact Or.inr (Or.inr rfl)
    · -- a chunk write fails
      intro s2 e s3 h2 _ h3
      obtain ⟨-, -, dF, b3, b4, -⟩ := h3
      refine ⟨s.setupCalls ++ [GsdCall.gsd_get_nframes s2.writer.m_handle.frames.length] ++ dF,
        ?_, fun ev hev hw => ?_, fun h => by cases h⟩
      · rw [b3]
        show s2.trace ++ [_] ++ dF = _
        rw [h2.facts.1]
        simp [List.append_assoc]
      · rcases List.mem_append.mp hev with h | h
        · rcases List.mem_append.mp h with h | h
          · rw [(s.setupCalls_kinds ev h).2.2.1] at hw
            cases hw
          · rw [List.mem_singleton] at h
            rw [h] at hw
            cases hw
        · exact b4 ev h hw
    · -- gsd_end_frame fails
      intro s2 s3 h2 _ h3 h0
      obtain ⟨-, -, dF, b3, b4, -⟩ := h3
      refine ⟨s.setupCalls ++ [GsdCall.gsd_get_nframes s2.writer.m_handle.frames.length] ++ dF
        ++ [GsdCall.gsd_end_frame (s3.ret s3.trace.length)],
        ?_, fun ev hev hw => ?_, fun h => by cases h⟩
      · show s3.trace ++ [_] = _
        rw [b3]
        show s2.trace ++ [_] ++ dF ++ [_] = _
        rw [h2.facts.1]
        simp [List.append_assoc]
      · rcases List.mem_append.mp hev with h | h
        · rcases List.mem_append.mp h with h | h
          · rcases List.mem_append.mp h with h | h
            · rw [(s.setupCalls_kinds ev h).2.2.1] at hw
              cases hw
            · rw [List.mem_singleton] at h
              rw [h] at hw
              cases hw
          · exact b4 ev h hw
        · rw [List.mem_singleton] at h
          rw [h] at hw
          cases hw
    · -- the call returns
      intro s2 s3 h2 _ h3 h0
      obtain ⟨-, bfr, dF, b3, b4, b5, -⟩ := h3
      obtain ⟨b6, b7⟩ := b5 rfl
      refine ⟨s.setupCalls ++ [GsdCall.gsd_get_nframes s2.writer.m_handle.frames.length] ++ dF
        ++ [GsdCall.gsd_end_frame 0],
        ?_, fun ev hev hw => ?_, fun _ => ⟨?_, ?_⟩⟩
      · show s3.trace ++ [_] = _
        rw [b3]
        show s2.trace ++ [_] ++ dF ++ [_] = _
        rw [h2.facts.1]
        simp [List.append_assoc]
      · rcases List.mem_append.mp hev with h | h
        · rcases List.mem_append.mp h with h | h
          · rcases List.mem_append.mp h with h | h
            · rw [(s.setupCalls_kinds ev h).2.2.1] at hw
              cases hw
            · rw [List.mem_singleton] at h
              rw [h] at hw
              cases hw
          · exact b4 ev h hw
        · rw [List.mem_singleton] at h
          rw [h] at hw
          cases hw
      · have hs : s.setupCalls.filter GsdCall.isWriteChunk = [] := by
          rw [List.filter_eq_nil_iff]
          intro ev hev
          rw [(s.setupCalls_kinds ev hev).2.2.1]
          decide
        rw [List.filter_append, List.filter_append, List.filter_append, hs, b7]
        simp [GsdCall.isWriteChunk]
      · show s3.writer.m_handle.frames ++ [s3.writer.m_handle.pending] = _
        rw [bfr, b6]
        show s2.writer.m_handle.frames ++ [s2.writer.m_handle.pending ++ _] = _
        rw [h2.facts.2.2.2.2.2.1, h2.pending]
  exact key

/-- What a returning call of `analyze` on the root rank has written.  When the
committed frames after the call are `pre ++ [fr]`, the call has read the
frame count `pre.length`, the chunk writes among its calls into the library
are those of `frameChunks` for that count, in order and each with result 0,
and the frame `fr` is made of the chunks an earlier call that threw has left
in the handle (`Machine.leftover`) followed by the chunks of this call. -/
theorem analyze_wrote (timestep : Nat) (sys : SystemDefinition) (s s1 : Machine)
    (pre : List (List Chunk)) (fr : List Chunk)
    (hroot : sys.isRoot = true)
    (hrun : analyze timestep sys s = (Except.ok (), s1))
    (hfr : s1.writer.m_handle.frames = pre ++ [fr]) :
    pre = s.startFrames ∧
    fr = s.leftover ++ frameChunks s.writer pre.length timestep sys ∧
    ∃ d, s1.trace = s.trace ++ d ∧
      GsdCall.gsd_get_nframes pre.length ∈ d ∧
      d.filter GsdCall.isWriteChunk =
        (frameChunks s.writer pre.length timestep sys).map
          (fun c => GsdCall.gsd_write_chunk c 0) := by
  obtain ⟨d, hd, -, hok⟩ := analyze_chunks timestep sys s hroot
  obtain ⟨d2, hd2, hf⟩ := analyze_run timestep sys s hroot
  rw [hrun] at hd hok hd2 hf
  obtain ⟨hfil, hframes⟩ := hok rfl
  simp only at hd hd2 hframes
  have hdd : d2 = d := List.append_cancel_left (hd2.symm.trans hd)
  subst hdd
  rw [hfr] at hframes
  have hl : pre.length = s.startFrames.length := by
    have := congrArg List.length hframes
    simpa using this
  obtain ⟨h1, h2⟩ := List.append_inj hframes hl
  have h3 : fr = s.leftover ++ frameChunks s.writer s.startFrames.length timestep sys := by
    simpa using h2
  have hg := (hf.returned rfl).2.2.2.2.2.2
  subst h1
  exact ⟨rfl, h3, d2, hd, hg, hfil⟩

theorem leftover_eq_nil (s : Machine)
    (h : s.writer.m_is_initialized = false ∨ s.writer.m_truncate = true ∨
      s.writer.m_handle.pending = []) : s.leftover = [] := by
  unfold Machine.leftover
  rcases h with h | h | h
  · simp [h]
  · simp [h]
  · simp [h]

theorem getLast?_concat_ne {l : List GsdCall} {x y : GsdCall} (h : x ≠ y) :
    (l ++ [x]).getLast? ≠ some y := by
  rw [List.getLast?_append, List.getLast?_singleton]
  intro hc
  exact h (Option.some.inj hc)

theorem filter_write_eq_nil (l : List GsdCall) (h : ∀ ev ∈ l, ev.isWriteChunk = false) :
    l.filter GsdCall.isWriteChunk = [] := by
  rw [List.filter_eq_nil_iff]
  intro ev hev
  rw [h ev hev]
  decide

/-- The order of the chunk writes of a call of `analyze` on the root rank,
whatever its outcome: the call writes the chunks of `frameChunks`, for the
frame count of the file as it has set it up, from the first on and each with
result 0, until it has written them all or one write returns another code,
which ends the call; a call that has reached `gsd_end_frame` has written them
all. -/
theorem analyze_write_order (timestep : Nat) (sys : SystemDefinition) (s : Machine)
    (hroot : sys.isRoot = true) :
    ∃ d, (analyze timestep sys s).2.trace = s.trace ++ d ∧
      (∃ k tail, d.filter GsdCall.isWriteChunk =
          ((frameChunks s.writer s.startFrames.length timestep sys).take k).map
            (fun c => GsdCall.gsd_write_chunk c 0) ++ tail ∧
        (tail = [] ∨ ∃ c r,
          (frameChunks s.writer s.startFrames.length timestep sys)[k]? = some c ∧ r ≠ 0 ∧
          tail = [GsdCall.gsd_write_chunk c r])) ∧
      (∀ r, d.getLast? = some (GsdCall.gsd_end_frame r) →
        d.filter GsdCall.isWriteChunk =
          (frameChunks s.writer s.startFrames.length timestep sys).map
            (fun c => GsdCall.gsd_write_chunk c 0)) := by
  have key : post (analyze timestep sys) s (fun _ s1 =>
      ∃ d, s1.trace = s.trace ++ d ∧
        (∃ k tail, d.filter GsdCall.isWriteChunk =
            ((frameChunks s.writer s.startFrames.length timestep sys).take k).map
              (fun c => GsdCall.gsd_write_chunk c 0) ++ tail ∧
          (tail = [] ∨ ∃ c r,
            (frameChunks s.writer s.startFrames.length timestep sys)[k]? = some c ∧ r ≠ 0 ∧
            tail = [GsdCall.gsd_write_chunk c r])) ∧
        (∀ r, d.getLast? = some (GsdCall.gsd_end_frame r) →
          d.filter GsdCall.isWriteChunk =
            (frameChunks s.writer s.startFrames.length timestep sys).map
              (fun c => GsdCall.gsd_write_chunk c 0))) := by
    have hsetup : ∀ (l : List GsdCall) (x : GsdCall),
        (∀ ev ∈ l ++ [x], ev.isCreate = true ∨ ev.isOpen = true ∨ ev.isTruncate = true) →
        (∃ k tail, (l ++ [x]).filter GsdCall.isWriteChunk =
            ((frameChunks s.writer s.startFrames.length timestep sys).take k).map
              (fun c => GsdCall.gsd_write_chunk c 0) ++ tail ∧
          (tail = [] ∨ ∃ c r,
            (frameChunks s.writer s.startFrames.length timestep sys)[k]? = some c ∧ r ≠ 0 ∧
            tail = [GsdCall.gsd_write_chunk c r])) ∧
        (∀ r, (l ++ [x]).getLast? = some (GsdCall.gsd_end_frame r) →
          (l ++ [x]).filter GsdCall.isWriteChunk =
            (frameChunks s.writer s.startFrames.length timestep sys).map
              (fun c => GsdCall.gsd_write_chunk c 0)) := by
      intro l x h
      have hf := filter_write_eq_nil (l ++ [x]) (fun ev hev => (GsdCall.setup_kind ev (h ev hev)).2.2)
      refine ⟨⟨0, [], by rw [hf]; rfl, Or.inl rfl⟩, fun r hr => ?_⟩
      exfalso
      refine getLast?_concat_ne ?_ hr
      intro hx
      have := (GsdCall.setup_kind x (h x (by simp))).1
      rw [hx] at this
      cases this
    have hsc : s.setupCalls.filter GsdCall.isWriteChunk = [] :=
      filter_write_eq_nil _ (fun ev hev => (s.setupCalls_kinds ev hev).2.2.1)
    refine analyze_cases_emits timestep sys s hroot _ ?_ ?_ ?_ ?_ ?_
    · -- initFileIO throws
      intro hi e s1 hrun
      obtain ⟨-, -, -, a4⟩ := initFileIO_error_state s s1 e hrun
      rcases a4 with ⟨-, -, -, ht⟩ | ⟨r, -, -, ht⟩ | ⟨f, -, -, -, ht⟩
      · refine ⟨[] ++ [s.createCall (s.ret s.trace.length)], ht, hsetup _ _ (fun ev hev => ?_)⟩
        simp only [List.nil_append, List.mem_singleton] at hev
        rw [hev]
        exact Or.inl rfl
      · rw [Machine.afterCreate_trace, List.append_assoc] at ht
        refine ⟨_, ht, hsetup _ _ (fun ev hev => ?_)⟩
        rcases List.mem_append.mp hev with h | h
        · exact (createPart_kinds s ev h).2
        · rw [List.mem_singleton] at h
          rw [h]
          exact Or.inr (Or.inl rfl)
      · rw [Machine.afterCreate_trace, List.append_assoc] at ht
        refine ⟨_, ht, hsetup _ _ (fun ev hev => ?_)⟩
        rcases List.mem_append.mp hev with h | h
        · exact (createPart_kinds s ev h).2
        · rw [List.mem_singleton] at h
          rw [h]
          exact Or.inr (Or.inl rfl)
    · -- gsd_truncate fails
      intro s1 h1 ht h0
      obtain ⟨a1, -⟩ := init_done_facts h1
      refine ⟨(if s.writer.m_is_initialized then []
         else (if s.creating then [s.createCall 0] else []) ++
           [GsdCall.gsd_open s.writer.m_fname 0]) ++
        [GsdCall.gsd_truncate (s1.ret s1.trace.length)], ?_, hsetup _ _ (fun ev hev => ?_)⟩
      · show s1.trace ++ [GsdCall.gsd_truncate (s1.ret s1.trace.length)] = _
        rw [a1, List.append_assoc]
      · rcases List.mem_append.mp hev with h | h
        · exact (openCalls_kinds s ev h).2
        · rw [List.mem_singleton] at h
          rw [h]
          exact Or.inr (Or.inr rfl)
    · -- a chunk write fails
      intro s2 e s3 h2 hF h3
      obtain ⟨-, -, dF, b3, -, -, b6⟩ := h3
      obtain ⟨k, c, r, hk, hr, hf⟩ := b6 e rfl
      have hfil : (s.setupCalls ++ [GsdCall.gsd_get_nframes s2.writer.m_handle.frames.length]
          ++ dF).filter GsdCall.isWriteChunk =
          ((frameChunks s.writer s.startFrames.length timestep sys).take k).map
            (fun c => GsdCall.gsd_write_chunk c 0) ++ [GsdCall.gsd_write_chunk c r] := by
        rw [List.filter_append, List.filter_append, hsc, hf]
        simp [GsdCall.isWriteChunk]
      refine ⟨s.setupCalls ++ [GsdCall.gsd_get_nframes s2.writer.m_handle.frames.length] ++ dF,
        ?_, ⟨k, _, hfil, Or.inr ⟨c, r, hk, hr, rfl⟩⟩, fun r1 hr1 => ?_⟩
      · rw [b3]
        show s2.trace ++ [_] ++ dF = _
        rw [h2.facts.1]
        simp [List.append_assoc]
      · exfalso
        obtain ⟨d1, c1, -, -, -, -, -, -, -, -, c9, -⟩ := hF
        have hdd : d1 = dF := List.append_cancel_left (c1.symm.trans b3)
        subst hdd
        obtain ⟨-, ev, hev, -, hw⟩ := c9 e rfl
        rw [List.getLast?_append, hev] at hr1
        have := Option.some.inj hr1
        rw [this] at hw
        cases hw
    · -- gsd_end_frame fails
      intro s2 s3 h2 _ h3 h0
      obtain ⟨-, -, dF, b3, -, b5, -⟩ := h3
      obtain ⟨-, b7⟩ := b5 rfl
      have hfil : (s.setupCalls ++ [GsdCall.gsd_get_nframes s2.writer.m_handle.frames.length]
          ++ dF ++ [GsdCall.gsd_end_frame (s3.ret s3.trace.length)]).filter
            GsdCall.isWriteChunk =
          (frameChunks s.writer s.startFrames.length timestep sys).map
            (fun c => GsdCall.gsd_write_chunk c 0) := by
        rw [List.filter_append, List.filter_append, List.filter_append, hsc, b7]
        simp [GsdCall.isWriteChunk]
      refine ⟨s.setupCalls ++ [GsdCall.gsd_get_nframes s2.writer.m_handle.frames.length] ++ dF
        ++ [GsdCall.gsd_end_frame (s3.ret s3.trace.length)],
        ?_, ⟨(frameChunks s.writer s.startFrames.length timestep sys).length, [], ?_,
          Or.inl rfl⟩, fun _ _ => hfil⟩
      · show s3.trace ++ [_] = _
        rw [b3]
        show s2.trace ++ [_] ++ dF ++ [_] = _
        rw [h2.facts.1]
        simp [List.append_assoc]
      · rw [hfil, List.take_length, List.append_nil]
    · -- the call returns
      intro s2 s3 h2 _ h3 h0
      obtain ⟨-, -, dF, b3, -, b5, -⟩ := h3
      obtain ⟨-, b7⟩ := b5 rfl
      have hfil : (s.setupCalls ++ [GsdCall.gsd_get_nframes s2.writer.m_handle.frames.length]
          ++ dF ++ [GsdCall.gsd_end_frame 0]).filter GsdCall.isWriteChunk =
          (frameChunks s.writer s.startFrames.length timestep sys).map
            (fun c => GsdCall.gsd_write_chunk c 0) := by
        rw [List.filter_append, List.filter_append, List.filter_append, hsc, b7]
        simp [GsdCall.isWriteChunk]
      refine ⟨s.setupCalls ++ [GsdCall.gsd_get_nframes s2.writer.m_handle.frames.length] ++ dF
        ++ [GsdCall.gsd_end_frame 0],
        ?_, ⟨(frameChunks s.writer s.startFrames.length timestep sys).length, [], ?_,
          Or.inl rfl⟩, fun _ _ => hfil⟩
      · show s3.trace ++ [_] = _
        rw [b3]
        show s2.trace ++ [_] ++ dF ++ [_] = _
        rw [h2.facts.1]
        simp [List.append_assoc]
      · rw [hfil, List.take_length, List.append_nil]
  exact key

/-- What every call of `analyze` on the root rank does with chunks, whether it
returns or throws.  Every frame count it reads is `s.startFrames.length`;
every chunk it hands to `gsd_write_chunk` is one of `frameChunks` for that
count, and the count has been read before; the chunks are written from the
first on, each with result 0, until all are written or one write returns
another code; a call that has reached `gsd_end_frame` has written them all; a
call that returns has written all of them, in order, each with result 0, and
has committed the frame made of the chunks left in the handle by an earlier
call that threw (`Machine.leftover`) followed by them. -/
theorem analyze_calls (timestep : Nat) (sys : SystemDefinition) (s : Machine)
    (hroot : sys.isRoot = true) :
    ∃ d, (analyze timestep sys s).2.trace = s.trace ++ d ∧
      (∀ ev ∈ d, ev.isGetNframes = true → ev = GsdCall.gsd_get_nframes s.startFrames.length) ∧
      (∀ ev ∈ d, ev.isWriteChunk = true →
        GsdCall.gsd_get_nframes s.startFrames.length ∈ d ∧
        ∃ c ∈ frameChunks s.writer s.startFrames.length timestep sys,
          ∃ r, ev = GsdCall.gsd_write_chunk c r) ∧
      (∃ k tail, d.filter GsdCall.isWriteChunk =
          ((frameChunks s.writer s.startFrames.length timestep sys).take k).map
            (fun c => GsdCall.gsd_write_chunk c 0) ++ tail ∧
        (tail = [] ∨ ∃ c r,
          (frameChunks s.writer s.startFrames.length timestep sys)[k]? = some c ∧ r ≠ 0 ∧
          tail = [GsdCall.gsd_write_chunk c r])) ∧
      (∀ r, d.getLast? = some (GsdCall.gsd_end_frame r) →
        d.filter GsdCall.isWriteChunk =
          (frameChunks s.writer s.startFrames.length timestep sys).map
            (fun c => GsdCall.gsd_write_chunk c 0)) ∧
      ((analyze timestep sys s).1 = Except.ok () →
        GsdCall.gsd_get_nframes s.startFrames.length ∈ d ∧
        d.filter GsdCall.isWriteChunk =
          (frameChunks s.writer s.startFrames.length timestep sys).map
            (fun c => GsdCall.gsd_write_chunk c 0) ∧
        (analyze timestep sys s).2.writer.m_handle.frames =
          s.startFrames ++
            [s.leftover ++ frameChunks s.writer s.startFrames.length timestep sys]) := by
  obtain ⟨d, hd, hall, hok⟩ := analyze_chunks timestep sys s hroot
  obtain ⟨d2, hd2, hf⟩ := analyze_run timestep sys s hroot
  have hdd : d2 = d := List.append_cancel_left (hd2.symm.trans hd)
  subst hdd
  obtain ⟨d3, hd3, ho1, ho2⟩ := analyze_write_order timestep sys s hroot
  have hdd3 : d3 = d2 := List.append_cancel_left (hd3.symm.trans hd)
  subst hdd3
  refine ⟨d3, hd, hf.counts, fun ev hev hw => ⟨(hf.writes ⟨ev, hev, hw⟩).1, hall ev hev hw⟩,
    ho1, ho2, fun h => ⟨(hf.returned h).2.2.2.2.2.2, (hok h).1, (hok h).2⟩⟩

/-! ## Frame zero and suppression, for every state of the writer (C1, C2) -/

/-- C1, amended.  Let `analyze` return on the root rank and let the file then
hold exactly one frame `fr` (so it held 0 frames when the call read the
count).  `W` are the chunks the call has written, in order and each with
result 0.  Whatever the category flags, `W` contains
`configuration/dimensions`, `particles/types` and `particles/position`, and
the chunk of each optional quantity is in `W` if and only if some member of
the group has a value that differs from the default.  The frame is `W`
preceded by the chunks an earlier call that threw has left in the handle; it
is `W` itself when the writer was not initialised, is in truncate mode, or has
no such chunk.  So the three names are in the frame, and so is the chunk of
every quantity with a value that differs from the default. -/
theorem frame_zero_contents (timestep : Nat) (sys : SystemDefinition) (s s1 : Machine)
    (fr : List Chunk) (hroot : sys.isRoot = true)
    (hrun : analyze timestep sys s = (Except.ok (), s1))
    (hfr : s1.writer.m_handle.frames = [fr]) :
    ∃ W d, fr = s.leftover ++ W ∧
      (s.writer.m_is_initialized = false ∨ s.writer.m_truncate = true ∨
        s.writer.m_handle.pending = [] → fr = W) ∧
      s1.trace = s.trace ++ d ∧ GsdCall.gsd_get_nframes 0 ∈ d ∧
      d.filter GsdCall.isWriteChunk = W.map (fun c => GsdCall.gsd_write_chunk c 0) ∧
      "configuration/dimensions" ∈ chunkNames W ∧
      "particles/types" ∈ chunkNames W ∧
      "particles/position" ∈ chunkNames W ∧
      (∀ q : Quantity, q.chunkName ∈ chunkNames W ↔
        ∃ t, t ∈ s.writer.m_group.tags ∧ q.nondefault sys.snapshot t = true) ∧
      "configuration/dimensions" ∈ chunkNames fr ∧
      "particles/types" ∈ chunkNames fr ∧
      "particles/position" ∈ chunkNames fr ∧
      (∀ q : Quantity, (∃ t, t ∈ s.writer.m_group.tags ∧ q.nondefault sys.snapshot t = true) →
        q.chunkName ∈ chunkNames fr) := by
  obtain ⟨-, h2, d, h3, h4, h5⟩ :=
    analyze_wrote timestep sys s s1 [] fr hroot hrun (by simpa using hfr)
  obtain ⟨a1, a2, a3, a4⟩ := frameChunks_zero_contents s.writer timestep sys
  have hsub : ∀ x, x ∈ chunkNames (frameChunks s.writer 0 timestep sys) → x ∈ chunkNames fr := by
    intro x hx
    rw [h2, chunkNames_append]
    exact List.mem_append_right _ hx
  refine ⟨frameChunks s.writer 0 timestep sys, d, h2, ?_, h3, h4, h5, a1, a2, a3, a4,
    hsub _ a1, hsub _ a2, hsub _ a3, fun q hq => hsub _ ((a4 q).mpr hq)⟩
  intro h
  rw [h2, leftover_eq_nil s h, List.nil_append]
  rfl

/-- C1, amended, at the first call of the example: three particles with type
ids 0, 1, 0 and every other quantity at its default. -/
theorem frame_zero_contents_witness :
    exampleSystem.isRoot = true ∧
    analyze 0 exampleSystem exampleMachine = (Except.ok (), frameZeroState) ∧
    frameZeroState.writer.m_handle.frames =
      [frameChunks exampleMachine.writer 0 0 exampleSystem] ∧
    ∃ W d, frameChunks exampleMachine.writer 0 0 exampleSystem = exampleMachine.leftover ++ W ∧
      (exampleMachine.writer.m_is_initialized = false ∨ exampleMachine.writer.m_truncate = true ∨
        exampleMachine.writer.m_handle.pending = [] →
          frameChunks exampleMachine.writer 0 0 exampleSystem = W) ∧
      frameZeroState.trace = exampleMachine.trace ++ d ∧ GsdCall.gsd_get_nframes 0 ∈ d ∧
      d.filter GsdCall.isWriteChunk = W.map (fun c => GsdCall.gsd_write_chunk c 0) ∧
      "configuration/dimensions" ∈ chunkNames W ∧
      "particles/types" ∈ chunkNames W ∧
      "particles/position" ∈ chunkNames W ∧
      (∀ q : Quantity, q.chunkName ∈ chunkNames W ↔
        ∃ t, t ∈ exampleMachine.writer.m_group.tags ∧
          q.nondefault exampleSystem.snapshot t = true) ∧
      "configuration/dimensions" ∈
        chunkNames (frameChunks exampleMachine.writer 0 0 exampleSystem) ∧
      "particles/types" ∈ chunkNames (frameChunks exampleMachine.writer 0 0 exampleSystem) ∧
      "particles/position" ∈ chunkNames (frameChunks exampleMachine.writer 0 0 exampleSystem) ∧
      (∀ q : Quantity,
        (∃ t, t ∈ exampleMachine.writer.m_group.tags ∧
          q.nondefault exampleSystem.snapshot t = true) →
        q.chunkName ∈ chunkNames (frameChunks exampleMachine.writer 0 0 exampleSystem)) :=
  ⟨rfl, rfl, by decide,
    frame_zero_contents 0 exampleSystem exampleMachine frameZeroState
      (frameChunks exampleMachine.writer 0 0 exampleSystem) rfl rfl (by decide)⟩

/-- C2, amended.  Let `analyze` return on the root rank and let the frame `fr`
it has committed come after `n` frames.  `W` are the chunks the call has
written, in order and each with result 0.  The chunk of a suppressible
quantity is in `W` if and only if the flag of its category is set or `n = 0`,
and some member of the group has a value that differs from the default.  For
`n > 0`: the chunk is in `W` if and only if the flag is set and some member has
such a value; it is absent if and only if the flag is not set or every member
of the group has the default value.  The frame is `W` preceded by the chunks
an earlier call that threw has left in the handle; it is `W` itself when the
writer was not initialised, is in truncate mode, or has no such chunk. -/
theorem suppression_later_frames (timestep : Nat) (sys : SystemDefinition) (s s1 : Machine)
    (pre : List (List Chunk)) (fr : List Chunk)
    (hroot : sys.isRoot = true)
    (hrun : analyze timestep sys s = (Except.ok (), s1))
    (hfr : s1.writer.m_handle.frames = pre ++ [fr]) (q : Quantity) :
    ∃ W d, fr = s.leftover ++ W ∧
      (s.writer.m_is_initialized = false ∨ s.writer.m_truncate = true ∨
        s.writer.m_handle.pending = [] → fr = W) ∧
      s1.trace = s.trace ++ d ∧ GsdCall.gsd_get_nframes pre.length ∈ d ∧
      d.filter GsdCall.isWriteChunk = W.map (fun c => GsdCall.gsd_write_chunk c 0) ∧
      (q.chunkName ∈ chunkNames W ↔
        (s.writer.enabled q.category = true ∨ pre.length = 0) ∧
          ∃ t, t ∈ s.writer.m_group.tags ∧ q.nondefault sys.snapshot t = true) ∧
      (0 < pre.length →
        (q.chunkName ∈ chunkNames W ↔
          s.writer.enabled q.category = true ∧
            ∃ t, t ∈ s.writer.m_group.tags ∧ q.nondefault sys.snapshot t = true) ∧
        (q.chunkName ∉ chunkNames W ↔
          s.writer.enabled q.category = false ∨
            ∀ t, t ∈ s.writer.m_group.tags → q.nondefault sys.snapshot t = false)) := by
  obtain ⟨-, h2, d, h3, h4, h5⟩ := analyze_wrote timestep sys s s1 pre fr hroot hrun hfr
  obtain ⟨a1, a2⟩ := frameChunks_suppression s.writer pre.length timestep sys q
  refine ⟨frameChunks s.writer pre.length timestep sys, d, h2, ?_, h3, h4, h5, a1, a2⟩
  intro h
  rw [h2, leftover_eq_nil s h, List.nil_append]

/-- C2, amended, at the second call of the example for the quantity typeid:
the attribute flag is set and the particle with tag 1 has type id 1. -/
theorem suppression_later_frames_witness :
    exampleSystem.isRoot = true ∧
    analyze 1 exampleSystem frameZeroState = (Except.ok (), frameOneState) ∧
    frameOneState.writer.m_handle.frames =
      frameZeroState.writer.m_handle.frames ++
        [frameChunks frameZeroState.writer 1 1 exampleSystem] ∧
    ∃ W d, frameChunks frameZeroState.writer 1 1 exampleSystem = frameZeroState.leftover ++ W ∧
      (frameZeroState.writer.m_is_initialized = false ∨
        frameZeroState.writer.m_truncate = true ∨
        frameZeroState.writer.m_handle.pending = [] →
          frameChunks frameZeroState.writer 1 1 exampleSystem = W) ∧
      frameOneState.trace = frameZeroState.trace ++ d ∧
      GsdCall.gsd_get_nframes frameZeroState.writer.m_handle.frames.length ∈ d ∧
      d.filter GsdCall.isWriteChunk = W.map (fun c => GsdCall.gsd_write_chunk c 0) ∧
      (Quantity.typeid.chunkName ∈ chunkNames W ↔
        (frameZeroState.writer.enabled Quantity.typeid.category = true ∨
            frameZeroState.writer.m_handle.frames.length = 0) ∧
          ∃ t, t ∈ frameZeroState.writer.m_group.tags ∧
            Quantity.typeid.nondefault exampleSystem.snapshot t = true) ∧
      (0 < frameZeroState.writer.m_handle.frames.length →
        (Quantity.typeid.chunkName ∈ chunkNames W ↔
          frameZeroState.writer.enabled Quantity.typeid.category = true ∧
            ∃ t, t ∈ frameZeroState.writer.m_group.tags ∧
              Quantity.typeid.nondefault exampleSystem.snapshot t = true) ∧
        (Quantity.typeid.chunkName ∉ chunkNames W ↔
          frameZeroState.writer.enabled Quantity.typeid.category = false ∨
            ∀ t, t ∈ frameZeroState.writer.m_group.tags →
              Quantity.typeid.nondefault exampleSystem.snapshot t = false)) :=
  ⟨rfl, rfl, by decide,
    suppression_later_frames 1 exampleSystem frameZeroState frameOneState
      frameZeroState.writer.m_handle.frames
      (frameChunks frameZeroState.writer 1 1 exampleSystem) rfl rfl (by decide)
      Quantity.typeid⟩

/-! ## Category gating and the frame header, for every state of the writer (C3, C4) -/

/-- C3 as stated fails.  A call of `analyze` on a file of one frame throws in
the write of `particles/position`, after the header and the attribute chunks
have been handed to the library; `setWriteAttribute(false)` is called; the
next call of `analyze`, at frame count 1 and with the attribute flag off,
returns.  It does not run `writeAttributes` (it writes `configuration/step`,
`configuration/box`, `particles/N` and `particles/position` only), yet the
frame it commits holds `particles/types` and `particles/typeid`, left from
the call that threw. -/
theorem category_gating_counterexample :
    (analyze 0 exampleSystem failingPositionMachine).1 =
      Except.error ⟨"Error writing GSD file"⟩ ∧
    staleAttributeState.writer.m_write_attribute = false ∧
    staleAttributeState.writer.m_handle.frames.length = 1 ∧
    (analyze 1 exampleSystem staleAttributeState).1 = Except.ok () ∧
    writtenNames ((analyze 1 exampleSystem staleAttributeState).2.trace.drop
        staleAttributeState.trace.length) =
      ["configuration/step", "configuration/box", "particles/N", "particles/position"] ∧
    (analyze 1 exampleSystem staleAttributeState).2.writer.m_handle.frames.map chunkNames =
      [["configuration/step"],
       ["configuration/step", "configuration/box", "particles/N", "particles/types",
        "particles/typeid",
        "configuration/step", "configuration/box", "particles/N", "particles/position"]] ∧
    "particles/types" ∈ Category.attribute.chunkNames ∧
    "particles/types" ∈ chunkNames
      ((analyze 1 exampleSystem staleAttributeState).2.writer.m_handle.frames.getLastD []) := by
  refine ⟨rfl, rfl, by decide, rfl, by decide, by decide, by decide, by decide⟩

/-- C4 as stated fails.  The first call of `analyze`, with timestep 0 on a new
file, throws in the write of `configuration/dimensions`; the next call, with
timestep 1, returns and commits frame 0.  That frame starts with the
`configuration/step` chunk of the call that threw, whose value is 0 and not
the timestep 1, and its second chunk is `configuration/step` again, not
`configuration/dimensions`. -/
theorem frame_header_counterexample :
    (analyze 0 exampleSystem failingWriteMachine).1 =
      Except.error ⟨"Error writing GSD file"⟩ ∧
    staleStepState.writer.m_handle.frames = [] ∧
    (analyze 1 exampleSystem staleStepState).1 = Except.ok () ∧
    (analyze 1 exampleSystem staleStepState).2.writer.m_handle.frames.map chunkNames =
      [["configuration/step", "configuration/step", "configuration/dimensions",
        "configuration/box", "particles/N", "particles/types", "particles/typeid",
        "particles/position"]] ∧
    ((analyze 1 exampleSystem staleStepState).2.writer.m_handle.frames.getLastD []).head? =
      some ⟨"configuration/step", GsdType.GSD_TYPE_UINT64, 1, 1, Payload.u64 [0]⟩ := by
  refine ⟨rfl, rfl, rfl, by decide, by decide⟩

/-- C3, amended.  Every call of `analyze` on the root rank, whether it returns
or throws, reads no other frame count than `n = s.startFrames.length`, and
hands to `gsd_write_chunk` only chunks of the list `W`, after it has read the
count: it writes the chunks of `W` from the first on, each with result 0,
until it has written them all or one write returns another code, which ends
the call; a call that has reached `gsd_end_frame` has written them all.  For each category, the chunks of `W` with a name of that category are
the chunks its member function writes (`writeAttributes`, `writeProperties`,
`writeMomenta` write their chunk lists) when the flag of the category is set
or `n = 0`, and there are none otherwise: then no chunk of the category is
written by the call.  `particles/types` and `particles/position`, which the
attribute and property functions always write, are in `W` exactly under that
condition.  A call that returns has written `W`, in order and each chunk with
result 0, and has committed the frame made of the chunks an earlier call that
threw has left in the handle, followed by `W`. -/
theorem category_gating (timestep : Nat) (sys : SystemDefinition) (s : Machine)
    (hroot : sys.isRoot = true) (cat : Category) :
    ∃ d W, (analyze timestep sys s).2.trace = s.trace ++ d ∧
      (∀ ev ∈ d, ev.isGetNframes = true → ev = GsdCall.gsd_get_nframes s.startFrames.length) ∧
      (∀ ev ∈ d, ev.isWriteChunk = true →
        GsdCall.gsd_get_nframes s.startFrames.length ∈ d ∧
        ∃ c ∈ W, ∃ r, ev = GsdCall.gsd_write_chunk c r) ∧
      (∃ k tail, d.filter GsdCall.isWriteChunk =
          (W.take k).map (fun c => GsdCall.gsd_write_chunk c 0) ++ tail ∧
        (tail = [] ∨ ∃ c r, W[k]? = some c ∧ r ≠ 0 ∧
          tail = [GsdCall.gsd_write_chunk c r])) ∧
      (∀ r, d.getLast? = some (GsdCall.gsd_end_frame r) →
        d.filter GsdCall.isWriteChunk = W.map (fun c => GsdCall.gsd_write_chunk c 0)) ∧
      ((analyze timestep sys s).1 = Except.ok () →
        GsdCall.gsd_get_nframes s.startFrames.length ∈ d ∧
        d.filter GsdCall.isWriteChunk = W.map (fun c => GsdCall.gsd_write_chunk c 0) ∧
        (analyze timestep sys s).2.writer.m_handle.frames =
          s.startFrames ++ [s.leftover ++ W] ∧
        (s.writer.m_is_initialized = false ∨ s.writer.m_truncate = true ∨
          s.writer.m_handle.pending = [] →
          (analyze timestep sys s).2.writer.m_handle.frames = s.startFrames ++ [W])) ∧
      (∀ s0, cat.memberFunction sys.snapshot s0 =
        writeChunks (cat.chunks s0.writer.m_group sys.snapshot) s0) ∧
      W.filter (fun c => decide (c.name ∈ cat.chunkNames)) =
        (if s.writer.enabled cat = true ∨ s.startFrames.length = 0 then
          cat.chunks s.writer.m_group sys.snapshot else []) ∧
      (¬ (s.writer.enabled cat = true ∨ s.startFrames.length = 0) →
        (∀ x ∈ cat.chunkNames, x ∉ chunkNames W) ∧
        ∀ c r, GsdCall.gsd_write_chunk c r ∈ d → c.name ∉ cat.chunkNames) ∧
      ("particles/types" ∈ chunkNames W ↔
        (s.writer.m_write_attribute = true ∨ s.startFrames.length = 0)) ∧
      ("particles/position" ∈ chunkNames W ↔
        (s.writer.m_write_property = true ∨ s.startFrames.length = 0)) := by
  obtain ⟨d, h1, h2, h3, h5, h6, h4⟩ := analyze_calls timestep sys s hroot
  obtain ⟨a1, a2, a3, a4⟩ := frameChunks_category s.writer s.startFrames.length timestep sys cat
  refine ⟨d, frameChunks s.writer s.startFrames.length timestep sys, h1, h2, h3, h5, h6, ?_,
    memberFunction_eq cat sys.snapshot, a1, ?_, a3, a4⟩
  · intro hok
    obtain ⟨b1, b2, b3⟩ := h4 hok
    refine ⟨b1, b2, b3, fun h => ?_⟩
    rw [b3, leftover_eq_nil s h, List.nil_append]
  · intro hc
    refine ⟨a2 hc, fun c r hmem hname => ?_⟩
    obtain ⟨-, c1, hc1, r1, he⟩ := h3 _ hmem rfl
    cases he
    exact a2 hc c.name hname (List.mem_map.mpr ⟨c, hc1, rfl⟩)

/-- C3, amended, at the second call of the example for the momentum category,
whose flag is not set. -/
theorem category_gating_witness :
    exampleSystem.isRoot = true ∧
    (analyze 1 exampleSystem frameZeroState).1 = Except.ok () ∧
    ∃ d W, (analyze 1 exampleSystem frameZeroState).2.trace = frameZeroState.trace ++ d ∧
      (∀ ev ∈ d, ev.isGetNframes = true →
        ev = GsdCall.gsd_get_nframes frameZeroState.startFrames.length) ∧
      (∀ ev ∈ d, ev.isWriteChunk = true →
        GsdCall.gsd_get_nframes frameZeroState.startFrames.length ∈ d ∧
        ∃ c ∈ W, ∃ r, ev = GsdCall.gsd_write_chunk c r) ∧
      (∃ k tail, d.filter GsdCall.isWriteChunk =
          (W.take k).map (fun c => GsdCall.gsd_write_chunk c 0) ++ tail ∧
        (tail = [] ∨ ∃ c r, W[k]? = some c ∧ r ≠ 0 ∧
          tail = [GsdCall.gsd_write_chunk c r])) ∧
      (∀ r, d.getLast? = some (GsdCall.gsd_end_frame r) →
        d.filter GsdCall.isWriteChunk = W.map (fun c => GsdCall.gsd_write_chunk c 0)) ∧
      ((analyze 1 exampleSystem frameZeroState).1 = Except.ok () →
        GsdCall.gsd_get_nframes frameZeroState.startFrames.length ∈ d ∧
        d.filter GsdCall.isWriteChunk = W.map (fun c => GsdCall.gsd_write_chunk c 0) ∧
        (analyze 1 exampleSystem frameZeroState).2.writer.m_handle.frames =
          frameZeroState.startFrames ++ [frameZeroState.leftover ++ W] ∧
        (frameZeroState.writer.m_is_initialized = false ∨
          frameZeroState.writer.m_truncate = true ∨
          frameZeroState.writer.m_handle.pending = [] →
          (analyze 1 exampleSystem frameZeroState).2.writer.m_handle.frames =
            frameZeroState.startFrames ++ [W])) ∧
      (∀ s0, Category.momentum.memberFunction exampleSystem.snapshot s0 =
        writeChunks (Category.momentum.chunks s0.writer.m_group exampleSystem.snapshot) s0) ∧
      W.filter (fun c => decide (c.name ∈ Category.momentum.chunkNames)) =
        (if frameZeroState.writer.enabled Category.momentum = true ∨
            frameZeroState.startFrames.length = 0 then
          Category.momentum.chunks frameZeroState.writer.m_group exampleSystem.snapshot
        else []) ∧
      (¬ (frameZeroState.writer.enabled Category.momentum = true ∨
          frameZeroState.startFrames.length = 0) →
        (∀ x ∈ Category.momentum.chunkNames, x ∉ chunkNames W) ∧
        ∀ c r, GsdCall.gsd_write_chunk c r ∈ d → c.name ∉ Category.momentum.chunkNames) ∧
      ("particles/types" ∈ chunkNames W ↔
        (frameZeroState.writer.m_write_attribute = true ∨
          frameZeroState.startFrames.length = 0)) ∧
      ("particles/position" ∈ chunkNames W ↔
        (frameZeroState.writer.m_write_property = true ∨
          frameZeroState.startFrames.length = 0)) :=
  ⟨rfl, rfl, category_gating 1 exampleSystem frameZeroState rfl Category.momentum⟩

/-- C4, amended.  Let `analyze` return on the root rank and let the frame `fr`
it has committed come after `n` frames.  `W` are the chunks the call has
written, in order and each with result 0.  `W` starts with
`configuration/step` (uint64, one value, the timestep), then
`configuration/dimensions` (uint8, one value) when `n = 0` and only then, then
`configuration/box` (float32, the six values Lx, Ly, Lz, xy, xz, yz) and
`particles/N` (uint32, one value, the number of group members); none of these
four names occurs in the rest of `W`.  The frame is `W` preceded by the chunks
an earlier call that threw has left in the handle; it is `W` itself when the
writer was not initialised, is in truncate mode, or has no such chunk.  So
`configuration/step`, `configuration/box` and `particles/N` are in every
frame. -/
theorem frame_header (timestep : Nat) (sys : SystemDefinition) (s s1 : Machine)
    (pre : List (List Chunk)) (fr : List Chunk)
    (hroot : sys.isRoot = true)
    (hrun : analyze timestep sys s = (Except.ok (), s1))
    (hfr : s1.writer.m_handle.frames = pre ++ [fr]) :
    ∃ W d, fr = s.leftover ++ W ∧
      (s.writer.m_is_initialized = false ∨ s.writer.m_truncate = true ∨
        s.writer.m_handle.pending = [] → fr = W) ∧
      s1.trace = s.trace ++ d ∧ GsdCall.gsd_get_nframes pre.length ∈ d ∧
      d.filter GsdCall.isWriteChunk = W.map (fun c => GsdCall.gsd_write_chunk c 0) ∧
      (∃ rest, W =
          [⟨"configuration/step", GsdType.GSD_TYPE_UINT64, 1, 1, Payload.u64 [timestep]⟩] ++
          (if pre.length = 0 then
            [⟨"configuration/dimensions", GsdType.GSD_TYPE_UINT8, 1, 1,
              Payload.u8 [sys.NDimensions % 2 ^ 8]⟩]
           else []) ++
          [⟨"configuration/box", GsdType.GSD_TYPE_FLOAT, 6, 1,
              Payload.f32 [sys.globalBox.L.x, sys.globalBox.L.y, sys.globalBox.L.z,
                sys.globalBox.xy, sys.globalBox.xz, sys.globalBox.yz]⟩,
           ⟨"particles/N", GsdType.GSD_TYPE_UINT32, 1, 1,
              Payload.u32 [s.writer.m_group.getNumMembersGlobal]⟩] ++ rest ∧
        ∀ x ∈ ["configuration/step", "configuration/dimensions", "configuration/box",
          "particles/N"], x ∉ chunkNames rest) ∧
      ("configuration/dimensions" ∈ chunkNames W ↔ pre.length = 0) ∧
      "configuration/step" ∈ chunkNames W ∧ "configuration/box" ∈ chunkNames W ∧
      "particles/N" ∈ chunkNames W ∧
      "configuration/step" ∈ chunkNames fr ∧ "configuration/box" ∈ chunkNames fr ∧
      "particles/N" ∈ chunkNames fr := by
  obtain ⟨-, h2, d, h3, h4, h5⟩ := analyze_wrote timestep sys s s1 pre fr hroot hrun hfr
  obtain ⟨a1, a2, a3, a4, a5⟩ := frameChunks_header s.writer pre.length timestep sys
  have hsub : ∀ x, x ∈ chunkNames (frameChunks s.writer pre.length timestep sys) →
      x ∈ chunkNames fr := by
    intro x hx
    rw [h2, chunkNames_append]
    exact List.mem_append_right _ hx
  refine ⟨frameChunks s.writer pre.length timestep sys, d, h2, ?_, h3, h4, h5, a1, a2, a3, a4,
    a5, hsub _ a3, hsub _ a4, hsub _ a5⟩
  intro h
  rw [h2, leftover_eq_nil s h, List.nil_append]

/-- C4, amended, at the call that follows the call that threw: the frame is
the `configuration/step` chunk of timestep 0 followed by the chunks of this
call. -/
theorem frame_header_witness :
    exampleSystem.isRoot = true ∧
    analyze 1 exampleSystem staleStepState =
      (Except.ok (), (analyze 1 exampleSystem staleStepState).2) ∧
    (analyze 1 exampleSystem staleStepState).2.writer.m_handle.frames =
      [] ++ [staleStepState.leftover ++ frameChunks staleStepState.writer 0 1 exampleSystem] ∧
    ∃ W d,
      staleStepState.leftover ++ frameChunks staleStepState.writer 0 1 exampleSystem =
        staleStepState.leftover ++ W ∧
      (staleStepState.writer.m_is_initialized = false ∨
        staleStepState.writer.m_truncate = true ∨
        staleStepState.writer.m_handle.pending = [] →
        staleStepState.leftover ++ frameChunks staleStepState.writer 0 1 exampleSystem = W) ∧
      (analyze 1 exampleSystem staleStepState).2.trace = staleStepState.trace ++ d ∧
      GsdCall.gsd_get_nframes ([] : List (List Chunk)).length ∈ d ∧
      d.filter GsdCall.isWriteChunk = W.map (fun c => GsdCall.gsd_write_chunk c 0) ∧
      (∃ rest, W =
          [⟨"configuration/step", GsdType.GSD_TYPE_UINT64, 1, 1, Payload.u64 [1]⟩] ++
          (if ([] : List (List Chunk)).length = 0 then
            [⟨"configuration/dimensions", GsdType.GSD_TYPE_UINT8, 1, 1,
              Payload.u8 [exampleSystem.NDimensions % 2 ^ 8]⟩]
           else []) ++
          [⟨"configuration/box", GsdType.GSD_TYPE_FLOAT, 6, 1,
              Payload.f32 [exampleSystem.globalBox.L.x, exampleSystem.globalBox.L.y,
                exampleSystem.globalBox.L.z, exampleSystem.globalBox.xy,
                exampleSystem.globalBox.xz, exampleSystem.globalBox.yz]⟩,
           ⟨"particles/N", GsdType.GSD_TYPE_UINT32, 1, 1,
              Payload.u32 [staleStepState.writer.m_group.getNumMembersGlobal]⟩] ++ rest ∧
        ∀ x ∈ ["configuration/step", "configuration/dimensions", "configuration/box",
          "particles/N"], x ∉ chunkNames rest) ∧
      ("configuration/dimensions" ∈ chunkNames W ↔ ([] : List (List Chunk)).length = 0) ∧
      "configuration/step" ∈ chunkNames W ∧ "configuration/box" ∈ chunkNames W ∧
      "particles/N" ∈ chunkNames W ∧
      "configuration/step" ∈ chunkNames
        (staleStepState.leftover ++ frameChunks staleStepState.writer 0 1 exampleSystem) ∧
      "configuration/box" ∈ chunkNames
        (staleStepState.leftover ++ frameChunks staleStepState.writer 0 1 exampleSystem) ∧
      "particles/N" ∈ chunkNames
        (staleStepState.leftover ++ frameChunks staleStepState.writer 0 1 exampleSystem) :=
  ⟨rfl, rfl, by decide,
    frame_header 1 exampleSystem staleStepState (analyze 1 exampleSystem staleStepState).2 []
      (staleStepState.leftover ++ frameChunks staleStepState.writer 0 1 exampleSystem)
      rfl rfl (by decide)⟩

/-! ## Topology, for every state of the writer (C5, C6) -/

/-- C5, amended.  Every call of `analyze` on the root rank, whether it returns
or throws, reads no other frame count than `n = s.startFrames.length`, and
hands to `gsd_write_chunk` only chunks of the list `W`, after it has read the
count: it writes the chunks of `W` from the first on, each with result 0,
until it has written them all or one write returns another code, which ends
the call; a call that has reached `gsd_end_frame` has written them all.  When the system has at least one bond, angle, dihedral, improper or
constraint, `W` has a topology chunk if and only if the number of group
members equals the number of particles and the topology flag is set or
`n = 0`.  For a group of another size than the particle count `W` has no
topology chunk and the call writes none, for any flag setting and also
without that assumption on the system.  A call that returns has written `W`,
in order and each chunk with result 0, and has committed the frame made of
the chunks an earlier call that threw has left in the handle, followed by
`W`. -/
theorem topology_gating (timestep : Nat) (sys : SystemDefinition) (s : Machine)
    (hroot : sys.isRoot = true) :
    ∃ d W, (analyze timestep sys s).2.trace = s.trace ++ d ∧
      (∀ ev ∈ d, ev.isGetNframes = true → ev = GsdCall.gsd_get_nframes s.startFrames.length) ∧
      (∀ ev ∈ d, ev.isWriteChunk = true →
        GsdCall.gsd_get_nframes s.startFrames.length ∈ d ∧
        ∃ c ∈ W, ∃ r, ev = GsdCall.gsd_write_chunk c r) ∧
      (∃ k tail, d.filter GsdCall.isWriteChunk =
          (W.take k).map (fun c => GsdCall.gsd_write_chunk c 0) ++ tail ∧
        (tail = [] ∨ ∃ c r, W[k]? = some c ∧ r ≠ 0 ∧
          tail = [GsdCall.gsd_write_chunk c r])) ∧
      (∀ r, d.getLast? = some (GsdCall.gsd_end_frame r) →
        d.filter GsdCall.isWriteChunk = W.map (fun c => GsdCall.gsd_write_chunk c 0)) ∧
      ((analyze timestep sys s).1 = Except.ok () →
        GsdCall.gsd_get_nframes s.startFrames.length ∈ d ∧
        d.filter GsdCall.isWriteChunk = W.map (fun c => GsdCall.gsd_write_chunk c 0) ∧
        (analyze timestep sys s).2.writer.m_handle.frames =
          s.startFrames ++ [s.leftover ++ W] ∧
        (s.writer.m_is_initialized = false ∨ s.writer.m_truncate = true ∨
          s.writer.m_handle.pending = [] →
          (analyze timestep sys s).2.writer.m_handle.frames = s.startFrames ++ [W])) ∧
      ((0 < sys.bond.size ∨ 0 < sys.angle.size ∨ 0 < sys.dihedral.size ∨
          0 < sys.improper.size ∨ 0 < sys.constraint.size) →
        ((∃ x ∈ chunkNames W, x ∈ topologyNames) ↔
          (s.writer.m_group.getNumMembersGlobal = sys.NGlobal ∧
            (s.writer.m_write_topology = true ∨ s.startFrames.length = 0)))) ∧
      (s.writer.m_group.getNumMembersGlobal ≠ sys.NGlobal →
        (∀ x ∈ chunkNames W, x ∉ topologyNames) ∧
        ∀ c r, GsdCall.gsd_write_chunk c r ∈ d → c.name ∉ topologyNames) := by
  obtain ⟨d, h1, h2, h3, h5, h6, h4⟩ := analyze_calls timestep sys s hroot
  obtain ⟨a1, a2⟩ := frameChunks_topology_cond s.writer s.startFrames.length timestep sys
  refine ⟨d, frameChunks s.writer s.startFrames.length timestep sys, h1, h2, h3, h5, h6, ?_, a1, ?_⟩
  · intro hok
    obtain ⟨b1, b2, b3⟩ := h4 hok
    refine ⟨b1, b2, b3, fun h => ?_⟩
    rw [b3, leftover_eq_nil s h, List.nil_append]
  · intro hne
    refine ⟨fun x hx hxt => hne (a2 x hx hxt).1, fun c r hmem hname => ?_⟩
    obtain ⟨-, c1, hc1, r1, he⟩ := h3 _ hmem rfl
    cases he
    exact hne (a2 c.name (List.mem_map.mpr ⟨c, hc1, rfl⟩) hname).1

/-- C5, amended, at the second call on the system with one bond. -/
theorem topology_gating_witness :
    bondedSystem.isRoot = true ∧
    (analyze 1 bondedSystem bondedZeroState).1 = Except.ok () ∧
    ∃ d W, (analyze 1 bondedSystem bondedZeroState).2.trace = bondedZeroState.trace ++ d ∧
      (∀ ev ∈ d, ev.isGetNframes = true →
        ev = GsdCall.gsd_get_nframes bondedZeroState.startFrames.length) ∧
      (∀ ev ∈ d, ev.isWriteChunk = true →
        GsdCall.gsd_get_nframes bondedZeroState.startFrames.length ∈ d ∧
        ∃ c ∈ W, ∃ r, ev = GsdCall.gsd_write_chunk c r) ∧
      (∃ k tail, d.filter GsdCall.isWriteChunk =
          (W.take k).map (fun c => GsdCall.gsd_write_chunk c 0) ++ tail ∧
        (tail = [] ∨ ∃ c r, W[k]? = some c ∧ r ≠ 0 ∧
          tail = [GsdCall.gsd_write_chunk c r])) ∧
      (∀ r, d.getLast? = some (GsdCall.gsd_end_frame r) →
        d.filter GsdCall.isWriteChunk = W.map (fun c => GsdCall.gsd_write_chunk c 0)) ∧
      ((analyze 1 bondedSystem bondedZeroState).1 = Except.ok () →
        GsdCall.gsd_get_nframes bondedZeroState.startFrames.length ∈ d ∧
        d.filter GsdCall.isWriteChunk = W.map (fun c => GsdCall.gsd_write_chunk c 0) ∧
        (analyze 1 bondedSystem bondedZeroState).2.writer.m_handle.frames =
          bondedZeroState.startFrames ++ [bondedZeroState.leftover ++ W] ∧
        (bondedZeroState.writer.m_is_initialized = false ∨
          bondedZeroState.writer.m_truncate = true ∨
          bondedZeroState.writer.m_handle.pending = [] →
          (analyze 1 bondedSystem bondedZeroState).2.writer.m_handle.frames =
            bondedZeroState.startFrames ++ [W])) ∧
      ((0 < bondedSystem.bond.size ∨ 0 < bondedSystem.angle.size ∨
          0 < bondedSystem.dihedral.size ∨ 0 < bondedSystem.improper.size ∨
          0 < bondedSystem.constraint.size) →
        ((∃ x ∈ chunkNames W, x ∈ topologyNames) ↔
          (bondedZeroState.writer.m_group.getNumMembersGlobal = bondedSystem.NGlobal ∧
            (bondedZeroState.writer.m_write_topology = true ∨
              bondedZeroState.startFrames.length = 0)))) ∧
      (bondedZeroState.writer.m_group.getNumMembersGlobal ≠ bondedSystem.NGlobal →
        (∀ x ∈ chunkNames W, x ∉ topologyNames) ∧
        ∀ c r, GsdCall.gsd_write_chunk c r ∈ d → c.name ∉ topologyNames) :=
  ⟨rfl, rfl, topology_gating 1 bondedSystem bondedZeroState rfl⟩

/-- C6 (topology write condition).  Every call of `analyze` on the root rank,
whether it returns or throws, reads no other frame count than
`n = s.startFrames.length`, and hands to `gsd_write_chunk` only chunks of the
list `W`, after it has read the count: it writes the chunks of `W` from the
first on, each with result 0, until it has written them all or one write
returns another code, which ends the call; a call that has reached
`gsd_end_frame`, and so has passed the test for `writeTopology`, has written
them all.  `W` ends with the chunks of `writeTopology` when the number of
group members equals the number of particles and the topology flag is set or
`n = 0`, and with nothing otherwise; no chunk before that part has a topology name; `writeTopology`
writes exactly `topologyChunks`.  So a chunk with a topology name that the
call writes is a chunk of `writeTopology` and the condition holds, and a call
that returns has written the chunks of `writeTopology`, after all others, when
the condition holds: it has written `W`, in order and each chunk with result
0, and has committed the frame made of the chunks an earlier call that threw
has left in the handle, followed by `W`. -/
theorem topology_write_condition (timestep : Nat) (sys : SystemDefinition) (s : Machine)
    (hroot : sys.isRoot = true) :
    ∃ d W front, (analyze timestep sys s).2.trace = s.trace ++ d ∧
      (∀ ev ∈ d, ev.isGetNframes = true → ev = GsdCall.gsd_get_nframes s.startFrames.length) ∧
      (∀ ev ∈ d, ev.isWriteChunk = true →
        GsdCall.gsd_get_nframes s.startFrames.length ∈ d ∧
        ∃ c ∈ W, ∃ r, ev = GsdCall.gsd_write_chunk c r) ∧
      (∃ k tail, d.filter GsdCall.isWriteChunk =
          (W.take k).map (fun c => GsdCall.gsd_write_chunk c 0) ++ tail ∧
        (tail = [] ∨ ∃ c r, W[k]? = some c ∧ r ≠ 0 ∧
          tail = [GsdCall.gsd_write_chunk c r])) ∧
      (∀ r, d.getLast? = some (GsdCall.gsd_end_frame r) →
        d.filter GsdCall.isWriteChunk = W.map (fun c => GsdCall.gsd_write_chunk c 0)) ∧
      ((analyze timestep sys s).1 = Except.ok () →
        GsdCall.gsd_get_nframes s.startFrames.length ∈ d ∧
        d.filter GsdCall.isWriteChunk = W.map (fun c => GsdCall.gsd_write_chunk c 0) ∧
        (analyze timestep sys s).2.writer.m_handle.frames =
          s.startFrames ++ [s.leftover ++ W] ∧
        (s.writer.m_is_initialized = false ∨ s.writer.m_truncate = true ∨
          s.writer.m_handle.pending = [] →
          (analyze timestep sys s).2.writer.m_handle.frames = s.startFrames ++ [W])) ∧
      W = front ++
        (if s.writer.m_group.getNumMembersGlobal = sys.NGlobal ∧
            (s.writer.m_write_topology = true ∨ s.startFrames.length = 0) then
          topologyChunks sys.bond sys.angle sys.dihedral sys.improper sys.constraint
        else []) ∧
      (∀ x ∈ chunkNames front, x ∉ topologyNames) ∧
      writeTopology sys.bond sys.angle sys.dihedral sys.improper sys.constraint =
        writeChunks (topologyChunks sys.bond sys.angle sys.dihedral sys.improper
          sys.constraint) ∧
      W.filter (fun c => decide (c.name ∈ topologyNames)) =
        (if s.writer.m_group.getNumMembersGlobal = sys.NGlobal ∧
            (s.writer.m_write_topology = true ∨ s.startFrames.length = 0) then
          topologyChunks sys.bond sys.angle sys.dihedral sys.improper sys.constraint
        else []) ∧
      (∀ c r, GsdCall.gsd_write_chunk c r ∈ d → c.name ∈ topologyNames →
        (s.writer.m_group.getNumMembersGlobal = sys.NGlobal ∧
          (s.writer.m_write_topology = true ∨ s.startFrames.length = 0)) ∧
        c ∈ topologyChunks sys.bond sys.angle sys.dihedral sys.improper sys.constraint) := by
  obtain ⟨d, h1, h2, h3, h5, h6, h4⟩ := analyze_calls timestep sys s hroot
  obtain ⟨⟨front, a1, a2⟩, a3⟩ :=
    frameChunks_topology_split s.writer s.startFrames.length timestep sys
  refine ⟨d, frameChunks s.writer s.startFrames.length timestep sys, front, h1, h2, h3, h5, h6, ?_,
    a1, a2, writeTopology_eq _ _ _ _ _, a3, ?_⟩
  · intro hok
    obtain ⟨b1, b2, b3⟩ := h4 hok
    refine ⟨b1, b2, b3, fun h => ?_⟩
    rw [b3, leftover_eq_nil s h, List.nil_append]
  · intro c r hmem hname
    obtain ⟨-, c1, hc1, r1, he⟩ := h3 _ hmem rfl
    cases he
    have hc : c ∈ (frameChunks s.writer s.startFrames.length timestep sys).filter
        (fun c => decide (c.name ∈ topologyNames)) :=
      List.mem_filter.mpr ⟨hc1, by simpa using hname⟩
    rw [a3] at hc
    exact (mem_ite_nil _ _ _).mp hc

/-- C6, at the first call on the system with one bond. -/
theorem topology_write_condition_witness :
    bondedSystem.isRoot = true ∧
    (analyze 0 bondedSystem exampleMachine).1 = Except.ok () ∧
    ∃ d W front, (analyze 0 bondedSystem exampleMachine).2.trace = exampleMachine.trace ++ d ∧
      (∀ ev ∈ d, ev.isGetNframes = true →
        ev = GsdCall.gsd_get_nframes exampleMachine.startFrames.length) ∧
      (∀ ev ∈ d, ev.isWriteChunk = true →
        GsdCall.gsd_get_nframes exampleMachine.startFrames.length ∈ d ∧
        ∃ c ∈ W, ∃ r, ev = GsdCall.gsd_write_chunk c r) ∧
      (∃ k tail, d.filter GsdCall.isWriteChunk =
          (W.take k).map (fun c => GsdCall.gsd_write_chunk c 0) ++ tail ∧
        (tail = [] ∨ ∃ c r, W[k]? = some c ∧ r ≠ 0 ∧
          tail = [GsdCall.gsd_write_chunk c r])) ∧
      (∀ r, d.getLast? = some (GsdCall.gsd_end_frame r) →
        d.filter GsdCall.isWriteChunk = W.map (fun c => GsdCall.gsd_write_chunk c 0)) ∧
      ((analyze 0 bondedSystem exampleMachine).1 = Except.ok () →
        GsdCall.gsd_get_nframes exampleMachine.startFrames.length ∈ d ∧
        d.filter GsdCall.isWriteChunk = W.map (fun c => GsdCall.gsd_write_chunk c 0) ∧
        (analyze 0 bondedSystem exampleMachine).2.writer.m_handle.frames =
          exampleMachine.startFrames ++ [exampleMachine.leftover ++ W] ∧
        (exampleMachine.writer.m_is_initialized = false ∨
          exampleMachine.writer.m_truncate = true ∨
          exampleMachine.writer.m_handle.pending = [] →
          (analyze 0 bondedSystem exampleMachine).2.writer.m_handle.frames =
            exampleMachine.startFrames ++ [W])) ∧
      W = front ++
        (if exampleMachine.writer.m_group.getNumMembersGlobal = bondedSystem.NGlobal ∧
            (exampleMachine.writer.m_write_topology = true ∨
              exampleMachine.startFrames.length = 0) then
          topologyChunks bondedSystem.bond bondedSystem.angle bondedSystem.dihedral
            bondedSystem.improper bondedSystem.constraint
        else []) ∧
      (∀ x ∈ chunkNames front, x ∉ topologyNames) ∧
      writeTopology bondedSystem.bond bondedSystem.angle bondedSystem.dihedral
          bondedSystem.improper bondedSystem.constraint =
        writeChunks (topologyChunks bondedSystem.bond bondedSystem.angle bondedSystem.dihedral
          bondedSystem.improper bondedSystem.constraint) ∧
      W.filter (fun c => decide (c.name ∈ topologyNames)) =
        (if exampleMachine.writer.m_group.getNumMembersGlobal = bondedSystem.NGlobal ∧
            (exampleMachine.writer.m_write_topology = true ∨
              exampleMachine.startFrames.length = 0) then
          topologyChunks bondedSystem.bond bondedSystem.angle bondedSystem.dihedral
            bondedSystem.improper bondedSystem.constraint
        else []) ∧
      (∀ c r, GsdCall.gsd_write_chunk c r ∈ d → c.name ∈ topologyNames →
        (exampleMachine.writer.m_group.getNumMembersGlobal = bondedSystem.NGlobal ∧
          (exampleMachine.writer.m_write_topology = true ∨
            exampleMachine.startFrames.length = 0)) ∧
        c ∈ topologyChunks bondedSystem.bond bondedSystem.angle bondedSystem.dihedral
          bondedSystem.improper bondedSystem.constraint) :=
  ⟨rfl, rfl, topology_write_condition 0 bondedSystem exampleMachine rfl⟩

/-! ## The second frame of the end-to-end scenario (C21) -/

/-- C21 (end-to-end frame 1), amended.  A call of `analyze` on the root rank
has returned; the attribute and property categories are switched on, the
momentum and topology flags are in any setting; the system has no bond,
angle, dihedral, improper or constraint; some member of the group has a type
id other than 0 and every other optional quantity is at its default for every
member.  A second call with the same data returns and commits the frame `fr`
after at least one other frame.  Then the chunk names of `fr` are exactly
`configuration/step`, `configuration/box`, `particles/N`, `particles/types`,
`particles/typeid` and `particles/position`, in this order: the type names
are written with the attributes on every frame, and the frame holds none of
`particles/mass`, `charge`, `diameter`, `body`, `moment_inertia`,
`orientation`, `velocity`, `angmom`, `image` and no other chunk. -/
theorem end_to_end_frame_one (t0 timestep : Nat) (sys : SystemDefinition) (s0 s s1 : Machine)
    (pre : List (List Chunk)) (fr : List Chunk)
    (hroot : sys.isRoot = true)
    (hprev : analyze t0 sys s0 = (Except.ok (), s))
    (hattr : s.writer.m_write_attribute = true) (hprop : s.writer.m_write_property = true)
    (hnotop : sys.bond.size = 0 ∧ sys.angle.size = 0 ∧ sys.dihedral.size = 0 ∧
      sys.improper.size = 0 ∧ sys.constraint.size = 0)
    (htype : ∃ t, t ∈ s.writer.m_group.tags ∧ Quantity.typeid.nondefault sys.snapshot t = true)
    (hdef : ∀ q : Quantity, q ≠ Quantity.typeid →
      ∀ t, t ∈ s.writer.m_group.tags → q.nondefault sys.snapshot t = false)
    (hrun : analyze timestep sys s = (Except.ok (), s1))
    (hfr : s1.writer.m_handle.frames = pre ++ [fr]) (hn : pre ≠ []) :
    chunkNames fr = ["configuration/step", "configuration/box", "particles/N",
      "particles/types", "particles/typeid", "particles/position"] ∧
    (∀ q : Quantity, q ≠ Quantity.typeid → q.chunkName ∉ chunkNames fr) ∧
    "configuration/dimensions" ∉ chunkNames fr ∧
    ∀ x ∈ chunkNames fr, x ∉ topologyNames := by
  obtain ⟨d0, hd0, hf0⟩ := analyze_run t0 sys s0 hroot
  rw [hprev] at hd0 hf0
  have hp : s.writer.m_handle.pending = [] := (hf0.returned rfl).2.2.2.2.2.1
  obtain ⟨-, h2, -⟩ := analyze_wrote timestep sys s s1 pre fr hroot hrun hfr
  rw [leftover_eq_nil s (Or.inr (Or.inr hp)), List.nil_append] at h2
  have hlen : pre.length ≠ 0 := by
    intro h
    exact hn (List.length_eq_zero.mp h)
  have a1 : anyMember s.writer.m_group (typeid_nondefault sys.snapshot) = true :=
    (anyMember_iff _ _).mpr htype
  have a2 := anyMember_eq_false s.writer.m_group _ (hdef Quantity.mass (by decide))
  have a3 := anyMember_eq_false s.writer.m_group _ (hdef Quantity.charge (by decide))
  have a4 := anyMember_eq_false s.writer.m_group _ (hdef Quantity.diameter (by decide))
  have a5 := anyMember_eq_false s.writer.m_group _ (hdef Quantity.body (by decide))
  have a6 := anyMember_eq_false s.writer.m_group _ (hdef Quantity.moment_inertia (by decide))
  have a7 := anyMember_eq_false s.writer.m_group _ (hdef Quantity.orientation (by decide))
  have a8 := anyMember_eq_false s.writer.m_group _ (hdef Quantity.velocity (by decide))
  have a9 := anyMember_eq_false s.writer.m_group _ (hdef Quantity.angmom (by decide))
  have a10 := anyMember_eq_false s.writer.m_group _ (hdef Quantity.image (by decide))
  simp only [Quantity.nondefault] at a2 a3 a4 a5 a6 a7 a8 a9 a10
  obtain ⟨b1, b2, b3, b4, b5⟩ := hnotop
  have htopo : topologyChunks sys.bond sys.angle sys.dihedral sys.improper sys.constraint = [] := by
    simp [topologyChunks, bondedChunks, constraintChunks, b1, b2, b3, b4, b5]
  have hnames : chunkNames fr = ["configuration/step", "configuration/box", "particles/N",
      "particles/types", "particles/typeid", "particles/position"] := by
    rw [h2, chunkNames_frameChunks, chunkNames_headerChunks, chunkNames_attributeChunks,
      chunkNames_propertyChunks, chunkNames_momentumChunks, htopo]
    simp [hlen, hattr, hprop, a1, a2, a3, a4, a5, a6, a7, a8, a9, a10, chunkNames]
  rw [hnames]
  refine ⟨rfl, ?_, by decide, by decide⟩
  intro q hq
  cases q <;> first
    | exact absurd rfl hq
    | decide

/-- C21, amended, at the two calls of the example. -/
theorem end_to_end_frame_one_witness :
    exampleSystem.isRoot = true ∧
    analyze 0 exampleSystem exampleMachine = (Except.ok (), frameZeroState) ∧
    analyze 1 exampleSystem frameZeroState = (Except.ok (), frameOneState) ∧
    frameOneState.writer.m_handle.frames =
      frameZeroState.writer.m_handle.frames ++
        [frameOneState.writer.m_handle.frames.getLastD []] ∧
    frameZeroState.writer.m_handle.frames ≠ [] ∧
    (chunkNames (frameOneState.writer.m_handle.frames.getLastD []) =
      ["configuration/step", "configuration/box", "particles/N",
        "particles/types", "particles/typeid", "particles/position"] ∧
    (∀ q : Quantity, q ≠ Quantity.typeid →
      q.chunkName ∉ chunkNames (frameOneState.writer.m_handle.frames.getLastD [])) ∧
    "configuration/dimensions" ∉
      chunkNames (frameOneState.writer.m_handle.frames.getLastD []) ∧
    ∀ x ∈ chunkNames (frameOneState.writer.m_handle.frames.getLastD []),
      x ∉ topologyNames) :=
  ⟨rfl, rfl, rfl, by decide, by decide,
    end_to_end_frame_one 0 1 exampleSystem exampleMachine frameZeroState frameOneState
      frameZeroState.writer.m_handle.frames (frameOneState.writer.m_handle.frames.getLastD [])
      rfl rfl rfl rfl (by decide) ⟨1, by decide, by decide⟩
      (fun q hq t ht => by
        have h3 : t = 0 ∨ t = 1 ∨ t = 2 := by
          have h4 : t ∈ [0, 1, 2] := ht
          simpa using h4
        rcases h3 with h | h | h <;> subst h <;> cases q <;>
          first
            | exact absurd rfl hq
            | decide)
      rfl (by decide) (by decide)⟩

/-! ## The bond count of the MOL2 header in the `int num_bonds` (C25) -/

theorem ofstream.put_ok (ok : Nat → Bool) (f : ofstream) (line : String)
    (hok : ∀ k, ok k = true) (h : f.good = true) : (f.put ok line).good = true := by
  unfold ofstream.good at h
  unfold ofstream.put
  rw [h, hok]
  rfl

theorem ofstream.putAll_ok (ok : Nat → Bool) (lines : List String) (f : ofstream)
    (hok : ∀ k, ok k = true) (h : f.good = true) : (f.putAll ok lines).good = true := by
  induction lines generalizing f with
  | nil => exact h
  | cons l ls ih => exact ih (f.put ok l) (ofstream.put_ok ok f l hok h)

theorem MOL2DumpWriter.writeAtoms_ok (w : MOL2DumpWriter) (js : List Nat) (f : ofstream)
    (hok : ∀ k, w.write_ok k = true)
    (hnames : ∀ j, (w.m_pdata.getNameByType
      (w.m_pdata.arrays.type (w.m_pdata.arrays.rtag j))).utf8ByteSize ≤ 15)
    (h : f.good = true) :
    (w.writeAtoms js f).1 = none ∧ (w.writeAtoms js f).2.good = true := by
  induction js generalizing f with
  | nil => exact ⟨rfl, h⟩
  | cons j js ih =>
    unfold MOL2DumpWriter.writeAtoms
    simp only
    rw [if_neg (by have := hnames j; omega)]
    have hg := ofstream.put_ok w.write_ok f (w.atomLine j) hok h
    rw [if_neg (by rw [hg]; decide)]
    exact ih _ hg

/-- A call of `MOL2DumpWriter::analyze` returns when the file has not been
written, can be opened, every output succeeds and no type name is longer than
15 bytes. -/
theorem MOL2DumpWriter.analyze_returns_ok (w : MOL2DumpWriter) (timestep : Nat)
    (hw : w.m_written = false) (hopen : w.can_open = true) (hok : ∀ k, w.write_ok k = true)
    (hnames : ∀ j, (w.m_pdata.getNameByType
      (w.m_pdata.arrays.type (w.m_pdata.arrays.rtag j))).utf8ByteSize ≤ 15) :
    (w.analyze timestep).1 = Except.ok () := by
  unfold MOL2DumpWriter.analyze
  rw [hw, hopen]
  simp only [Bool.false_eq_true, if_false, Bool.not_true]
  have h0 : (ofstream.putAll w.write_ok ⟨[], true, 0⟩ w.headerLines).good = true :=
    ofstream.putAll_ok _ _ _ hok rfl
  obtain ⟨h1, h2⟩ := MOL2DumpWriter.writeAtoms_ok w (List.range w.m_pdata.arrays.nparticles)
    _ hok hnames h0
  rcases hwa : w.writeAtoms (List.range w.m_pdata.arrays.nparticles)
    (ofstream.putAll w.write_ok ⟨[], true, 0⟩ w.headerLines) with ⟨r, f⟩
  rw [hwa] at h1 h2
  simp only at h1 h2
  subst h1
  simp only
  have h3 := ofstream.putAll_ok w.write_ok ("@<TRIPOS>BOND" :: w.bondSection) f hok h2
  rw [if_neg (by rw [h3]; decide)]

theorem manyBonds_length : manyBonds.length = 2147483648 := by
  unfold manyBonds
  exact List.length_replicate 2147483648 _

/-- C25 (MOL2 bond section matches its header), the failing input.  The bond
data holds 2^31 bonds, the file has not been written and can be opened, every
output succeeds and no type name is longer than 15 bytes.  The call of
`MOL2DumpWriter::analyze` returns; the header line of the file gives the
number of particles followed by -2147483648, the value of the `int num_bonds`
that was assigned the `unsigned int` 2147483648, and the section after
`@<TRIPOS>BOND` has 2147483648 lines. -/
theorem mol2_bond_count_narrowed (w : MOL2DumpWriter) (timestep : Nat) (d : BondData)
    (hw : w.m_written = false) (hopen : w.can_open = true) (hok : ∀ k, w.write_ok k = true)
    (hnames : ∀ j, (w.m_pdata.getNameByType
      (w.m_pdata.arrays.type (w.m_pdata.arrays.rtag j))).utf8ByteSize ≤ 15)
    (hd : w.m_pdata.bond_data = some d) (hB : d.getNumBonds = 2147483648) :
    (w.analyze timestep).1 = Except.ok () ∧
    w.num_bonds = -2147483648 ∧
    ∃ section_lines : List String,
      (w.analyze timestep).2.disk =
        some (["@<TRIPOS>MOLECULE", "Generated by HOOMD",
            toString w.m_pdata.getN ++ " " ++ "-2147483648", "NO_CHARGES", "@<TRIPOS>ATOM"] ++
          (List.range w.m_pdata.arrays.nparticles).map w.atomLine ++
          "@<TRIPOS>BOND" :: section_lines) ∧
      section_lines.length = 2147483648 := by
  have hret := MOL2DumpWriter.analyze_returns_ok w timestep hw hopen hok hnames
  have hnum : w.num_bonds = -2147483648 := by
    unfold MOL2DumpWriter.num_bonds
    rw [hd]
    simp only [hB]
    decide
  refine ⟨hret, hnum, w.bondSection, ?_, ?_⟩
  · rw [MOL2DumpWriter.analyze_ok w timestep hw hret]
    unfold MOL2DumpWriter.headerLines
    rw [hnum]
    rfl
  · unfold MOL2DumpWriter.bondSection
    rw [hd]
    simp only [hB]
    rw [if_pos (by decide), List.length_map, List.length_range]

/-- C25, the failing input, on the system of three particles with 2^31
bonds. -/
theorem mol2_bond_count_narrowed_witness :
    mol2WriterManyBonds.m_written = false ∧ mol2WriterManyBonds.can_open = true ∧
    (∀ k, mol2WriterManyBonds.write_ok k = true) ∧
    mol2WriterManyBonds.m_pdata.bond_data = some ⟨manyBonds⟩ ∧
    (⟨manyBonds⟩ : BondData).getNumBonds = 2147483648 ∧
    ((mol2WriterManyBonds.analyze 0).1 = Except.ok () ∧
    mol2WriterManyBonds.num_bonds = -2147483648 ∧
    ∃ section_lines : List String,
      (mol2WriterManyBonds.analyze 0).2.disk =
        some (["@<TRIPOS>MOLECULE", "Generated by HOOMD",
            toString mol2WriterManyBonds.m_pdata.getN ++ " " ++ "-2147483648", "NO_CHARGES",
            "@<TRIPOS>ATOM"] ++
          (List.range mol2WriterManyBonds.m_pdata.arrays.nparticles).map
            mol2WriterManyBonds.atomLine ++
          "@<TRIPOS>BOND" :: section_lines) ∧
      section_lines.length = 2147483648) :=
  ⟨rfl, rfl, fun _ => rfl, rfl, manyBonds_length,
    mol2_bond_count_narrowed mol2WriterManyBonds 0 ⟨manyBonds⟩ rfl rfl (fun _ => rfl)
      (fun j => by
        show (if (if j = 1 then 1 else 0) = 1 then "B" else "A").utf8ByteSize ≤ 15
        by_cases h : j = 1 <;> simp [h] <;> decide)
      rfl manyBonds_length⟩

/-! ## Frames that hold chunks of a call that threw -/

/-- The first call of `analyze` on a new file, with the data of the example,
throws in the write of `particles/position`.  The next call, with every
quantity at its default, returns and commits frame 0: it writes no
`particles/typeid`, yet the frame holds the `particles/typeid` chunk of the
call that threw. -/
theorem stale_typeid_example :
    (analyze 0 exampleSystem failingFirstPositionMachine).1 =
      Except.error ⟨"Error writing GSD file"⟩ ∧
    staleTypeidState.writer.m_handle.frames = [] ∧
    (analyze 1 defaultSystem staleTypeidState).1 = Except.ok () ∧
    writtenNames ((analyze 1 defaultSystem staleTypeidState).2.trace.drop
        staleTypeidState.trace.length) =
      ["configuration/step", "configuration/dimensions", "configuration/box", "particles/N",
        "particles/types", "particles/position"] ∧
    (analyze 1 defaultSystem staleTypeidState).2.writer.m_handle.frames.map chunkNames =
      [["configuration/step", "configuration/dimensions", "configuration/box", "particles/N",
        "particles/types", "particles/typeid",
        "configuration/step", "configuration/dimensions", "configuration/box", "particles/N",
        "particles/types", "particles/position"]] := by
  refine ⟨rfl, rfl, rfl, by decide, by decide⟩

/-- A call of `analyze` on a file of one frame, with the topology flag set and
a system with one bond, throws in the write of `bonds/types`;
`setWriteTopology(false)` is called; the next call returns at frame count 1.
It writes no topology chunk, yet the frame it commits holds the `bonds/N`
chunk of the call that threw. -/
theorem stale_topology_example :
    (analyze 0 bondedSystem failingBondsMachine).1 = Except.error ⟨"Error writing GSD file"⟩ ∧
    staleTopologyState.writer.m_write_topology = false ∧
    staleTopologyState.writer.m_handle.frames.length = 1 ∧
    (analyze 1 bondedSystem staleTopologyState).1 = Except.ok () ∧
    writtenNames ((analyze 1 bondedSystem staleTopologyState).2.trace.drop
        staleTopologyState.trace.length) =
      ["configuration/step", "configuration/box", "particles/N", "particles/types",
        "particles/typeid", "particles/position"] ∧
    (analyze 1 bondedSystem staleTopologyState).2.writer.m_handle.frames.map chunkNames =
      [["configuration/step"],
       ["configuration/step", "configuration/box", "particles/N", "particles/types",
        "particles/typeid", "particles/position", "bonds/N",
        "configuration/step", "configuration/box", "particles/N", "particles/types",
        "particles/typeid", "particles/position"]] := by
  refine ⟨rfl, rfl, by decide, rfl, by decide, by decide⟩

/-! ## Position in every frame of the property category (C22) -/

/-- C22 (position is never suppressed).  In every run of `writeProperties`,
for every snapshot (one with every position at zero among them) and every
group (the empty one among them), the first call into the library is
`gsd_write_chunk` of `particles/position`; when `writeProperties` returns,
that chunk is in the frame in progress, and so it is in the frame that a
returning call of `analyze` adds whenever the property category runs (flag
set or frame count 0).  Position is the only per-particle quantity without a
default test: every other chunk of the three categories is the type table or
the chunk of a quantity for which some member of the group has a value that
differs from the default. -/
theorem position_never_suppressed (snapshot : SnapshotParticleData) (s : Machine) :
    (∃ r d1, (writeProperties snapshot s).2.trace = s.trace ++
      GsdCall.gsd_write_chunk
        ⟨"particles/position", GsdType.GSD_TYPE_FLOAT, s.writer.m_group.getNumMembersGlobal, 3,
          Payload.f32 (gather_buffer F32.zero s.writer.m_group 3 (fun t =>
            [(snapshot.pos t).x, (snapshot.pos t).y, (snapshot.pos t).z]))⟩ r :: d1) ∧
    (∀ s1, writeProperties snapshot s = (Except.ok (), s1) →
      (⟨"particles/position", GsdType.GSD_TYPE_FLOAT, s.writer.m_group.getNumMembersGlobal, 3,
          Payload.f32 (gather_buffer F32.zero s.writer.m_group 3 (fun t =>
            [(snapshot.pos t).x, (snapshot.pos t).y, (snapshot.pos t).z]))⟩ : Chunk) ∈
        s1.writer.m_handle.pending) ∧
    (∀ (timestep : Nat) (sys : SystemDefinition) (s1 : Machine), sys.isRoot = true →
      analyze timestep sys s = (Except.ok (), s1) →
      (s.writer.m_write_property = true ∨ s.startFrames.length = 0) →
      ∃ fr, s1.writer.m_handle.frames = s.startFrames ++ [fr] ∧
        "particles/position" ∈ chunkNames fr) ∧
    (∀ (cat : Category) (c : Chunk), c ∈ cat.chunks s.writer.m_group snapshot →
      c.name = "particles/types" ∨ c.name = "particles/position" ∨
      ∃ q : Quantity, c.name = q.chunkName ∧ q.category = cat ∧
        ∃ t, t ∈ s.writer.m_group.tags ∧ q.nondefault snapshot t = true) := by
  obtain ⟨d, h0, -, h2, h3⟩ := memberFunction_calls Category.property snapshot s
  refine ⟨?_, fun s1 hrun => ?_, fun timestep sys s1 hroot hrun hcat => ?_,
    fun cat c => category_chunk_kinds _ snapshot cat c⟩
  · obtain ⟨r, d1, hd⟩ := h2 _ _ rfl
    exact ⟨r, d1, by rw [← hd]; exact h0⟩
  · have h4 := (h3 (by
      show (writeProperties snapshot s).1 = _
      rw [hrun])).2
    have h5 : s1.writer.m_handle.pending =
        s.writer.m_handle.pending ++ Category.property.chunks s.writer.m_group snapshot := by
      have : (writeProperties snapshot s).2 = s1 := by rw [hrun]
      rw [← this]
      exact h4
    rw [h5]
    exact List.mem_append.mpr (Or.inr (List.mem_cons_self _ _))
  · obtain ⟨fr, hfr, -⟩ := analyze_ok_prefix timestep sys s s1 hroot hrun
    obtain ⟨-, hw, -⟩ := analyze_wrote timestep sys s s1 s.startFrames fr hroot hrun hfr
    refine ⟨fr, hfr, ?_⟩
    rw [hw, chunkNames_append]
    refine List.mem_append_right _ ?_
    rw [chunkNames_frameChunks, chunkNames_propertyChunks]
    simp only [List.mem_append]
    refine Or.inl (Or.inl (Or.inr ?_))
    rw [if_pos hcat]
    simp

/-- C22, at the snapshot with every position at zero. -/
theorem position_never_suppressed_witness :
    ∃ r d1, (writeProperties defaultSnapshot exampleMachine).2.trace = exampleMachine.trace ++
      GsdCall.gsd_write_chunk
        ⟨"particles/position", GsdType.GSD_TYPE_FLOAT,
          exampleMachine.writer.m_group.getNumMembersGlobal, 3,
          Payload.f32 (gather_buffer F32.zero exampleMachine.writer.m_group 3 (fun t =>
            [(defaultSnapshot.pos t).x, (defaultSnapshot.pos t).y,
              (defaultSnapshot.pos t).z]))⟩ r :: d1 :=
  (position_never_suppressed defaultSnapshot exampleMachine).1
